import Mathlib

/-! # MODBUS RTU protocol engine: register map, CRC-16, slave dispatch, master requests and responses

A shallow embedding of `ModbusRegisterMap.{h,cpp}` and `ModbusProtocolHandler.{h,cpp}`.

Conventions of the embedding.
* Machine integers are natural numbers (`Int` for the signed element types); every place where
  the C++ type truncates is written as an explicit `% 256` or `% 65536`.
* A `vector <uint8_t>` is a `List Nat` of bytes. The host is little-endian (the code overlays
  packed structs on the receive buffer), so a `uint16_t` field at byte offset `k` reads
  `b[k] + 256 * b[k+1]`.
* Some reads of the C++ code leave the vector (the CRC test of a write-multiple candidate, the
  payload pointer of `processingFunc15/16`). The byte found there is whatever the memory holds;
  it is supplied by a function `stale`, indexed by the offset from the start of the vector's
  storage, and the statements are quantified over it.
* A method that mutates the object returns the object afterwards; what it hands to the send
  callback is returned as the list of the byte sequences sent.
* What the environment decides (the results of the send callback, of `StartTimeoutTimer` and of
  `StopTimeoutTimer`, how far memory can be read past the vector) is an argument of the method
  that depends on it.
* `readAllRegisters` waits in a loop for a state that only `inputPacketParse` and
  `timeoutExpired` set. It is given step by step, and a run of the master is a list of
  activities (a step of `readAllRegisters`, a call of `inputPacketParse`, a call of
  `timeoutExpired`) that take place one after the other.
* `LoadFromFile` and `SaveToFile` go through the JSON library: a document is the tree that the
  parser builds, what is found at a path is an argument of the method, and so is the value of a
  local variable that the code reads without having assigned it.
-/

set_option maxRecDepth 100000

/-! ## CRC-16 -/

/-- The table `wCRCTable` of `ModbusCRC16`. -/
def wCRCTable : List Nat :=
  [
   0x0000, 0xC0C1, 0xC181, 0x0140, 0xC301, 0x03C0, 0x0280, 0xC241,
   0xC601, 0x06C0, 0x0780, 0xC741, 0x0500, 0xC5C1, 0xC481, 0x0440,
   0xCC01, 0x0CC0, 0x0D80, 0xCD41, 0x0F00, 0xCFC1, 0xCE81, 0x0E40,
   0x0A00, 0xCAC1, 0xCB81, 0x0B40, 0xC901, 0x09C0, 0x0880, 0xC841,
   0xD801, 0x18C0, 0x1980, 0xD941, 0x1B00, 0xDBC1, 0xDA81, 0x1A40,
   0x1E00, 0xDEC1, 0xDF81, 0x1F40, 0xDD01, 0x1DC0, 0x1C80, 0xDC41,
   0x1400, 0xD4C1, 0xD581, 0x1540, 0xD701, 0x17C0, 0x1680, 0xD641,
   0xD201, 0x12C0, 0x1380, 0xD341, 0x1100, 0xD1C1, 0xD081, 0x1040,
   0xF001, 0x30C0, 0x3180, 0xF141, 0x3300, 0xF3C1, 0xF281, 0x3240,
   0x3600, 0xF6C1, 0xF781, 0x3740, 0xF501, 0x35C0, 0x3480, 0xF441,
   0x3C00, 0xFCC1, 0xFD81, 0x3D40, 0xFF01, 0x3FC0, 0x3E80, 0xFE41,
   0xFA01, 0x3AC0, 0x3B80, 0xFB41, 0x3900, 0xF9C1, 0xF881, 0x3840,
   0x2800, 0xE8C1, 0xE981, 0x2940, 0xEB01, 0x2BC0, 0x2A80, 0xEA41,
   0xEE01, 0x2EC0, 0x2F80, 0xEF41, 0x2D00, 0xEDC1, 0xEC81, 0x2C40,
   0xE401, 0x24C0, 0x2580, 0xE541, 0x2700, 0xE7C1, 0xE681, 0x2640,
   0x2200, 0xE2C1, 0xE381, 0x2340, 0xE101, 0x21C0, 0x2080, 0xE041,
   0xA001, 0x60C0, 0x6180, 0xA141, 0x6300, 0xA3C1, 0xA281, 0x6240,
   0x6600, 0xA6C1, 0xA781, 0x6740, 0xA501, 0x65C0, 0x6480, 0xA441,
   0x6C00, 0xACC1, 0xAD81, 0x6D40, 0xAF01, 0x6FC0, 0x6E80, 0xAE41,
   0xAA01, 0x6AC0, 0x6B80, 0xAB41, 0x6900, 0xA9C1, 0xA881, 0x6840,
   0x7800, 0xB8C1, 0xB981, 0x7940, 0xBB01, 0x7BC0, 0x7A80, 0xBA41,
   0xBE01, 0x7EC0, 0x7F80, 0xBF41, 0x7D00, 0xBDC1, 0xBC81, 0x7C40,
   0xB401, 0x74C0, 0x7580, 0xB541, 0x7700, 0xB7C1, 0xB681, 0x7640,
   0x7200, 0xB2C1, 0xB381, 0x7340, 0xB101, 0x71C0, 0x7080, 0xB041,
   0x5000, 0x90C1, 0x9181, 0x5140, 0x9301, 0x53C0, 0x5280, 0x9241,
   0x9601, 0x56C0, 0x5780, 0x9741, 0x5500, 0x95C1, 0x9481, 0x5440,
   0x9C01, 0x5CC0, 0x5D80, 0x9D41, 0x5F00, 0x9FC1, 0x9E81, 0x5E40,
   0x5A00, 0x9AC1, 0x9B81, 0x5B40, 0x9901, 0x59C0, 0x5880, 0x9841,
   0x8801, 0x48C0, 0x4980, 0x8941, 0x4B00, 0x8BC1, 0x8A81, 0x4A40,
   0x4E00, 0x8EC1, 0x8F81, 0x4F40, 0x8D01, 0x4DC0, 0x4C80, 0x8C41,
   0x4400, 0x84C1, 0x8581, 0x4540, 0x8701, 0x47C0, 0x4680, 0x8641,
   0x8201, 0x42C0, 0x4380, 0x8341, 0x4100, 0x81C1, 0x8081, 0x4040 ]

/-- One round of the `while (dataLength--)` loop of `ModbusCRC16`:
`nTemp = *inputData++ ^ wCRCWord; wCRCWord >>= 8; wCRCWord ^= wCRCTable[nTemp];`
(`nTemp` is a `uint8_t`). -/
def ModbusCRC16.step (wCRCWord b : Nat) : Nat :=
  (wCRCWord >>> 8) ^^^ wCRCTable.getD ((b ^^^ wCRCWord) % 256) 0

/-- The `while (dataLength--)` loop of `ModbusCRC16` over the bytes at `inputData`. -/
def ModbusCRC16.loop : List Nat → Nat → Nat → Nat
  | _, 0, wCRCWord => wCRCWord
  | [], _ + 1, wCRCWord => wCRCWord
  | b :: inputData, dataLength + 1, wCRCWord =>
    ModbusCRC16.loop inputData dataLength (ModbusCRC16.step wCRCWord b)

/-- `uint16_t ModbusCRC16(const uint8_t *inputData, uint16_t dataLength)`. `inputData` lists the
bytes found at the pointer; `dataLength` is truncated to 16 bits by the parameter type. -/
def ModbusCRC16 (inputData : List Nat) (dataLength : Nat) : Nat :=
  ModbusCRC16.loop inputData (dataLength % 65536) 0xFFFF

/-- One bit of the bitwise MODBUS CRC-16: shift right by one bit and XOR with `0xA001` when the
bit shifted out was 1. -/
def crc16ShiftBit (w : Nat) : Nat :=
  if w % 2 = 1 then (w >>> 1) ^^^ 0xA001 else w >>> 1

/-- One byte of the bitwise MODBUS CRC-16: XOR the byte into the low byte of the register, then
eight shift rounds. -/
def crc16ReferenceByte (w b : Nat) : Nat :=
  crc16ShiftBit^[8] (w ^^^ b)

/-- The bitwise MODBUS CRC-16 reference, as the specification words it: start with `0xFFFF` and
feed every byte in order. -/
def crc16Reference (d : List Nat) : Nat :=
  d.foldl crc16ReferenceByte 0xFFFF

/-! ## Register map (`ModbusRegisterMap.h`, `ModbusRegisterMap.cpp`) -/

/-- The enumeration `ModbusDataType` (`FirstDataType = UnknownDataType`,
`LastDataType = FileRecord`). -/
inductive ModbusDataType
  | UnknownDataType | OneBit | UInt16 | SInt16 | UInt32 | SInt32 | Float32 | Char2Byte | Char4Byte
  | UInt16ToFloat | SInt16ToFloat | UInt32ToFloat | SInt32ToFloat | FileRecord
  deriving DecidableEq

/-- The template argument `ModElType` of `ModbusElement <ModElType>`, over the types the
register map instantiates it with. -/
inductive ModElType
  | uint8_t | uint16_t | int16_t | uint32_t | int32_t | float | string
  deriving DecidableEq

/-- The value of `sizeof(ModElType)` for the arithmetic types. For `std::string` the size
depends on the library; the raw accessors never use it on the paths modelled here (see
`ModbusRegMap.copyRAWDataToElement`). -/
def sizeofModElType : ModElType → Nat
  | .uint8_t => 1
  | .uint16_t => 2
  | .int16_t => 2
  | .uint32_t => 4
  | .int32_t => 4
  | .float => 4
  | .string => 32

/-- Little-endian value of a byte sequence. -/
def leValue : List Nat → Nat
  | [] => 0
  | b :: bs => b + 256 * leValue bs

/-- The `n` little-endian bytes of `v`. -/
def leBytes : Nat → Nat → List Nat
  | 0, _ => []
  | n + 1, v => v % 256 :: leBytes n (v / 256)

/-- The value `elVar` after `memcpy((void*)&elVar, buffer, sizeof(ModElType))` on a little-endian
host; a `float` is kept as its bit pattern. -/
def rawToValue (T : ModElType) (buffer : List Nat) : Int :=
  let v := leValue (buffer.take (sizeofModElType T))
  match T with
  | .int16_t => if v < 32768 then (v : Int) else (v : Int) - 65536
  | .int32_t => if v < 2147483648 then (v : Int) else (v : Int) - 4294967296
  | _ => (v : Int)

/-- The bytes `memcpy(buffer, &value, sizeof(ModElType))` writes on a little-endian host. -/
def valueToRaw (T : ModElType) (value : Int) : List Nat :=
  leBytes (sizeofModElType T) (value % (256 ^ sizeofModElType T : Nat)).toNat

/-- The class `ModbusElement <ModElType>` with its base `ModbusElementBase`. `ModElType` is the
native type of `DataType`, as `LoadFromFile` and the raw accessors pair them. `DataValue`,
`MinDataValue`, `MaxDataValue` hold the numeric value of an integral element and the bit pattern
of a `float` element; the `DataValue` of a `string` element is `StringValue` (its bytes). A null
`RegisterName` or `RegisterUnit` is the empty string. -/
structure ModbusElement where
  RegisterName : String
  FunctionCode : Nat
  RegisterAddress : Nat
  BytesCount : Nat
  DataType : ModbusDataType
  DecimalPoints : Nat
  DataValue : Int
  MinDataValue : Int
  MaxDataValue : Int
  StringValue : List Nat
  RegisterUnit : String
  deriving DecidableEq

/-- The class `ModbusRegMap`. `MainRegMap` is the `map <int, ModbusElementBase*>` as its list of
(key, element) pairs. `checkMinDefMaxFloat def min max` is the result of
`checkMinDefMax<float>` on three bit patterns: it is floating-point arithmetic of the platform
and is not interpreted. -/
structure ModbusRegMap where
  MainRegMap : List (Nat × ModbusElement)
  ProtocolName : String
  ProtocolVersion : String
  checkMinDefMaxFloat : Nat → Nat → Nat → Bool

namespace ModbusRegMap

/-- The key of `getModbusElement` and `AddNewElement`:
`((uint32_t)functionCode << 16) | (uint32_t)registerAddress`. -/
def key (functionCode registerAddress : Nat) : Nat :=
  (functionCode <<< 16) ||| registerAddress

/-- The call `MainRegMap.find(key)`. -/
def find (k : Nat) : List (Nat × ModbusElement) → Option ModbusElement
  | [] => none
  | (k', el) :: rest => if k' = k then some el else find k rest

/-- The element behind the iterator `MainRegMap.find(key)` replaced by `el`. -/
def replace (k : Nat) (el : ModbusElement) : List (Nat × ModbusElement) → List (Nat × ModbusElement)
  | [] => []
  | (k', el') :: rest => if k' = k then (k', el) :: rest else (k', el') :: replace k el rest

/-- The method `getModbusElement`; `none` is `MainRegMap.end()`. -/
def getModbusElement (m : ModbusRegMap) (functionCode registerAddress : Nat) :
    Option ModbusElement :=
  find (key functionCode registerAddress) m.MainRegMap

/-- The three overloads of `checkMinDefMax`: integral types, `float`, everything else. -/
def checkMinDefMax (m : ModbusRegMap) (T : ModElType) (d mn mx : Int) : Bool :=
  match T with
  | .float => m.checkMinDefMaxFloat d.toNat mn.toNat mx.toNat
  | .string => true
  | _ => decide (d ≥ mn) && decide (d ≤ mx)

/-- The bytes `memcpy(buffer, str.c_str(), n)` copies: the characters, the terminator, and
(for a string shorter than `n - 1`) bytes of the string's storage after the terminator, taken
to be zero. -/
def cStringBytes (s : List Nat) (n : Nat) : List Nat :=
  (s ++ List.replicate n 0).take n

/-- The helper `copyElementToRAWData <ModElType>`: `none` is `return false`, `some bytes` is
`return true` with `bytes` written to `buffer` and `*bytesCount = bytes.length`. -/
def copyElementToRAWData (T : ModElType) (modElBase : ModbusElement) (dataType : ModbusDataType)
    (bufferLength : Nat) : Option (List Nat) :=
  if dataType = .Char2Byte then
    if bufferLength < 2 then none else some (cStringBytes modElBase.StringValue 2)
  else if dataType = .Char4Byte then
    if bufferLength < 4 then none else some (cStringBytes modElBase.StringValue 4)
  else
    if bufferLength < sizeofModElType T then none
    else some (valueToRaw T modElBase.DataValue)

/-- The helper `copyRAWDataToElement <ModElType>`: `none` is `return false`, `some el` is
`return true` with the element now being `el`. `buffer` lists the bytes found at the pointer.
`string((const char*)buffer)` takes the bytes before the first zero byte; when `buffer` holds no
zero byte the C++ code reads on past it, which is not modelled. A raw write of exactly
`sizeof(std::string)` bytes to a string element, which the C++ code would copy over the string
object itself, is not modelled either and is given as `return false`. -/
def copyRAWDataToElement (m : ModbusRegMap) (T : ModElType) (modElBase : ModbusElement)
    (dataType : ModbusDataType) (buffer : List Nat) (bytesCount : Nat) : Option ModbusElement :=
  if (dataType = .Char2Byte ∧ bytesCount = 2) ∨ (dataType = .Char4Byte ∧ bytesCount = 4) then
    some { modElBase with StringValue := buffer.takeWhile (fun b => b != 0) }
  else
    if bytesCount ≠ sizeofModElType T then none
    else
      match T with
      | .string => none
      | _ =>
        let elVar := rawToValue T buffer
        if !(m.checkMinDefMax T elVar modElBase.MinDataValue modElBase.MaxDataValue) then none
        else some { modElBase with DataValue := elVar }

/-- The raw overload `SetElementValue(functionCode, registerAddress, buffer, bytesCount)`:
the map afterwards and the returned `bool`. -/
def SetElementValue (m : ModbusRegMap) (functionCode registerAddress : Nat) (buffer : List Nat)
    (bytesCount : Nat) : ModbusRegMap × Bool :=
  if bytesCount = 0 then (m, false)
  else
    match m.getModbusElement functionCode registerAddress with
    | none => (m, false)
    | some el =>
      let stored : Option ModbusElement :=
        match el.DataType with
        | .UnknownDataType => none
        | .OneBit => m.copyRAWDataToElement .uint8_t el .OneBit buffer bytesCount
        | .UInt16 | .UInt16ToFloat | .FileRecord =>
          m.copyRAWDataToElement .uint16_t el .UInt16 buffer bytesCount
        | .SInt16 | .SInt16ToFloat => m.copyRAWDataToElement .int16_t el .SInt16 buffer bytesCount
        | .UInt32 | .UInt32ToFloat => m.copyRAWDataToElement .uint32_t el .UInt32 buffer bytesCount
        | .SInt32 | .SInt32ToFloat => m.copyRAWDataToElement .int32_t el .SInt32 buffer bytesCount
        | .Float32 => m.copyRAWDataToElement .float el .Float32 buffer bytesCount
        | .Char2Byte => m.copyRAWDataToElement .string el .Char2Byte buffer bytesCount
        | .Char4Byte => m.copyRAWDataToElement .string el .Char4Byte buffer bytesCount
      match stored with
      | none => (m, false)
      | some el' =>
        ({ m with MainRegMap := replace (key functionCode registerAddress) el' m.MainRegMap }, true)

/-- The raw overload `GetElementValue(functionCode, registerAddress, buffer, bufferLength,
bytesCount)`: `none` is `return false` (buffer and `*bytesCount` untouched), `some bytes` is
`return true` with `bytes` written and `*bytesCount = bytes.length`. -/
def GetElementValue (m : ModbusRegMap) (functionCode registerAddress : Nat) (bufferLength : Nat) :
    Option (List Nat) :=
  if bufferLength = 0 then none
  else
    match m.getModbusElement functionCode registerAddress with
    | none => none
    | some el =>
      match el.DataType with
      | .UnknownDataType => none
      | .OneBit => copyElementToRAWData .uint8_t el .OneBit bufferLength
      | .UInt16 | .UInt16ToFloat | .FileRecord =>
        copyElementToRAWData .uint16_t el .UInt16 bufferLength
      | .SInt16 | .SInt16ToFloat => copyElementToRAWData .int16_t el .SInt16 bufferLength
      | .UInt32 | .UInt32ToFloat => copyElementToRAWData .uint32_t el .UInt32 bufferLength
      | .SInt32 | .SInt32ToFloat => copyElementToRAWData .int32_t el .SInt32 bufferLength
      | .Float32 => copyElementToRAWData .float el .Float32 bufferLength
      | .Char2Byte => copyElementToRAWData .string el .Char2Byte bufferLength
      | .Char4Byte => copyElementToRAWData .string el .Char4Byte bufferLength

end ModbusRegMap

/-! ## Register map: adding elements -/

/-- The value of an enumerator of `ModbusDataType`. -/
def ModbusDataType.toNat : ModbusDataType → Nat
  | .UnknownDataType => 0
  | .OneBit => 1
  | .UInt16 => 2
  | .SInt16 => 3
  | .UInt32 => 4
  | .SInt32 => 5
  | .Float32 => 6
  | .Char2Byte => 7
  | .Char4Byte => 8
  | .UInt16ToFloat => 9
  | .SInt16ToFloat => 10
  | .UInt32ToFloat => 11
  | .SInt32ToFloat => 12
  | .FileRecord => 13

/-- The enumerator `FirstDataType = UnknownDataType`. -/
def ModbusDataType.FirstDataType : ModbusDataType := .UnknownDataType

/-- The enumerator `LastDataType = FileRecord`. -/
def ModbusDataType.LastDataType : ModbusDataType := .FileRecord

namespace ModbusRegMap

/-- The call `MainRegMap.insert(pair(key, el))` on the ordered `std::map`, whose pairs are listed
in ascending order of their keys: the pair goes before the first greater key, and a key that is
present keeps its element. -/
def insert (k : Nat) (el : ModbusElement) : List (Nat × ModbusElement) → List (Nat × ModbusElement)
  | [] => [(k, el)]
  | (k', el') :: rest =>
    if k < k' then (k, el) :: (k', el') :: rest
    else if k = k' then (k', el') :: rest
    else (k', el') :: insert k el rest

/-- The method `ElementsCount`: `MainRegMap.size()`. -/
def ElementsCount (m : ModbusRegMap) : Nat :=
  m.MainRegMap.length

/-- The method `AddNewElement <ModElType>`: the map afterwards and the returned `bool`.
`registerName = none` and `registerUnit = none` are null pointers. `value`, `minDataValue` and
`maxDataValue` are given in the flat form of `ModbusElement`: three numbers for an arithmetic
`ModElType`, and `stringValue`, the bytes of `value`, for `string`. The template argument is not
recorded: the raw accessors take the type of an element from its `DataType`, and an element
created with another `ModElType` than the native type of `dataType` is outside the model. A
failing `new` is not modelled. -/
def AddNewElement (m : ModbusRegMap) (functionCode registerAddress : Nat)
    (dataType : ModbusDataType) (bytesCount : Nat) (registerName : Option String)
    (decimalPoints : Nat) (value minDataValue maxDataValue : Int) (stringValue : List Nat)
    (registerUnit : Option String) : ModbusRegMap × Bool :=
  if (m.getModbusElement functionCode registerAddress).isSome then (m, false)
  else if bytesCount = 0 then (m, false)
  else if dataType.toNat < ModbusDataType.FirstDataType.toNat ∨
      dataType.toNat > ModbusDataType.LastDataType.toNat then (m, false)
  else
    match registerName with
    | none => (m, false)
    | some name =>
      let newModbusElement : ModbusElement :=
        { RegisterName := name
          FunctionCode := functionCode
          RegisterAddress := registerAddress
          BytesCount := bytesCount
          DataType := dataType
          DecimalPoints := decimalPoints
          DataValue := value
          MinDataValue := minDataValue
          MaxDataValue := maxDataValue
          StringValue := stringValue
          RegisterUnit := registerUnit.getD "" }
      ({ m with
          MainRegMap := insert (key functionCode registerAddress) newModbusElement m.MainRegMap },
        true)

end ModbusRegMap

/-! ## Register map: clearing, existence and iteration -/

namespace ModbusRegMap

/-- The method `Clear`: the map container is emptied, the two names are reset. -/
def Clear (m : ModbusRegMap) : ModbusRegMap :=
  { m with MainRegMap := [], ProtocolName := "", ProtocolVersion := "" }

/-- The method `ModbusElementExist`. -/
def ModbusElementExist (m : ModbusRegMap) (functionCode registerAddress : Nat) : Bool :=
  (m.getModbusElement functionCode registerAddress).isSome

/-- The method `GetFirstElement`: the element returned (`none` is `nullptr`) and the cursor
`currentElementIter` afterwards, as the number of the pair it points to; the number
`MainRegMap.size()` is `MainRegMap.end()`. -/
def GetFirstElement (m : ModbusRegMap) : Option ModbusElement × Nat :=
  match m.MainRegMap.get? 0 with
  | some p => (some p.2, 0)
  | none => (none, 0)

/-- The method `GetNextElement` with the cursor `currentElementIter` before the call: the
element returned and the cursor afterwards. -/
def GetNextElement (m : ModbusRegMap) (currentElementIter : Nat) : Option ModbusElement × Nat :=
  if currentElementIter = m.MainRegMap.length then (none, currentElementIter)
  else
    match m.MainRegMap.get? (currentElementIter + 1) with
    | some p => (some p.2, currentElementIter + 1)
    | none => (none, currentElementIter + 1)

/-- The elements that up to `calls` calls of `GetNextElement` return from the cursor
`currentElementIter` on, until the first call that returns `nullptr`; `none` when none of the
`calls` calls returns `nullptr`. -/
def nextElements (m : ModbusRegMap) : Nat → Nat → Option (List ModbusElement)
  | 0, _ => none
  | calls + 1, currentElementIter =>
    match m.GetNextElement currentElementIter with
    | (none, _) => some []
    | (some el, cursor) => (nextElements m calls cursor).map (fun els => el :: els)

/-- The loop `for (el = GetFirstElement(); el != nullptr; el = GetNextElement())` with at most
`calls` calls of `GetNextElement`: the elements it goes through; `none` when it has not ended
by then. -/
def allElements (m : ModbusRegMap) (calls : Nat) : Option (List ModbusElement) :=
  match m.GetFirstElement with
  | (none, _) => some []
  | (some el, cursor) => (nextElements m calls cursor).map (fun els => el :: els)

end ModbusRegMap

/-- The arguments of one call of `AddNewElement`. -/
structure AddNewElementCall where
  functionCode : Nat
  registerAddress : Nat
  dataType : ModbusDataType
  bytesCount : Nat
  registerName : Option String
  decimalPoints : Nat
  value : Int
  minDataValue : Int
  maxDataValue : Int
  stringValue : List Nat
  registerUnit : Option String

namespace ModbusRegMap

/-- The call of `AddNewElement` with the arguments `c`. -/
def addCall (m : ModbusRegMap) (c : AddNewElementCall) : ModbusRegMap × Bool :=
  m.AddNewElement c.functionCode c.registerAddress c.dataType c.bytesCount c.registerName
    c.decimalPoints c.value c.minDataValue c.maxDataValue c.stringValue c.registerUnit

/-- A sequence of calls of `AddNewElement`: the map afterwards and the `bool` that each call
returned. -/
def AddNewElementAll : ModbusRegMap → List AddNewElementCall → ModbusRegMap × List Bool
  | m, [] => (m, [])
  | m, c :: rest =>
    ((AddNewElementAll (m.addCall c).1 rest).1,
      (m.addCall c).2 :: (AddNewElementAll (m.addCall c).1 rest).2)

end ModbusRegMap

namespace ModbusRegMap

/-- The state of the container that the class maintains: the pairs of the `std::map` are in
strictly ascending order of their keys, and each key is the key of the function code (a
`uint8_t`) and the register address (a `uint16_t`) of its element. -/
def Keyed (l : List (Nat × ModbusElement)) : Prop :=
  l.Pairwise (fun a b => a.1 < b.1) ∧
  ∀ p ∈ l, p.1 = key p.2.FunctionCode p.2.RegisterAddress ∧
    p.2.FunctionCode < 256 ∧ p.2.RegisterAddress < 65536

end ModbusRegMap

/-! ## Typed values of the integer tags -/

/-- The integer tags, and `FileRecord`, which the raw accessors treat as `UInt16`, with the
native width in bytes of each; `none` for the other tags. -/
def ModbusDataType.integerWidth : ModbusDataType → Option Nat
  | .OneBit => some 1
  | .UInt16 | .SInt16 | .UInt16ToFloat | .SInt16ToFloat | .FileRecord => some 2
  | .UInt32 | .SInt32 | .UInt32ToFloat | .SInt32ToFloat => some 4
  | _ => none

/-- Whether the native type of a tag is a signed integer. -/
def ModbusDataType.signedTag : ModbusDataType → Bool
  | .SInt16 | .SInt32 | .SInt16ToFloat | .SInt32ToFloat => true
  | _ => false

/-- The number that the first `w` bytes of `buffer` spell in little-endian order, read as a
two's complement number when `signed`. -/
def littleEndianValue (signed : Bool) (w : Nat) (buffer : List Nat) : Int :=
  let v := leValue (buffer.take w)
  if signed = true ∧ 256 ^ w ≤ 2 * v then (v : Int) - ((256 ^ w : Nat) : Int) else (v : Int)

/-! ## Protocol handler (`ModbusProtocolHandler.h`, `ModbusProtocolHandler.cpp`) -/

/-- The byte at offset `i` from the start of a vector's storage: the element `buf[i]` inside the
vector, and past its end the byte `stale i` that the memory holds there. -/
def peek (buf : List Nat) (stale : Nat → Nat) (i : Nat) : Nat :=
  buf.getD i (stale i)

/-- A `uint16_t` read through a packed struct or a `uint16_t*` at byte offset `i`
(little-endian host). -/
def peek16 (buf : List Nat) (stale : Nat → Nat) (i : Nat) : Nat :=
  peek buf stale i + 256 * peek buf stale (i + 1)

/-- The `n` bytes found from offset `pos` on. -/
def memRead (buf : List Nat) (stale : Nat → Nat) (pos n : Nat) : List Nat :=
  (List.range n).map (fun k => peek buf stale (pos + k))

/-- The algorithm `std::find_if(first, first + n, pred)` over positions: the first position in
`[first, first + n)` that satisfies `pred`, and `first + n` (the iterator `last`) when there is
none. -/
def find_if (pred : Nat → Bool) : Nat → Nat → Nat
  | first, 0 => first
  | first, n + 1 => if pred first then first else find_if pred (first + 1) n

/-- The enumeration `modbusExceptionCode`. -/
inductive modbusExceptionCode
  | ILLEGAL_FUNCTION | ILLEGAL_DATA_ADDRESS | ILLEGAL_DATA_VALUE | SERVER_DEVICE_FAILURE
  | ACKNOWLEDGE | SERVER_DEVICE_BUSY | MEMORY_PARITY_ERROR | GATEWAY_PATH_UNAVAILABLE
  | GATEWAY_TARGET_RESPOND_FAILED
  deriving DecidableEq

/-- The value `(uint8_t)excepCode`. -/
def modbusExceptionCode.toByte : modbusExceptionCode → Nat
  | .ILLEGAL_FUNCTION => 0x01
  | .ILLEGAL_DATA_ADDRESS => 0x02
  | .ILLEGAL_DATA_VALUE => 0x03
  | .SERVER_DEVICE_FAILURE => 0x04
  | .ACKNOWLEDGE => 0x05
  | .SERVER_DEVICE_BUSY => 0x06
  | .MEMORY_PARITY_ERROR => 0x08
  | .GATEWAY_PATH_UNAVAILABLE => 0x0A
  | .GATEWAY_TARGET_RESPOND_FAILED => 0x0B

/-- The value `sizeof(inputPackTemplateF01F04)` (packed). -/
def inputPackTemplateF01F04_Size : Nat := 8

/-- The value `sizeof(inputPackTemplateF05F06)` (packed). -/
def inputPackTemplateF05F06_Size : Nat := 8

/-- The value `sizeof(inputPackTemplateF15F16)` (packed). -/
def inputPackTemplateF15F16_Size : Nat := 7

/-- How a piece of the slave's code ends: it runs to its end with a result, it throws a
`modbusExceptionCode`, or it never leaves a loop. -/
inductive Outcome (α : Type)
  | returned (a : α)
  | thrown (excepCode : modbusExceptionCode)
  | hangs

/-- The class `ModbusProtocolSlave` with its base `ModbusProtocolBase`. `sendDataFunc` records
whether a send callback is set, `modbusRegisterMap = none` is the null pointer. -/
structure ModbusProtocolSlave where
  inputBufferMaxSize : Nat
  outputBufferMaxSize : Nat
  inputDataBuffer : List Nat
  outputDataBuffer : List Nat
  sendDataFunc : Bool
  deviceAddress : Nat
  modbusRegisterMap : Option ModbusRegMap

namespace ModbusProtocolSlave

/-- The lambda `checkModbusRequestPos_F01ToF04` at position `i` of `inputDataBuffer`. -/
def checkModbusRequestPos_F01ToF04 (buf : List Nat) (stale : Nat → Nat) (i : Nat) : Bool :=
  let funcCode := peek buf stale (i + 1)
  if funcCode < 0x01 ∨ funcCode > 0x04 then false
  else ModbusCRC16 (memRead buf stale i (inputPackTemplateF01F04_Size - 2))
      (inputPackTemplateF01F04_Size - 2) == peek16 buf stale (i + 6)

/-- The lambda `checkModbusRequestPos_F05ToF06` at position `i` of `inputDataBuffer`. -/
def checkModbusRequestPos_F05ToF06 (buf : List Nat) (stale : Nat → Nat) (i : Nat) : Bool :=
  let funcCode := peek buf stale (i + 1)
  if funcCode ≠ 0x05 ∧ funcCode ≠ 0x06 then false
  else ModbusCRC16 (memRead buf stale i (inputPackTemplateF05F06_Size - 2))
      (inputPackTemplateF05F06_Size - 2) == peek16 buf stale (i + 6)

/-- The lambda `checkModbusRequestPos_F15ToF16` at position `i` of `inputDataBuffer`; the CRC
and the two bytes compared with it are read wherever `bytesCount` places them. -/
def checkModbusRequestPos_F15ToF16 (buf : List Nat) (stale : Nat → Nat) (i : Nat) : Bool :=
  let funcCode := peek buf stale (i + 1)
  if funcCode ≠ 0x0F ∧ funcCode ≠ 0x10 then false
  else
    let requestLength := (peek buf stale (i + 6) + inputPackTemplateF15F16_Size) % 65536
    ModbusCRC16 (memRead buf stale i requestLength) requestLength
      == peek16 buf stale (i + requestLength)

/-- The lambda `checkModbusRequestPos`. -/
def checkModbusRequestPos (buf : List Nat) (stale : Nat → Nat) (i : Nat) : Bool :=
  checkModbusRequestPos_F01ToF04 buf stale i || checkModbusRequestPos_F05ToF06 buf stale i ||
    checkModbusRequestPos_F15ToF16 buf stale i

/-- The lambda `swapBytes`. -/
def swapBytes (buf : List Nat) (a b : Nat) : List Nat :=
  (buf.set a (buf.getD b 0)).set b (buf.getD a 0)

/-- The loop of `processingFunc01_02` over `n` remaining addresses from `i`; the result is
`outputDataBuffer`, `oneDataByte`, `bitNumber` at the end of the loop. -/
def processingFunc01_02.loop (map : ModbusRegMap) (funcCode : Nat) :
    Nat → Nat → List Nat → Nat → Nat → Outcome (List Nat × Nat × Nat)
  | 0, _, out, oneDataByte, bitNumber => .returned (out, oneDataByte, bitNumber)
  | n + 1, i, out, oneDataByte, bitNumber =>
    match map.GetElementValue funcCode (i % 65536) 1 with
    | some bytes =>
      if bytes.length ≠ 0 then
        let outputValueBuf := bytes.getD 0 0
        let oneDataByte := (oneDataByte ||| ((outputValueBuf &&& 0x01) <<< bitNumber)) % 256
        let bitNumber := (bitNumber + 1) % 256
        if bitNumber > 7 then
          processingFunc01_02.loop map funcCode n (i + 1) (out ++ [oneDataByte]) 0 0
        else
          processingFunc01_02.loop map funcCode n (i + 1) out oneDataByte bitNumber
      else .thrown .ILLEGAL_DATA_ADDRESS
    | none => .thrown .ILLEGAL_DATA_ADDRESS

/-- The method `processingFunc01_02`. The packet is read from `buf` (`inputDataBuffer`, the
packet at offset 0); the result is `outputDataBuffer` and the returned size. An exception
leaves `outputDataBuffer` to `processingExceptionResponse`, which clears it first. -/
def processingFunc01_02 (map : ModbusRegMap) (out buf : List Nat) (stale : Nat → Nat) :
    Outcome (List Nat × Nat) :=
  let funcCode := peek buf stale 1
  let regAddress := peek16 buf stale 2
  let regsCount := peek16 buf stale 4
  if regsCount = 0 ∨ regsCount > 0x07D0 then .thrown .ILLEGAL_DATA_VALUE
  else if regAddress + regsCount - 1 > 0x0000FFFF then .thrown .ILLEGAL_DATA_ADDRESS
  else
    let out := out ++ [funcCode]
    let oneDataByte := (regsCount / 8 + (if regsCount % 8 > 0 then 1 else 0)) % 256
    let out := out ++ [oneDataByte]
    match processingFunc01_02.loop map funcCode regsCount regAddress out 0 0 with
    | .returned (out, oneDataByte, bitNumber) =>
      if bitNumber ≠ 0 then .returned (out ++ [oneDataByte], inputPackTemplateF01F04_Size)
      else .returned (out, inputPackTemplateF01F04_Size)
    | .thrown e => .thrown e
    | .hangs => .hangs

/-- The loop `for (uint16_t i = regAddress; i < (regAddress + regsCount); i++)` of
`processingFunc03_04` (`bound` is `regAddress + regsCount`, an `int`), run for at most `fuel`
rounds. The counter `i` is 16 bits wide and wraps; the bytes of a register are appended last
byte first (`while (outputValueBytesCount--)`). -/
def processingFunc03_04.loop (map : ModbusRegMap) (funcCode bound : Nat) :
    Nat → Nat → List Nat → Outcome (List Nat)
  | 0, _, _ => .hangs
  | fuel + 1, i, out =>
    if i < bound then
      match map.GetElementValue funcCode i 4 with
      | some bytes =>
        if bytes.length ≠ 0 then
          processingFunc03_04.loop map funcCode bound fuel ((i + 1) % 65536) (out ++ bytes.reverse)
        else .thrown .ILLEGAL_DATA_ADDRESS
      | none => .thrown .ILLEGAL_DATA_ADDRESS
    else .returned out

/-- The method `processingFunc03_04` (`MODBUS_SLAVE_DEBUG` is not defined). The loop is given
65537 rounds: when `regAddress + regsCount` is 65536 the 16-bit counter never reaches the bound,
so the loop ends only by an exception, and 65536 rounds without one have read every address and
repeat for ever; otherwise the loop ends within `regsCount` rounds. -/
def processingFunc03_04 (map : ModbusRegMap) (out buf : List Nat) (stale : Nat → Nat) :
    Outcome (List Nat × Nat) :=
  let funcCode := peek buf stale 1
  let regAddress := peek16 buf stale 2
  let regsCount := peek16 buf stale 4
  if regsCount = 0 ∨ regsCount > 0x007D then .thrown .ILLEGAL_DATA_VALUE
  else if regAddress + regsCount - 1 > 0x0000FFFF then .thrown .ILLEGAL_DATA_ADDRESS
  else
    let out := out ++ [funcCode]
    let out := out ++ [0]
    match processingFunc03_04.loop map funcCode (regAddress + regsCount) 65537 regAddress out with
    | .returned out =>
      .returned (out.set 2 ((out.length % 256 + 256 - 3) % 256), inputPackTemplateF01F04_Size)
    | .thrown e => .thrown e
    | .hangs => .hangs

/-- The method `processingFunc05`: the register map afterwards and the outcome. -/
def processingFunc05 (map : ModbusRegMap) (out buf : List Nat) (stale : Nat → Nat) :
    ModbusRegMap × Outcome (List Nat × Nat) :=
  let funcCode := peek buf stale 1
  let regAddress := peek16 buf stale 2
  let regValue := peek16 buf stale 4
  if regValue ≠ 0x0000 ∧ regValue ≠ 0xFF00 then (map, .thrown .ILLEGAL_DATA_VALUE)
  else
    let newRegValue := if regValue = 0xFF00 then 0x01 else 0x00
    let r := map.SetElementValue funcCode regAddress [newRegValue] 1
    if !r.2 then (r.1, .thrown .ILLEGAL_DATA_ADDRESS)
    else
      (r.1, .returned (out ++ [funcCode, (regAddress &&& 0xFF00) >>> 8, regAddress &&& 0x00FF,
        (regValue &&& 0xFF00) >>> 8, regValue &&& 0x00FF], inputPackTemplateF05F06_Size))

/-- The method `processingFunc06`. The buffer handed to `SetElementValue` is `&regValue`, the
packet from offset 4 on. -/
def processingFunc06 (map : ModbusRegMap) (out buf : List Nat) (stale : Nat → Nat) :
    ModbusRegMap × Outcome (List Nat × Nat) :=
  let funcCode := peek buf stale 1
  let regAddress := peek16 buf stale 2
  let regValue := peek16 buf stale 4
  let r := map.SetElementValue funcCode regAddress (buf.drop 4) 2
  if !r.2 then (r.1, .thrown .ILLEGAL_DATA_ADDRESS)
  else
    (r.1, .returned (out ++ [funcCode, (regAddress &&& 0xFF00) >>> 8, regAddress &&& 0x00FF,
      (regValue &&& 0xFF00) >>> 8, regValue &&& 0x00FF], inputPackTemplateF05F06_Size))

/-- The inner loop of `processingFunc15` over the bits of `oneDataByte`, with `n` bit positions
left; the result is the map and, unless `SetElementValue` failed, `currentReg` at the end. -/
def processingFunc15.bits (funcCode startRegAddress regsCount oneDataByte : Nat) :
    Nat → Nat → Nat → ModbusRegMap → ModbusRegMap × Option Nat
  | 0, _, currentReg, map => (map, some currentReg)
  | n + 1, bitNumber, currentReg, map =>
    if currentReg < regsCount then
      let newRegValue := if oneDataByte &&& (0x01 <<< bitNumber) ≠ 0 then 1 else 0
      let r := map.SetElementValue funcCode ((startRegAddress + currentReg) % 65536)
        [newRegValue] 1
      if !r.2 then (r.1, none)
      else
        processingFunc15.bits funcCode startRegAddress regsCount oneDataByte n (bitNumber + 1)
          ((currentReg + 1) % 65536) r.1
    else (map, some currentReg)

/-- The outer loop of `processingFunc15` over `n` remaining data bytes from index `i`. The data
byte is read through `inputPacket + this->inputPackTemplateF15F16_Size + i`, a pointer to the
7-byte packet struct, that is at byte offset `7 * (7 + i)` of the packet. -/
def processingFunc15.loop (buf : List Nat) (stale : Nat → Nat)
    (funcCode startRegAddress regsCount : Nat) :
    Nat → Nat → Nat → ModbusRegMap → ModbusRegMap × Bool
  | 0, _, _, map => (map, true)
  | n + 1, i, currentReg, map =>
    let oneDataByte := peek buf stale (7 * (inputPackTemplateF15F16_Size + i))
    match processingFunc15.bits funcCode startRegAddress regsCount oneDataByte 8 0 currentReg
        map with
    | (map, none) => (map, false)
    | (map, some currentReg) =>
      processingFunc15.loop buf stale funcCode startRegAddress regsCount n (i + 1) currentReg map

/-- The method `processingFunc15`. -/
def processingFunc15 (map : ModbusRegMap) (out buf : List Nat) (stale : Nat → Nat) :
    ModbusRegMap × Outcome (List Nat × Nat) :=
  let funcCode := peek buf stale 1
  let startRegAddress := peek16 buf stale 2
  let regsCount := peek16 buf stale 4
  let bytesCount := peek buf stale 6
  if regsCount = 0 ∨ regsCount > 0x07B0 then (map, .thrown .ILLEGAL_DATA_VALUE)
  else
    let dataBytesCount := (regsCount / 8 + (if regsCount % 8 > 0 then 1 else 0)) % 256
    if bytesCount ≠ dataBytesCount then (map, .thrown .ILLEGAL_DATA_VALUE)
    else if startRegAddress + regsCount - 1 > 0x0000FFFF then (map, .thrown .ILLEGAL_DATA_ADDRESS)
    else
      let r := processingFunc15.loop buf stale funcCode startRegAddress regsCount bytesCount 0 0 map
      if !r.2 then (r.1, .thrown .ILLEGAL_DATA_ADDRESS)
      else
        (r.1, .returned (out ++ [funcCode, (startRegAddress &&& 0xFF00) >>> 8,
          startRegAddress &&& 0x00FF, (regsCount &&& 0xFF00) >>> 8, regsCount &&& 0x00FF],
          inputPackTemplateF15F16_Size + bytesCount))

/-- The loop of `processingFunc16` over `n` remaining registers from index `i`. The two bytes
of a register are read through `inputPacket + this->inputPackTemplateF15F16_Size + i * 2` and
`... + i * 2 + 1`, pointers to the 7-byte packet struct, that is at byte offsets
`7 * (7 + 2 * i)` and `7 * (7 + 2 * i + 1)` of the packet. -/
def processingFunc16.loop (buf : List Nat) (stale : Nat → Nat) (funcCode startRegAddress : Nat) :
    Nat → Nat → ModbusRegMap → ModbusRegMap × Bool
  | 0, _, map => (map, true)
  | n + 1, i, map =>
    let newRegValue := peek buf stale (7 * (inputPackTemplateF15F16_Size + i * 2))
    let newRegValue := (newRegValue <<< 8) &&& 0xFF00
    let newRegValue :=
      (newRegValue + peek buf stale (7 * (inputPackTemplateF15F16_Size + i * 2 + 1))) % 65536
    let r := map.SetElementValue funcCode ((startRegAddress + i) % 65536) (leBytes 2 newRegValue) 2
    if !r.2 then (r.1, false)
    else processingFunc16.loop buf stale funcCode startRegAddress n (i + 1) r.1

/-- The method `processingFunc16`. -/
def processingFunc16 (map : ModbusRegMap) (out buf : List Nat) (stale : Nat → Nat) :
    ModbusRegMap × Outcome (List Nat × Nat) :=
  let funcCode := peek buf stale 1
  let startRegAddress := peek16 buf stale 2
  let regsCount := peek16 buf stale 4
  let bytesCount := peek buf stale 6
  if regsCount = 0 ∨ regsCount > 0x007B then (map, .thrown .ILLEGAL_DATA_VALUE)
  else if bytesCount ≠ regsCount * 2 then (map, .thrown .ILLEGAL_DATA_VALUE)
  else if startRegAddress + regsCount - 1 > 0x0000FFFF then (map, .thrown .ILLEGAL_DATA_ADDRESS)
  else
    let r := processingFunc16.loop buf stale funcCode startRegAddress regsCount 0 map
    if !r.2 then (r.1, .thrown .ILLEGAL_DATA_ADDRESS)
    else
      (r.1, .returned (out ++ [funcCode, (startRegAddress &&& 0xFF00) >>> 8,
        startRegAddress &&& 0x00FF, (regsCount &&& 0xFF00) >>> 8, regsCount &&& 0x00FF],
        inputPackTemplateF15F16_Size + bytesCount))

/-- The method `processingExceptionResponse`: `outputDataBuffer` afterwards and the returned
size, the full size of `inputDataBuffer`. -/
def processingExceptionResponse (buf : List Nat) (stale : Nat → Nat)
    (excepCode : modbusExceptionCode) : List Nat × Nat :=
  ([peek buf stale 0, (peek buf stale 1 ||| 0x80) % 256, excepCode.toByte], buf.length)

/-- The `switch (inputPacket->funcCode)` of `inputPacketParse`. -/
def dispatch (map : ModbusRegMap) (out buf : List Nat) (stale : Nat → Nat) :
    ModbusRegMap × Outcome (List Nat × Nat) :=
  let funcCode := peek buf stale 1
  if funcCode = 0x01 ∨ funcCode = 0x02 then (map, processingFunc01_02 map out buf stale)
  else if funcCode = 0x03 ∨ funcCode = 0x04 then (map, processingFunc03_04 map out buf stale)
  else if funcCode = 0x05 then processingFunc05 map out buf stale
  else if funcCode = 0x06 then processingFunc06 map out buf stale
  else if funcCode = 0x0F then processingFunc15 map out buf stale
  else if funcCode = 0x10 then processingFunc16 map out buf stale
  else (map, .thrown .ILLEGAL_FUNCTION)

/-- The first part of `inputPacketParse`, up to `swapBytes(4, 5)`: the chunk is appended (the
oldest bytes making room), a packet is looked for, the bytes before it are erased and the bytes
at 2, 3 and at 4, 5 are exchanged. The result is `inputDataBuffer` afterwards, and whether the
method goes on (`false` at each early `return`). `find_if` searches `[begin, end - 8)` and
returns `end - 8` when no position passes; the method compares the result with `end`. -/
def locatePacket (s : ModbusProtocolSlave) (stale : Nat → Nat) (inputBuffer : List Nat) :
    List Nat × Bool :=
  let inputLen := inputBuffer.length
  if inputLen = 0 ∨ inputLen > s.inputBufferMaxSize then (s.inputDataBuffer, false)
  else if s.modbusRegisterMap.isNone then (s.inputDataBuffer, false)
  else
    let buf :=
      if s.inputDataBuffer.length + inputLen > s.inputBufferMaxSize then
        s.inputDataBuffer.drop (s.inputDataBuffer.length + inputLen - s.inputBufferMaxSize)
      else s.inputDataBuffer
    let buf := buf ++ inputBuffer
    if buf.length < inputPackTemplateF01F04_Size then (buf, false)
    else
      let packetPos :=
        find_if (checkModbusRequestPos buf stale) 0 (buf.length - inputPackTemplateF01F04_Size)
      if packetPos = buf.length then (buf, false)
      else
        let buf := if packetPos > 0 then buf.drop packetPos else buf
        let buf := swapBytes buf 2 3
        let buf := swapBytes buf 4 5
        (buf, true)

/-- The end of `inputPacketParse`, from `//send answer` on: when `outputDataBuffer` (`out`) is
not empty, a send callback is set and the packet's address is not zero, the CRC is appended and
the buffer is handed to `sendDataFunc`; then `countInputBytesToErase` bytes, if not zero, are
erased from `inputDataBuffer` (`buf`). The result is the slave afterwards and the byte sequences
handed to `sendDataFunc`, in order. -/
def sendAnswer (s : ModbusProtocolSlave) (map : ModbusRegMap) (buf out : List Nat)
    (address countInputBytesToErase : Nat) : ModbusProtocolSlave × List (List Nat) :=
  let transmit := out.length ≠ 0 ∧ s.sendDataFunc = true ∧ address ≠ 0
  let outputCRC := ModbusCRC16 out (out.length % 65536)
  let frame := out ++ [outputCRC &&& 0x00FF, (outputCRC &&& 0xFF00) >>> 8]
  ({ s with
      inputDataBuffer :=
        if countInputBytesToErase ≠ 0 then buf.drop countInputBytesToErase else buf
      outputDataBuffer := if transmit then frame else out
      modbusRegisterMap := some map },
    if transmit then [frame] else [])

/-- The second part of `inputPacketParse`, from the device address check on: `buf` is
`inputDataBuffer` with the packet at offset 0. The result is that of `sendAnswer`; `none` when
a handler never returns. -/
def respond (s : ModbusProtocolSlave) (map : ModbusRegMap) (stale : Nat → Nat) (buf : List Nat) :
    Option (ModbusProtocolSlave × List (List Nat)) :=
  let address := peek buf stale 0
  if address = s.deviceAddress ∨ address = 0 then
    match dispatch map [address] buf stale with
    | (map, .returned (out, countInputBytesToErase)) =>
      some (sendAnswer s map buf out address countInputBytesToErase)
    | (map, .thrown excepCode) =>
      let r := processingExceptionResponse buf stale excepCode
      some (sendAnswer s map buf r.1 address r.2)
    | (_, .hangs) => none
  else some (sendAnswer s map buf s.outputDataBuffer address 0)

/-- The method `ModbusProtocolSlave::inputPacketParse(inputBuffer, inputLen)` with `inputBuffer`
the `inputLen` bytes received. The result is the slave afterwards and the byte sequences handed
to `sendDataFunc`, in order; `none` when the method never returns. -/
def inputPacketParse (s : ModbusProtocolSlave) (stale : Nat → Nat) (inputBuffer : List Nat) :
    Option (ModbusProtocolSlave × List (List Nat)) :=
  match locatePacket s stale inputBuffer, s.modbusRegisterMap with
  | (buf, true), some map => respond s map stale buf
  | (buf, _), _ => some ({ s with inputDataBuffer := buf }, [])

end ModbusProtocolSlave

/-! ### Master: request encoding -/

namespace ModbusProtocolMaster

/-- The eight bytes `inputDataBuffer[0..7]` that `requestFunc_01_02_03_04` fills and hands to
`sendDataFunc`. -/
def requestFunc_01_02_03_04.request (deviceAddress functionCode startingAddress
    quantityOfData : Nat) : List Nat :=
  let header := [deviceAddress, functionCode, (startingAddress >>> 8) % 256,
    startingAddress % 256, (quantityOfData >>> 8) % 256, quantityOfData % 256]
  let crcVal := ModbusCRC16 header 6
  header ++ [(crcVal >>> 8) % 256, crcVal % 256]

/-- The eight bytes `inputDataBuffer[0..7]` that `requestFunc_05_06` fills and hands to
`sendDataFunc`; `none` when the method returns `false` before filling them (the value is not in
the register map; `valBytesCount` is still 0 then). -/
def requestFunc_05_06.request (map : ModbusRegMap) (deviceAddress functionCode
    outputAddress : Nat) : Option (List Nat) :=
  match map.GetElementValue functionCode outputAddress 2 with
  | none => none
  | some bytes =>
    let val := leValue bytes
    let val := if functionCode = 0x05 ∧ val ≠ 0 then 0xFF00 else val
    let header := [deviceAddress, functionCode, (outputAddress >>> 8) % 256,
      outputAddress % 256, (val >>> 8) % 256, val % 256]
    let crcVal := ModbusCRC16 header 6
    some (header ++ [(crcVal >>> 8) % 256, crcVal % 256])

end ModbusProtocolMaster

/-! ## Scenarios -/

/-- The holding register of the read scenario: `(fc=3, addr=0x0010)`, `UInt16`, current value
`0x1234`, range `[0, 0xFFFF]`. -/
def holdingRegister : ModbusElement :=
  { RegisterName := "holding", FunctionCode := 3, RegisterAddress := 0x0010, BytesCount := 2,
    DataType := .UInt16, DecimalPoints := 0, DataValue := 0x1234, MinDataValue := 0,
    MaxDataValue := 0xFFFF, StringValue := [], RegisterUnit := "" }

/-- The same register stored under function code 6, the key a write-single-register request
looks up. -/
def writeRegister : ModbusElement :=
  { holdingRegister with FunctionCode := 6 }

/-- A coil stored under function code `fc` at address `0x0005`: `OneBit`, current value 0, range
`[0, 1]`. -/
def coil (fc : Nat) : ModbusElement :=
  { RegisterName := "coil", FunctionCode := fc, RegisterAddress := 0x0005, BytesCount := 1,
    DataType := .OneBit, DecimalPoints := 0, DataValue := 0, MinDataValue := 0,
    MaxDataValue := 1, StringValue := [], RegisterUnit := "" }

/-- A register map holding the one element `el` under its own function code and address. -/
def singletonMap (el : ModbusElement) : ModbusRegMap :=
  { MainRegMap := [(ModbusRegMap.key el.FunctionCode el.RegisterAddress, el)],
    ProtocolName := "", ProtocolVersion := "", checkMinDefMaxFloat := fun _ _ _ => true }

/-- A slave with device address 1, the default buffer sizes, empty buffers, a send callback and
the register map `map`. -/
def slaveWith (map : ModbusRegMap) : ModbusProtocolSlave :=
  { inputBufferMaxSize := 1024, outputBufferMaxSize := 1024, inputDataBuffer := [],
    outputDataBuffer := [], sendDataFunc := true, deviceAddress := 1,
    modbusRegisterMap := some map }

/-- Memory that holds zero bytes past the end of the receive buffer. -/
def zeroMemory : Nat → Nat := fun _ => 0

/-- The current value of the element stored under `(functionCode, registerAddress)` in the
slave's register map. -/
def ModbusProtocolSlave.currentValue (s : ModbusProtocolSlave)
    (functionCode registerAddress : Nat) : Option Int :=
  (s.modbusRegisterMap.bind (fun m => m.getModbusElement functionCode registerAddress)).map
    (fun el => el.DataValue)

/-- The number of bytes that the raw `GetElementValue` returns for an element with the tag
`dataType`: `sizeof` of the type that its `switch` selects, 2 and 4 for the two string tags;
0 for `UnknownDataType`, which has no raw value. -/
def ModbusDataType.nativeWidth : ModbusDataType → Nat
  | .UnknownDataType => 0
  | .OneBit => sizeofModElType .uint8_t
  | .UInt16 | .UInt16ToFloat | .FileRecord => sizeofModElType .uint16_t
  | .SInt16 | .SInt16ToFloat => sizeofModElType .int16_t
  | .UInt32 | .UInt32ToFloat => sizeofModElType .uint32_t
  | .SInt32 | .SInt32ToFloat => sizeofModElType .int32_t
  | .Float32 => sizeofModElType .float
  | .Char2Byte => 2
  | .Char4Byte => 4

/-! ## The bounded input buffer -/

/-- The statements `//check input buffer free space, erase data if need` and `//copy input data
to buffer` that both `inputPacketParse` methods share: when the buffer and the chunk together
exceed `inputBufferMaxSize`, the excess is erased from the front of `inputDataBuffer`, then the
chunk is inserted at its end. The result is `inputDataBuffer` afterwards. The methods reach
these statements only with a chunk of at most `inputBufferMaxSize` bytes. -/
def appendInput (inputBufferMaxSize : Nat) (inputDataBuffer inputBuffer : List Nat) : List Nat :=
  let inputLen := inputBuffer.length
  let buf :=
    if inputDataBuffer.length + inputLen > inputBufferMaxSize then
      inputDataBuffer.drop (inputDataBuffer.length + inputLen - inputBufferMaxSize)
    else inputDataBuffer
  buf ++ inputBuffer

/-- The slave's input buffer at the point of `ModbusProtocolSlave::inputPacketParse` where the
chunk has been inserted; `none` when the method returns before (empty or oversized chunk, no
register map). -/
def ModbusProtocolSlave.bufferAfterAppend (s : ModbusProtocolSlave) (inputBuffer : List Nat) :
    Option (List Nat) :=
  let inputLen := inputBuffer.length
  if inputLen = 0 ∨ inputLen > s.inputBufferMaxSize then none
  else if s.modbusRegisterMap.isNone then none
  else some (appendInput s.inputBufferMaxSize s.inputDataBuffer inputBuffer)

/-- A sequence of calls of `ModbusProtocolSlave::inputPacketParse`, each with the memory behind
the buffer at that time and the chunk received; `other` stands for what the slave's other
methods have done before a call. The result is the slave after the last call, `none` when a
call never returns. -/
def ModbusProtocolSlave.inputPacketParseAll :
    ModbusProtocolSlave →
      List ((ModbusProtocolSlave → ModbusProtocolSlave) × (Nat → Nat) × List Nat) →
      Option ModbusProtocolSlave
  | s, [] => some s
  | s, (other, stale, inputBuffer) :: rest =>
    match (other s).inputPacketParse stale inputBuffer with
    | none => none
    | some r => ModbusProtocolSlave.inputPacketParseAll r.1 rest

/-! ## Master -/

/-- The enumeration `modbusMasterCurrentStates`. -/
inductive modbusMasterCurrentStates
  | MM_STATE_FREE | MM_STATE_BUSY | MM_STATE_RESPONSE_READY
  deriving DecidableEq

/-- The member `lastRequestInfo` of `ModbusProtocolMaster`. -/
structure LastRequestInfo where
  functionCode : Nat
  bytesCount : Nat
  attemptsCount : Int
  timerIdentifier : Nat
  deriving DecidableEq

/-- The state of `lastRequestInfo` after its method `Reset`. -/
def LastRequestInfo.Reset : LastRequestInfo :=
  { functionCode := 0, bytesCount := 0, attemptsCount := 0, timerIdentifier := 0 }

/-- The value `sizeof(outputPackTemplateF01F04)` (packed). -/
def outputPackTemplateF01F04_Size : Nat := 3

/-- The value `sizeof(outputPackTemplateF05F06)` (packed). -/
def outputPackTemplateF05F06_Size : Nat := 8

/-- The value `sizeof(outputPackTemplateF15F16)` (packed). -/
def outputPackTemplateF15F16_Size : Nat := 8

/-- The value `sizeof(outputPackTemplateError)` (packed). -/
def outputPackTemplateError_Size : Nat := 5

/-- The class `ModbusProtocolMaster` with its base `ModbusProtocolBase`. `sendDataFunc` records
whether a send callback is set, `modbusRegisterMap = none` is the null pointer. -/
structure ModbusProtocolMaster where
  inputBufferMaxSize : Nat
  outputBufferMaxSize : Nat
  inputDataBuffer : List Nat
  outputDataBuffer : List Nat
  sendDataFunc : Bool
  deviceAddress : Nat
  modbusRegisterMap : Option ModbusRegMap
  masterCurrentState : modbusMasterCurrentStates
  lastRequestInfo : LastRequestInfo
  responseTimeout : Int
  numberOfAttempts : Int

namespace ModbusProtocolMaster

/-- Memory `mem` after the assignment `inputDataBuffer[k] = v`. -/
def store (mem : Nat → Nat) (k v : Nat) : Nat → Nat :=
  fun j => if j = k then v else mem j

/-- The loop of the `functionCode == 0x0F` branch of `requestFunc_15_16` over `n` remaining
coils from index `i`: `mem` is the storage of `inputDataBuffer`, the other arguments are the
locals `dataByte`, `dataBit`, `valBytesCount`. `none` is `return false`. A failed read is noticed
only when `valBytesCount`, which holds `i % 8` of the round before, is not 1; a data byte is
stored only when its eighth bit has been added. -/
def requestFunc_15_16.coils (map : ModbusRegMap) (functionCode startingAddress : Nat) :
    Nat → Nat → (Nat → Nat) → Nat → Nat → Nat → Option (Nat → Nat)
  | 0, _, mem, _, _, _ => some mem
  | n + 1, i, mem, dataByte, dataBit, valBytesCount =>
    let got := map.GetElementValue functionCode ((startingAddress + i) % 65536) 1
    if got.isNone ∧ valBytesCount ≠ 1 then none
    else
      let dataBit :=
        match got with
        | some bytes => bytes.getD 0 dataBit
        | none => dataBit
      let valBytesCount := i % 8
      let dataByte := (dataByte ||| ((dataBit &&& 0x01) <<< valBytesCount)) % 256
      if valBytesCount = 7 then
        requestFunc_15_16.coils map functionCode startingAddress n (i + 1)
          (store mem (7 + i / 8) dataByte) 0 dataBit valBytesCount
      else
        requestFunc_15_16.coils map functionCode startingAddress n (i + 1) mem dataByte dataBit
          valBytesCount

/-- The loop of the `functionCode == 0x10` branch of `requestFunc_15_16` over `n` remaining
registers from index `i`, with the locals `dataReg` and `valBytesCount`. `none` is
`return false`. A raw read of one byte changes the low byte of `dataReg` only. -/
def requestFunc_15_16.registers (map : ModbusRegMap) (functionCode startingAddress : Nat) :
    Nat → Nat → (Nat → Nat) → Nat → Nat → Option (Nat → Nat)
  | 0, _, mem, _, _ => some mem
  | n + 1, i, mem, dataReg, valBytesCount =>
    let got := map.GetElementValue functionCode ((startingAddress + i) % 65536) 2
    if got.isNone ∧ valBytesCount ≠ 2 then none
    else
      let dataReg :=
        match got with
        | some bytes => bytes.getD 0 (dataReg % 256) + 256 * bytes.getD 1 (dataReg / 256)
        | none => dataReg
      let valBytesCount :=
        match got with
        | some bytes => bytes.length
        | none => valBytesCount
      let mem := store mem (7 + i * 2) ((dataReg >>> 8) % 256)
      let mem := store mem (7 + i * 2 + 1) (dataReg % 256)
      requestFunc_15_16.registers map functionCode startingAddress n (i + 1) mem dataReg
        valBytesCount

/-- The bytes that `requestFunc_15_16` hands to `sendDataFunc`; `none` when the method returns
`false` before. `mem` is the storage of `inputDataBuffer` before the call: the method assigns to
`inputDataBuffer[k]` without resizing the vector, and a byte it does not assign (the last data
byte of a coil request whose quantity is not a multiple of 8, the byte count when
`functionCode` is neither `0x0F` nor `0x10`) is sent as found. -/
def requestFunc_15_16.request (map : ModbusRegMap) (mem : Nat → Nat) (deviceAddress functionCode
    startingAddress quantityOfData : Nat) : Option (List Nat) :=
  let mem := store mem 0 deviceAddress
  let mem := store mem 1 functionCode
  let mem := store mem 2 ((startingAddress >>> 8) % 256)
  let mem := store mem 3 (startingAddress % 256)
  let mem := store mem 4 ((quantityOfData >>> 8) % 256)
  let mem := store mem 5 (quantityOfData % 256)
  let afterCoils : Option (Nat → Nat) :=
    if functionCode = 0x0F then
      (requestFunc_15_16.coils map functionCode startingAddress quantityOfData 0 mem 0 0 0).map
        (fun mem => store mem 6 ((quantityOfData / 8 + 1) % 256))
    else some mem
  match afterCoils with
  | none => none
  | some mem =>
    let afterRegisters : Option (Nat → Nat) :=
      if functionCode = 0x10 then
        (requestFunc_15_16.registers map functionCode startingAddress quantityOfData 0 mem 0
          0).map (fun mem => store mem 6 ((quantityOfData * 2) % 256))
      else some mem
    match afterRegisters with
    | none => none
    | some mem =>
      let crcVal := ModbusCRC16 ((List.range (7 + mem 6)).map mem) (7 + mem 6)
      let mem := store mem (7 + mem 6) ((crcVal >>> 8) % 256)
      let mem := store mem (8 + mem 6) (crcVal % 256)
      some ((List.range (9 + mem 6)).map mem)

/-- The lambda `checkModbusResponsePos_F01ToF04` at position `i` of `inputDataBuffer`. -/
def checkModbusResponsePos_F01ToF04 (buf : List Nat) (stale : Nat → Nat) (i : Nat) : Bool :=
  let funcCode := peek buf stale (i + 1)
  if funcCode < 0x01 ∨ funcCode > 0x04 then false
  else
    let byteCount := peek buf stale (i + 2)
    ModbusCRC16 (memRead buf stale i (outputPackTemplateF01F04_Size + byteCount))
        (outputPackTemplateF01F04_Size + byteCount)
      == peek16 buf stale (i + outputPackTemplateF01F04_Size + byteCount)

/-- The lambda `checkModbusResponsePos_F05ToF06` at position `i` of `inputDataBuffer`. -/
def checkModbusResponsePos_F05ToF06 (buf : List Nat) (stale : Nat → Nat) (i : Nat) : Bool :=
  let funcCode := peek buf stale (i + 1)
  if funcCode ≠ 0x05 ∧ funcCode ≠ 0x06 then false
  else ModbusCRC16 (memRead buf stale i (outputPackTemplateF05F06_Size - 2))
      (outputPackTemplateF05F06_Size - 2) == peek16 buf stale (i + 6)

/-- The lambda `checkModbusResponsePos_F15ToF16` at position `i` of `inputDataBuffer`. -/
def checkModbusResponsePos_F15ToF16 (buf : List Nat) (stale : Nat → Nat) (i : Nat) : Bool :=
  let funcCode := peek buf stale (i + 1)
  if funcCode ≠ 0x0F ∧ funcCode ≠ 0x10 then false
  else ModbusCRC16 (memRead buf stale i (outputPackTemplateF15F16_Size - 2))
      (outputPackTemplateF15F16_Size - 2) == peek16 buf stale (i + 6)

/-- The lambda `checkModbusResponsePos_Error` at position `i` of `inputDataBuffer`. -/
def checkModbusResponsePos_Error (buf : List Nat) (stale : Nat → Nat) (i : Nat) : Bool :=
  ModbusCRC16 (memRead buf stale i (outputPackTemplateError_Size - 2))
      (outputPackTemplateError_Size - 2) == peek16 buf stale (i + 3)

/-- The lambda `checkModbusRequestPos` of `ModbusProtocolMaster::inputPacketParse`. -/
def checkModbusRequestPos (buf : List Nat) (stale : Nat → Nat) (i : Nat) : Bool :=
  checkModbusResponsePos_F01ToF04 buf stale i || checkModbusResponsePos_F05ToF06 buf stale i ||
    checkModbusResponsePos_F15ToF16 buf stale i || checkModbusResponsePos_Error buf stale i

/-- The loop `for (; first != last; ++first)` of `std::find_if` when `last` precedes `first`:
the positions from `first` on are tested one after the other, whatever memory they lie in, and
the loop ends only at a position that satisfies `pred`. `readable` bounds the positions that
can be tested before the loop leaves readable memory; `none` when it does. -/
def find_if_unbounded (pred : Nat → Bool) : Nat → Nat → Option Nat
  | _, 0 => none
  | first, readable + 1 =>
    if pred first then some first else find_if_unbounded pred (first + 1) readable

/-- The call `inputDataBuffer.erase(inputDataBuffer.begin(), inputDataBuffer.begin() + n)`;
`none` when the range is not inside the vector, which the library leaves undefined. -/
def eraseFront (buf : List Nat) (n : Nat) : Option (List Nat) :=
  if n ≤ buf.length then some (buf.drop n) else none

/-- The loop of `parsingAnswerFunc_01_02` over `n` remaining bits from index `i`; the bit is
read at offset `inputPackTemplateF01F04_Size + i / 8` of the buffer. The result is the register
map and whether every `SetElementValue` succeeded. -/
def parsingAnswerFunc_01_02.loop (buf : List Nat) (stale : Nat → Nat)
    (funcCode startingAddress : Nat) : Nat → Nat → ModbusRegMap → ModbusRegMap × Bool
  | 0, _, map => (map, true)
  | n + 1, i, map =>
    let val := (peek buf stale (inputPackTemplateF01F04_Size + i / 8) >>> (i % 8)) &&& 0x01
    let r := map.SetElementValue funcCode ((startingAddress + i) % 65536) [val] 1
    if !r.2 then (r.1, false)
    else parsingAnswerFunc_01_02.loop buf stale funcCode startingAddress n (i + 1) r.1

/-- The method `parsingAnswerFunc_01_02`, called with `inputDataBuffer` itself (`buf`): the
register map afterwards and the returned `int`. The "request info" is read from bytes 2 to 5 of
`inputDataBuffer`. -/
def parsingAnswerFunc_01_02 (map : ModbusRegMap) (buf : List Nat) (stale : Nat → Nat) :
    ModbusRegMap × Int :=
  let startingAddress := (peek buf stale 2 <<< 8) ||| peek buf stale 3
  let quantityOfBits := (peek buf stale 4 <<< 8) ||| peek buf stale 5
  let funcCode := peek buf stale 1
  let byteCount := peek buf stale 2
  if quantityOfBits / 8 + (if quantityOfBits % 8 ≠ 0 then 1 else 0) ≠ byteCount then (map, -1)
  else
    let r := parsingAnswerFunc_01_02.loop buf stale funcCode startingAddress quantityOfBits 0 map
    if !r.2 then (r.1, -1)
    else (r.1, ((inputPackTemplateF01F04_Size + byteCount + 2 : Nat) : Int))

/-- The loop of `parsingAnswerFunc_03_04` over `n` remaining registers from index `i`; the two
bytes of a register are read at offsets `inputPackTemplateF01F04_Size + i * 2` and the next of
the buffer. -/
def parsingAnswerFunc_03_04.loop (buf : List Nat) (stale : Nat → Nat)
    (funcCode startingAddress : Nat) : Nat → Nat → ModbusRegMap → ModbusRegMap × Bool
  | 0, _, map => (map, true)
  | n + 1, i, map =>
    let val := ((peek buf stale (inputPackTemplateF01F04_Size + i * 2) <<< 8) |||
      peek buf stale (inputPackTemplateF01F04_Size + i * 2 + 1)) % 65536
    let r := map.SetElementValue funcCode ((startingAddress + i) % 65536) (leBytes 2 val) 2
    if !r.2 then (r.1, false)
    else parsingAnswerFunc_03_04.loop buf stale funcCode startingAddress n (i + 1) r.1

/-- The method `parsingAnswerFunc_03_04`, called with `inputDataBuffer` itself (`buf`). -/
def parsingAnswerFunc_03_04 (map : ModbusRegMap) (buf : List Nat) (stale : Nat → Nat) :
    ModbusRegMap × Int :=
  let startingAddress := (peek buf stale 2 <<< 8) ||| peek buf stale 3
  let quantityOfRegisters := (peek buf stale 4 <<< 8) ||| peek buf stale 5
  let funcCode := peek buf stale 1
  let byteCount := peek buf stale 2
  if quantityOfRegisters * 2 ≠ byteCount then (map, -1)
  else
    let r := parsingAnswerFunc_03_04.loop buf stale funcCode startingAddress quantityOfRegisters
      0 map
    if !r.2 then (r.1, -1)
    else (r.1, ((inputPackTemplateF01F04_Size + byteCount + 2 : Nat) : Int))

/-- The method `parsingAnswerFunc_05_06`, called with `inputDataBuffer` itself (`buf`): both
sides of the comparison `this->inputDataBuffer[i] != inputBuffer[i]` are the same byte. -/
def parsingAnswerFunc_05_06 (buf : List Nat) (stale : Nat → Nat) : Int :=
  if (List.range outputPackTemplateF05F06_Size).any
      (fun i => peek buf stale i != peek buf stale i) then -1
  else (outputPackTemplateF05F06_Size : Int)

/-- The method `parsingAnswerFunc_15_16`, called with `inputDataBuffer` itself (`buf`): the
"request data" are bytes 2 to 5 of the buffer read high byte first, the response data the same
bytes read as little-endian words. -/
def parsingAnswerFunc_15_16 (buf : List Nat) (stale : Nat → Nat) : Int :=
  let startingAddress := ((peek buf stale 2 <<< 8) ||| peek buf stale 3) % 65536
  let quantityOfData := ((peek buf stale 4 <<< 8) ||| peek buf stale 5) % 65536
  let regAddress := peek16 buf stale 2
  let regsCount := peek16 buf stale 4
  if startingAddress ≠ regAddress ∨ quantityOfData ≠ regsCount then -1
  else ((9 + peek buf stale 6 : Nat) : Int)

/-- The `switch (outputPacket->funcCode)` of `ModbusProtocolMaster::inputPacketParse` with its
`try` and `catch`: the register map afterwards, `countInputBytesToErase` and the message handed
to `outputErrorMessage`, if any. -/
def dispatch (map : ModbusRegMap) (buf : List Nat) (stale : Nat → Nat) :
    ModbusRegMap × Nat × Option String :=
  let funcCode := peek buf stale 1
  let byteCount := peek buf stale 2
  if funcCode = 0x01 ∨ funcCode = 0x02 then
    let r := parsingAnswerFunc_01_02 map buf stale
    if r.2 < 0 then
      (r.1, outputPackTemplateF01F04_Size + byteCount + 2,
        some "Error: modbus function 0x01 (0x02) response parsing error.")
    else (r.1, r.2.toNat, none)
  else if funcCode = 0x03 ∨ funcCode = 0x04 then
    let r := parsingAnswerFunc_03_04 map buf stale
    if r.2 < 0 then
      (r.1, outputPackTemplateF01F04_Size + byteCount + 2,
        some "Error: modbus function 0x03 (0x04) response parsing error.")
    else (r.1, r.2.toNat, none)
  else if funcCode = 0x05 ∨ funcCode = 0x06 then
    let r := parsingAnswerFunc_05_06 buf stale
    if r < 0 then
      (map, outputPackTemplateF05F06_Size,
        some "Error: modbus function 0x05 (0x06) response parsing error.")
    else (map, r.toNat, none)
  else if funcCode = 0x0F ∨ funcCode = 0x10 then
    let r := parsingAnswerFunc_15_16 buf stale
    if r < 0 then
      (map, 9 + peek buf stale 6,
        some "Error: modbus function 0x0F (0x10) response parsing error.")
    else (map, r.toNat, none)
  else if funcCode = 0x81 ∨ funcCode = 0x82 ∨ funcCode = 0x83 ∨ funcCode = 0x84 ∨
      funcCode = 0x85 ∨ funcCode = 0x86 ∨ funcCode = 0x8F ∨ funcCode = 0x90 then
    let exceptionCode := peek buf stale 2
    (map, outputPackTemplateError_Size,
      some (if exceptionCode = modbusExceptionCode.ILLEGAL_FUNCTION.toByte then
          "Error: modbus exception, illegal function."
        else if exceptionCode = modbusExceptionCode.ILLEGAL_DATA_ADDRESS.toByte then
          "Error: modbus exception, illegal data address."
        else if exceptionCode = modbusExceptionCode.ILLEGAL_DATA_VALUE.toByte then
          "Error: modbus exception, illegal data value."
        else if exceptionCode = modbusExceptionCode.SERVER_DEVICE_FAILURE.toByte then
          "Error: modbus exception, server device failure."
        else "Error: modbus exception, unknown error."))
  else (map, 0, some "Error: modbus response unknown function code.")

/-- The master reset to idle: `lastRequestInfo.Reset()` and
`masterCurrentState = MM_STATE_FREE`. -/
def resetAndExit (m : ModbusProtocolMaster) : ModbusProtocolMaster :=
  { m with lastRequestInfo := LastRequestInfo.Reset, masterCurrentState := .MM_STATE_FREE }

/-- The part of `ModbusProtocolMaster::inputPacketParse` after the chunk has been inserted:
`buf` is `inputDataBuffer` at that point. -/
def parseBuffer (m : ModbusProtocolMaster) (map : ModbusRegMap) (stale : Nat → Nat)
    (readable : Nat) (stopTimeoutTimer : Bool) (buf : List Nat) :
    Option (ModbusProtocolMaster × List String) :=
  if buf.length < outputPackTemplateError_Size then some ({ m with inputDataBuffer := buf }, [])
  else
    let found : Option Nat :=
      if outputPackTemplateF05F06_Size ≤ buf.length then
        some (find_if (checkModbusRequestPos buf stale) 0
          (buf.length - outputPackTemplateF05F06_Size))
      else find_if_unbounded (checkModbusRequestPos buf stale) 0 readable
    match found with
    | none => none
    | some packetPos =>
      if packetPos = buf.length then some ({ m with inputDataBuffer := buf }, [])
      else
        match (if packetPos > 0 then eraseFront buf packetPos else some buf) with
        | none => none
        | some buf =>
          if peek buf stale 0 = m.deviceAddress ∧
              peek buf stale 1 &&& 0x7F = m.lastRequestInfo.functionCode then
            if !stopTimeoutTimer then
              some (resetAndExit { m with inputDataBuffer := buf },
                ["Error: timeout timer stop function returned fail."])
            else
              let r := dispatch map buf stale
              match (if r.2.1 ≠ 0 then eraseFront buf r.2.1 else some buf) with
              | none => none
              | some buf =>
                some ({ m with
                        inputDataBuffer := buf
                        modbusRegisterMap := some r.1
                        lastRequestInfo := LastRequestInfo.Reset
                        masterCurrentState := .MM_STATE_RESPONSE_READY },
                  r.2.2.toList)
          else some ({ m with inputDataBuffer := buf }, [])

/-- The method `ModbusProtocolMaster::inputPacketParse(inputBuffer, inputLen)` with
`inputBuffer` the `inputLen` bytes received. `stale` is the memory behind the vector,
`readable` the number of positions a search that runs off the vector can test,
`stopTimeoutTimer` the result of `StopTimeoutTimer`. The result is the master afterwards and
the messages handed to `outputErrorMessage`; `none` when the method has no defined result. -/
def inputPacketParse (m : ModbusProtocolMaster) (stale : Nat → Nat) (readable : Nat)
    (stopTimeoutTimer : Bool) (inputBuffer : List Nat) :
    Option (ModbusProtocolMaster × List String) :=
  if m.lastRequestInfo.functionCode = 0 ∨ m.masterCurrentState = .MM_STATE_FREE then
    some (resetAndExit m, [])
  else
    let inputLen := inputBuffer.length
    if inputLen = 0 ∨ inputLen > m.inputBufferMaxSize then some (m, [])
    else
      match m.modbusRegisterMap with
      | none => some (resetAndExit m, ["Modbus master: not set valid Register Map."])
      | some map =>
        parseBuffer m map stale readable stopTimeoutTimer
          (appendInput m.inputBufferMaxSize m.inputDataBuffer inputBuffer)

/-- A sequence of calls of `ModbusProtocolMaster::inputPacketParse`, each with the memory behind
the buffer, the readable range, the result of `StopTimeoutTimer` and the chunk received;
`other` stands for what the master's other methods have done before a call. The result is the
master after the last call, `none` when a call has no defined result. -/
def inputPacketParseAll :
    ModbusProtocolMaster →
      List ((ModbusProtocolMaster → ModbusProtocolMaster) × (Nat → Nat) × Nat × Bool × List Nat) →
      Option ModbusProtocolMaster
  | m, [] => some m
  | m, (other, stale, readable, stopTimeoutTimer, inputBuffer) :: rest =>
    match (other m).inputPacketParse stale readable stopTimeoutTimer inputBuffer with
    | none => none
    | some r => inputPacketParseAll r.1 rest

end ModbusProtocolMaster

/-! ## Master: requests, timeout and `readAllRegisters` -/

namespace ModbusProtocolMaster

/-- The assignment `inputDataBuffer[k] = v`, which does not change the size of the vector: the
element changes when `k` is inside the vector, the memory behind it otherwise. The result is the
vector and the memory behind it afterwards. -/
def assign (buf : List Nat) (stale : Nat → Nat) (k v : Nat) : List Nat × (Nat → Nat) :=
  if k < buf.length then (buf.set k v, stale) else (buf, store stale k v)

/-- The assignments `inputDataBuffer[k] = v`, `inputDataBuffer[k + 1] = v'` and so on for the
values listed. -/
def assignAll : List Nat → (Nat → Nat) → Nat → List Nat → List Nat × (Nat → Nat)
  | buf, stale, _, [] => (buf, stale)
  | buf, stale, k, v :: vs => assignAll (assign buf stale k v).1 (assign buf stale k v).2 (k + 1) vs

/-- The statements from `//send request` on that the three request methods share:
`packetBytesCount` bytes from the start of the storage of `inputDataBuffer` go to `sendDataFunc`,
whose result is `sendData`; then the request is recorded in `lastRequestInfo` and the timer is
started, `startTimeoutTimer` being the identifier that `StartTimeoutTimer` returns (0 when it
fails). The result is the master afterwards, the byte sequences handed to `sendDataFunc` and the
returned `bool`; `none` when no send callback is set, a call the library answers with an
exception. -/
def sendRequest (m : ModbusProtocolMaster) (stale : Nat → Nat) (sendData : Bool)
    (startTimeoutTimer : Nat) (functionCode packetBytesCount : Nat) :
    Option (ModbusProtocolMaster × List (List Nat) × Bool) :=
  if !m.sendDataFunc then none
  else
    let sent := [memRead m.inputDataBuffer stale 0 packetBytesCount]
    if !sendData then some (m, sent, false)
    else if startTimeoutTimer = 0 then
      some ({ m with lastRequestInfo := LastRequestInfo.Reset }, sent, false)
    else
      some ({ m with
              lastRequestInfo :=
                { functionCode := functionCode
                  bytesCount := packetBytesCount
                  attemptsCount := m.numberOfAttempts
                  timerIdentifier := startTimeoutTimer } },
        sent, true)

/-- The method `requestFunc_01_02_03_04`. `stale` is the memory behind `inputDataBuffer`,
`sendData` the result of the send callback, `startTimeoutTimer` the identifier returned by
`StartTimeoutTimer`. The result is the master and the memory behind its buffer afterwards, the
byte sequences handed to `sendDataFunc` and the returned `bool`. -/
def requestFunc_01_02_03_04 (m : ModbusProtocolMaster) (stale : Nat → Nat) (sendData : Bool)
    (startTimeoutTimer : Nat) (functionCode startingAddress quantityOfData : Nat) :
    Option (ModbusProtocolMaster × (Nat → Nat) × List (List Nat) × Bool) :=
  let filled := assignAll m.inputDataBuffer stale 0
    (requestFunc_01_02_03_04.request m.deviceAddress functionCode startingAddress quantityOfData)
  (sendRequest { m with lastRequestInfo := LastRequestInfo.Reset, inputDataBuffer := filled.1 }
      filled.2 sendData startTimeoutTimer functionCode 8).map
    (fun r => (r.1, filled.2, r.2.1, r.2.2))

/-- The method `requestFunc_05_06`, with the arguments and the result of
`requestFunc_01_02_03_04`; `none` also when the register map is the null pointer. -/
def requestFunc_05_06 (m : ModbusProtocolMaster) (stale : Nat → Nat) (sendData : Bool)
    (startTimeoutTimer : Nat) (functionCode outputAddress : Nat) :
    Option (ModbusProtocolMaster × (Nat → Nat) × List (List Nat) × Bool) :=
  match m.modbusRegisterMap with
  | none => none
  | some map =>
    match requestFunc_05_06.request map m.deviceAddress functionCode outputAddress with
    | none => some ({ m with lastRequestInfo := LastRequestInfo.Reset }, stale, [], false)
    | some request =>
      let filled := assignAll m.inputDataBuffer stale 0 request
      (sendRequest
          { m with lastRequestInfo := LastRequestInfo.Reset, inputDataBuffer := filled.1 }
          filled.2 sendData startTimeoutTimer functionCode 8).map
        (fun r => (r.1, filled.2, r.2.1, r.2.2))

/-- The method `timeoutExpired`. `stale` is the memory behind `inputDataBuffer`, `sendData` the
result of the send callback, `startTimeoutTimer` the identifier returned by `StartTimeoutTimer`
(which the method only tests). The result is the master afterwards, the byte sequences handed to
`sendDataFunc` and the messages handed to `outputErrorMessage`; `none` when the method sends and
no send callback is set. -/
def timeoutExpired (m : ModbusProtocolMaster) (stale : Nat → Nat) (sendData : Bool)
    (startTimeoutTimer : Nat) : Option (ModbusProtocolMaster × List (List Nat) × List String) :=
  if m.lastRequestInfo.functionCode = 0 then
    some ({ m with masterCurrentState := .MM_STATE_FREE }, [], [])
  else if m.lastRequestInfo.attemptsCount ≠ 0 then
    if !m.sendDataFunc then none
    else
      let sent := [memRead m.inputDataBuffer stale 0 m.lastRequestInfo.bytesCount]
      if !sendData then
        some (resetAndExit m, sent,
          ["Last request timeout expired.", "Fail repeat last request. Send data error."])
      else if startTimeoutTimer = 0 then
        some (resetAndExit m, sent, ["Last request timeout expired.", "Fail set request timeout."])
      else
        some ({ m with
                lastRequestInfo :=
                  { m.lastRequestInfo with
                    attemptsCount := m.lastRequestInfo.attemptsCount - 1 } },
          sent, ["Last request timeout expired.", "Repeated request sent."])
  else some (resetAndExit m, [], ["Last request timeout expired."])

/-- The timer expiring several times in a row with nothing received in between: one call of
`timeoutExpired` per entry of the list, which gives the result of the send callback and of
`StartTimeoutTimer` for that call. The result is the master after the last call and the byte
sequences handed to `sendDataFunc`, in order. -/
def timeoutExpiredAll (stale : Nat → Nat) :
    ModbusProtocolMaster → List (Bool × Nat) → Option (ModbusProtocolMaster × List (List Nat))
  | m, [] => some (m, [])
  | m, (sendData, startTimeoutTimer) :: rest =>
    match m.timeoutExpired stale sendData startTimeoutTimer with
    | none => none
    | some r =>
      match timeoutExpiredAll stale r.1 rest with
      | none => none
      | some r' => some (r'.1, r.2.1 ++ r'.2)

/-- Where the control of `readAllRegisters` stands between two of its steps: not called yet, at
the head of the loop body with the map's cursor `currentElementIter` on the element number
`cursor` (counted from 0 in the order of the keys), in the loop
`while (masterCurrentState == MM_STATE_BUSY)` of that element, or returned with `result`. -/
inductive readAllRegisters.Control
  | notCalled
  | atElement (cursor : Nat)
  | waiting (cursor : Nat)
  | returned (result : Bool)
  deriving DecidableEq

/-- The start of `readAllRegisters`: the test of the state, `masterCurrentState =
MM_STATE_BUSY`, the test of the register map (a null pointer sets the state back to
`MM_STATE_FREE`) and `GetFirstElement`. -/
def readAllRegisters.enter (m : ModbusProtocolMaster) :
    ModbusProtocolMaster × readAllRegisters.Control × List (List Nat) × List String :=
  if m.masterCurrentState ≠ .MM_STATE_FREE then (m, .returned false, [], [])
  else
    match m.modbusRegisterMap with
    | none => ({ m with masterCurrentState := .MM_STATE_FREE }, .returned false, [], [])
    | some _ => ({ m with masterCurrentState := .MM_STATE_BUSY }, .atElement 0, [], [])

/-- One step of `readAllRegisters`, from one access to `masterCurrentState` to the next.
* From `notCalled`, and from `returned` (the method is called again): `readAllRegisters.enter`.
* From `atElement` (the list `MainRegMap` being in the order of the keys, the order in which
  `GetNextElement` goes through the map): the end of the iteration
  (`masterCurrentState = MM_STATE_FREE`, `return true`) when the cursor is past the last
  element; for an element under a function code 1 to 4 the call of `requestFunc_01_02_03_04`
  for that one element; `GetNextElement` for any other element.
* From `waiting`: one test of `while (masterCurrentState == MM_STATE_BUSY)`, which stays in the
  loop, and when it leaves it the test for `MM_STATE_FREE` and `GetNextElement`.
The arguments `stale`, `sendData` and `startTimeoutTimer` are those of
`requestFunc_01_02_03_04`. The result is the master and the control afterwards, the byte
sequences handed to `sendDataFunc` and the messages handed to `outputErrorMessage`. -/
def readAllRegisters.step (m : ModbusProtocolMaster) (stale : Nat → Nat) (sendData : Bool)
    (startTimeoutTimer : Nat) :
    readAllRegisters.Control →
      Option (ModbusProtocolMaster × readAllRegisters.Control × List (List Nat) × List String)
  | .notCalled => some (readAllRegisters.enter m)
  | .atElement cursor =>
    match m.modbusRegisterMap with
    | none => none
    | some map =>
      match map.MainRegMap.get? cursor with
      | none => some ({ m with masterCurrentState := .MM_STATE_FREE }, .returned true, [], [])
      | some (_, regMapElement) =>
        if regMapElement.FunctionCode = 0x01 ∨ regMapElement.FunctionCode = 0x02 ∨
            regMapElement.FunctionCode = 0x03 ∨ regMapElement.FunctionCode = 0x04 then
          match m.requestFunc_01_02_03_04 stale sendData startTimeoutTimer
              regMapElement.FunctionCode regMapElement.RegisterAddress 1 with
          | none => none
          | some (m, _, sent, true) => some (m, .waiting cursor, sent, [])
          | some (m, _, sent, false) =>
            some ({ m with masterCurrentState := .MM_STATE_FREE }, .returned false, sent,
              ["Modbus master - update all registers function error. Create request fail."])
        else some (m, .atElement (cursor + 1), [], [])
  | .waiting cursor =>
    if m.masterCurrentState = .MM_STATE_BUSY then some (m, .waiting cursor, [], [])
    else if m.masterCurrentState = .MM_STATE_FREE then
      some (m, .returned false, [], ["Modbus master - update all registers function error."])
    else some (m, .atElement (cursor + 1), [], [])
  | .returned _ => some (readAllRegisters.enter m)

/-- What happens next to a master whose `readAllRegisters` is running on one thread while bytes
arrive and the timer expires on others: the thread of `readAllRegisters` takes its next step,
`inputPacketParse` is called with a chunk received, or `timeoutExpired` is called. Each carries
the content of the memory behind the buffer at that time and what the environment decides for
it. -/
inductive Activity
  | main (stale : Nat → Nat) (sendData : Bool) (startTimeoutTimer : Nat)
  | received (stale : Nat → Nat) (readable : Nat) (stopTimeoutTimer : Bool)
      (inputBuffer : List Nat)
  | timer (stale : Nat → Nat) (sendData : Bool) (startTimeoutTimer : Nat)

/-- The master and the control of its `readAllRegisters` after one activity, with the byte
sequences handed to `sendDataFunc` during it; `none` when the method called has no defined
result. -/
def act (m : ModbusProtocolMaster) (control : readAllRegisters.Control) :
    Activity → Option (ModbusProtocolMaster × readAllRegisters.Control × List (List Nat))
  | .main stale sendData startTimeoutTimer =>
    (readAllRegisters.step m stale sendData startTimeoutTimer control).map
      (fun r => (r.1, r.2.1, r.2.2.1))
  | .received stale readable stopTimeoutTimer inputBuffer =>
    (m.inputPacketParse stale readable stopTimeoutTimer inputBuffer).map
      (fun r => (r.1, control, []))
  | .timer stale sendData startTimeoutTimer =>
    (m.timeoutExpired stale sendData startTimeoutTimer).map (fun r => (r.1, control, r.2.1))

/-- A sequential interleaving of the master's operations: the activities take place one after
the other. The result lists, for each activity, the master and the control after it and what was
sent during it; `none` when one of them has no defined result. -/
def interleaving :
    ModbusProtocolMaster → readAllRegisters.Control → List Activity →
      Option (List (ModbusProtocolMaster × readAllRegisters.Control × List (List Nat)))
  | _, _, [] => some []
  | m, control, a :: rest =>
    match act m control a with
    | none => none
    | some r =>
      match interleaving r.1 r.2.1 rest with
      | none => none
      | some trace => some (r :: trace)

/-- The changes of `masterCurrentState` that the state machine of the master allows: none at
all, `FREE` to `BUSY`, `BUSY` to `FREE`, `BUSY` to `RESPONSE_READY`, `RESPONSE_READY` to
`FREE`. -/
def allowedChange (a b : modbusMasterCurrentStates) : Prop :=
  a = b ∨ (a = .MM_STATE_FREE ∧ b = .MM_STATE_BUSY) ∨ (a = .MM_STATE_BUSY ∧ b = .MM_STATE_FREE) ∨
    (a = .MM_STATE_BUSY ∧ b = .MM_STATE_RESPONSE_READY) ∨
    (a = .MM_STATE_RESPONSE_READY ∧ b = .MM_STATE_FREE)

end ModbusProtocolMaster

/-! ## Further scenarios -/

/-- A register of the wide kind at `(fc=3, addr=0x0010)`: `UInt32`, current value `0x12345678`,
range `[0, 0xFFFFFFFF]`. -/
def wideRegister : ModbusElement :=
  { RegisterName := "wide", FunctionCode := 3, RegisterAddress := 0x0010, BytesCount := 4,
    DataType := .UInt32, DecimalPoints := 0, DataValue := 0x12345678, MinDataValue := 0,
    MaxDataValue := 0xFFFFFFFF, StringValue := [], RegisterUnit := "" }

/-- The register `(fc=0x10, addr=0x0010)` that a write-multiple-registers request looks up:
`UInt16`, current value 0, range `[0, 0xFFFF]`. -/
def multipleRegister : ModbusElement :=
  { holdingRegister with FunctionCode := 0x10, DataValue := 0 }

/-- A register map holding `n` coils under function code `fc` at the addresses `0` to `n - 1`,
in ascending order of their keys; the coil at address `k` has the current value `value k`. -/
def coilsMap (fc n : Nat) (value : Nat → Int) : ModbusRegMap :=
  { MainRegMap := (List.range n).map (fun k =>
      (ModbusRegMap.key fc k, { coil fc with RegisterAddress := k, DataValue := value k })),
    ProtocolName := "", ProtocolVersion := "", checkMinDefMaxFloat := fun _ _ _ => true }

/-- A master with device address 1, the default buffer sizes, timeout and number of attempts,
empty buffers and the register map `map`, waiting for the response to a request with function
code `functionCode`. -/
def masterAwaiting (map : ModbusRegMap) (functionCode : Nat) : ModbusProtocolMaster :=
  { inputBufferMaxSize := 1024
    outputBufferMaxSize := 1024
    inputDataBuffer := []
    outputDataBuffer := []
    sendDataFunc := true
    deviceAddress := 1
    modbusRegisterMap := some map
    masterCurrentState := .MM_STATE_BUSY
    lastRequestInfo := ⟨functionCode, 8, 3, 1⟩
    responseTimeout := 2000
    numberOfAttempts := 3 }

/-- A slave with room for ten bytes whose input buffer holds the nine bytes `01` to `09`. -/
def smallSlave : ModbusProtocolSlave :=
  { slaveWith (singletonMap holdingRegister) with
    inputBufferMaxSize := 10
    inputDataBuffer := [0x01, 0x02, 0x03, 0x04, 0x05, 0x06, 0x07, 0x08, 0x09] }

/-- A master with room for ten bytes that waits for the response to a read request with
function code 3 and whose input buffer holds the nine bytes `01` to `09`. -/
def smallMaster : ModbusProtocolMaster :=
  { masterAwaiting (singletonMap holdingRegister) 3 with
    inputBufferMaxSize := 10
    inputDataBuffer := [0x01, 0x02, 0x03, 0x04, 0x05, 0x06, 0x07, 0x08, 0x09] }

/-! ## Scenarios of the master -/

/-- A master with device address 1 in the state `MM_STATE_BUSY` that `readAllRegisters` has set,
with no request recorded yet, empty buffers, the register map `map` and `numberOfAttempts`
attempts for a request. -/
def masterBusy (map : ModbusRegMap) (numberOfAttempts : Int) : ModbusProtocolMaster :=
  { inputBufferMaxSize := 1024
    outputBufferMaxSize := 1024
    inputDataBuffer := []
    outputDataBuffer := []
    sendDataFunc := true
    deviceAddress := 1
    modbusRegisterMap := some map
    masterCurrentState := .MM_STATE_BUSY
    lastRequestInfo := LastRequestInfo.Reset
    responseTimeout := 2000
    numberOfAttempts := numberOfAttempts }

/-- A master as it is constructed and set up: device address 1, state `MM_STATE_FREE`, no
request recorded, empty buffers, a send callback, the register map `map` and three attempts for
a request. -/
def masterFree (map : ModbusRegMap) : ModbusProtocolMaster :=
  { masterBusy map 3 with masterCurrentState := .MM_STATE_FREE }

/-- A register map with three holding registers under function code 3, at the addresses
`0x0010`, `0x0011` and `0x0012`, each a `UInt16` holding `0x1234`. -/
def threeRegisters : ModbusRegMap :=
  { MainRegMap :=
      [(ModbusRegMap.key 3 0x0010, holdingRegister),
        (ModbusRegMap.key 3 0x0011, { holdingRegister with RegisterAddress := 0x0011 }),
        (ModbusRegMap.key 3 0x0012, { holdingRegister with RegisterAddress := 0x0012 })]
    ProtocolName := ""
    ProtocolVersion := ""
    checkMinDefMaxFloat := fun _ _ _ => true }

/-- The thread of `readAllRegisters` takes a step; a send succeeds and the timer is started
with the identifier 1. -/
def mainStep : ModbusProtocolMaster.Activity :=
  .main zeroMemory true 1

/-- The response `01 03 02 12 34 B5 33` of a slave to a request for one holding register,
received in one chunk together with a byte `00` that follows it on the line; the timer is
stopped. -/
def responseReceived : ModbusProtocolMaster.Activity :=
  .received zeroMemory 0 true [0x01, 0x03, 0x02, 0x12, 0x34, 0xB5, 0x33, 0x00]

/-! ## Register map: JSON files (`LoadFromFile`, `SaveToFile`)

The JSON library (rapidjson) is taken through its interface: a document is given as the tree
that its parser builds, and each library call by what the library documents for it. A `String`
lists the bytes of a C++ string, one character for each byte. -/

/-- A JSON value as the library holds it. `integer` is a number that the library keeps as an
integer; `real` is any other number, with the result of `IsFloat()` and the bit pattern of the
`float` that `GetFloat()` returns. -/
inductive JsonValue
  | null
  | bool (b : Bool)
  | integer (v : Int)
  | real (isFloat : Bool) (asFloat : Nat)
  | string (s : String)
  | array (elements : List JsonValue)
  | object (members : List (String × JsonValue))

/-- The characters of a C string: those before the first zero byte. -/
def cString (s : String) : String :=
  String.mk (s.data.takeWhile (fun c => c != Char.ofNat 0))

namespace JsonValue

/-- The call `IsUint()`: an integer that fits `unsigned`. -/
def IsUint : JsonValue → Bool
  | .integer v => decide (0 ≤ v) && decide (v < 4294967296)
  | _ => false

/-- The call `IsInt()`: an integer that fits `int`. -/
def IsInt : JsonValue → Bool
  | .integer v => decide (-2147483648 ≤ v) && decide (v < 2147483648)
  | _ => false

/-- The call `IsFloat()`. -/
def IsFloat : JsonValue → Bool
  | .real isFloat _ => isFloat
  | _ => false

/-- The call `IsString()`. -/
def IsString : JsonValue → Bool
  | .string _ => true
  | _ => false

/-- The call `IsArray()`. -/
def IsArray : JsonValue → Bool
  | .array _ => true
  | _ => false

/-- The number behind `GetUint()` and `GetInt()`, which the code calls after `IsUint()` or
`IsInt()` has held. -/
def GetInt : JsonValue → Int
  | .integer v => v
  | _ => 0

/-- The bit pattern of `GetFloat()`. -/
def GetFloat : JsonValue → Int
  | .real _ asFloat => (asFloat : Int)
  | _ => 0

/-- The C string `GetString()`. -/
def GetString : JsonValue → String
  | .string s => cString s
  | _ => ""

/-- The elements of `GetArray()`. -/
def GetArray : JsonValue → List JsonValue
  | .array elements => elements
  | _ => []

/-- The first member with the name `name`. -/
def FindMember : List (String × JsonValue) → String → Option JsonValue
  | [], _ => none
  | (n, v) :: rest, name => if n = name then some v else FindMember rest name

/-- The call `HasMember(name)`; `none` when the value is not an object, where the library's
assertion fails. -/
def HasMember : JsonValue → String → Option Bool
  | .object members, name => some (FindMember members name).isSome
  | _, _ => none

/-- The call `operator[](name)`; `none` when the value is not an object or has no such member,
where the library's assertion fails. -/
def get : JsonValue → String → Option JsonValue
  | .object members, name => FindMember members name
  | _, _ => none

end JsonValue

/-- The outcome of the two conditions `v.HasMember(name)` and `test(v[name])` that the macros
`assertJsonTwoConditions` and `assertJsonTwoConditionsObj` take: an assertion of the library
fails, one of the conditions is false, or both hold for the member `value`. -/
inductive JsonMember
  | assertion
  | failed
  | found (value : JsonValue)

/-- The two conditions `v.HasMember(name)`, `test(v[name])`, the second evaluated only when the
first holds. -/
def JsonValue.checked (v : JsonValue) (name : String) (test : JsonValue → Bool) : JsonMember :=
  match v.HasMember name with
  | none => .assertion
  | some false => .failed
  | some true =>
    match v.get name with
    | none => .assertion
    | some value => if test value then .found value else .failed

/-- The table `ModbusDataTypeStrings`. -/
def ModbusDataTypeStrings : ModbusDataType → String
  | .UnknownDataType => "unknown"
  | .OneBit => "one_bit"
  | .UInt16 => "uint16_t"
  | .SInt16 => "sint16_t"
  | .UInt32 => "uint32_t"
  | .SInt32 => "sint32_t"
  | .Float32 => "float32"
  | .Char2Byte => "char[2]"
  | .Char4Byte => "char[4]"
  | .UInt16ToFloat => "uint16_to_float"
  | .SInt16ToFloat => "sint16_to_float"
  | .UInt32ToFloat => "uint32_to_float"
  | .SInt32ToFloat => "sint32_to_float"
  | .FileRecord => "file_record"

/-- The enumerators from `FirstDataType` to `LastDataType` in order. -/
def ModbusDataType.all : List ModbusDataType :=
  [.UnknownDataType, .OneBit, .UInt16, .SInt16, .UInt32, .SInt32, .Float32, .Char2Byte,
    .Char4Byte, .UInt16ToFloat, .SInt16ToFloat, .UInt32ToFloat, .SInt32ToFloat, .FileRecord]

/-- The loop of `LoadFromFile` that compares a C string with the entries of
`ModbusDataTypeStrings`: the first enumerator whose entry is equal, `none` when the loop ends
with `dataType == LastDataType + 1`. -/
def findDataType (s : String) : Option ModbusDataType :=
  ModbusDataType.all.find? (fun t => decide (ModbusDataTypeStrings t = s))

/-- Whether the tag is one of the four with a number of decimal places. -/
def ModbusDataType.isToFloat : ModbusDataType → Bool
  | .UInt16ToFloat | .SInt16ToFloat | .UInt32ToFloat | .SInt32ToFloat => true
  | _ => false

/-- The template argument with which the `switch` of `LoadFromFile` calls
`addNewRegMapElement`, and that of `SaveToFile` calls `addDefMinMaxToJSON`; `none` for
`UnknownDataType`. -/
def ModbusDataType.elementType : ModbusDataType → Option ModElType
  | .UnknownDataType => none
  | .OneBit => some .uint8_t
  | .UInt16 | .UInt16ToFloat | .FileRecord => some .uint16_t
  | .SInt16 | .SInt16ToFloat => some .int16_t
  | .UInt32 | .UInt32ToFloat => some .uint32_t
  | .SInt32 | .SInt32ToFloat => some .int32_t
  | .Float32 => some .float
  | .Char2Byte | .Char4Byte => some .string

/-- The overloads of `checkJsonElValueType <T>`, on the member `(*testVal)[stringId]`. -/
def checkJsonElValueType (T : ModElType) (value : JsonValue) : Bool :=
  match T with
  | .uint8_t | .uint16_t | .uint32_t => value.IsUint
  | .int16_t | .int32_t => value.IsInt
  | .float => value.IsFloat
  | .string => value.IsString

/-- The conversion of a number to the integer type `T` on assignment: the value modulo
`2 ^ width`, in the range of the type. A `float` is kept as its bit pattern. -/
def convertTo (T : ModElType) (v : Int) : Int :=
  match T with
  | .uint8_t => v % 256
  | .uint16_t => v % 65536
  | .uint32_t => v % 4294967296
  | .int16_t => (v + 32768) % 65536 - 32768
  | .int32_t => (v + 2147483648) % 4294967296 - 2147483648
  | _ => v

/-- The number that the overloads of `getJsonTypeValue <T>` return for an arithmetic `T`, on the
member `(*testVal)[stringId]`. -/
def getJsonTypeValue (T : ModElType) (value : JsonValue) : Int :=
  match T with
  | .float => value.GetFloat
  | .string => 0
  | _ => convertTo T value.GetInt

/-- The bytes of the string that `getJsonTypeValue <string>` returns. -/
def getJsonStringValue (T : ModElType) (value : JsonValue) : List Nat :=
  match T with
  | .string => value.GetString.data.map Char.toNat
  | _ => []

/-- What the memory of the three local variables `defVal`, `minVal`, `maxVal` holds before they
are assigned. -/
structure Unassigned where
  defVal : Int
  minVal : Int
  maxVal : Int

/-- The value of a local variable of type `T` that has not been assigned: what its memory
holds, as a value of the type, for an arithmetic type; a `string` is default-constructed, for
which the flat element holds 0. -/
def unassignedValue (T : ModElType) (held : Int) : Int :=
  match T with
  | .string => 0
  | _ => convertTo T held

namespace ModbusRegMap

/-- The method `addNewRegMapElement <ElDataType>`: the map afterwards and the returned `bool`;
`none` when an assertion of the library fails. `unassigned` gives what `defVal`, `minVal` and
`maxVal` hold where the method does not assign them. The member `DecimalPoints` is read without
a test for its presence. -/
def addNewRegMapElement (m : ModbusRegMap) (ElDataType : ModElType) (elIterator : JsonValue)
    (jDataType : ModbusDataType) (unassigned : Unassigned) : Option (ModbusRegMap × Bool) :=
  match elIterator.checked "FuncCode" JsonValue.IsUint with
  | .assertion => none
  | .failed => some (m, false)
  | .found funcCode =>
  let jFunctionCode := (funcCode.GetInt % 256).toNat
  match elIterator.checked "Address" JsonValue.IsUint with
  | .assertion => none
  | .failed => some (m, false)
  | .found address =>
  let jRegisterAddress := (address.GetInt % 65536).toNat
  match elIterator.checked "Bytes" JsonValue.IsUint with
  | .assertion => none
  | .failed => some (m, false)
  | .found bytes =>
  let jBytesCount := (bytes.GetInt % 65536).toNat
  match elIterator.checked "RegName" JsonValue.IsString with
  | .assertion => none
  | .failed => some (m, false)
  | .found regName =>
  let jRegisterName := regName.GetString
  match (if jDataType ≠ .FileRecord then elIterator.checked "Unit" JsonValue.IsString
    else .found .null) with
  | .assertion => none
  | .failed => some (m, false)
  | .found unit =>
  let jRegisterUnit : Option String :=
    if jDataType ≠ .FileRecord then some unit.GetString else none
  match (if jDataType ≠ .FileRecord then
      elIterator.checked "Default" (checkJsonElValueType ElDataType)
    else .found .null) with
  | .assertion => none
  | .failed => some (m, false)
  | .found defaultValue =>
  let defVal : Int :=
    if jDataType ≠ .FileRecord then getJsonTypeValue ElDataType defaultValue
    else unassignedValue ElDataType unassigned.defVal
  let defString : List Nat :=
    if jDataType ≠ .FileRecord then getJsonStringValue ElDataType defaultValue else []
  let ranged := jDataType ≠ .Char2Byte ∧ jDataType ≠ .Char4Byte ∧ jDataType ≠ .FileRecord
  match (if ranged then elIterator.checked "Min" (checkJsonElValueType ElDataType)
    else .found .null) with
  | .assertion => none
  | .failed => some (m, false)
  | .found minValue =>
  match (if ranged then elIterator.checked "Max" (checkJsonElValueType ElDataType)
    else .found .null) with
  | .assertion => none
  | .failed => some (m, false)
  | .found maxValue =>
  let minVal : Int :=
    if ranged then getJsonTypeValue ElDataType minValue
    else unassignedValue ElDataType unassigned.minVal
  let maxVal : Int :=
    if ranged then getJsonTypeValue ElDataType maxValue
    else unassignedValue ElDataType unassigned.maxVal
  if ranged ∧ m.checkMinDefMax ElDataType defVal minVal maxVal = false then some (m, false)
  else
  match (if jDataType.isToFloat then
      (match elIterator.get "DecimalPoints" with
        | none => JsonMember.assertion
        | some decimals => if decimals.IsUint then .found decimals else .failed)
    else .found .null) with
  | .assertion => none
  | .failed => some (m, false)
  | .found decimals =>
  let jDecimalPoints := if jDataType.isToFloat then (decimals.GetInt % 256).toNat else 0
  some (m.AddNewElement jFunctionCode jRegisterAddress jDataType jBytesCount
    (some jRegisterName) jDecimalPoints defVal minVal maxVal defString jRegisterUnit)

end ModbusRegMap

/-- What `LoadFromFile` finds at a path: a file that cannot be opened, a file whose content the
parser rejects, or a file with a JSON document. -/
inductive FileContent
  | unavailable
  | unparsable
  | document (root : JsonValue)

namespace ModbusRegMap

/-- The loop of `LoadFromFile` over the elements of `Registers Map` that are left, `k` being
the number of the first of them; `unassigned k` is what the unassigned local variables of the
call of `addNewRegMapElement` for element `k` hold. -/
def LoadFromFile.loop (unassigned : Nat → Unassigned) :
    ModbusRegMap → Nat → List JsonValue → Option (ModbusRegMap × Bool)
  | m, _, [] => some (m, true)
  | m, k, regMapIter :: rest =>
    match regMapIter.checked "DataType" JsonValue.IsString with
    | .assertion => none
    | .failed => some (m.Clear, false)
    | .found dataTypeStr =>
      match findDataType dataTypeStr.GetString with
      | none => some (m.Clear, false)
      | some dataType =>
        match dataType.elementType with
        | none => some (m.Clear, false)
        | some T =>
          match m.addNewRegMapElement T regMapIter dataType (unassigned k) with
          | none => none
          | some (m', false) => some (m'.Clear, false)
          | some (m', true) => LoadFromFile.loop unassigned m' (k + 1) rest

/-- The method `LoadFromFile(sourceFilePath)`, `file` being what is found at the path: the map
afterwards and the returned `bool`; `none` when an assertion of the library fails. The three
early exits come before `this->Clear()`. The array `Registers Map` of a parsed document has the
capacity of its number of elements. -/
def LoadFromFile (m : ModbusRegMap) (sourceFilePath : String) (file : FileContent)
    (unassigned : Nat → Unassigned) : Option (ModbusRegMap × Bool) :=
  if sourceFilePath.length < 7 then some (m, false)
  else
    match file with
    | .unavailable => some (m, false)
    | .unparsable => some (m, false)
    | .document inputDoc =>
      let m := m.Clear
      match inputDoc.checked "Protocol Name" JsonValue.IsString with
      | .assertion => none
      | .failed => some (m.Clear, false)
      | .found protocolName =>
        let m := { m with ProtocolName := protocolName.GetString }
        match inputDoc.checked "Protocol Version" JsonValue.IsString with
        | .assertion => none
        | .failed => some (m.Clear, false)
        | .found protocolVersion =>
          let m := { m with ProtocolVersion := protocolVersion.GetString }
          match inputDoc.checked "Registers Map" JsonValue.IsArray with
          | .assertion => none
          | .failed => some (m.Clear, false)
          | .found jsonVal =>
            if jsonVal.GetArray.length = 0 then some (m.Clear, false)
            else LoadFromFile.loop unassigned m 0 jsonVal.GetArray

/-- The JSON number that `AddMember` makes of a value of the arithmetic type `T`: an integer,
or a real number for a `float`, which is taken to be finite. -/
def jsonNumber (T : ModElType) (v : Int) : JsonValue :=
  match T with
  | .float => .real true v.toNat
  | _ => .integer v

/-- The JSON string that `StringRef(c_str())` makes of the bytes of a string value. -/
def jsonString (bytes : List Nat) : JsonValue :=
  .string (cString (String.mk (bytes.map Char.ofNat)))

/-- The member `Default`, and for an arithmetic type `Min` and `Max`, that `SaveToFile` adds
for an element: by `addDefMinMaxToJSON <T>`, or the string alone for the two string tags. -/
def addDefMinMaxToJSON (T : ModElType) (el : ModbusElement) : List (String × JsonValue) :=
  match T with
  | .string => [("Default", jsonString el.StringValue)]
  | _ =>
    [("Default", jsonNumber T el.DataValue), ("Min", jsonNumber T el.MinDataValue),
      ("Max", jsonNumber T el.MaxDataValue)]

/-- The members of the JSON object that the loop of `SaveToFile` builds for one element, in
the order in which they are added. The `switch` has no case for `FileRecord`, for which no
value is added. -/
def SaveToFile.members (el : ModbusElement) : List (String × JsonValue) :=
  [("FuncCode", .integer el.FunctionCode), ("Address", .integer el.RegisterAddress),
    ("DataType", .string (ModbusDataTypeStrings el.DataType)),
    ("Bytes", .integer el.BytesCount), ("RegName", .string (cString el.RegisterName))]
  ++ (match el.DataType with
      | .FileRecord => []
      | dataType =>
        match dataType.elementType with
        | some T => addDefMinMaxToJSON T el
        | none => [])
  ++ (if el.DataType.isToFloat then [("DecimalPoints", .integer el.DecimalPoints)] else [])
  ++ [("Unit", .string (cString el.RegisterUnit))]

/-- The JSON object that the loop of `SaveToFile` builds for one element; `none` is `throw 0`,
for the tag `UnknownDataType`. -/
def SaveToFile.element (el : ModbusElement) : Option JsonValue :=
  match el.DataType with
  | .UnknownDataType => none
  | _ => some (.object (SaveToFile.members el))

/-- The array that the loop of `SaveToFile` builds; `none` when an element throws. -/
def SaveToFile.elements : List (Nat × ModbusElement) → Option (List JsonValue)
  | [] => some []
  | (_, el) :: rest =>
    match SaveToFile.element el with
    | none => none
    | some value =>
      match SaveToFile.elements rest with
      | none => none
      | some values => some (value :: values)

/-- The method `SaveToFile(sourceFilePath)`, `canOpen` telling whether the file can be opened
for writing: what is found at the path afterwards, `none` when the file has not been touched,
and the returned `bool`. A file that is opened and closed with nothing written is empty, which
the parser rejects. The text that the writer produces for a document is taken to be parsed as
that document again; a `float` value is taken to be finite. -/
def SaveToFile (m : ModbusRegMap) (sourceFilePath : String) (canOpen : Bool) :
    Option FileContent × Bool :=
  if sourceFilePath.length < 7 then (none, false)
  else if !canOpen then (none, false)
  else
    match SaveToFile.elements m.MainRegMap with
    | none => (some .unparsable, false)
    | some values =>
      (some (.document (.object
        [("Protocol Name", .string (cString m.ProtocolName)),
          ("Protocol Version", .string (cString m.ProtocolVersion)),
          ("Registers Map", .array values)])), true)

end ModbusRegMap

/-! ### Elements that a file can hold -/

/-- Whether the number `v` is a value of the type `T`: in the range of an integer type, a bit
pattern of 32 bits for `float`. -/
def ModElType.fits (T : ModElType) (v : Int) : Bool :=
  match T with
  | .uint8_t => decide (0 ≤ v) && decide (v < 256)
  | .uint16_t => decide (0 ≤ v) && decide (v < 65536)
  | .uint32_t => decide (0 ≤ v) && decide (v < 4294967296)
  | .int16_t => decide (-32768 ≤ v) && decide (v < 32768)
  | .int32_t => decide (-2147483648 ≤ v) && decide (v < 2147483648)
  | .float => decide (0 ≤ v) && decide (v < 4294967296)
  | .string => true

namespace ModbusRegMap

/-- An element as the class can hold it and a file can give it back: a known tag, a byte count
and a number of decimal places in the range of their types, a name and a unit without a zero
byte; for a string tag a value of non-zero bytes, for the other tags three values of the native
type, the current value within the range unless the tag is `FileRecord`. -/
def storable (m : ModbusRegMap) (el : ModbusElement) : Bool :=
  decide (el.BytesCount ≠ 0) && decide (el.BytesCount < 65536) &&
    decide (el.DecimalPoints < 256) && decide (cString el.RegisterName = el.RegisterName) &&
    decide (cString el.RegisterUnit = el.RegisterUnit) &&
    match el.DataType.elementType with
    | none => false
    | some .string => el.StringValue.all (fun b => decide (0 < b) && decide (b < 256))
    | some T =>
      T.fits el.DataValue && T.fits el.MinDataValue && T.fits el.MaxDataValue &&
        (decide (el.DataType = .FileRecord) ||
          m.checkMinDefMax T el.DataValue el.MinDataValue el.MaxDataValue)

/-- The relation between an element `el` that `SaveToFile` writes and the element `el'` that
`LoadFromFile` reads back from it: function code, address, tag, byte count and name are those of
`el`; the number of decimal places is that of `el` for a `*ToFloat` tag and 0 otherwise; the
unit is that of `el`, and empty for `FileRecord`; the string value is that of `el` for a string
tag; the current value, the minimum and the maximum are those of `el` for the tags other than
the string tags and `FileRecord`. -/
def readBack (el el' : ModbusElement) : Prop :=
  el'.FunctionCode = el.FunctionCode ∧ el'.RegisterAddress = el.RegisterAddress ∧
    el'.DataType = el.DataType ∧ el'.BytesCount = el.BytesCount ∧
    el'.RegisterName = el.RegisterName ∧
    el'.DecimalPoints = (if el.DataType.isToFloat then el.DecimalPoints else 0) ∧
    el'.RegisterUnit = (if el.DataType = .FileRecord then "" else el.RegisterUnit) ∧
    ((el.DataType = .Char2Byte ∨ el.DataType = .Char4Byte) → el'.StringValue = el.StringValue) ∧
    ((el.DataType ≠ .Char2Byte ∧ el.DataType ≠ .Char4Byte ∧ el.DataType ≠ .FileRecord) →
      el'.DataValue = el.DataValue ∧ el'.MinDataValue = el.MinDataValue ∧
        el'.MaxDataValue = el.MaxDataValue)

end ModbusRegMap

/-! ## Scenarios of the register map -/

/-- A register map as its constructor leaves it: no element, both names empty. -/
def newMap : ModbusRegMap :=
  { MainRegMap := [], ProtocolName := "", ProtocolVersion := "",
    checkMinDefMaxFloat := fun _ _ _ => true }

/-- The arguments that add a `UInt16` register of two bytes under `(fc, addr)` with the value
`value` and the range `[minDataValue, maxDataValue]`. -/
def registerCall (fc addr : Nat) (value minDataValue maxDataValue : Int) : AddNewElementCall :=
  { functionCode := fc, registerAddress := addr, dataType := .UInt16, bytesCount := 2,
    registerName := some "register", decimalPoints := 0, value := value,
    minDataValue := minDataValue, maxDataValue := maxDataValue, stringValue := [],
    registerUnit := some "" }

/-- Four calls: address 5 under the function codes 3 and 1, address 5 under function code 3 a
second time, and address 4 under function code 3. -/
def sameAddressCalls : List AddNewElementCall :=
  [registerCall 3 5 7 0 0xFFFF, registerCall 1 5 8 0 0xFFFF, registerCall 3 5 9 0 0xFFFF,
    registerCall 3 4 10 0 0xFFFF]

/-- The register `(fc=0x10, addr=0x0010)` with the current value `0x1234`. -/
def storedRegister : ModbusElement :=
  { multipleRegister with DataValue := 0x1234 }

/-- The holding register at the last address: `(fc=3, addr=0xFFFF)`, `UInt16`, current value
`0x1234`. -/
def topRegister : ModbusElement :=
  { holdingRegister with RegisterAddress := 0xFFFF }

/-- A register map holding a `UInt16` register with the current value `0x1234` under function
code `fc` at each of the addresses `0` to `n - 1`, in ascending order of the keys. -/
def registersMap (fc n : Nat) : ModbusRegMap :=
  { MainRegMap := (List.range n).map (fun k =>
      (ModbusRegMap.key fc k,
        { holdingRegister with FunctionCode := fc, RegisterAddress := k })),
    ProtocolName := "", ProtocolVersion := "", checkMinDefMaxFloat := fun _ _ _ => true }

/-- A JSON object for a `UInt16` register `(3, address)` with the value `value` and the range
`[0, 100]`. -/
def registerJson (address value : Int) : JsonValue :=
  .object [("FuncCode", .integer 3), ("Address", .integer address),
    ("DataType", .string "uint16_t"), ("Bytes", .integer 2), ("RegName", .string "register"),
    ("Default", .integer value), ("Min", .integer 0), ("Max", .integer 100),
    ("Unit", .string "")]

/-- A document with two registers of which the second has its value above the range. -/
def secondOutOfRange : FileContent :=
  .document (.object [("Protocol Name", .string "test"), ("Protocol Version", .string "1"),
    ("Registers Map", .array [registerJson 16 7, registerJson 17 500])])

/-- Unassigned local variables whose memory holds zeros. -/
def zeroUnassigned : Nat → Unassigned := fun _ => ⟨0, 0, 0⟩

/-- Four calls of `AddNewElement`: a `UInt16` register with two decimal places, a
`UInt16ToFloat` register with one decimal place, a `Char2Byte` element with the value `ab`, and
a `FileRecord` element with the value 7, the range `[0, 0xFFFF]` and the unit `rec`. -/
def mixedCalls : List AddNewElementCall :=
  [{ registerCall 3 0x0010 7 0 100 with decimalPoints := 2 },
    { registerCall 3 0x0011 25 0 100 with dataType := .UInt16ToFloat, decimalPoints := 1 },
    { functionCode := 3, registerAddress := 0x0012, dataType := .Char2Byte, bytesCount := 2,
      registerName := some "text", decimalPoints := 0, value := 0, minDataValue := 0,
      maxDataValue := 0, stringValue := [0x61, 0x62], registerUnit := some "" },
    { functionCode := 20, registerAddress := 0x0001, dataType := .FileRecord, bytesCount := 2,
      registerName := some "file", decimalPoints := 0, value := 7, minDataValue := 0,
      maxDataValue := 0xFFFF, stringValue := [], registerUnit := some "rec" }]

/-- The map that the four calls build. -/
def mixedMap : ModbusRegMap :=
  (newMap.Clear.AddNewElementAll mixedCalls).1

/-! ## CRC-16: the table against the bitwise definition -/

theorem xor_cancel_middle (a b c : Nat) : (a ^^^ c) ^^^ (b ^^^ c) = a ^^^ b := by
  apply Nat.eq_of_testBit_eq
  intro i
  simp only [Nat.testBit_xor]
  cases a.testBit i <;> cases b.testBit i <;> cases c.testBit i <;> rfl

theorem crc16ShiftBit_xor (x y : Nat) :
    crc16ShiftBit (x ^^^ y) = crc16ShiftBit x ^^^ crc16ShiftBit y := by
  unfold crc16ShiftBit
  simp only [Nat.shiftRight_succ, Nat.shiftRight_zero, Nat.xor_div_two, Nat.xor_mod_two_eq_one]
  by_cases hx : x % 2 = 1 <;> by_cases hy : y % 2 = 1
  · rw [if_neg (by simp [hx, hy]), if_pos hx, if_pos hy, xor_cancel_middle]
  · rw [if_pos (by simp [hx, hy]), if_pos hx, if_neg hy, Nat.xor_assoc, Nat.xor_assoc,
      Nat.xor_comm 40961]
  · rw [if_pos (by simp [hx, hy]), if_neg hx, if_pos hy, Nat.xor_assoc]
  · rw [if_neg (by simp [hx, hy]), if_neg hx, if_neg hy]

theorem crc16ShiftBit_iterate_xor (n x y : Nat) :
    crc16ShiftBit^[n] (x ^^^ y) = crc16ShiftBit^[n] x ^^^ crc16ShiftBit^[n] y := by
  induction n generalizing x y with
  | zero => rfl
  | succ n ih => simp only [Function.iterate_succ, Function.comp_apply, crc16ShiftBit_xor, ih]

theorem crc16ShiftBit_iterate_shiftLeft (n h : Nat) :
    crc16ShiftBit^[n] (h <<< n) = h := by
  induction n generalizing h with
  | zero => simp
  | succ n ih =>
    have h2 : h <<< (n + 1) = 2 * (h <<< n) := by
      rw [Nat.shiftLeft_succ]
    have h3 : crc16ShiftBit (h <<< (n + 1)) = h <<< n := by
      unfold crc16ShiftBit
      rw [h2]
      simp [Nat.shiftRight_succ]
    rw [Function.iterate_succ, Function.comp_apply, h3, ih]

theorem crc16_table_low : ∀ lo < 256, crc16ShiftBit^[8] lo = wCRCTable.getD lo 0 := by
  decide

theorem split_low_byte (x : Nat) : x = ((x >>> 8) <<< 8) ^^^ (x % 256) := by
  apply Nat.eq_of_testBit_eq
  intro i
  simp only [Nat.testBit_xor, Nat.testBit_shiftLeft, Nat.testBit_shiftRight]
  have h256 : (256 : Nat) = 2 ^ 8 := by norm_num
  rw [h256, Nat.testBit_mod_two_pow]
  by_cases hi : i < 8
  · have : ¬ (i ≥ 8) := by omega
    simp [hi, this]
  · have h8 : i ≥ 8 := by omega
    have : 8 + (i - 8) = i := by omega
    simp [hi, h8, this]

theorem xor_byte_shiftRight (w b : Nat) (hb : b < 256) : (w ^^^ b) >>> 8 = w >>> 8 := by
  apply Nat.eq_of_testBit_eq
  intro i
  simp only [Nat.testBit_shiftRight, Nat.testBit_xor]
  have : b.testBit (8 + i) = false := by
    apply Nat.testBit_lt_two_pow
    calc b < 256 := hb
      _ = 2 ^ 8 := by norm_num
      _ ≤ 2 ^ (8 + i) := Nat.pow_le_pow_right (by norm_num) (by omega)
  simp [this]

theorem ModbusCRC16_step_eq_reference (w b : Nat) (hb : b < 256) :
    ModbusCRC16.step w b = crc16ReferenceByte w b := by
  unfold ModbusCRC16.step crc16ReferenceByte
  have hsplit := split_low_byte (w ^^^ b)
  have hlow : (w ^^^ b) % 256 < 256 := Nat.mod_lt _ (by norm_num)
  conv_rhs => rw [hsplit]
  rw [crc16ShiftBit_iterate_xor, crc16ShiftBit_iterate_shiftLeft, crc16_table_low _ hlow,
    xor_byte_shiftRight w b hb, Nat.xor_comm b w]

theorem ModbusCRC16_loop_eq_foldl (d : List Nat) (hd : ∀ b ∈ d, b < 256) (w : Nat) :
    ModbusCRC16.loop d d.length w = d.foldl crc16ReferenceByte w := by
  induction d generalizing w with
  | nil => rfl
  | cons b rest ih =>
    simp only [List.length_cons, ModbusCRC16.loop, List.foldl_cons]
    rw [ModbusCRC16_step_eq_reference w b (hd b (List.mem_cons_self _ _))]
    exact ih (fun x hx => hd x (List.mem_cons_of_mem _ hx)) _

/-- C1: for every byte sequence `d` of length below 65536, the table-driven `ModbusCRC16(d, |d|)`
equals the bitwise MODBUS CRC-16 reference (start `0xFFFF`; per byte XOR into the low byte, then
eight times shift right and XOR `0xA001` when the bit shifted out was 1); the CRC of the empty
sequence is `0xFFFF`. -/
theorem ModbusCRC16_eq_reference (d : List Nat) (hbytes : ∀ b ∈ d, b < 256)
    (hlen : d.length < 65536) :
    ModbusCRC16 d d.length = crc16Reference d ∧ ModbusCRC16 [] 0 = 0xFFFF := by
  refine ⟨?_, by decide⟩
  unfold ModbusCRC16 crc16Reference
  rw [Nat.mod_eq_of_lt hlen]
  exact ModbusCRC16_loop_eq_foldl d hbytes _

/-- Witness for `ModbusCRC16_eq_reference`: the request `01 03 00 10 00 01`. -/
theorem ModbusCRC16_eq_reference_witness :
    [1, 3, 0, 0x10, 0, 1].length < 65536 ∧
    (ModbusCRC16 [1, 3, 0, 0x10, 0, 1] [1, 3, 0, 0x10, 0, 1].length
        = crc16Reference [1, 3, 0, 0x10, 0, 1] ∧ ModbusCRC16 [] 0 = 0xFFFF) :=
  ⟨by decide, ModbusCRC16_eq_reference [1, 3, 0, 0x10, 0, 1] (by decide) (by decide)⟩

/-! ## Bytes of a 16-bit word -/

theorem and_255_eq_mod (x : Nat) : x &&& 0x00FF = x % 256 :=
  Nat.and_pow_two_sub_one_eq_mod x 8

theorem and_FF00_shiftRight (x : Nat) : (x &&& 0xFF00) >>> 8 = (x / 256) % 256 := by
  have h : (x &&& 0xFF00) >>> 8 = (x >>> 8) &&& 0x00FF := by
    apply Nat.eq_of_testBit_eq
    intro i
    simp only [Nat.testBit_shiftRight, Nat.testBit_and]
    have h2 : (0xFF00 : Nat).testBit (8 + i) = (0x00FF : Nat).testBit i := by
      have e : (0xFF00 : Nat) = 0x00FF <<< 8 := by decide
      rw [e, Nat.testBit_shiftLeft]
      simp
    rw [h2]
  rw [h, and_255_eq_mod, Nat.shiftRight_eq_div_pow]

theorem word_bytes (lo hi : Nat) (hlo : lo < 256) (hhi : hi < 256) :
    (lo + 256 * hi) &&& 0x00FF = lo ∧ ((lo + 256 * hi) &&& 0xFF00) >>> 8 = hi := by
  rw [and_255_eq_mod, and_FF00_shiftRight]
  omega

theorem wCRCTable_lt : ∀ k < 256, wCRCTable.getD k 0 < 65536 := by
  decide

theorem ModbusCRC16_step_lt (w b : Nat) (hw : w < 65536) : ModbusCRC16.step w b < 65536 := by
  unfold ModbusCRC16.step
  have h1 : w >>> 8 < 2 ^ 16 := by
    rw [Nat.shiftRight_eq_div_pow]
    omega
  have h2 : wCRCTable.getD ((b ^^^ w) % 256) 0 < 2 ^ 16 :=
    wCRCTable_lt _ (Nat.mod_lt _ (by norm_num))
  exact Nat.xor_lt_two_pow h1 h2

theorem ModbusCRC16_loop_lt (d : List Nat) (n w : Nat) (hw : w < 65536) :
    ModbusCRC16.loop d n w < 65536 := by
  induction d generalizing n w with
  | nil => cases n <;> simpa [ModbusCRC16.loop] using hw
  | cons b rest ih =>
    cases n with
    | zero => simpa [ModbusCRC16.loop] using hw
    | succ n =>
      simp only [ModbusCRC16.loop]
      exact ih n _ (ModbusCRC16_step_lt w b hw)

theorem ModbusCRC16_lt (d : List Nat) (n : Nat) : ModbusCRC16 d n < 65536 :=
  ModbusCRC16_loop_lt d _ _ (by norm_num)

theorem ModbusCRC16_mod (d : List Nat) (n : Nat) : ModbusCRC16 d (n % 65536) = ModbusCRC16 d n := by
  unfold ModbusCRC16
  rw [Nat.mod_mod]

/-- A byte sequence ends with the CRC of what precedes it, low byte first. -/
theorem append_crc_ends_with_crc (out : List Nat) (c : Nat) (hc : c = ModbusCRC16 out out.length) :
    let f := out ++ [c &&& 0x00FF, (c &&& 0xFF00) >>> 8]
    2 ≤ f.length ∧
      f.getD (f.length - 2) 0 + 256 * f.getD (f.length - 1) 0
        = ModbusCRC16 (f.take (f.length - 2)) (f.length - 2) := by
  intro f
  have hlen : f.length = out.length + 2 := by simp [f]
  have hc16 : c < 65536 := hc ▸ ModbusCRC16_lt out out.length
  have h0 : f.getD (out.length) 0 = c &&& 0x00FF := by
    rw [List.getD_append_right _ _ _ _ (Nat.le_refl _)]
    simp
  have h1 : f.getD (out.length + 1) 0 = (c &&& 0xFF00) >>> 8 := by
    rw [List.getD_append_right _ _ _ _ (Nat.le_succ _)]
    simp
  have ht : f.take out.length = out := by simp [f]
  refine ⟨by omega, ?_⟩
  have e2 : f.length - 2 = out.length := by omega
  have e1 : f.length - 1 = out.length + 1 := by omega
  rw [e2, e1, h0, h1, ht, ← hc, and_255_eq_mod, and_FF00_shiftRight]
  omega

namespace ModbusProtocolSlave

theorem sendAnswer_sent (s : ModbusProtocolSlave) (map : ModbusRegMap) (buf out : List Nat)
    (address count : Nat) (f : List Nat) (hf : f ∈ (sendAnswer s map buf out address count).2) :
    f = out ++ [ModbusCRC16 out out.length &&& 0x00FF,
      (ModbusCRC16 out out.length &&& 0xFF00) >>> 8] := by
  unfold sendAnswer at hf
  simp only [ModbusCRC16_mod] at hf
  split at hf
  · simpa using hf
  · simp at hf

theorem respond_sent (s s' : ModbusProtocolSlave) (map : ModbusRegMap) (stale : Nat → Nat)
    (buf : List Nat) (sent : List (List Nat)) (f : List Nat)
    (hrun : respond s map stale buf = some (s', sent)) (hf : f ∈ sent) :
    ∃ out, f = out ++ [ModbusCRC16 out out.length &&& 0x00FF,
      (ModbusCRC16 out out.length &&& 0xFF00) >>> 8] := by
  unfold respond at hrun
  simp only at hrun
  split at hrun
  · split at hrun
    · simp only [Option.some.injEq] at hrun
      exact ⟨_, sendAnswer_sent _ _ _ _ _ _ f (by rw [hrun]; exact hf)⟩
    · simp only [Option.some.injEq] at hrun
      exact ⟨_, sendAnswer_sent _ _ _ _ _ _ f (by rw [hrun]; exact hf)⟩
    · simp at hrun
  · simp only [Option.some.injEq] at hrun
    exact ⟨_, sendAnswer_sent _ _ _ _ _ _ f (by rw [hrun]; exact hf)⟩

end ModbusProtocolSlave

/-- C2: every byte sequence `f` that `ModbusProtocolSlave::inputPacketParse` hands to the send
callback ends with its own CRC, low byte first:
`f[len-2] + 256 * f[len-1] = ModbusCRC16(f[0..len-2])`. -/
theorem slave_sent_frame_ends_with_its_crc (s s' : ModbusProtocolSlave) (stale : Nat → Nat)
    (inputBuffer : List Nat) (sent : List (List Nat)) (f : List Nat)
    (hrun : s.inputPacketParse stale inputBuffer = some (s', sent)) (hf : f ∈ sent) :
    2 ≤ f.length ∧
      f.getD (f.length - 2) 0 + 256 * f.getD (f.length - 1) 0
        = ModbusCRC16 (f.take (f.length - 2)) (f.length - 2) := by
  unfold ModbusProtocolSlave.inputPacketParse at hrun
  split at hrun
  · obtain ⟨out, hout⟩ := ModbusProtocolSlave.respond_sent _ _ _ _ _ _ f hrun hf
    rw [hout]
    exact append_crc_ends_with_crc out _ rfl
  · simp only [Option.some.injEq, Prod.mk.injEq] at hrun
    rw [← hrun.2] at hf
    simp at hf

namespace ModbusProtocolSlave

/-- A chunk of eight bytes delivered to an empty input buffer is taken as the packet without any
test: the search range `[begin, end - 8)` is empty and `find_if` returns its start. -/
theorem locatePacket_eight (s : ModbusProtocolSlave) (map : ModbusRegMap) (stale : Nat → Nat)
    (b0 b1 b2 b3 b4 b5 b6 b7 : Nat) (hbuf : s.inputDataBuffer = [])
    (hmax : 8 ≤ s.inputBufferMaxSize) (hmap : s.modbusRegisterMap = some map) :
    s.locatePacket stale [b0, b1, b2, b3, b4, b5, b6, b7]
      = ([b0, b1, b3, b2, b5, b4, b6, b7], true) := by
  unfold locatePacket
  have h1 : ¬ (8 = 0 ∨ 8 > s.inputBufferMaxSize) := by omega
  have h2 : ¬ (0 + 8 > s.inputBufferMaxSize) := by omega
  simp [hbuf, hmap, h1, h2, inputPackTemplateF01F04_Size, find_if, swapBytes]

theorem inputPacketParse_of_locate (s : ModbusProtocolSlave) (map : ModbusRegMap)
    (stale : Nat → Nat) (inputBuffer buf : List Nat)
    (hloc : s.locatePacket stale inputBuffer = (buf, true))
    (hmap : s.modbusRegisterMap = some map) :
    s.inputPacketParse stale inputBuffer = respond s map stale buf := by
  unfold inputPacketParse
  rw [hloc, hmap]

theorem find_if_none (p : Nat → Bool) (n first : Nat)
    (h : ∀ k, first ≤ k → k < first + n → p k = false) : find_if p first n = first + n := by
  induction n generalizing first with
  | zero => rfl
  | succ n ih =>
    simp only [find_if]
    rw [h first (Nat.le_refl _) (by omega), ih (first + 1) (fun k h1 h2 => h k (by omega) (by omega))]
    simp only [Bool.false_eq_true, if_false]
    omega

/-- Resynchronisation on an 8-byte packet: when the input buffer with the chunk appended (within
the capacity) is `g` followed by eight bytes and no offset of `g` passes the frame test, the
bytes `g` are erased and the eight bytes are taken as the packet. -/
theorem locatePacket_after_garbage (s : ModbusProtocolSlave) (map : ModbusRegMap)
    (stale : Nat → Nat) (inputBuffer g : List Nat) (b0 b1 b2 b3 b4 b5 b6 b7 : Nat)
    (hne : inputBuffer ≠ [])
    (hfit : s.inputDataBuffer.length + inputBuffer.length ≤ s.inputBufferMaxSize)
    (hmap : s.modbusRegisterMap = some map)
    (hcat : s.inputDataBuffer ++ inputBuffer = g ++ [b0, b1, b2, b3, b4, b5, b6, b7])
    (hg : ∀ i < g.length,
      checkModbusRequestPos (g ++ [b0, b1, b2, b3, b4, b5, b6, b7]) stale i = false) :
    s.locatePacket stale inputBuffer = ([b0, b1, b3, b2, b5, b4, b6, b7], true) := by
  have hlen : inputBuffer.length ≠ 0 := fun h => hne (List.length_eq_zero.mp h)
  have h1 : ¬ (inputBuffer.length = 0 ∨ inputBuffer.length > s.inputBufferMaxSize) := by omega
  have h2 : ¬ (s.inputDataBuffer.length + inputBuffer.length > s.inputBufferMaxSize) := by omega
  have hfind : find_if (checkModbusRequestPos (g ++ [b0, b1, b2, b3, b4, b5, b6, b7]) stale) 0
      g.length = g.length := by
    rw [find_if_none _ _ _ (fun k _ hk => hg k (by omega))]
    omega
  unfold locatePacket
  simp only [h1, h2, hmap, if_false, Option.isNone_some, Bool.false_eq_true, hcat,
    List.length_append, List.length_cons, List.length_nil, inputPackTemplateF01F04_Size,
    Nat.add_sub_cancel, hfind]
  have h3 : ¬ (g.length + (0 + 1 + 1 + 1 + 1 + 1 + 1 + 1 + 1) < 8) := by omega
  have h4 : ¬ (g.length = g.length + (0 + 1 + 1 + 1 + 1 + 1 + 1 + 1 + 1)) := by omega
  simp only [h3, h4, if_false]
  by_cases hpos : g.length > 0
  · simp [hpos, swapBytes]
  · have hnil : g = [] := List.length_eq_zero.mp (by omega)
    simp [hnil, swapBytes]

theorem inputPacketParse_eight (s : ModbusProtocolSlave) (map : ModbusRegMap) (stale : Nat → Nat)
    (b0 b1 b2 b3 b4 b5 b6 b7 : Nat) (hbuf : s.inputDataBuffer = [])
    (hmax : 8 ≤ s.inputBufferMaxSize) (hmap : s.modbusRegisterMap = some map) :
    s.inputPacketParse stale [b0, b1, b2, b3, b4, b5, b6, b7]
      = respond s map stale [b0, b1, b3, b2, b5, b4, b6, b7] := by
  unfold inputPacketParse
  rw [locatePacket_eight s map stale b0 b1 b2 b3 b4 b5 b6 b7 hbuf hmax hmap, hmap]

end ModbusProtocolSlave

/-- C9: a slave with non-zero address `a` and an empty input buffer that receives the 8-byte
frame `a, c, b2, b3, b4, b5, crc` with `c` outside the eight supported function codes sends
exactly the five bytes `a, c|0x80, 0x01, crc_lo, crc_hi` and leaves the register map unchanged. -/
theorem slave_unknown_function_code (s : ModbusProtocolSlave) (map : ModbusRegMap)
    (stale : Nat → Nat) (a c b2 b3 b4 b5 : Nat) (ha : a ≠ 0) (hc256 : c < 256)
    (hc : c ≠ 0x01 ∧ c ≠ 0x02 ∧ c ≠ 0x03 ∧ c ≠ 0x04 ∧ c ≠ 0x05 ∧ c ≠ 0x06 ∧ c ≠ 0x0F ∧ c ≠ 0x10)
    (haddr : s.deviceAddress = a) (hbuf : s.inputDataBuffer = [])
    (hmax : 8 ≤ s.inputBufferMaxSize) (hmap : s.modbusRegisterMap = some map)
    (hsend : s.sendDataFunc = true) :
    ∃ s', s.inputPacketParse stale
          [a, c, b2, b3, b4, b5, ModbusCRC16 [a, c, b2, b3, b4, b5] 6 % 256,
            ModbusCRC16 [a, c, b2, b3, b4, b5] 6 / 256]
        = some (s', [[a, c ||| 0x80, 0x01, ModbusCRC16 [a, c ||| 0x80, 0x01] 3 % 256,
            ModbusCRC16 [a, c ||| 0x80, 0x01] 3 / 256]]) ∧
      s'.modbusRegisterMap = some map ∧ s'.inputDataBuffer = [] := by
  obtain ⟨h1, h2, h3, h4, h5, h6, h7, h8⟩ := hc
  have hor : (c ||| 0x80) % 256 = c ||| 0x80 :=
    Nat.mod_eq_of_lt (Nat.or_lt_two_pow (n := 8) hc256 (by norm_num))
  have hcrc := ModbusCRC16_lt [a, c ||| 0x80, 0x01] 3
  rw [ModbusProtocolSlave.inputPacketParse_eight s map stale _ _ _ _ _ _ _ _ hbuf hmax hmap]
  simp [ModbusProtocolSlave.respond, ModbusProtocolSlave.dispatch, peek, haddr, h1, h2, h3, h4,
    h5, h6, h7, h8, ModbusProtocolSlave.processingExceptionResponse,
    ModbusProtocolSlave.sendAnswer, hsend, ha, modbusExceptionCode.toByte, hor,
    and_255_eq_mod, and_FF00_shiftRight]
  exact ⟨_, ⟨rfl, by omega⟩, rfl, rfl⟩

namespace ModbusRegMap

theorem find_replace (k : Nat) (el el' : ModbusElement) (l : List (Nat × ModbusElement))
    (h : find k l = some el) : find k (replace k el' l) = some el' := by
  induction l with
  | nil => simp [find] at h
  | cons p rest ih =>
    obtain ⟨k', e⟩ := p
    by_cases hk : k' = k
    · simp [find, replace, hk]
    · simp only [find, hk, if_false] at h
      simp [find, replace, hk, ih h]

/-- A one-byte raw write of `v` to an existing `OneBit` element whose range holds `v` stores
`v`. -/
theorem SetElementValue_OneBit (m : ModbusRegMap) (functionCode registerAddress v : Nat)
    (el : ModbusElement) (hel : m.getModbusElement functionCode registerAddress = some el)
    (hty : el.DataType = .OneBit) (hmin : el.MinDataValue ≤ (v : Int))
    (hmax : (v : Int) ≤ el.MaxDataValue) :
    ∃ m', m.SetElementValue functionCode registerAddress [v] 1 = (m', true) ∧
      m'.getModbusElement functionCode registerAddress = some { el with DataValue := (v : Int) } := by
  let el' : ModbusElement := { el with DataValue := (v : Int) }
  refine ⟨{ m with MainRegMap := replace (key functionCode registerAddress) el' m.MainRegMap },
    ?_, find_replace _ el el' _ hel⟩
  simp [SetElementValue, hel, hty, copyRAWDataToElement, sizeofModElType, rawToValue, leValue,
    checkMinDefMax, hmin, hmax, el']

/-- A two-byte raw write to an existing `UInt16` element whose range holds the little-endian
value of the two bytes stores that value. -/
theorem SetElementValue_UInt16 (m : ModbusRegMap) (functionCode registerAddress lo hi : Nat)
    (rest : List Nat) (el : ModbusElement)
    (hel : m.getModbusElement functionCode registerAddress = some el)
    (hty : el.DataType = .UInt16) (hmin : el.MinDataValue ≤ ((lo + 256 * hi : Nat) : Int))
    (hmax : ((lo + 256 * hi : Nat) : Int) ≤ el.MaxDataValue) :
    ∃ m', m.SetElementValue functionCode registerAddress (lo :: hi :: rest) 2 = (m', true) ∧
      m'.getModbusElement functionCode registerAddress
        = some { el with DataValue := ((lo + 256 * hi : Nat) : Int) } := by
  have hmin' : el.MinDataValue ≤ (lo : Int) + 256 * (hi : Int) := by exact_mod_cast hmin
  have hmax' : (lo : Int) + 256 * (hi : Int) ≤ el.MaxDataValue := by exact_mod_cast hmax
  let el' : ModbusElement := { el with DataValue := ((lo + 256 * hi : Nat) : Int) }
  refine ⟨{ m with MainRegMap := replace (key functionCode registerAddress) el' m.MainRegMap },
    ?_, find_replace _ el el' _ hel⟩
  simp [SetElementValue, hel, hty, copyRAWDataToElement, sizeofModElType, rawToValue, leValue,
    checkMinDefMax, hmin', hmax', el']

end ModbusRegMap

/-- A single write (FC05, FC06) that the register map accepts is echoed and stored: the answer
to the packet `a, fc, addr, value, crc` at the front of the receive buffer (bytes 2, 3 and 4, 5
already exchanged). -/
theorem ModbusProtocolSlave.respond_single_write (s : ModbusProtocolSlave) (map : ModbusRegMap)
    (stale : Nat → Nat) (a fc ah al vh vl cl ch : Nat) (el : ModbusElement)
    (ha : a ≠ 0) (hah : ah < 256) (hal : al < 256) (hvh : vh < 256) (hvl : vl < 256)
    (hcl : cl < 256) (hch : ch < 256)
    (hcrc : cl + 256 * ch = ModbusCRC16 [a, fc, ah, al, vh, vl] 6)
    (haddr : s.deviceAddress = a) (hsend : s.sendDataFunc = true)
    (hel : map.getModbusElement fc (al + 256 * ah) = some el)
    (hcase :
      (fc = 0x05 ∧ el.DataType = .OneBit ∧ ((vh = 0xFF ∧ vl = 0x00) ∨ (vh = 0x00 ∧ vl = 0x00)) ∧
        el.MinDataValue ≤ (if vh = 0xFF then 1 else 0) ∧
        (if vh = 0xFF then 1 else 0) ≤ el.MaxDataValue) ∨
      (fc = 0x06 ∧ el.DataType = .UInt16 ∧ el.MinDataValue ≤ ((vl + 256 * vh : Nat) : Int) ∧
        ((vl + 256 * vh : Nat) : Int) ≤ el.MaxDataValue)) :
    ∃ s' map' el',
      respond s map stale [a, fc, al, ah, vl, vh, cl, ch]
        = some (s', [[a, fc, ah, al, vh, vl, cl, ch]]) ∧
      s'.inputDataBuffer = [] ∧
      s'.modbusRegisterMap = some map' ∧
      map'.getModbusElement fc (al + 256 * ah) = some el' ∧
      el'.DataValue = (if fc = 0x05 then (if vh = 0xFF then 1 else 0)
        else ((vl + 256 * vh : Nat) : Int)) := by
  have hA := word_bytes al ah hal hah
  have hV := word_bytes vl vh hvl hvh
  have hC := word_bytes cl ch hcl hch
  have e1 : (65280 : Nat) &&& 255 = 0 := by decide
  have e2 : ((65280 : Nat) &&& 65280) >>> 8 = 255 := by decide
  rcases hcase with ⟨hfc, hty, hval, hmin, hmx⟩ | ⟨hfc, hty, hmin, hmx⟩
  · subst hfc
    rcases hval with ⟨h1, h2⟩ | ⟨h1, h2⟩
    · subst h1 h2
      obtain ⟨m', hset, hget⟩ := ModbusRegMap.SetElementValue_OneBit map 5 (al + 256 * ah) 1 el
        hel hty (by simpa using hmin) (by simpa using hmx)
      refine ⟨{ s with
                inputDataBuffer := []
                outputDataBuffer := [a, 5, ah, al, 255, 0, cl, ch]
                modbusRegisterMap := some m' }, m', _, ?_, rfl, rfl, hget, by simp⟩
      simp [ModbusProtocolSlave.respond, ModbusProtocolSlave.dispatch, peek, peek16, haddr,
        ModbusProtocolSlave.processingFunc05, hset, ModbusProtocolSlave.sendAnswer, hsend, ha,
        hA.1, hA.2, e1, e2, ← hcrc, hC.1, hC.2, inputPackTemplateF05F06_Size]
    · subst h1 h2
      obtain ⟨m', hset, hget⟩ := ModbusRegMap.SetElementValue_OneBit map 5 (al + 256 * ah) 0 el
        hel hty (by simpa using hmin) (by simpa using hmx)
      refine ⟨{ s with
                inputDataBuffer := []
                outputDataBuffer := [a, 5, ah, al, 0, 0, cl, ch]
                modbusRegisterMap := some m' }, m', _, ?_, rfl, rfl, hget, by simp⟩
      simp [ModbusProtocolSlave.respond, ModbusProtocolSlave.dispatch, peek, peek16, haddr,
        ModbusProtocolSlave.processingFunc05, hset, ModbusProtocolSlave.sendAnswer, hsend, ha,
        hA.1, hA.2, e1, e2, ← hcrc, hC.1, hC.2, inputPackTemplateF05F06_Size]
  · subst hfc
    obtain ⟨m', hset, hget⟩ := ModbusRegMap.SetElementValue_UInt16 map 6 (al + 256 * ah) vl vh
      [cl, ch] el hel hty hmin hmx
    refine ⟨{ s with
                inputDataBuffer := []
                outputDataBuffer := [a, 6, ah, al, vh, vl, cl, ch]
                modbusRegisterMap := some m' }, m', _, ?_, rfl, rfl, hget, by simp⟩
    simp [ModbusProtocolSlave.respond, ModbusProtocolSlave.dispatch, peek, peek16, haddr,
      ModbusProtocolSlave.processingFunc06, hset, ModbusProtocolSlave.sendAnswer, hsend, ha,
      hA.1, hA.2, hV.1, hV.2, ← hcrc, hC.1, hC.2, inputPackTemplateF05F06_Size]

/-- C8: a valid-CRC FC05 or FC06 request addressed to the slave (address byte not zero) whose
target `(fc, reg_addr)` exists and accepts the value (FC05: `0xFF00` or `0x0000` on a `OneBit`
element whose range holds 1 resp. 0; FC06: a `UInt16` element with `min <= value <= max`) is
answered by the eight request bytes verbatim, and afterwards the element's current value is 1 or
0 for FC05 and the big-endian wire value for FC06. The request is the end of what the input
buffer holds after the call's bytes are appended (within the capacity); the bytes `g` before it,
if any, contain no offset that passes the frame test. -/
theorem slave_single_write_echo (s : ModbusProtocolSlave) (map : ModbusRegMap)
    (stale : Nat → Nat) (inputBuffer g : List Nat) (a fc ah al vh vl cl ch : Nat)
    (el : ModbusElement)
    (ha : a ≠ 0) (hah : ah < 256) (hal : al < 256) (hvh : vh < 256) (hvl : vl < 256)
    (hcl : cl < 256) (hch : ch < 256)
    (hcrc : cl + 256 * ch = ModbusCRC16 [a, fc, ah, al, vh, vl] 6)
    (haddr : s.deviceAddress = a) (hmap : s.modbusRegisterMap = some map)
    (hsend : s.sendDataFunc = true)
    (hne : inputBuffer ≠ [])
    (hfit : s.inputDataBuffer.length + inputBuffer.length ≤ s.inputBufferMaxSize)
    (hcat : s.inputDataBuffer ++ inputBuffer = g ++ [a, fc, ah, al, vh, vl, cl, ch])
    (hg : ∀ i < g.length, ModbusProtocolSlave.checkModbusRequestPos
      (g ++ [a, fc, ah, al, vh, vl, cl, ch]) stale i = false)
    (hel : map.getModbusElement fc (al + 256 * ah) = some el)
    (hcase :
      (fc = 0x05 ∧ el.DataType = .OneBit ∧ ((vh = 0xFF ∧ vl = 0x00) ∨ (vh = 0x00 ∧ vl = 0x00)) ∧
        el.MinDataValue ≤ (if vh = 0xFF then 1 else 0) ∧
        (if vh = 0xFF then 1 else 0) ≤ el.MaxDataValue) ∨
      (fc = 0x06 ∧ el.DataType = .UInt16 ∧ el.MinDataValue ≤ ((vl + 256 * vh : Nat) : Int) ∧
        ((vl + 256 * vh : Nat) : Int) ≤ el.MaxDataValue)) :
    ∃ s' map' el',
      s.inputPacketParse stale inputBuffer = some (s', [[a, fc, ah, al, vh, vl, cl, ch]]) ∧
      s'.inputDataBuffer = [] ∧
      s'.modbusRegisterMap = some map' ∧
      map'.getModbusElement fc (al + 256 * ah) = some el' ∧
      el'.DataValue = (if fc = 0x05 then (if vh = 0xFF then 1 else 0)
        else ((vl + 256 * vh : Nat) : Int)) := by
  rw [ModbusProtocolSlave.inputPacketParse_of_locate s map stale inputBuffer _
    (ModbusProtocolSlave.locatePacket_after_garbage s map stale inputBuffer g _ _ _ _ _ _ _ _
      hne hfit hmap hcat hg) hmap]
  exact ModbusProtocolSlave.respond_single_write s map stale a fc ah al vh vl cl ch el ha hah hal
    hvh hvl hcl hch hcrc haddr hsend hel hcase

/-! ## Reads inside the receive buffer do not depend on the memory behind it -/

theorem peek_of_lt (buf : List Nat) (stale stale' : Nat → Nat) (i : Nat) (h : i < buf.length) :
    peek buf stale i = peek buf stale' i := by
  unfold peek
  rw [List.getD_eq_getElem _ _ h, List.getD_eq_getElem _ _ h]

theorem peek16_of_lt (buf : List Nat) (stale stale' : Nat → Nat) (i : Nat)
    (h : i + 1 < buf.length) : peek16 buf stale i = peek16 buf stale' i := by
  unfold peek16
  rw [peek_of_lt buf stale stale' i (by omega), peek_of_lt buf stale stale' (i + 1) h]

namespace ModbusProtocolSlave

/-- The answer to a packet that is not a write-multiple request is computed from the first
eight bytes of the receive buffer alone. -/
theorem respond_stale_irrelevant (s : ModbusProtocolSlave) (map : ModbusRegMap)
    (stale stale' : Nat → Nat) (buf : List Nat) (hlen : 8 ≤ buf.length)
    (hfc : peek buf stale' 1 ≠ 0x0F ∧ peek buf stale' 1 ≠ 0x10) :
    respond s map stale buf = respond s map stale' buf := by
  have h0 := peek_of_lt buf stale stale' 0 (by omega)
  have h1 := peek_of_lt buf stale stale' 1 (by omega)
  have h2 := peek16_of_lt buf stale stale' 2 (by omega)
  have h4 := peek16_of_lt buf stale stale' 4 (by omega)
  simp only [respond, dispatch, processingFunc01_02, processingFunc03_04, processingFunc05,
    processingFunc06, processingExceptionResponse, h0, h1, h2, h4, hfc.1, hfc.2, if_false]

end ModbusProtocolSlave

/-- C8 witness: the write-single-coil request `01 05 00 05 FF 00 9C 3B`, behind the garbage
`DE AD`, to a slave whose map holds the coil under function code `0x05`. -/
theorem slave_single_write_echo_witness :
    ModbusProtocolSlave.checkModbusRequestPos
      ([0xDE, 0xAD] ++ [0x01, 0x05, 0x00, 0x05, 0xFF, 0x00, 0x9C, 0x3B]) zeroMemory 0 = false ∧
    ModbusProtocolSlave.checkModbusRequestPos
      ([0xDE, 0xAD] ++ [0x01, 0x05, 0x00, 0x05, 0xFF, 0x00, 0x9C, 0x3B]) zeroMemory 1 = false ∧
    0x9C + 256 * 0x3B = ModbusCRC16 [0x01, 0x05, 0x00, 0x05, 0xFF, 0x00] 6 ∧
    ∃ s' map' el',
      (slaveWith (singletonMap (coil 5))).inputPacketParse zeroMemory
          [0xDE, 0xAD, 0x01, 0x05, 0x00, 0x05, 0xFF, 0x00, 0x9C, 0x3B]
        = some (s', [[0x01, 0x05, 0x00, 0x05, 0xFF, 0x00, 0x9C, 0x3B]]) ∧
      s'.inputDataBuffer = [] ∧
      s'.modbusRegisterMap = some map' ∧
      map'.getModbusElement 0x05 (0x05 + 256 * 0x00) = some el' ∧
      el'.DataValue = (if 0x05 = 0x05 then (if 0xFF = 0xFF then 1 else 0)
        else ((0x00 + 256 * 0xFF : Nat) : Int)) :=
  ⟨by decide, by decide, by decide,
    slave_single_write_echo (slaveWith (singletonMap (coil 5))) (singletonMap (coil 5))
      zeroMemory [0xDE, 0xAD, 0x01, 0x05, 0x00, 0x05, 0xFF, 0x00, 0x9C, 0x3B] [0xDE, 0xAD]
      0x01 0x05 0x00 0x05 0xFF 0x00 0x9C 0x3B (coil 5) (by decide) (by decide) (by decide)
      (by decide) (by decide) (by decide) (by decide) (by decide) rfl rfl rfl (by decide)
      (by decide) rfl (by decide) (by decide) (Or.inl (by decide))⟩

/-- C9 witness: slave address 1 receives `01 07 00 00 00 00 B4 0A` and answers
`01 87 01 82 30`. -/
theorem slave_unknown_function_code_witness :
    ∃ s', (slaveWith (singletonMap holdingRegister)).inputPacketParse zeroMemory
          [0x01, 0x07, 0x00, 0x00, 0x00, 0x00,
            ModbusCRC16 [0x01, 0x07, 0x00, 0x00, 0x00, 0x00] 6 % 256,
            ModbusCRC16 [0x01, 0x07, 0x00, 0x00, 0x00, 0x00] 6 / 256]
        = some (s', [[0x01, 0x07 ||| 0x80, 0x01, ModbusCRC16 [0x01, 0x07 ||| 0x80, 0x01] 3 % 256,
            ModbusCRC16 [0x01, 0x07 ||| 0x80, 0x01] 3 / 256]]) ∧
      s'.modbusRegisterMap = some (singletonMap holdingRegister) ∧ s'.inputDataBuffer = [] :=
  slave_unknown_function_code (slaveWith (singletonMap holdingRegister))
    (singletonMap holdingRegister) zeroMemory 0x01 0x07 0x00 0x00 0x00 0x00 (by decide)
    (by decide) (by decide) rfl rfl (by decide) rfl rfl

/-- C2 witness: the answer `01 03 02 12 34 B5 33` of the read scenario. -/
theorem slave_sent_frame_ends_with_its_crc_witness :
    (slaveWith (singletonMap holdingRegister)).inputPacketParse zeroMemory
        [0x01, 0x03, 0x00, 0x10, 0x00, 0x01, 0x85, 0xCF]
      = some ({ slaveWith (singletonMap holdingRegister) with
                outputDataBuffer := [0x01, 0x03, 0x02, 0x12, 0x34, 0xB5, 0x33] },
              [[0x01, 0x03, 0x02, 0x12, 0x34, 0xB5, 0x33]]) ∧
    [0x01, 0x03, 0x02, 0x12, 0x34, 0xB5, 0x33] ∈ [[0x01, 0x03, 0x02, 0x12, 0x34, 0xB5, 0x33]] ∧
    (2 ≤ [0x01, 0x03, 0x02, 0x12, 0x34, 0xB5, 0x33].length ∧
      [0x01, 0x03, 0x02, 0x12, 0x34, 0xB5, 0x33].getD
          ([0x01, 0x03, 0x02, 0x12, 0x34, 0xB5, 0x33].length - 2) 0
        + 256 * [0x01, 0x03, 0x02, 0x12, 0x34, 0xB5, 0x33].getD
          ([0x01, 0x03, 0x02, 0x12, 0x34, 0xB5, 0x33].length - 1) 0
        = ModbusCRC16 ([0x01, 0x03, 0x02, 0x12, 0x34, 0xB5, 0x33].take
            ([0x01, 0x03, 0x02, 0x12, 0x34, 0xB5, 0x33].length - 2))
          ([0x01, 0x03, 0x02, 0x12, 0x34, 0xB5, 0x33].length - 2)) :=
  ⟨rfl, List.mem_singleton.mpr rfl,
    slave_sent_frame_ends_with_its_crc (slaveWith (singletonMap holdingRegister))
      { slaveWith (singletonMap holdingRegister) with
        outputDataBuffer := [0x01, 0x03, 0x02, 0x12, 0x34, 0xB5, 0x33] }
      zeroMemory [0x01, 0x03, 0x00, 0x10, 0x00, 0x01, 0x85, 0xCF]
      [[0x01, 0x03, 0x02, 0x12, 0x34, 0xB5, 0x33]] [0x01, 0x03, 0x02, 0x12, 0x34, 0xB5, 0x33]
      rfl (List.mem_singleton.mpr rfl)⟩

/-- C6 (amended): with slave address 1 and a map holding `(fc=3, addr=0x0010)` of type `UInt16`
with current value `0x1234`, on receiving `01 03 00 10 00 01 85 CF` the slave sends exactly
`01 03 02 12 34 B5 33`: the raw read returns `34 12` and the bytes are appended in the reverse
of that order, most significant byte first; the register map is unchanged. -/
theorem slave_read_holding_scenario (stale : Nat → Nat) :
    (singletonMap holdingRegister).GetElementValue 3 0x0010 4 = some [0x34, 0x12] ∧
    ∃ s', (slaveWith (singletonMap holdingRegister)).inputPacketParse stale
          [0x01, 0x03, 0x00, 0x10, 0x00, 0x01, 0x85, 0xCF]
        = some (s', [[0x01, 0x03, 0x02, 0x12, 0x34, 0xB5, 0x33]]) ∧
      s'.modbusRegisterMap = some (singletonMap holdingRegister) := by
  refine ⟨by decide, ?_⟩
  rw [ModbusProtocolSlave.inputPacketParse_eight _ (singletonMap holdingRegister) stale _ _ _ _ _
    _ _ _ rfl (by decide) rfl,
    ModbusProtocolSlave.respond_stale_irrelevant _ _ stale zeroMemory _ (by decide) (by decide)]
  exact ⟨_, rfl, rfl⟩

/-- C6 (as stated, refuted): in the read scenario the bytes sent are not
`01 03 02 34 12 B5 34`. -/
theorem slave_read_holding_scenario_not_raw_order :
    ((slaveWith (singletonMap holdingRegister)).inputPacketParse zeroMemory
        [0x01, 0x03, 0x00, 0x10, 0x00, 0x01, 0x85, 0xCF]).map (fun r => r.2)
      ≠ some [[0x01, 0x03, 0x02, 0x34, 0x12, 0xB5, 0x34]] := by
  decide

/-- C7 (amended): the function code of the request is part of the lookup key verbatim. With
slave address 1 and a map whose only coil entry is `(fc=5, addr=0x0005)`, `OneBit`, current 0,
after the slave receives `01 05 00 05 FF 00 9C 3B` the current value is 1 and the bytes sent are
exactly the request. With the only coil entry stored under function code `0x01` the write does
not reach it: the slave sends the exception `01 85 02 C3 51` and the current value stays 0. -/
theorem slave_write_single_coil_scenario (stale : Nat → Nat) :
    (∃ s', (slaveWith (singletonMap (coil 5))).inputPacketParse stale
          [0x01, 0x05, 0x00, 0x05, 0xFF, 0x00, 0x9C, 0x3B]
        = some (s', [[0x01, 0x05, 0x00, 0x05, 0xFF, 0x00, 0x9C, 0x3B]]) ∧
      s'.currentValue 5 0x0005 = some 1) ∧
    (∃ s', (slaveWith (singletonMap (coil 1))).inputPacketParse stale
          [0x01, 0x05, 0x00, 0x05, 0xFF, 0x00, 0x9C, 0x3B]
        = some (s', [[0x01, 0x85, 0x02, 0xC3, 0x51]]) ∧
      s'.currentValue 1 0x0005 = some 0 ∧
      s'.modbusRegisterMap = some (singletonMap (coil 1))) := by
  constructor
  · rw [ModbusProtocolSlave.inputPacketParse_eight _ (singletonMap (coil 5)) stale _ _ _ _ _
      _ _ _ rfl (by decide) rfl,
      ModbusProtocolSlave.respond_stale_irrelevant _ _ stale zeroMemory _ (by decide) (by decide)]
    exact ⟨_, rfl, rfl⟩
  · rw [ModbusProtocolSlave.inputPacketParse_eight _ (singletonMap (coil 1)) stale _ _ _ _ _
      _ _ _ rfl (by decide) rfl,
      ModbusProtocolSlave.respond_stale_irrelevant _ _ stale zeroMemory _ (by decide) (by decide)]
    exact ⟨_, rfl, rfl, rfl⟩

/-- C7 (as stated, refuted): with the only coil entry stored under function code `0x01`, the
request `01 05 00 05 FF 00 9C 3B` is not echoed and the coil's current value does not become
1. -/
theorem slave_write_single_coil_scenario_no_family :
    ((slaveWith (singletonMap (coil 1))).inputPacketParse zeroMemory
        [0x01, 0x05, 0x00, 0x05, 0xFF, 0x00, 0x9C, 0x3B]).map
        (fun r => (r.2, r.1.currentValue 1 0x0005))
      ≠ some ([[0x01, 0x05, 0x00, 0x05, 0xFF, 0x00, 0x9C, 0x3B]], some 1) := by
  decide

/-! ## Master request encoding -/

/-- The request of `requestFunc_01_02_03_04` is its six-byte header followed by the high byte
and then the low byte of the CRC of the header. -/
theorem ModbusProtocolMaster.request_crc_bytes (a fc start quantity : Nat) :
    requestFunc_01_02_03_04.request a fc start quantity
      = [a, fc, (start >>> 8) % 256, start % 256, (quantity >>> 8) % 256, quantity % 256] ++
        [ModbusCRC16 [a, fc, (start >>> 8) % 256, start % 256, (quantity >>> 8) % 256,
            quantity % 256] 6 / 256,
          ModbusCRC16 [a, fc, (start >>> 8) % 256, start % 256, (quantity >>> 8) % 256,
            quantity % 256] 6 % 256] := by
  have h := ModbusCRC16_lt [a, fc, (start >>> 8) % 256, start % 256, (quantity >>> 8) % 256,
    quantity % 256] 6
  have e : ∀ c : Nat, c < 65536 → (c >>> 8) % 256 = c / 256 := by
    intro c hc
    rw [Nat.shiftRight_eq_div_pow]
    omega
  unfold requestFunc_01_02_03_04.request
  simp only [e _ h]

/-- C3 (the code at a failing input): for device address 1 the read request `fc=3`,
`start=0x0010`, `quantity=1` is emitted as `01 03 00 10 00 01 CF 85`, and the write request
`fc=6` for a register holding `0x1234` at `0x0010` as `01 06 00 10 12 34 78 85`: the CRC of the
first six bytes is `0xCF85` resp. `0x7885`, and its low byte is the last byte of the frame, not
the last but one. The slave's frame check, which reads the CRC low byte first, rejects both
frames. -/
theorem master_request_crc_high_byte_first :
    ModbusProtocolMaster.requestFunc_01_02_03_04.request 1 3 0x0010 1
      = [0x01, 0x03, 0x00, 0x10, 0x00, 0x01, 0xCF, 0x85] ∧
    ModbusCRC16 [0x01, 0x03, 0x00, 0x10, 0x00, 0x01] 6 = 0xCF85 ∧
    ModbusProtocolMaster.requestFunc_05_06.request
        (singletonMap writeRegister) 1 6 0x0010
      = some [0x01, 0x06, 0x00, 0x10, 0x12, 0x34, 0x78, 0x85] ∧
    ModbusCRC16 [0x01, 0x06, 0x00, 0x10, 0x12, 0x34] 6 = 0x7885 ∧
    ModbusProtocolSlave.checkModbusRequestPos
      [0x01, 0x03, 0x00, 0x10, 0x00, 0x01, 0xCF, 0x85] zeroMemory 0 = false ∧
    ModbusProtocolSlave.checkModbusRequestPos
      [0x01, 0x06, 0x00, 0x10, 0x12, 0x34, 0x78, 0x85] zeroMemory 0 = false := by
  decide

/-! ## The packet search -/

theorem memRead_of_le (buf : List Nat) (stale stale' : Nat → Nat) (pos n : Nat)
    (h : pos + n ≤ buf.length) : memRead buf stale pos n = memRead buf stale' pos n := by
  unfold memRead
  apply List.map_congr_left
  intro k hk
  exact peek_of_lt buf stale stale' (pos + k) (by have := List.mem_range.mp hk; omega)

theorem find_if_congr (p q : Nat → Bool) (n first : Nat)
    (h : ∀ k, first ≤ k → k < first + n → p k = q k) : find_if p first n = find_if q first n := by
  induction n generalizing first with
  | zero => rfl
  | succ n ih =>
    simp only [find_if]
    rw [h first (Nat.le_refl _) (by omega), ih (first + 1) (fun k h1 h2 => h k (by omega) (by omega))]

namespace ModbusProtocolSlave

/-- The frame test at a position reads inside the receive buffer when eight bytes are left
there and, for a write-multiple function code, the declared length with its CRC is inside
as well; it does not depend on the memory behind the buffer then. -/
theorem checkModbusRequestPos_of_inside (buf : List Nat) (stale stale' : Nat → Nat) (i : Nat)
    (h8 : i + 8 ≤ buf.length)
    (h15 : (peek buf stale' (i + 1) ≠ 0x0F ∧ peek buf stale' (i + 1) ≠ 0x10) ∨
      i + (peek buf stale' (i + 6) + 7) % 65536 + 2 ≤ buf.length) :
    checkModbusRequestPos buf stale i = checkModbusRequestPos buf stale' i := by
  have h1 := peek_of_lt buf stale stale' (i + 1) (by omega)
  have h6 := peek_of_lt buf stale stale' (i + 6) (by omega)
  have hc := peek16_of_lt buf stale stale' (i + 6) (by omega)
  have hm := memRead_of_le buf stale stale' i 6 (by omega)
  have e : inputPackTemplateF01F04_Size - 2 = 6 := rfl
  have e' : inputPackTemplateF05F06_Size - 2 = 6 := rfl
  have hA : checkModbusRequestPos_F01ToF04 buf stale i
      = checkModbusRequestPos_F01ToF04 buf stale' i := by
    simp only [checkModbusRequestPos_F01ToF04, h1, hc, hm, e]
  have hB : checkModbusRequestPos_F05ToF06 buf stale i
      = checkModbusRequestPos_F05ToF06 buf stale' i := by
    simp only [checkModbusRequestPos_F05ToF06, h1, hc, hm, e']
  have hC : checkModbusRequestPos_F15ToF16 buf stale i
      = checkModbusRequestPos_F15ToF16 buf stale' i := by
    rcases h15 with hne | hin
    · have hif : (peek buf stale' (i + 1) ≠ 0x0F ∧ peek buf stale' (i + 1) ≠ 0x10) := hne
      unfold checkModbusRequestPos_F15ToF16
      simp only [h1, if_pos hif]
    · have hm' := memRead_of_le buf stale stale' i
        ((peek buf stale' (i + 6) + inputPackTemplateF15F16_Size) % 65536)
        (by simp only [inputPackTemplateF15F16_Size]; omega)
      have hc' := peek16_of_lt buf stale stale'
        (i + (peek buf stale' (i + 6) + inputPackTemplateF15F16_Size) % 65536)
        (by simp only [inputPackTemplateF15F16_Size]; omega)
      simp only [checkModbusRequestPos_F15ToF16, h1, h6, hm', hc']
  simp only [checkModbusRequestPos, hA, hB, hC]

/-- The search for a packet in a chunk delivered to an empty input buffer does not depend on
the memory behind the buffer when every tested position reads inside the chunk. -/
theorem locatePacket_stale_irrelevant (s : ModbusProtocolSlave) (stale stale' : Nat → Nat)
    (inputBuffer : List Nat) (hbuf : s.inputDataBuffer = [])
    (hin : ∀ i < inputBuffer.length - 8,
      (peek inputBuffer stale' (i + 1) ≠ 0x0F ∧ peek inputBuffer stale' (i + 1) ≠ 0x10) ∨
      i + (peek inputBuffer stale' (i + 6) + 7) % 65536 + 2 ≤ inputBuffer.length) :
    s.locatePacket stale inputBuffer = s.locatePacket stale' inputBuffer := by
  have hfind : find_if (checkModbusRequestPos inputBuffer stale) 0
        (inputBuffer.length - inputPackTemplateF01F04_Size)
      = find_if (checkModbusRequestPos inputBuffer stale') 0
        (inputBuffer.length - inputPackTemplateF01F04_Size) := by
    apply find_if_congr
    intro k _ hk
    have hk' : k < inputBuffer.length - 8 := by
      simp only [inputPackTemplateF01F04_Size] at hk
      omega
    exact checkModbusRequestPos_of_inside inputBuffer stale stale' k (by omega) (hin k hk')
  simp only [locatePacket, hbuf, List.drop_nil, List.nil_append, ite_self, hfind]

end ModbusProtocolSlave

/-! ## Scenarios in which the code departs from the specification -/

namespace ModbusProtocolSlave

theorem respond_of_dispatch_returned (s : ModbusProtocolSlave) (map map' : ModbusRegMap)
    (stale : Nat → Nat) (buf out : List Nat) (n : Nat)
    (haddr : peek buf stale 0 = s.deviceAddress)
    (hd : dispatch map [peek buf stale 0] buf stale = (map', .returned (out, n))) :
    respond s map stale buf = some (sendAnswer s map' buf out (peek buf stale 0) n) := by
  unfold respond
  simp only [haddr, true_or, if_true]
  rw [haddr] at hd
  rw [hd]

/-- A write-multiple-coils request for one coil that the register map accepts with either
value: the handler reads the data byte at offset 49 of the packet and returns 8, the length of
the request without its CRC. -/
theorem dispatch_write_one_coil (map : ModbusRegMap) (out buf : List Nat)
    (stale : Nat → Nat) (start : Nat)
    (h1 : peek buf stale 1 = 0x0F) (h2 : peek16 buf stale 2 = start)
    (h4 : peek16 buf stale 4 = 1) (h6 : peek buf stale 6 = 1) (hstart : start ≤ 0xFFFF)
    (hset : ∀ v, v = 0 ∨ v = 1 → (map.SetElementValue 0x0F start [v] 1).2 = true) :
    ∃ map', dispatch map out buf stale
      = (map', .returned (out ++ [0x0F, (start &&& 0xFF00) >>> 8, start &&& 0x00FF, 0, 1], 8)) := by
  have hmod : start % 65536 = start := by omega
  have hrange : ¬ (65535 < start) := by omega
  have hv : (if peek buf stale 49 % 2 = 1 then 1 else 0) = 0 ∨
      (if peek buf stale 49 % 2 = 1 then 1 else 0) = 1 := by
    split
    · exact Or.inr rfl
    · exact Or.inl rfl
  have hs := hset _ hv
  refine ⟨(map.SetElementValue 0x0F start
    [if peek buf stale 49 % 2 = 1 then 1 else 0] 1).1, ?_⟩
  simp only [dispatch, h1, processingFunc15, h2, h4, h6]
  simp [hrange, processingFunc15.loop, processingFunc15.bits, inputPackTemplateF15F16_Size,
    hmod, hs]

end ModbusProtocolSlave


theorem coil15_set : ∀ v, v = 0 ∨ v = 1 →
    ((singletonMap (coil 15)).SetElementValue 0x0F 5 [v] 1).2 = true := by
  intro v hv
  rcases hv with rfl | rfl <;> rfl

/-- C4 (the code at a failing input): the slave (address 1, the coil `(fc=0x0F, addr=0x0005)` in
its map, empty input buffer) receives in one call the garbage `DE AD` followed by the valid
write-multiple-coils request `01 0F 00 05 00 01 01 01 23 57`. No garbage offset passes the frame
test, the request is answered once with `01 0F 00 05 00 01 84 0A`, and the input buffer is then
not empty: `processingFunc15` returns `7 + bytesCount`, two bytes less than the length of the
request, and the two CRC bytes `23 57` stay behind. This holds whatever the memory behind the
buffer holds. The 8-byte request of the claim's own example, `DE AD 01 05 00 05 FF 00 9C 3B`
with the coil stored under function code `0x05`, is answered once and leaves the buffer
empty. -/
theorem slave_write_multiple_leaves_crc_bytes (stale : Nat → Nat) :
    ModbusCRC16 [0x01, 0x0F, 0x00, 0x05, 0x00, 0x01, 0x01, 0x01] 8 = 0x23 + 256 * 0x57 ∧
    (∀ i < 2, ModbusProtocolSlave.checkModbusRequestPos
      [0xDE, 0xAD, 0x01, 0x0F, 0x00, 0x05, 0x00, 0x01, 0x01, 0x01, 0x23, 0x57] zeroMemory i
        = false) ∧
    (∃ s', (slaveWith (singletonMap (coil 5))).inputPacketParse stale
          [0xDE, 0xAD, 0x01, 0x05, 0x00, 0x05, 0xFF, 0x00, 0x9C, 0x3B]
        = some (s', [[0x01, 0x05, 0x00, 0x05, 0xFF, 0x00, 0x9C, 0x3B]]) ∧
      s'.inputDataBuffer = []) ∧
    ∃ s', (slaveWith (singletonMap (coil 15))).inputPacketParse stale
          [0xDE, 0xAD, 0x01, 0x0F, 0x00, 0x05, 0x00, 0x01, 0x01, 0x01, 0x23, 0x57]
        = some (s', [[0x01, 0x0F, 0x00, 0x05, 0x00, 0x01, 0x84, 0x0A]]) ∧
      s'.inputDataBuffer = [0x23, 0x57] := by
  refine ⟨by decide, by decide, ?_, ?_⟩
  · have hloc : (slaveWith (singletonMap (coil 5))).locatePacket stale
        [0xDE, 0xAD, 0x01, 0x05, 0x00, 0x05, 0xFF, 0x00, 0x9C, 0x3B]
        = ([0x01, 0x05, 0x05, 0x00, 0x00, 0xFF, 0x9C, 0x3B], true) := by
      rw [ModbusProtocolSlave.locatePacket_stale_irrelevant _ stale zeroMemory _ rfl (by decide)]
      rfl
    rw [ModbusProtocolSlave.inputPacketParse_of_locate _ (singletonMap (coil 5)) stale _ _ hloc
      rfl, ModbusProtocolSlave.respond_stale_irrelevant _ _ stale zeroMemory _ (by decide)
      (by decide)]
    exact ⟨_, rfl, rfl⟩
  have hloc : (slaveWith (singletonMap (coil 15))).locatePacket stale
      [0xDE, 0xAD, 0x01, 0x0F, 0x00, 0x05, 0x00, 0x01, 0x01, 0x01, 0x23, 0x57]
      = ([0x01, 0x0F, 0x05, 0x00, 0x01, 0x00, 0x01, 0x01, 0x23, 0x57], true) := by
    rw [ModbusProtocolSlave.locatePacket_stale_irrelevant _ stale zeroMemory _ rfl (by decide)]
    rfl
  obtain ⟨m', hd⟩ := ModbusProtocolSlave.dispatch_write_one_coil (singletonMap (coil 15))
    [peek [0x01, 0x0F, 0x05, 0x00, 0x01, 0x00, 0x01, 0x01, 0x23, 0x57] stale 0]
    [0x01, 0x0F, 0x05, 0x00, 0x01, 0x00, 0x01, 0x01, 0x23, 0x57] stale 5 rfl rfl rfl rfl
    (by decide) coil15_set
  have h0 : peek [0x01, 0x0F, 0x05, 0x00, 0x01, 0x00, 0x01, 0x01, 0x23, 0x57] stale 0 = 1 := rfl
  rw [ModbusProtocolSlave.inputPacketParse_of_locate _ (singletonMap (coil 15)) stale _ _ hloc
    rfl, ModbusProtocolSlave.respond_of_dispatch_returned _ _ m' stale _ _ _ rfl hd, h0]
  refine ⟨{ slaveWith (singletonMap (coil 15)) with
            inputDataBuffer := [0x23, 0x57]
            outputDataBuffer := [0x01, 0x0F, 0x00, 0x05, 0x00, 0x01, 0x84, 0x0A]
            modbusRegisterMap := some m' }, ?_, rfl⟩
  simp [ModbusProtocolSlave.sendAnswer, slaveWith]
  decide

/-- C5 (the code at a failing input): an 8-byte sequence whose address byte is the slave's
address and whose last two bytes are not the CRC of the first six, delivered to a slave with an
empty input buffer, is dispatched all the same: the search range `[begin, end - 8)` is empty,
`find_if` returns `end - 8`, which the code compares with `end`, and no frame test runs.
`01 03 00 10 00 01 00 00` (CRC would be `85 CF`) is answered with `01 03 02 12 34 B5 33`, and
`01 06 00 10 AB CD 00 00` (CRC would be `36 AA`) changes the register to `0xABCD` and is
answered with `01 06 00 10 AB CD 36 AA`. -/
theorem slave_dispatches_without_crc_check (stale : Nat → Nat) :
    ModbusCRC16 [0x01, 0x03, 0x00, 0x10, 0x00, 0x01] 6 = 0x85 + 256 * 0xCF ∧
    (∃ s', (slaveWith (singletonMap holdingRegister)).inputPacketParse stale
          [0x01, 0x03, 0x00, 0x10, 0x00, 0x01, 0x00, 0x00]
        = some (s', [[0x01, 0x03, 0x02, 0x12, 0x34, 0xB5, 0x33]])) ∧
    ModbusCRC16 [0x01, 0x06, 0x00, 0x10, 0xAB, 0xCD] 6 = 0x36 + 256 * 0xAA ∧
    (∃ s', (slaveWith (singletonMap writeRegister)).inputPacketParse stale
          [0x01, 0x06, 0x00, 0x10, 0xAB, 0xCD, 0x00, 0x00]
        = some (s', [[0x01, 0x06, 0x00, 0x10, 0xAB, 0xCD, 0x36, 0xAA]]) ∧
      (slaveWith (singletonMap writeRegister)).currentValue 6 0x0010 = some 0x1234 ∧
      s'.currentValue 6 0x0010 = some 0xABCD) := by
  refine ⟨by decide, ?_, by decide, ?_⟩
  · rw [ModbusProtocolSlave.inputPacketParse_eight _ (singletonMap holdingRegister) stale _ _ _ _
      _ _ _ _ rfl (by decide) rfl,
      ModbusProtocolSlave.respond_stale_irrelevant _ _ stale zeroMemory _ (by decide) (by decide)]
    exact ⟨_, rfl⟩
  · rw [ModbusProtocolSlave.inputPacketParse_eight _ (singletonMap writeRegister) stale _ _ _ _
      _ _ _ _ rfl (by decide) rfl,
      ModbusProtocolSlave.respond_stale_irrelevant _ _ stale zeroMemory _ (by decide) (by decide)]
    exact ⟨_, rfl, rfl, rfl⟩

/-- C10 (the code at a failing input): the slave (address 1) answers the read request
`01 03 00 10 00 01 85 CF` with `01 03 02 12 34 B5 33`, which stays in `outputDataBuffer`. The
valid request `02 03 00 10 00 01 85 FC`, addressed to device 2, is then not dispatched, but the
send condition only asks for a non-empty `outputDataBuffer` and a non-zero address byte: the
send callback is called once, with the previous answer and a CRC appended to it,
`01 03 02 12 34 B5 33 00 00`. The register map is unchanged. -/
theorem slave_resends_previous_answer_on_foreign_address (stale₁ stale₂ : Nat → Nat) :
    ModbusCRC16 [0x02, 0x03, 0x00, 0x10, 0x00, 0x01] 6 = 0x85 + 256 * 0xFC ∧
    ∃ s₁ s₂,
      (slaveWith (singletonMap holdingRegister)).inputPacketParse stale₁
          [0x01, 0x03, 0x00, 0x10, 0x00, 0x01, 0x85, 0xCF]
        = some (s₁, [[0x01, 0x03, 0x02, 0x12, 0x34, 0xB5, 0x33]]) ∧
      s₁.inputPacketParse stale₂ [0x02, 0x03, 0x00, 0x10, 0x00, 0x01, 0x85, 0xFC]
        = some (s₂, [[0x01, 0x03, 0x02, 0x12, 0x34, 0xB5, 0x33, 0x00, 0x00]]) ∧
      s₂.modbusRegisterMap = some (singletonMap holdingRegister) := by
  refine ⟨by decide, { slaveWith (singletonMap holdingRegister) with
      outputDataBuffer := [0x01, 0x03, 0x02, 0x12, 0x34, 0xB5, 0x33] }, ?_⟩
  rw [ModbusProtocolSlave.inputPacketParse_eight _ (singletonMap holdingRegister) stale₁ _ _ _ _
      _ _ _ _ rfl (by decide) rfl,
    ModbusProtocolSlave.respond_stale_irrelevant _ _ stale₁ zeroMemory _ (by decide) (by decide),
    ModbusProtocolSlave.inputPacketParse_eight _ (singletonMap holdingRegister) stale₂ _ _ _ _
      _ _ _ _ rfl (by decide) rfl,
    ModbusProtocolSlave.respond_stale_irrelevant _ _ stale₂ zeroMemory _ (by decide) (by decide)]
  exact ⟨_, rfl, rfl, rfl⟩

/-! ## Locating a request behind bytes that do not pass the frame test -/

namespace ModbusProtocolSlave

theorem find_if_first (p : Nat → Bool) (n first pos : Nat)
    (hlt : ∀ k, first ≤ k → k < pos → p k = false) (hpos : first ≤ pos)
    (hin : pos < first + n) (hp : p pos = true) : find_if p first n = pos := by
  induction n generalizing first with
  | zero => omega
  | succ n ih =>
    simp only [find_if]
    by_cases h : first = pos
    · subst h
      simp [hp]
    · rw [hlt first (Nat.le_refl _) (by omega)]
      simp only [Bool.false_eq_true, if_false]
      exact ih (first + 1) (fun k h1 h2 => hlt k (by omega) h2) (by omega) (by omega)

/-- Resynchronisation: when the input buffer with the chunk appended (within the capacity) is
`g` followed by `f`, at least eight bytes long, no offset of `g` passes the frame test, and `f`
is exactly eight bytes long or passes the frame test at its first byte, then `g` is erased and
`f` is taken as the packet, its bytes 2, 3 and 4, 5 exchanged. -/
theorem locatePacket_at (s : ModbusProtocolSlave) (map : ModbusRegMap) (stale : Nat → Nat)
    (inputBuffer g f : List Nat) (hne : inputBuffer ≠ [])
    (hfit : s.inputDataBuffer.length + inputBuffer.length ≤ s.inputBufferMaxSize)
    (hmap : s.modbusRegisterMap = some map)
    (hcat : s.inputDataBuffer ++ inputBuffer = g ++ f) (hf : 8 ≤ f.length)
    (hg : ∀ i < g.length, checkModbusRequestPos (g ++ f) stale i = false)
    (hpass : f.length = 8 ∨ checkModbusRequestPos (g ++ f) stale g.length = true) :
    s.locatePacket stale inputBuffer = (swapBytes (swapBytes f 2 3) 4 5, true) := by
  have hlen : inputBuffer.length ≠ 0 := fun h => hne (List.length_eq_zero.mp h)
  have h1 : ¬ (inputBuffer.length = 0 ∨ inputBuffer.length > s.inputBufferMaxSize) := by omega
  have h2 : ¬ (s.inputDataBuffer.length + inputBuffer.length > s.inputBufferMaxSize) := by omega
  have hfind : find_if (checkModbusRequestPos (g ++ f) stale) 0 (g.length + f.length - 8)
      = g.length := by
    by_cases h8 : f.length = 8
    · rw [find_if_none _ _ _ (fun k _ hk => hg k (by omega))]
      omega
    · rcases hpass with h | h
      · exact absurd h h8
      · exact find_if_first _ _ 0 g.length (fun k _ hk => hg k hk) (Nat.zero_le _) (by omega) h
  unfold locatePacket
  simp only [h1, h2, hmap, if_false, Option.isNone_some, Bool.false_eq_true, hcat,
    List.length_append, inputPackTemplateF01F04_Size, hfind]
  have h3 : ¬ (g.length + f.length < 8) := by omega
  have h4 : ¬ (g.length = g.length + f.length) := by omega
  simp only [h3, h4, if_false]
  by_cases hpos : g.length > 0
  · simp [hpos]
  · have hnil : g = [] := List.length_eq_zero.mp (by omega)
    simp [hnil]

/-- A packet that a handler rejects with an exception: the slave whose non-zero address the
packet carries sends the address, the function code with its top bit set, the exception code
and the CRC, clears its input buffer and keeps the register map the handler left. -/
theorem respond_of_dispatch_thrown (s : ModbusProtocolSlave) (map map' : ModbusRegMap)
    (stale : Nat → Nat) (buf : List Nat) (a fc : Nat) (e : modbusExceptionCode)
    (h0 : peek buf stale 0 = a) (h1 : peek buf stale 1 = fc) (hfc : fc < 256)
    (haddr : s.deviceAddress = a) (ha : a ≠ 0) (hsend : s.sendDataFunc = true)
    (hd : dispatch map [a] buf stale = (map', .thrown e)) :
    ∃ s', respond s map stale buf
        = some (s', [[a, fc ||| 0x80, e.toByte, ModbusCRC16 [a, fc ||| 0x80, e.toByte] 3 % 256,
            ModbusCRC16 [a, fc ||| 0x80, e.toByte] 3 / 256]]) ∧
      s'.modbusRegisterMap = some map' ∧ s'.inputDataBuffer = [] := by
  have hor : (fc ||| 0x80) % 256 = fc ||| 0x80 :=
    Nat.mod_eq_of_lt (Nat.or_lt_two_pow (n := 8) hfc (by norm_num))
  have hcrc := ModbusCRC16_lt [a, fc ||| 0x80, e.toByte] 3
  unfold respond
  simp only [h0, haddr, true_or, if_true, hd]
  simp [processingExceptionResponse, h0, h1, sendAnswer, hsend, ha, hor, and_255_eq_mod,
    and_FF00_shiftRight]
  refine ⟨_, ⟨rfl, by omega⟩, rfl, ?_⟩
  show (if buf = [] then buf else []) = []
  split
  · assumption
  · rfl

end ModbusProtocolSlave

/-! ## Requests that a handler rejects before it touches the register map -/

namespace ModbusProtocolSlave

theorem processingFunc01_02_quantity (map : ModbusRegMap) (out buf : List Nat)
    (stale : Nat → Nat) (h : peek16 buf stale 4 = 0 ∨ peek16 buf stale 4 > 0x07D0) :
    processingFunc01_02 map out buf stale = .thrown .ILLEGAL_DATA_VALUE := by
  unfold processingFunc01_02
  simp only [if_pos h]

theorem processingFunc03_04_quantity (map : ModbusRegMap) (out buf : List Nat)
    (stale : Nat → Nat) (h : peek16 buf stale 4 = 0 ∨ peek16 buf stale 4 > 0x007D) :
    processingFunc03_04 map out buf stale = .thrown .ILLEGAL_DATA_VALUE := by
  unfold processingFunc03_04
  simp only [if_pos h]

theorem processingFunc15_quantity (map : ModbusRegMap) (out buf : List Nat)
    (stale : Nat → Nat) (h : peek16 buf stale 4 = 0 ∨ peek16 buf stale 4 > 0x07B0) :
    processingFunc15 map out buf stale = (map, .thrown .ILLEGAL_DATA_VALUE) := by
  unfold processingFunc15
  simp only [if_pos h]

theorem processingFunc16_quantity (map : ModbusRegMap) (out buf : List Nat)
    (stale : Nat → Nat) (h : peek16 buf stale 4 = 0 ∨ peek16 buf stale 4 > 0x007B) :
    processingFunc16 map out buf stale = (map, .thrown .ILLEGAL_DATA_VALUE) := by
  unfold processingFunc16
  simp only [if_pos h]

theorem processingFunc05_value (map : ModbusRegMap) (out buf : List Nat) (stale : Nat → Nat)
    (h : peek16 buf stale 4 ≠ 0x0000 ∧ peek16 buf stale 4 ≠ 0xFF00) :
    processingFunc05 map out buf stale = (map, .thrown .ILLEGAL_DATA_VALUE) := by
  unfold processingFunc05
  simp only [if_pos h]

end ModbusProtocolSlave

/-- C12: a request that passes the slave's frame test, carries the slave's non-zero address `a`
and a function code `fc` among 1, 2, 3, 4, `0x0F`, `0x10`, and whose quantity field is 0 or
above the limit of `fc` (`0x07D0` for 1 and 2, `0x007D` for 3 and 4, `0x07B0` for `0x0F`,
`0x007B` for `0x10`) is answered with exactly `a, fc|0x80, 0x03, crc_lo, crc_hi`; the register
map is the one before the call and the answer carries no register data. The request `f` ends
what the input buffer holds once the chunk is appended (within the capacity); no offset of the
bytes `g` before it passes the frame test. -/
theorem slave_quantity_limit_exception (s : ModbusProtocolSlave) (map : ModbusRegMap)
    (stale : Nat → Nat) (inputBuffer g rest : List Nat) (a fc sh sl qh ql : Nat)
    (ha : a ≠ 0) (hrest : 2 ≤ rest.length)
    (haddr : s.deviceAddress = a) (hmap : s.modbusRegisterMap = some map)
    (hsend : s.sendDataFunc = true) (hne : inputBuffer ≠ [])
    (hfit : s.inputDataBuffer.length + inputBuffer.length ≤ s.inputBufferMaxSize)
    (hcat : s.inputDataBuffer ++ inputBuffer = g ++ (a :: fc :: sh :: sl :: qh :: ql :: rest))
    (hg : ∀ i < g.length, ModbusProtocolSlave.checkModbusRequestPos
      (g ++ (a :: fc :: sh :: sl :: qh :: ql :: rest)) stale i = false)
    (hvalid : ModbusProtocolSlave.checkModbusRequestPos
      (g ++ (a :: fc :: sh :: sl :: qh :: ql :: rest)) stale g.length = true)
    (hq : ((fc = 0x01 ∨ fc = 0x02) ∧ (ql + 256 * qh = 0 ∨ ql + 256 * qh > 0x07D0)) ∨
      ((fc = 0x03 ∨ fc = 0x04) ∧ (ql + 256 * qh = 0 ∨ ql + 256 * qh > 0x007D)) ∨
      (fc = 0x0F ∧ (ql + 256 * qh = 0 ∨ ql + 256 * qh > 0x07B0)) ∨
      (fc = 0x10 ∧ (ql + 256 * qh = 0 ∨ ql + 256 * qh > 0x007B))) :
    ∃ s', s.inputPacketParse stale inputBuffer
        = some (s', [[a, fc ||| 0x80, 0x03, ModbusCRC16 [a, fc ||| 0x80, 0x03] 3 % 256,
            ModbusCRC16 [a, fc ||| 0x80, 0x03] 3 / 256]]) ∧
      s'.modbusRegisterMap = some map ∧ s'.inputDataBuffer = [] := by
  have hlen : 8 ≤ (a :: fc :: sh :: sl :: qh :: ql :: rest).length := by
    simp only [List.length_cons]
    omega
  have hloc := ModbusProtocolSlave.locatePacket_at s map stale inputBuffer g
    (a :: fc :: sh :: sl :: qh :: ql :: rest) hne hfit hmap hcat hlen hg (Or.inr hvalid)
  have hsw : ModbusProtocolSlave.swapBytes (ModbusProtocolSlave.swapBytes
      (a :: fc :: sh :: sl :: qh :: ql :: rest) 2 3) 4 5
      = a :: fc :: sl :: sh :: ql :: qh :: rest := rfl
  rw [hsw] at hloc
  rw [ModbusProtocolSlave.inputPacketParse_of_locate s map stale inputBuffer _ hloc hmap]
  have h4 : peek16 (a :: fc :: sl :: sh :: ql :: qh :: rest) stale 4 = ql + 256 * qh := rfl
  have hfc : fc < 256 := by
    rcases hq with ⟨h | h, _⟩ | ⟨h | h, _⟩ | ⟨h, _⟩ | ⟨h, _⟩ <;> omega
  have hd : ModbusProtocolSlave.dispatch map [a] (a :: fc :: sl :: sh :: ql :: qh :: rest) stale
      = (map, .thrown .ILLEGAL_DATA_VALUE) := by
    have h1 : peek (a :: fc :: sl :: sh :: ql :: qh :: rest) stale 1 = fc := rfl
    unfold ModbusProtocolSlave.dispatch
    simp only [h1]
    rcases hq with ⟨h | h, hq⟩ | ⟨h | h, hq⟩ | ⟨h, hq⟩ | ⟨h, hq⟩ <;> subst h
    · rw [ModbusProtocolSlave.processingFunc01_02_quantity map _ _ stale (h4 ▸ hq)]
      simp
    · rw [ModbusProtocolSlave.processingFunc01_02_quantity map _ _ stale (h4 ▸ hq)]
      simp
    · rw [ModbusProtocolSlave.processingFunc03_04_quantity map _ _ stale (h4 ▸ hq)]
      simp
    · rw [ModbusProtocolSlave.processingFunc03_04_quantity map _ _ stale (h4 ▸ hq)]
      simp
    · rw [ModbusProtocolSlave.processingFunc15_quantity map _ _ stale (h4 ▸ hq)]
      simp
    · rw [ModbusProtocolSlave.processingFunc16_quantity map _ _ stale (h4 ▸ hq)]
      simp
  exact ModbusProtocolSlave.respond_of_dispatch_thrown s map map stale _ a fc .ILLEGAL_DATA_VALUE
    rfl rfl hfc haddr ha hsend hd

/-- C12 witness: the read request `01 03 00 10 00 7E C4 2F` for `0x7E` registers, behind the
garbage `DE AD`, is answered with `01 83 03 01 31`. -/
theorem slave_quantity_limit_exception_witness :
    ModbusProtocolSlave.checkModbusRequestPos
      ([0xDE, 0xAD] ++ [0x01, 0x03, 0x00, 0x10, 0x00, 0x7E, 0xC4, 0x2F]) zeroMemory 2 = true ∧
    0x7E + 256 * 0x00 > 0x007D ∧
    ModbusCRC16 [0x01, 0x03 ||| 0x80, 0x03] 3 = 0x01 + 256 * 0x31 ∧
    ∃ s', (slaveWith (singletonMap holdingRegister)).inputPacketParse zeroMemory
          [0xDE, 0xAD, 0x01, 0x03, 0x00, 0x10, 0x00, 0x7E, 0xC4, 0x2F]
        = some (s', [[0x01, 0x03 ||| 0x80, 0x03,
            ModbusCRC16 [0x01, 0x03 ||| 0x80, 0x03] 3 % 256,
            ModbusCRC16 [0x01, 0x03 ||| 0x80, 0x03] 3 / 256]]) ∧
      s'.modbusRegisterMap = some (singletonMap holdingRegister) ∧ s'.inputDataBuffer = [] :=
  ⟨by decide, by decide, by decide,
    slave_quantity_limit_exception (slaveWith (singletonMap holdingRegister))
      (singletonMap holdingRegister) zeroMemory
      [0xDE, 0xAD, 0x01, 0x03, 0x00, 0x10, 0x00, 0x7E, 0xC4, 0x2F] [0xDE, 0xAD] [0xC4, 0x2F]
      0x01 0x03 0x00 0x10 0x00 0x7E (by decide) (by decide) rfl rfl rfl (by decide) (by decide)
      rfl (by decide) (by decide) (Or.inr (Or.inl ⟨Or.inl rfl, Or.inr (by decide)⟩))⟩

/-- C13: a write-single-coil request that passes the slave's frame test, carries the slave's
non-zero address `a` and a value field that is neither `0x0000` nor `0xFF00` is answered with
exactly `a, 0x85, 0x03, crc_lo, crc_hi`, and the register map is the one before the call,
whatever it holds at the addressed coil. The request ends what the input buffer holds once the
chunk is appended (within the capacity); no offset of the bytes `g` before it passes the frame
test. -/
theorem slave_write_coil_value_rejected (s : ModbusProtocolSlave) (map : ModbusRegMap)
    (stale : Nat → Nat) (inputBuffer g : List Nat) (a ah al vh vl cl ch : Nat)
    (ha : a ≠ 0) (haddr : s.deviceAddress = a) (hmap : s.modbusRegisterMap = some map)
    (hsend : s.sendDataFunc = true) (hne : inputBuffer ≠ [])
    (hfit : s.inputDataBuffer.length + inputBuffer.length ≤ s.inputBufferMaxSize)
    (hcat : s.inputDataBuffer ++ inputBuffer = g ++ [a, 0x05, ah, al, vh, vl, cl, ch])
    (hg : ∀ i < g.length, ModbusProtocolSlave.checkModbusRequestPos
      (g ++ [a, 0x05, ah, al, vh, vl, cl, ch]) stale i = false)
    (hvalid : ModbusProtocolSlave.checkModbusRequestPos
      (g ++ [a, 0x05, ah, al, vh, vl, cl, ch]) stale g.length = true)
    (hval : vl + 256 * vh ≠ 0x0000 ∧ vl + 256 * vh ≠ 0xFF00) :
    ∃ s', s.inputPacketParse stale inputBuffer
        = some (s', [[a, 0x85, 0x03, ModbusCRC16 [a, 0x85, 0x03] 3 % 256,
            ModbusCRC16 [a, 0x85, 0x03] 3 / 256]]) ∧
      s'.modbusRegisterMap = some map ∧ s'.inputDataBuffer = [] := by
  have hloc := ModbusProtocolSlave.locatePacket_at s map stale inputBuffer g
    [a, 0x05, ah, al, vh, vl, cl, ch] hne hfit hmap hcat (Nat.le_refl _) hg (Or.inr hvalid)
  have hsw : ModbusProtocolSlave.swapBytes (ModbusProtocolSlave.swapBytes
      [a, 0x05, ah, al, vh, vl, cl, ch] 2 3) 4 5 = [a, 0x05, al, ah, vl, vh, cl, ch] := rfl
  rw [hsw] at hloc
  rw [ModbusProtocolSlave.inputPacketParse_of_locate s map stale inputBuffer _ hloc hmap]
  have hd : ModbusProtocolSlave.dispatch map [a] [a, 0x05, al, ah, vl, vh, cl, ch] stale
      = (map, .thrown .ILLEGAL_DATA_VALUE) := by
    have h1 : peek [a, 0x05, al, ah, vl, vh, cl, ch] stale 1 = 0x05 := rfl
    have h4 : peek16 [a, 0x05, al, ah, vl, vh, cl, ch] stale 4 = vl + 256 * vh := rfl
    unfold ModbusProtocolSlave.dispatch
    simp only [h1]
    rw [ModbusProtocolSlave.processingFunc05_value map _ _ stale (h4 ▸ hval)]
    simp
  exact ModbusProtocolSlave.respond_of_dispatch_thrown s map map stale _ a 0x05
    .ILLEGAL_DATA_VALUE rfl rfl (by decide) haddr ha hsend hd

/-- C13 witness: the request `01 05 00 05 12 34 D0 BC`, behind the garbage `DE AD`, to a slave
whose map holds the addressed coil, is answered with `01 85 03 02 91`. -/
theorem slave_write_coil_value_rejected_witness :
    ModbusProtocolSlave.checkModbusRequestPos
      ([0xDE, 0xAD] ++ [0x01, 0x05, 0x00, 0x05, 0x12, 0x34, 0xD0, 0xBC]) zeroMemory 2 = true ∧
    ModbusCRC16 [0x01, 0x85, 0x03] 3 = 0x02 + 256 * 0x91 ∧
    ∃ s', (slaveWith (singletonMap (coil 5))).inputPacketParse zeroMemory
          [0xDE, 0xAD, 0x01, 0x05, 0x00, 0x05, 0x12, 0x34, 0xD0, 0xBC]
        = some (s', [[0x01, 0x85, 0x03, ModbusCRC16 [0x01, 0x85, 0x03] 3 % 256,
            ModbusCRC16 [0x01, 0x85, 0x03] 3 / 256]]) ∧
      s'.modbusRegisterMap = some (singletonMap (coil 5)) ∧ s'.inputDataBuffer = [] :=
  ⟨by decide, by decide,
    slave_write_coil_value_rejected (slaveWith (singletonMap (coil 5))) (singletonMap (coil 5))
      zeroMemory [0xDE, 0xAD, 0x01, 0x05, 0x00, 0x05, 0x12, 0x34, 0xD0, 0xBC] [0xDE, 0xAD]
      0x01 0x00 0x05 0x12 0x34 0xD0 0xBC (by decide) rfl rfl rfl (by decide) (by decide) rfl
      (by decide) (by decide) (by decide)⟩

/-! ## Broadcast requests -/

namespace ModbusRegMap

/-- A raw write of two bytes to an element that is not a `Char2Byte` string uses the first two
bytes at the pointer only. -/
theorem SetElementValue_two_bytes (m : ModbusRegMap) (functionCode registerAddress b0 b1 : Nat)
    (t t' : List Nat)
    (hstr : ∀ el, m.getModbusElement functionCode registerAddress = some el →
      el.DataType ≠ .Char2Byte) :
    m.SetElementValue functionCode registerAddress (b0 :: b1 :: t) 2
      = m.SetElementValue functionCode registerAddress (b0 :: b1 :: t') 2 := by
  unfold SetElementValue
  cases hel : m.getModbusElement functionCode registerAddress with
  | none => rfl
  | some el =>
    have hne := hstr el hel
    cases hty : el.DataType <;>
      simp_all [copyRAWDataToElement, sizeofModElType, rawToValue, leValue]

end ModbusRegMap

namespace ModbusProtocolSlave

/-- A packet whose address byte is the slave's address or zero is handed to its handler; unless
the handler never returns, the register map afterwards is the one the handler leaves, and
nothing is sent when the address byte is zero. -/
theorem respond_dispatched (s : ModbusProtocolSlave) (map : ModbusRegMap) (stale : Nat → Nat)
    (buf : List Nat) (hx : peek buf stale 0 = s.deviceAddress ∨ peek buf stale 0 = 0)
    (hnh : ∀ m, dispatch map [peek buf stale 0] buf stale ≠ (m, .hangs)) :
    ∃ r, respond s map stale buf = some r ∧
      r.1.modbusRegisterMap = some (dispatch map [peek buf stale 0] buf stale).1 ∧
      (peek buf stale 0 = 0 → r.2 = []) := by
  unfold respond
  simp only [if_pos hx]
  generalize hd : dispatch map [peek buf stale 0] buf stale = d at hnh
  obtain ⟨m', o⟩ := d
  cases o with
  | returned p =>
    refine ⟨_, rfl, rfl, ?_⟩
    intro h0
    simp [sendAnswer, h0]
  | thrown e =>
    refine ⟨_, rfl, rfl, ?_⟩
    intro h0
    simp [sendAnswer, h0]
  | hangs => exact absurd rfl (hnh m')

/-- Nothing is sent in answer to a packet whose address byte is zero. -/
theorem respond_broadcast_silent (s : ModbusProtocolSlave) (map : ModbusRegMap)
    (stale : Nat → Nat) (buf : List Nat) (r : ModbusProtocolSlave × List (List Nat))
    (h0 : peek buf stale 0 = 0) (hrun : respond s map stale buf = some r) : r.2 = [] := by
  unfold respond at hrun
  simp only [h0, or_true, if_true] at hrun
  split at hrun
  · simp only [Option.some.injEq] at hrun
    rw [← hrun]
    simp [sendAnswer]
  · simp only [Option.some.injEq] at hrun
    rw [← hrun]
    simp [sendAnswer]
  · simp at hrun

/-- The register map that the handler of a single write leaves does not depend on the
packet's address byte, nor, unless the target is a `Char2Byte` string, on the two bytes that
follow the value. -/
theorem dispatch_single_write_map (map : ModbusRegMap) (stale : Nat → Nat)
    (x y fc al ah vl vh c d c' d' : Nat) (hfc : fc = 0x05 ∨ fc = 0x06)
    (hstr : ∀ el, map.getModbusElement fc (al + 256 * ah) = some el →
      el.DataType ≠ .Char2Byte) :
    (dispatch map [x] [x, fc, al, ah, vl, vh, c, d] stale).1
      = (dispatch map [y] [y, fc, al, ah, vl, vh, c', d'] stale).1 := by
  rcases hfc with h | h <;> subst h
  · simp only [dispatch, peek, peek16, processingFunc05, List.getD_cons_succ,
      List.getD_cons_zero]
    simp only [show ¬ ((5 : Nat) = 1 ∨ (5 : Nat) = 2) by decide,
      show ¬ ((5 : Nat) = 3 ∨ (5 : Nat) = 4) by decide, if_false, if_true]
    split
    · rfl
    · split <;> (split <;> rfl)
  · have e := ModbusRegMap.SetElementValue_two_bytes map 6 (al + 256 * ah) vl vh [c, d] [c', d']
      hstr
    simp only [dispatch, peek, peek16, processingFunc06, List.getD_cons_succ,
      List.getD_cons_zero, List.drop_succ_cons, List.drop_zero]
    simp only [show ¬ ((6 : Nat) = 1 ∨ (6 : Nat) = 2) by decide,
      show ¬ ((6 : Nat) = 3 ∨ (6 : Nat) = 4) by decide,
      show ¬ ((6 : Nat) = 5) by decide, if_false, if_true, e]
    split <;> rfl

theorem dispatch_single_write_returns (map : ModbusRegMap) (stale : Nat → Nat)
    (out buf : List Nat) (hfc : peek buf stale 1 = 0x05 ∨ peek buf stale 1 = 0x06)
    (m : ModbusRegMap) : dispatch map out buf stale ≠ (m, .hangs) := by
  rcases hfc with h | h
  · simp only [dispatch, h, processingFunc05]
    simp only [show ¬ ((5 : Nat) = 1 ∨ (5 : Nat) = 2) by decide,
      show ¬ ((5 : Nat) = 3 ∨ (5 : Nat) = 4) by decide, if_false, if_true]
    split
    · simp
    · split <;> (split <;> simp)
  · simp only [dispatch, h, processingFunc06]
    simp only [show ¬ ((6 : Nat) = 1 ∨ (6 : Nat) = 2) by decide,
      show ¬ ((6 : Nat) = 3 ∨ (6 : Nat) = 4) by decide,
      show ¬ ((6 : Nat) = 5) by decide, if_false, if_true]
    split <;> simp

end ModbusProtocolSlave

namespace ModbusProtocolSlave

/-- The register map that the handler of an accepted single write leaves holds the new value at
the target, whatever the packet's address byte. -/
theorem dispatch_single_write_stored (map : ModbusRegMap) (stale : Nat → Nat)
    (x fc al ah vl vh c d : Nat) (el : ModbusElement)
    (hel : map.getModbusElement fc (al + 256 * ah) = some el)
    (hcase :
      (fc = 0x05 ∧ el.DataType = .OneBit ∧ ((vh = 0xFF ∧ vl = 0x00) ∨ (vh = 0x00 ∧ vl = 0x00)) ∧
        el.MinDataValue ≤ (if vh = 0xFF then 1 else 0) ∧
        (if vh = 0xFF then 1 else 0) ≤ el.MaxDataValue) ∨
      (fc = 0x06 ∧ el.DataType = .UInt16 ∧ el.MinDataValue ≤ ((vl + 256 * vh : Nat) : Int) ∧
        ((vl + 256 * vh : Nat) : Int) ≤ el.MaxDataValue)) :
    ∃ el', (dispatch map [x] [x, fc, al, ah, vl, vh, c, d] stale).1.getModbusElement fc
        (al + 256 * ah) = some el' ∧
      el'.DataValue = (if fc = 0x05 then (if vh = 0xFF then 1 else 0)
        else ((vl + 256 * vh : Nat) : Int)) := by
  rcases hcase with ⟨hfc, hty, hval, hmin, hmx⟩ | ⟨hfc, hty, hmin, hmx⟩
  · subst hfc
    rcases hval with ⟨h1, h2⟩ | ⟨h1, h2⟩
    · subst h1 h2
      obtain ⟨m', hset, hget⟩ := ModbusRegMap.SetElementValue_OneBit map 5 (al + 256 * ah) 1 el
        hel hty (by simpa using hmin) (by simpa using hmx)
      refine ⟨{ el with DataValue := ((1 : Nat) : Int) }, ?_, by simp⟩
      simp [dispatch, peek, peek16, processingFunc05, hset, hget]
    · subst h1 h2
      obtain ⟨m', hset, hget⟩ := ModbusRegMap.SetElementValue_OneBit map 5 (al + 256 * ah) 0 el
        hel hty (by simpa using hmin) (by simpa using hmx)
      refine ⟨{ el with DataValue := ((0 : Nat) : Int) }, ?_, by simp⟩
      simp [dispatch, peek, peek16, processingFunc05, hset, hget]
  · subst hfc
    obtain ⟨m', hset, hget⟩ := ModbusRegMap.SetElementValue_UInt16 map 6 (al + 256 * ah) vl vh
      [c, d] el hel hty hmin hmx
    refine ⟨{ el with DataValue := ((vl + 256 * vh : Nat) : Int) }, ?_, by simp⟩
    simp [dispatch, peek, peek16, processingFunc06, hset, hget]

end ModbusProtocolSlave

/-- C11: nothing is handed to the send callback in a call in which the packet the slave
processes has the address byte 0, whatever its function code. Such a packet is processed all
the same: an 8-byte write-single-coil or write-single-register request with address byte 0,
delivered to a slave with an empty input buffer, whose target exists and accepts the value
(FC05: `0xFF00` or `0x0000` on a `OneBit` element whose range holds 1 resp. 0; FC06: a
`UInt16` element with `min <= value <= max`) leaves the same register map as the same request
carrying the slave's own address, and in it the target holds the new value. -/
theorem slave_broadcast_processed_not_answered (s : ModbusProtocolSlave) (map : ModbusRegMap)
    (stale : Nat → Nat) (a fc ah al vh vl cl ch cl' ch' : Nat) (el : ModbusElement)
    (hbuf : s.inputDataBuffer = []) (hmax : 8 ≤ s.inputBufferMaxSize)
    (hmap : s.modbusRegisterMap = some map) (haddr : s.deviceAddress = a)
    (hel : map.getModbusElement fc (al + 256 * ah) = some el)
    (hcase :
      (fc = 0x05 ∧ el.DataType = .OneBit ∧ ((vh = 0xFF ∧ vl = 0x00) ∨ (vh = 0x00 ∧ vl = 0x00)) ∧
        el.MinDataValue ≤ (if vh = 0xFF then 1 else 0) ∧
        (if vh = 0xFF then 1 else 0) ≤ el.MaxDataValue) ∨
      (fc = 0x06 ∧ el.DataType = .UInt16 ∧ el.MinDataValue ≤ ((vl + 256 * vh : Nat) : Int) ∧
        ((vl + 256 * vh : Nat) : Int) ≤ el.MaxDataValue)) :
    (∀ inputBuffer r, s.inputPacketParse stale inputBuffer = some r →
      peek (s.locatePacket stale inputBuffer).1 stale 0 = 0 → r.2 = []) ∧
    ∃ s₀ sₐ sent map' el',
      s.inputPacketParse stale [0, fc, ah, al, vh, vl, cl, ch] = some (s₀, []) ∧
      s.inputPacketParse stale [a, fc, ah, al, vh, vl, cl', ch'] = some (sₐ, sent) ∧
      s₀.modbusRegisterMap = some map' ∧ sₐ.modbusRegisterMap = some map' ∧
      map'.getModbusElement fc (al + 256 * ah) = some el' ∧
      el'.DataValue = (if fc = 0x05 then (if vh = 0xFF then 1 else 0)
        else ((vl + 256 * vh : Nat) : Int)) := by
  constructor
  · intro inputBuffer r hrun h0
    unfold ModbusProtocolSlave.inputPacketParse at hrun
    split at hrun
    next buf m hloc hm =>
      rw [hloc] at h0
      exact ModbusProtocolSlave.respond_broadcast_silent s m stale buf r h0 hrun
    next =>
      simp only [Option.some.injEq] at hrun
      rw [← hrun]
  · have hfc : fc = 0x05 ∨ fc = 0x06 := by
      rcases hcase with ⟨h, _⟩ | ⟨h, _⟩
      · exact Or.inl h
      · exact Or.inr h
    have hstr : ∀ e, map.getModbusElement fc (al + 256 * ah) = some e →
        e.DataType ≠ .Char2Byte := by
      intro e he
      rw [hel] at he
      cases he
      rcases hcase with ⟨_, h, _⟩ | ⟨_, h, _⟩ <;> rw [h] <;> decide
    obtain ⟨r₀, hr₀, hm₀, hs₀⟩ := ModbusProtocolSlave.respond_dispatched s map stale
      [0, fc, al, ah, vl, vh, cl, ch] (Or.inr rfl)
      (ModbusProtocolSlave.dispatch_single_write_returns map stale _ _ hfc)
    obtain ⟨rₐ, hrₐ, hmₐ, _⟩ := ModbusProtocolSlave.respond_dispatched s map stale
      [a, fc, al, ah, vl, vh, cl', ch'] (Or.inl haddr.symm)
      (ModbusProtocolSlave.dispatch_single_write_returns map stale _ _ hfc)
    obtain ⟨el', hget, hval⟩ := ModbusProtocolSlave.dispatch_single_write_stored map stale 0 fc
      al ah vl vh cl ch el hel hcase
    have hsame := ModbusProtocolSlave.dispatch_single_write_map map stale 0 a fc al ah vl vh
      cl ch cl' ch' hfc hstr
    refine ⟨r₀.1, rₐ.1, rₐ.2, _, el', ?_, ?_, hm₀, ?_, hget, hval⟩
    · rw [ModbusProtocolSlave.inputPacketParse_eight s map stale _ _ _ _ _ _ _ _ hbuf hmax hmap,
        hr₀, ← hs₀ rfl]
    · rw [ModbusProtocolSlave.inputPacketParse_eight s map stale _ _ _ _ _ _ _ _ hbuf hmax hmap,
        hrₐ]
    · rw [hmₐ]
      exact congrArg some hsame.symm

/-- C11 witness: the broadcast request `00 05 00 05 FF 00 9D EA` and the same request to
address 1, `01 05 00 05 FF 00 9C 3B`, to a slave whose map holds the coil under function code
`0x05`. -/
theorem slave_broadcast_processed_not_answered_witness :
    ModbusCRC16 [0x00, 0x05, 0x00, 0x05, 0xFF, 0x00] 6 = 0x9D + 256 * 0xEA ∧
    ModbusCRC16 [0x01, 0x05, 0x00, 0x05, 0xFF, 0x00] 6 = 0x9C + 256 * 0x3B ∧
    ∃ s₀ sₐ sent map' el',
      (slaveWith (singletonMap (coil 5))).inputPacketParse zeroMemory
          [0x00, 0x05, 0x00, 0x05, 0xFF, 0x00, 0x9D, 0xEA] = some (s₀, []) ∧
      (slaveWith (singletonMap (coil 5))).inputPacketParse zeroMemory
          [0x01, 0x05, 0x00, 0x05, 0xFF, 0x00, 0x9C, 0x3B] = some (sₐ, sent) ∧
      s₀.modbusRegisterMap = some map' ∧ sₐ.modbusRegisterMap = some map' ∧
      map'.getModbusElement 0x05 (0x05 + 256 * 0x00) = some el' ∧
      el'.DataValue = (if 0x05 = 0x05 then (if 0xFF = 0xFF then 1 else 0)
        else ((0x00 + 256 * 0xFF : Nat) : Int)) :=
  ⟨by decide, by decide,
    (slave_broadcast_processed_not_answered (slaveWith (singletonMap (coil 5)))
      (singletonMap (coil 5)) zeroMemory 0x01 0x05 0x00 0x05 0xFF 0x00 0x9D 0xEA 0x9C 0x3B
      (coil 5) rfl (by decide) rfl rfl (by decide) (Or.inl (by decide))).2⟩

/-! ## Master requests as the slave reads them -/

/-- C17: the eight bytes that `requestFunc_01_02_03_04` builds for the device address `a`, the
function code `fc` (those of the read requests, 1 to 4, included), the start address `start`
and the quantity `quantity`, delivered to a slave with an empty input buffer, become the packet
the slave processes, and after the exchange of the bytes 2, 3 and 4, 5 the slave reads from it
`address = a`, `funcCode = fc`, `regAddress = start` and `regsCount = quantity`. -/
theorem master_read_request_decoded_by_slave (s : ModbusProtocolSlave) (map : ModbusRegMap)
    (stale : Nat → Nat) (a fc start quantity : Nat) (hs : start < 65536)
    (hq : quantity < 65536) (hbuf : s.inputDataBuffer = [])
    (hmax : 8 ≤ s.inputBufferMaxSize) (hmap : s.modbusRegisterMap = some map) :
    ∃ buf, s.locatePacket stale
        (ModbusProtocolMaster.requestFunc_01_02_03_04.request a fc start quantity)
        = (buf, true) ∧
      peek buf stale 0 = a ∧ peek buf stale 1 = fc ∧ peek16 buf stale 2 = start ∧
      peek16 buf stale 4 = quantity := by
  rw [ModbusProtocolMaster.request_crc_bytes a fc start quantity]
  simp only [List.cons_append, List.nil_append]
  rw [ModbusProtocolSlave.locatePacket_eight s map stale _ _ _ _ _ _ _ _ hbuf hmax hmap]
  refine ⟨_, rfl, rfl, rfl, ?_, ?_⟩
  · show start % 256 + 256 * ((start >>> 8) % 256) = start
    rw [Nat.shiftRight_eq_div_pow]
    omega
  · show quantity % 256 + 256 * ((quantity >>> 8) % 256) = quantity
    rw [Nat.shiftRight_eq_div_pow]
    omega

/-- C17 witness: the request for one register at `0x0010` with function code 3, from a master
with device address 1. -/
theorem master_read_request_decoded_by_slave_witness :
    ∃ buf, (slaveWith (singletonMap holdingRegister)).locatePacket zeroMemory
        (ModbusProtocolMaster.requestFunc_01_02_03_04.request 1 3 0x0010 1)
        = (buf, true) ∧
      peek buf zeroMemory 0 = 1 ∧ peek buf zeroMemory 1 = 3 ∧ peek16 buf zeroMemory 2 = 0x0010 ∧
      peek16 buf zeroMemory 4 = 1 :=
  master_read_request_decoded_by_slave (slaveWith (singletonMap holdingRegister))
    (singletonMap holdingRegister) zeroMemory 1 3 0x0010 1 (by decide) (by decide) rfl
    (by decide) rfl

namespace ModbusProtocolMaster

theorem store_ne (mem : Nat → Nat) (k v j : Nat) (h : j ≠ k) : store mem k v j = mem j := by
  simp [store, h]

theorem store_eq (mem : Nat → Nat) (k v : Nat) : store mem k v k = v := by
  simp [store]

theorem range_map_getD (m : Nat → Nat) (n k : Nat) (hk : k < n) :
    ((List.range n).map m).getD k 0 = m k := by
  rw [List.getD_eq_getElem _ _ (by simpa using hk)]
  simp

/-- The byte count of a write-multiple-coils request: whenever `requestFunc_15_16` sends a
request with function code `0x0F`, its byte at offset 6 is `quantityOfData / 8 + 1` (as a
byte). -/
theorem request_coils_byte_count (map : ModbusRegMap) (mem : Nat → Nat)
    (a start quantity : Nat) (frame : List Nat)
    (h : requestFunc_15_16.request map mem a 0x0F start quantity = some frame) :
    frame.getD 6 0 = (quantity / 8 + 1) % 256 := by
  unfold requestFunc_15_16.request at h
  simp only [if_true, show ¬ ((0x0F : Nat) = 0x10) by decide, if_false] at h
  cases hc : requestFunc_15_16.coils map 15 start quantity 0
      (store (store (store (store (store (store mem 0 a) 1 15) 2 ((start >>> 8) % 256)) 3
        (start % 256)) 4 ((quantity >>> 8) % 256)) 5 (quantity % 256)) 0 0 0 with
  | none =>
    rw [hc] at h
    simp at h
  | some mem' =>
    rw [hc] at h
    simp only [Option.map_some', Option.some.injEq] at h
    rw [← h, range_map_getD _ _ _ (by omega), store_ne _ _ _ _ (by omega),
      store_ne _ _ _ _ (by omega), store_eq]

end ModbusProtocolMaster

namespace ModbusProtocolSlave

theorem processingFunc15_byte_count (map : ModbusRegMap) (out buf : List Nat)
    (stale : Nat → Nat) (q : Nat) (h4 : peek16 buf stale 4 = q) (hq : ¬ (q = 0 ∨ q > 0x07B0))
    (h6 : peek buf stale 6 ≠ (q / 8 + (if q % 8 > 0 then 1 else 0)) % 256) :
    processingFunc15 map out buf stale = (map, .thrown .ILLEGAL_DATA_VALUE) := by
  unfold processingFunc15
  simp only [h4, if_neg hq, if_pos h6]

end ModbusProtocolSlave

/-- C18 (the code at a failing input): the byte count that `requestFunc_15_16` writes into a
write-multiple-coils request is `quantity / 8 + 1`, for every quantity. For 8 coils at the
addresses 0 to 7, all set, and device address 1 the master sends
`01 0F 00 00 00 08 02 FF 00 70 A5`: byte count 2, one data byte stored, the second as found in
the buffer (here zero), the CRC `0x70A5` high byte first. `processingFunc15` requires the byte
count `8 / 8 + (8 % 8 > 0) = 1`: on this packet it throws `ILLEGAL_DATA_VALUE`. The same
request with its CRC in the order the slave's frame test reads it,
`01 0F 00 00 00 08 02 FF 00 A5 70`, is answered with `01 8F 03 04 31` and no coil is
written. -/
theorem master_write_coils_byte_count_rejected (stale : Nat → Nat) :
    (∀ map mem a start quantity frame,
      ModbusProtocolMaster.requestFunc_15_16.request map mem a 0x0F start quantity = some frame →
      frame.getD 6 0 = (quantity / 8 + 1) % 256) ∧
    ModbusProtocolMaster.requestFunc_15_16.request (coilsMap 0x0F 8 (fun _ => 1)) zeroMemory
        1 0x0F 0 8
      = some [0x01, 0x0F, 0x00, 0x00, 0x00, 0x08, 0x02, 0xFF, 0x00, 0x70, 0xA5] ∧
    ModbusCRC16 [0x01, 0x0F, 0x00, 0x00, 0x00, 0x08, 0x02, 0xFF, 0x00] 9 = 0xA5 + 256 * 0x70 ∧
    (8 / 8 + (if 8 % 8 > 0 then 1 else 0)) % 256 = 1 ∧
    ModbusProtocolSlave.processingFunc15 (coilsMap 0x0F 8 (fun _ => 1)) [0x01]
        [0x01, 0x0F, 0x00, 0x00, 0x08, 0x00, 0x02, 0xFF, 0x00, 0x70, 0xA5] stale
      = (coilsMap 0x0F 8 (fun _ => 1), .thrown .ILLEGAL_DATA_VALUE) ∧
    ∃ s', (slaveWith (coilsMap 0x0F 8 (fun _ => 1))).inputPacketParse stale
          [0x01, 0x0F, 0x00, 0x00, 0x00, 0x08, 0x02, 0xFF, 0x00, 0xA5, 0x70]
        = some (s', [[0x01, 0x8F, 0x03, 0x04, 0x31]]) ∧
      s'.modbusRegisterMap = some (coilsMap 0x0F 8 (fun _ => 1)) := by
  have h6 : peek [0x01, 0x0F, 0x00, 0x00, 0x08, 0x00, 0x02, 0xFF, 0x00, 0x70, 0xA5] stale 6
      ≠ (8 / 8 + (if 8 % 8 > 0 then 1 else 0)) % 256 := by
    rw [show peek [0x01, 0x0F, 0x00, 0x00, 0x08, 0x00, 0x02, 0xFF, 0x00, 0x70, 0xA5] stale 6 = 2
      from rfl]
    decide
  refine ⟨fun map mem a start quantity frame h =>
      ModbusProtocolMaster.request_coils_byte_count map mem a start quantity frame h,
    by decide, by decide, by decide,
    ModbusProtocolSlave.processingFunc15_byte_count _ [0x01]
      [0x01, 0x0F, 0x00, 0x00, 0x08, 0x00, 0x02, 0xFF, 0x00, 0x70, 0xA5] stale 8 rfl
      (by decide) h6,
    ?_⟩
  have hvalid : ModbusProtocolSlave.checkModbusRequestPos
      ([] ++ [0x01, 0x0F, 0x00, 0x00, 0x00, 0x08, 0x02, 0xFF, 0x00, 0xA5, 0x70]) stale 0
      = true := by
    rw [ModbusProtocolSlave.checkModbusRequestPos_of_inside _ stale zeroMemory 0 (by decide)
      (Or.inr (by decide))]
    decide
  have hloc := ModbusProtocolSlave.locatePacket_at (slaveWith (coilsMap 0x0F 8 (fun _ => 1)))
    (coilsMap 0x0F 8 (fun _ => 1)) stale
    [0x01, 0x0F, 0x00, 0x00, 0x00, 0x08, 0x02, 0xFF, 0x00, 0xA5, 0x70] []
    [0x01, 0x0F, 0x00, 0x00, 0x00, 0x08, 0x02, 0xFF, 0x00, 0xA5, 0x70] (by decide) (by decide)
    rfl rfl (by decide) (fun i hi => absurd hi (Nat.not_lt_zero i)) (Or.inr hvalid)
  have hsw : ModbusProtocolSlave.swapBytes (ModbusProtocolSlave.swapBytes
      [0x01, 0x0F, 0x00, 0x00, 0x00, 0x08, 0x02, 0xFF, 0x00, 0xA5, 0x70] 2 3) 4 5
      = [0x01, 0x0F, 0x00, 0x00, 0x08, 0x00, 0x02, 0xFF, 0x00, 0xA5, 0x70] := rfl
  rw [hsw] at hloc
  rw [ModbusProtocolSlave.inputPacketParse_of_locate _ (coilsMap 0x0F 8 (fun _ => 1)) stale _ _
    hloc rfl]
  have hd : ModbusProtocolSlave.dispatch (coilsMap 0x0F 8 (fun _ => 1)) [0x01]
      [0x01, 0x0F, 0x00, 0x00, 0x08, 0x00, 0x02, 0xFF, 0x00, 0xA5, 0x70] stale
      = (coilsMap 0x0F 8 (fun _ => 1), .thrown .ILLEGAL_DATA_VALUE) := by
    have h1 : peek [0x01, 0x0F, 0x00, 0x00, 0x08, 0x00, 0x02, 0xFF, 0x00, 0xA5, 0x70] stale 1
        = 0x0F := rfl
    have h6' : peek [0x01, 0x0F, 0x00, 0x00, 0x08, 0x00, 0x02, 0xFF, 0x00, 0xA5, 0x70] stale 6
        ≠ (8 / 8 + (if 8 % 8 > 0 then 1 else 0)) % 256 := by
      rw [show peek [0x01, 0x0F, 0x00, 0x00, 0x08, 0x00, 0x02, 0xFF, 0x00, 0xA5, 0x70] stale 6
        = 2 from rfl]
      decide
    unfold ModbusProtocolSlave.dispatch
    simp only [h1]
    rw [ModbusProtocolSlave.processingFunc15_byte_count _ [0x01]
      [0x01, 0x0F, 0x00, 0x00, 0x08, 0x00, 0x02, 0xFF, 0x00, 0xA5, 0x70] stale 8 rfl (by decide)
      h6']
    simp
  obtain ⟨s', hs', hm', _⟩ := ModbusProtocolSlave.respond_of_dispatch_thrown
    (slaveWith (coilsMap 0x0F 8 (fun _ => 1))) (coilsMap 0x0F 8 (fun _ => 1))
    (coilsMap 0x0F 8 (fun _ => 1)) stale
    [0x01, 0x0F, 0x00, 0x00, 0x08, 0x00, 0x02, 0xFF, 0x00, 0xA5, 0x70] 0x01 0x0F
    .ILLEGAL_DATA_VALUE rfl rfl (by decide) rfl (by decide) rfl hd
  exact ⟨s', hs', hm'⟩

/-! ## The bounded input buffer -/

theorem appendInput_length (n : Nat) (b c : List Nat) (hc : c.length ≤ n) :
    (appendInput n b c).length ≤ n := by
  unfold appendInput
  simp only
  split
  · simp only [List.length_append, List.length_drop]
    omega
  · simp only [List.length_append]
    omega

/-- The buffer after the insertion holds the last `min (|b| + |c|) n` bytes of the old content
followed by the chunk, for a chunk that is not longer than the capacity `n`. -/
theorem appendInput_eq_drop (n : Nat) (b c : List Nat) (hc : c.length ≤ n) :
    appendInput n b c = (b ++ c).drop ((b ++ c).length - min (b.length + c.length) n) := by
  unfold appendInput
  simp only [List.length_append]
  split
  · next h =>
    rw [Nat.min_eq_right (by omega), List.drop_append_of_le_length (by omega)]
  · next h =>
    rw [Nat.min_eq_left (by omega), Nat.sub_self, List.drop_zero]

namespace ModbusProtocolSlave

theorem locatePacket_of_bufferAfterAppend_none (s : ModbusProtocolSlave) (stale : Nat → Nat)
    (inputBuffer : List Nat) (h : s.bufferAfterAppend inputBuffer = none) :
    s.locatePacket stale inputBuffer = (s.inputDataBuffer, false) := by
  by_cases h1 : inputBuffer.length = 0 ∨ inputBuffer.length > s.inputBufferMaxSize
  · unfold locatePacket
    simp only [if_pos h1]
  · by_cases h2 : s.modbusRegisterMap.isNone = true
    · unfold locatePacket
      simp only [if_neg h1, if_pos h2]
    · unfold bufferAfterAppend at h
      simp only [if_neg h1, if_neg h2] at h
      cases h

/-- The packet search starts from the buffer that the insertion of the chunk leaves. -/
theorem locatePacket_of_bufferAfterAppend (s : ModbusProtocolSlave) (stale : Nat → Nat)
    (inputBuffer buf : List Nat) (h : s.bufferAfterAppend inputBuffer = some buf) :
    s.locatePacket stale inputBuffer =
      if buf.length < inputPackTemplateF01F04_Size then (buf, false)
      else if find_if (checkModbusRequestPos buf stale) 0
          (buf.length - inputPackTemplateF01F04_Size) = buf.length then (buf, false)
      else
        (swapBytes (swapBytes
          (if find_if (checkModbusRequestPos buf stale) 0
              (buf.length - inputPackTemplateF01F04_Size) > 0 then
            buf.drop (find_if (checkModbusRequestPos buf stale) 0
              (buf.length - inputPackTemplateF01F04_Size))
          else buf) 2 3) 4 5, true) := by
  by_cases h1 : inputBuffer.length = 0 ∨ inputBuffer.length > s.inputBufferMaxSize
  · unfold bufferAfterAppend at h
    simp only [if_pos h1] at h
    cases h
  · by_cases h2 : s.modbusRegisterMap.isNone = true
    · unfold bufferAfterAppend at h
      simp only [if_neg h1, if_pos h2] at h
      cases h
    · unfold bufferAfterAppend at h
      simp only [if_neg h1, if_neg h2, Option.some.injEq] at h
      subst h
      unfold locatePacket appendInput
      simp only [if_neg h1, if_neg h2]

end ModbusProtocolSlave

/-- C20 (amended): for a slave with a register map, the capacity `N = inputBufferMaxSize`, the
input buffer `b` and a non-empty chunk `c`: when `|c| <= N`, the buffer right
after the chunk is inserted is the last `min(|b| + |c|, N)` bytes of `b ++ c` (only the oldest
bytes are discarded), and this is the buffer the call leaves when it is shorter than a request;
when `|c| > N` the call returns before the insertion and leaves the slave as it was: the chunk
is ignored as a whole. -/
theorem slave_append_drops_oldest (s : ModbusProtocolSlave) (map : ModbusRegMap)
    (stale : Nat → Nat) (c : List Nat) (hc : c ≠ []) (hmap : s.modbusRegisterMap = some map) :
    (c.length ≤ s.inputBufferMaxSize →
      s.bufferAfterAppend c = some ((s.inputDataBuffer ++ c).drop
        ((s.inputDataBuffer ++ c).length
          - min (s.inputDataBuffer.length + c.length) s.inputBufferMaxSize)) ∧
      (min (s.inputDataBuffer.length + c.length) s.inputBufferMaxSize < 8 →
        s.inputPacketParse stale c = some ({ s with
          inputDataBuffer := (s.inputDataBuffer ++ c).drop
            ((s.inputDataBuffer ++ c).length
              - min (s.inputDataBuffer.length + c.length) s.inputBufferMaxSize) }, []))) ∧
    (c.length > s.inputBufferMaxSize →
      s.bufferAfterAppend c = none ∧ s.inputPacketParse stale c = some (s, [])) := by
  have hlen : c.length ≠ 0 := fun h => hc (List.length_eq_zero.mp h)
  constructor
  · intro hcn
    have happ : s.bufferAfterAppend c = some ((s.inputDataBuffer ++ c).drop
        ((s.inputDataBuffer ++ c).length
          - min (s.inputDataBuffer.length + c.length) s.inputBufferMaxSize)) := by
      unfold ModbusProtocolSlave.bufferAfterAppend
      have h1 : ¬ (c.length = 0 ∨ c.length > s.inputBufferMaxSize) := by omega
      simp only [if_neg h1, hmap, Option.isNone_some, Bool.false_eq_true, if_false]
      rw [appendInput_eq_drop _ _ _ hcn]
    refine ⟨happ, ?_⟩
    intro hshort
    have hl : ((s.inputDataBuffer ++ c).drop ((s.inputDataBuffer ++ c).length
        - min (s.inputDataBuffer.length + c.length) s.inputBufferMaxSize)).length
        < inputPackTemplateF01F04_Size := by
      simp only [List.length_drop, List.length_append, inputPackTemplateF01F04_Size]
      omega
    unfold ModbusProtocolSlave.inputPacketParse
    rw [ModbusProtocolSlave.locatePacket_of_bufferAfterAppend s stale c _ happ, if_pos hl]
  · intro hcn
    have happ : s.bufferAfterAppend c = none := by
      unfold ModbusProtocolSlave.bufferAfterAppend
      have h1 : c.length = 0 ∨ c.length > s.inputBufferMaxSize := Or.inr hcn
      simp only [if_pos h1]
    refine ⟨happ, ?_⟩
    unfold ModbusProtocolSlave.inputPacketParse
    rw [ModbusProtocolSlave.locatePacket_of_bufferAfterAppend_none s stale c happ]

/-- C20 (as stated, refuted): a slave with the default capacity 1024 whose input buffer holds
`01 02 03` receives a chunk of 1025 bytes `AA`. The call leaves the buffer `01 02 03`; the last
1024 bytes of the buffer followed by the chunk are all `AA`. -/
theorem slave_append_ignores_oversized_chunk :
    (({ slaveWith (singletonMap holdingRegister) with
          inputDataBuffer := [0x01, 0x02, 0x03] }).inputPacketParse zeroMemory
        (List.replicate 1025 0xAA)).map
        (fun r : ModbusProtocolSlave × List (List Nat) => r.1.inputDataBuffer)
      = some [0x01, 0x02, 0x03] ∧
    ({ slaveWith (singletonMap holdingRegister) with
        inputDataBuffer := [0x01, 0x02, 0x03] }).bufferAfterAppend (List.replicate 1025 0xAA)
      = none ∧
    ([0x01, 0x02, 0x03] ++ List.replicate 1025 0xAA).drop
        (([0x01, 0x02, 0x03] ++ List.replicate 1025 0xAA).length - min (3 + 1025) 1024)
      = List.replicate 1024 0xAA := by
  decide

/-- C20 witness: with capacity 10, the buffer `01 .. 09` and the chunk `0A 0B 0C`, the buffer
after the insertion is `03 .. 0C`. -/
theorem slave_append_drops_oldest_witness :
    smallSlave.bufferAfterAppend [0x0A, 0x0B, 0x0C]
      = some [0x03, 0x04, 0x05, 0x06, 0x07, 0x08, 0x09, 0x0A, 0x0B, 0x0C] :=
  ((slave_append_drops_oldest smallSlave (singletonMap holdingRegister) zeroMemory
      [0x0A, 0x0B, 0x0C] (by decide) rfl).1 (by decide)).1

/-! ## Write multiple registers -/

namespace ModbusProtocolSlave

/-- A write-multiple-registers request for one register: the handler builds the value from the
bytes at the offsets 49 and 56 of the packet and returns 9, the length of the request without its
CRC. -/
theorem dispatch_write_one_register (map map' : ModbusRegMap) (out buf : List Nat)
    (stale : Nat → Nat) (start x y : Nat)
    (h1 : peek buf stale 1 = 0x10) (h2 : peek16 buf stale 2 = start)
    (h4 : peek16 buf stale 4 = 1) (h6 : peek buf stale 6 = 2) (hstart : start ≤ 0xFFFF)
    (h49 : peek buf stale 49 = x) (h56 : peek buf stale 56 = y)
    (hset : map.SetElementValue 0x10 start
      (leBytes 2 ((((x <<< 8) &&& 0xFF00) + y) % 65536)) 2 = (map', true)) :
    dispatch map out buf stale
      = (map', .returned
          (out ++ [0x10, (start &&& 0xFF00) >>> 8, start &&& 0x00FF, 0, 1], 9)) := by
  have hmod : start % 65536 = start := by omega
  have hrange : ¬ (65535 < start) := by omega
  simp only [dispatch, h1, processingFunc16, h2, h4, h6]
  simp [hrange, processingFunc16.loop, inputPackTemplateF15F16_Size, hmod, h49, h56, hset]

end ModbusProtocolSlave

/-- Every 16-bit value can be written to the register `(fc=0x10, addr=0x0010)` of the
write-multiple scenario. -/
theorem multipleRegister_set (v : Nat) (hv : v < 65536) :
    ∃ m', (singletonMap multipleRegister).SetElementValue 0x10 0x0010 (leBytes 2 v) 2
        = (m', true) ∧
      (m'.getModbusElement 0x10 0x0010).map (fun el => el.DataValue) = some (v : Int) := by
  obtain ⟨m', hset, hget⟩ := ModbusRegMap.SetElementValue_UInt16 (singletonMap multipleRegister)
    0x10 0x0010 (v % 256) (v / 256 % 256) [] multipleRegister (by decide)
    rfl
    (by
      simp only [multipleRegister, holdingRegister]
      exact Int.ofNat_nonneg _)
    (by
      have h : v % 256 + 256 * (v / 256 % 256) ≤ 65535 := by omega
      simp only [multipleRegister, holdingRegister]
      exact_mod_cast h)
  refine ⟨m', hset, ?_⟩
  rw [hget]
  simp only [Option.map_some', Option.some.injEq]
  have h : v % 256 + 256 * (v / 256 % 256) = v := by omega
  rw [h]

/-- C16 (the code at a failing input): the slave (address 1, the register `(fc=0x10,
addr=0x0010)`, `UInt16` with range `[0, 0xFFFF]`, in its map, empty input buffer) receives the
valid write-multiple-registers request `01 10 00 10 00 01 02 12 34 A9 B7` for one register
with the payload `12 34`. It answers `01 10 00 10 00 01 00 0C`, and the register then holds the
value built from the bytes at the offsets 49 and 56 of the packet, which lie in the memory
behind the 11-byte buffer: `processingFunc16` adds the payload index to a pointer to the 7-byte
packet struct. When the same request is followed in the chunk by 46 bytes, zero but for `AB` at
offset 49 and `CD` at offset 56, the register afterwards holds `0xABCD`, not `0x1234`. -/
theorem slave_write_registers_reads_outside_payload (stale : Nat → Nat) :
    ModbusCRC16 [0x01, 0x10, 0x00, 0x10, 0x00, 0x01, 0x02, 0x12, 0x34] 9 = 0xA9 + 256 * 0xB7 ∧
    (∃ s', (slaveWith (singletonMap multipleRegister)).inputPacketParse stale
          [0x01, 0x10, 0x00, 0x10, 0x00, 0x01, 0x02, 0x12, 0x34, 0xA9, 0xB7]
        = some (s', [[0x01, 0x10, 0x00, 0x10, 0x00, 0x01, 0x00, 0x0C]]) ∧
      s'.currentValue 0x10 0x0010
        = some (((((stale 49 <<< 8) &&& 0xFF00) + stale 56) % 65536 : Nat) : Int)) ∧
    ∃ s', (slaveWith (singletonMap multipleRegister)).inputPacketParse stale
          ([0x01, 0x10, 0x00, 0x10, 0x00, 0x01, 0x02, 0x12, 0x34, 0xA9, 0xB7] ++
            List.replicate 38 0x00 ++ [0xAB] ++ List.replicate 6 0x00 ++ [0xCD])
        = some (s', [[0x01, 0x10, 0x00, 0x10, 0x00, 0x01, 0x00, 0x0C]]) ∧
      s'.currentValue 0x10 0x0010 = some 0xABCD := by
  refine ⟨by decide, ?_, ?_⟩
  · have hvalid : ModbusProtocolSlave.checkModbusRequestPos
        ([] ++ [0x01, 0x10, 0x00, 0x10, 0x00, 0x01, 0x02, 0x12, 0x34, 0xA9, 0xB7]) stale 0
        = true := by
      rw [ModbusProtocolSlave.checkModbusRequestPos_of_inside _ stale zeroMemory 0 (by decide)
        (Or.inr (by decide))]
      decide
    have hloc := ModbusProtocolSlave.locatePacket_at (slaveWith (singletonMap multipleRegister))
      (singletonMap multipleRegister) stale
      [0x01, 0x10, 0x00, 0x10, 0x00, 0x01, 0x02, 0x12, 0x34, 0xA9, 0xB7] []
      [0x01, 0x10, 0x00, 0x10, 0x00, 0x01, 0x02, 0x12, 0x34, 0xA9, 0xB7] (by decide)
      (by decide) rfl rfl (by decide) (fun i hi => absurd hi (Nat.not_lt_zero i))
      (Or.inr hvalid)
    have hsw : ModbusProtocolSlave.swapBytes (ModbusProtocolSlave.swapBytes
        [0x01, 0x10, 0x00, 0x10, 0x00, 0x01, 0x02, 0x12, 0x34, 0xA9, 0xB7] 2 3) 4 5
        = [0x01, 0x10, 0x10, 0x00, 0x01, 0x00, 0x02, 0x12, 0x34, 0xA9, 0xB7] := rfl
    rw [hsw] at hloc
    obtain ⟨m', hset, hget⟩ := multipleRegister_set
      ((((stale 49 <<< 8) &&& 0xFF00) + stale 56) % 65536) (Nat.mod_lt _ (by norm_num))
    have hd := ModbusProtocolSlave.dispatch_write_one_register (singletonMap multipleRegister) m'
      [peek [0x01, 0x10, 0x10, 0x00, 0x01, 0x00, 0x02, 0x12, 0x34, 0xA9, 0xB7] stale 0]
      [0x01, 0x10, 0x10, 0x00, 0x01, 0x00, 0x02, 0x12, 0x34, 0xA9, 0xB7] stale 0x0010
      (stale 49) (stale 56) rfl rfl rfl rfl (by decide) rfl rfl hset
    have h0 : peek [0x01, 0x10, 0x10, 0x00, 0x01, 0x00, 0x02, 0x12, 0x34, 0xA9, 0xB7] stale 0
        = 1 := rfl
    rw [ModbusProtocolSlave.inputPacketParse_of_locate _ (singletonMap multipleRegister) stale
      _ _ hloc rfl, ModbusProtocolSlave.respond_of_dispatch_returned _ _ m' stale _ _ _ rfl hd,
      h0]
    refine ⟨{ slaveWith (singletonMap multipleRegister) with
              inputDataBuffer := [0xA9, 0xB7]
              outputDataBuffer := [0x01, 0x10, 0x00, 0x10, 0x00, 0x01, 0x00, 0x0C]
              modbusRegisterMap := some m' }, ?_, ?_⟩
    · simp [ModbusProtocolSlave.sendAnswer, slaveWith]
      decide
    · simpa [ModbusProtocolSlave.currentValue] using hget
  · have hL : [0x01, 0x10, 0x00, 0x10, 0x00, 0x01, 0x02, 0x12, 0x34, 0xA9, 0xB7] ++
        List.replicate 38 0x00 ++ [0xAB] ++ List.replicate 6 0x00 ++ [0xCD] =
        [0x01, 0x10, 0x00, 0x10, 0x00, 0x01, 0x02, 0x12, 0x34, 0xA9, 0xB7, 0x00, 0x00, 0x00,
         0x00, 0x00, 0x00, 0x00, 0x00, 0x00, 0x00, 0x00, 0x00, 0x00, 0x00, 0x00, 0x00, 0x00,
         0x00, 0x00, 0x00, 0x00, 0x00, 0x00, 0x00, 0x00, 0x00, 0x00, 0x00, 0x00, 0x00, 0x00,
         0x00, 0x00, 0x00, 0x00, 0x00, 0x00, 0x00, 0xAB, 0x00, 0x00, 0x00, 0x00, 0x00, 0x00,
         0xCD] := by
      decide
    rw [hL]
    have hvalid : ModbusProtocolSlave.checkModbusRequestPos ([] ++
        [0x01, 0x10, 0x00, 0x10, 0x00, 0x01, 0x02, 0x12, 0x34, 0xA9, 0xB7, 0x00, 0x00, 0x00,
         0x00, 0x00, 0x00, 0x00, 0x00, 0x00, 0x00, 0x00, 0x00, 0x00, 0x00, 0x00, 0x00, 0x00,
         0x00, 0x00, 0x00, 0x00, 0x00, 0x00, 0x00, 0x00, 0x00, 0x00, 0x00, 0x00, 0x00, 0x00,
         0x00, 0x00, 0x00, 0x00, 0x00, 0x00, 0x00, 0xAB, 0x00, 0x00, 0x00, 0x00, 0x00, 0x00,
         0xCD]) stale 0 = true := by
      rw [ModbusProtocolSlave.checkModbusRequestPos_of_inside _ stale zeroMemory 0 (by decide)
        (Or.inr (by decide))]
      decide
    have hloc := ModbusProtocolSlave.locatePacket_at (slaveWith (singletonMap multipleRegister))
      (singletonMap multipleRegister) stale
        [0x01, 0x10, 0x00, 0x10, 0x00, 0x01, 0x02, 0x12, 0x34, 0xA9, 0xB7, 0x00, 0x00, 0x00,
         0x00, 0x00, 0x00, 0x00, 0x00, 0x00, 0x00, 0x00, 0x00, 0x00, 0x00, 0x00, 0x00, 0x00,
         0x00, 0x00, 0x00, 0x00, 0x00, 0x00, 0x00, 0x00, 0x00, 0x00, 0x00, 0x00, 0x00, 0x00,
         0x00, 0x00, 0x00, 0x00, 0x00, 0x00, 0x00, 0xAB, 0x00, 0x00, 0x00, 0x00, 0x00, 0x00,
         0xCD] []
        [0x01, 0x10, 0x00, 0x10, 0x00, 0x01, 0x02, 0x12, 0x34, 0xA9, 0xB7, 0x00, 0x00, 0x00,
         0x00, 0x00, 0x00, 0x00, 0x00, 0x00, 0x00, 0x00, 0x00, 0x00, 0x00, 0x00, 0x00, 0x00,
         0x00, 0x00, 0x00, 0x00, 0x00, 0x00, 0x00, 0x00, 0x00, 0x00, 0x00, 0x00, 0x00, 0x00,
         0x00, 0x00, 0x00, 0x00, 0x00, 0x00, 0x00, 0xAB, 0x00, 0x00, 0x00, 0x00, 0x00, 0x00,
         0xCD]
      (by decide) (by decide) rfl rfl (by decide) (fun i hi => absurd hi (Nat.not_lt_zero i))
      (Or.inr hvalid)
    have hsw : ModbusProtocolSlave.swapBytes (ModbusProtocolSlave.swapBytes
        [0x01, 0x10, 0x00, 0x10, 0x00, 0x01, 0x02, 0x12, 0x34, 0xA9, 0xB7, 0x00, 0x00, 0x00,
         0x00, 0x00, 0x00, 0x00, 0x00, 0x00, 0x00, 0x00, 0x00, 0x00, 0x00, 0x00, 0x00, 0x00,
         0x00, 0x00, 0x00, 0x00, 0x00, 0x00, 0x00, 0x00, 0x00, 0x00, 0x00, 0x00, 0x00, 0x00,
         0x00, 0x00, 0x00, 0x00, 0x00, 0x00, 0x00, 0xAB, 0x00, 0x00, 0x00, 0x00, 0x00, 0x00,
         0xCD] 2 3) 4 5 =
        [0x01, 0x10, 0x10, 0x00, 0x01, 0x00, 0x02, 0x12, 0x34, 0xA9, 0xB7, 0x00, 0x00, 0x00,
         0x00, 0x00, 0x00, 0x00, 0x00, 0x00, 0x00, 0x00, 0x00, 0x00, 0x00, 0x00, 0x00, 0x00,
         0x00, 0x00, 0x00, 0x00, 0x00, 0x00, 0x00, 0x00, 0x00, 0x00, 0x00, 0x00, 0x00, 0x00,
         0x00, 0x00, 0x00, 0x00, 0x00, 0x00, 0x00, 0xAB, 0x00, 0x00, 0x00, 0x00, 0x00, 0x00,
         0xCD] := rfl
    rw [hsw] at hloc
    obtain ⟨m', hset, hget⟩ := multipleRegister_set 0xABCD (by decide)
    have hd := ModbusProtocolSlave.dispatch_write_one_register (singletonMap multipleRegister) m'
      [0x01]
        [0x01, 0x10, 0x10, 0x00, 0x01, 0x00, 0x02, 0x12, 0x34, 0xA9, 0xB7, 0x00, 0x00, 0x00,
         0x00, 0x00, 0x00, 0x00, 0x00, 0x00, 0x00, 0x00, 0x00, 0x00, 0x00, 0x00, 0x00, 0x00,
         0x00, 0x00, 0x00, 0x00, 0x00, 0x00, 0x00, 0x00, 0x00, 0x00, 0x00, 0x00, 0x00, 0x00,
         0x00, 0x00, 0x00, 0x00, 0x00, 0x00, 0x00, 0xAB, 0x00, 0x00, 0x00, 0x00, 0x00, 0x00,
         0xCD]
      stale 0x0010 0xAB 0xCD rfl rfl rfl rfl (by decide) rfl rfl hset
    rw [ModbusProtocolSlave.inputPacketParse_of_locate _ (singletonMap multipleRegister) stale
      _ _ hloc rfl, ModbusProtocolSlave.respond_of_dispatch_returned _ _ m' stale _ _ _ rfl hd]
    refine ⟨{ slaveWith (singletonMap multipleRegister) with
              inputDataBuffer := [0xA9, 0xB7] ++ List.replicate 38 0x00 ++ [0xAB] ++
                List.replicate 6 0x00 ++ [0xCD]
              outputDataBuffer := [0x01, 0x10, 0x00, 0x10, 0x00, 0x01, 0x00, 0x0C]
              modbusRegisterMap := some m' }, ?_, ?_⟩
    · simp [ModbusProtocolSlave.sendAnswer, slaveWith, peek]
      decide
    · simpa [ModbusProtocolSlave.currentValue] using hget

/-! ## Read registers: the layout of the answer -/

theorem leBytes_length (n v : Nat) : (leBytes n v).length = n := by
  induction n generalizing v with
  | zero => rfl
  | succ n ih => simp [leBytes, ih]

namespace ModbusRegMap

/-- A raw read into a buffer of four bytes succeeds for every element with a known tag and
returns as many bytes as the tag's native width. -/
theorem GetElementValue_width (m : ModbusRegMap) (functionCode registerAddress : Nat)
    (el : ModbusElement) (hel : m.getModbusElement functionCode registerAddress = some el)
    (hty : el.DataType ≠ .UnknownDataType) :
    ∃ bytes, m.GetElementValue functionCode registerAddress 4 = some bytes ∧
      bytes.length = el.DataType.nativeWidth := by
  unfold GetElementValue
  simp only [hel]
  cases h : el.DataType <;>
    simp_all [copyElementToRAWData, sizeofModElType, valueToRaw, leBytes_length, cStringBytes,
      ModbusDataType.nativeWidth]

end ModbusRegMap

theorem flatMap_length_uniform (l : List Nat) (f : Nat → List Nat) (w : Nat)
    (h : ∀ x ∈ l, (f x).length = w) : (l.flatMap f).length = w * l.length := by
  induction l with
  | nil => simp
  | cons x rest ih =>
    simp only [List.flatMap_cons, List.length_append, List.length_cons]
    rw [h x (List.mem_cons_self _ _), ih (fun y hy => h y (List.mem_cons_of_mem _ hy))]
    ring

namespace ModbusProtocolSlave

/-- The loop of `processingFunc03_04` over `n` addresses from `i` that all can be read, with
the bound `i + n` below `0x10000`: it returns, having appended the bytes of each raw read in
reverse order. -/
theorem processingFunc03_04_loop_returned (map : ModbusRegMap) (funcCode bound : Nat)
    (hbound : bound ≤ 65535) :
    ∀ (n fuel i : Nat) (out : List Nat), i + n = bound → n < fuel →
      (∀ addr ∈ List.range' i n, ∃ bytes,
        map.GetElementValue funcCode addr 4 = some bytes ∧ bytes ≠ []) →
      processingFunc03_04.loop map funcCode bound fuel i out
        = .returned (out ++ (List.range' i n).flatMap
            (fun addr => ((map.GetElementValue funcCode addr 4).getD []).reverse)) := by
  intro n
  induction n with
  | zero =>
    intro fuel i out hi hfuel _
    obtain ⟨f, rfl⟩ : ∃ f, fuel = f + 1 := ⟨fuel - 1, by omega⟩
    have hnot : ¬ (i < bound) := by omega
    simp [processingFunc03_04.loop, hnot]
  | succ n ih =>
    intro fuel i out hi hfuel hall
    obtain ⟨f, rfl⟩ : ∃ f, fuel = f + 1 := ⟨fuel - 1, by omega⟩
    have hlt : i < bound := by omega
    obtain ⟨bytes, hb, hne⟩ := hall i (by simp [List.range'_succ])
    have hlen : bytes.length ≠ 0 := fun h => hne (List.length_eq_zero.mp h)
    have hmod : (i + 1) % 65536 = i + 1 := by omega
    have hrec := ih f (i + 1) (out ++ bytes.reverse) (by omega) (by omega)
      (fun addr haddr => hall addr (by
        rw [List.range'_succ]
        exact List.mem_cons_of_mem _ haddr))
    simp only [processingFunc03_04.loop, if_pos hlt, hb, hmod]
    rw [if_pos hlen, hrec, List.range'_succ, List.flatMap_cons, hb]
    simp

/-- A packet that a handler accepts: the slave whose non-zero address the packet carries sends
the handler's output followed by its CRC, low byte first. -/
theorem respond_of_dispatch_returned_sent (s : ModbusProtocolSlave) (map map' : ModbusRegMap)
    (stale : Nat → Nat) (buf out : List Nat) (n a : Nat)
    (h0 : peek buf stale 0 = a) (haddr : s.deviceAddress = a) (ha : a ≠ 0)
    (hsend : s.sendDataFunc = true) (hout : out ≠ [])
    (hd : dispatch map [a] buf stale = (map', .returned (out, n))) :
    ∃ s', respond s map stale buf
        = some (s', [out ++ [ModbusCRC16 out out.length % 256,
            ModbusCRC16 out out.length / 256]]) ∧
      s'.modbusRegisterMap = some map' ∧
      s'.inputDataBuffer = (if n ≠ 0 then buf.drop n else buf) := by
  have hcrc := ModbusCRC16_lt out out.length
  have hlen : out.length ≠ 0 := fun h => hout (List.length_eq_zero.mp h)
  have e : ModbusCRC16 out out.length / 256 % 256 = ModbusCRC16 out out.length / 256 := by
    omega
  unfold respond
  simp only [h0, haddr, true_or, if_true, hd]
  refine ⟨(sendAnswer s map' buf out a n).1, ?_, rfl, rfl⟩
  congr 1
  apply Prod.ext
  · rfl
  · simp only [sendAnswer, hlen, hsend, ha, ne_eq, not_false_eq_true, and_self, if_true,
      ModbusCRC16_mod, and_255_eq_mod, and_FF00_shiftRight, e]

/-- The handler of a read-registers request whose range lies below `0xFFFF` and can be read
throughout: the output is the function code, the number of data bytes (as a byte) and the
data, the bytes of each raw read in reverse order. -/
theorem processingFunc03_04_returned (map : ModbusRegMap) (buf : List Nat) (stale : Nat → Nat)
    (a fc start q : Nat) (h1 : peek buf stale 1 = fc) (h2 : peek16 buf stale 2 = start)
    (h4 : peek16 buf stale 4 = q) (hq : 1 ≤ q ∧ q ≤ 0x007D) (hrange : start + q ≤ 0xFFFF)
    (hall : ∀ addr ∈ List.range' start q, ∃ bytes,
      map.GetElementValue fc addr 4 = some bytes ∧ bytes ≠ []) :
    processingFunc03_04 map [a] buf stale
      = .returned ([a, fc, ((List.range' start q).flatMap
            (fun addr => ((map.GetElementValue fc addr 4).getD []).reverse)).length % 256] ++
          (List.range' start q).flatMap
            (fun addr => ((map.GetElementValue fc addr 4).getD []).reverse),
          inputPackTemplateF01F04_Size) := by
  have hq' : ¬ (q = 0 ∨ q > 0x007D) := by omega
  have hr' : ¬ (start + q - 1 > 0x0000FFFF) := by omega
  unfold processingFunc03_04
  simp only [h1, h2, h4, if_neg hq', if_neg hr']
  rw [processingFunc03_04_loop_returned map fc (start + q) (by omega) q 65537 start _ rfl
    (by omega) hall]
  simp only [List.singleton_append, List.cons_append, List.nil_append, List.length_cons,
    List.set_cons_succ, List.set_cons_zero]
  have hv : ∀ L : Nat, ((L + 1 + 1 + 1) % 256 + 256 - 3) % 256 = L % 256 := by
    intro L
    omega
  rw [hv]

end ModbusProtocolSlave

/-- C14 (amended): a read-registers request (function code 3 or 4) that passes the slave's
frame test, carries the slave's non-zero address and asks for `q` registers from `start`, with
`1 <= q <= 0x7D` and `start + q <= 0xFFFF`, all stored with a known data-type tag, is answered
with `a, fc, n, data, crc_lo, crc_hi`, where `data` holds for each register the bytes of its
raw read in reverse order and `n` is the number of data bytes (as a byte). A register
contributes as many bytes as the native width of its tag: when every register of the range has
a tag of width `w`, there are `w * q` data bytes, that is `2 * q` for 16-bit tags and `4 * q`
for 32-bit tags. The request ends what the input buffer holds once the chunk is appended
(within the capacity); no offset of the bytes `g` before it passes the frame test. -/
theorem slave_read_registers_layout (s : ModbusProtocolSlave) (map : ModbusRegMap)
    (stale : Nat → Nat) (inputBuffer g : List Nat) (a fc sh sl qh ql cl ch : Nat)
    (ha : a ≠ 0) (hfc : fc = 0x03 ∨ fc = 0x04)
    (haddr : s.deviceAddress = a) (hmap : s.modbusRegisterMap = some map)
    (hsend : s.sendDataFunc = true) (hne : inputBuffer ≠ [])
    (hfit : s.inputDataBuffer.length + inputBuffer.length ≤ s.inputBufferMaxSize)
    (hcat : s.inputDataBuffer ++ inputBuffer = g ++ [a, fc, sh, sl, qh, ql, cl, ch])
    (hg : ∀ i < g.length, ModbusProtocolSlave.checkModbusRequestPos
      (g ++ [a, fc, sh, sl, qh, ql, cl, ch]) stale i = false)
    (hvalid : ModbusProtocolSlave.checkModbusRequestPos
      (g ++ [a, fc, sh, sl, qh, ql, cl, ch]) stale g.length = true)
    (hq : 1 ≤ ql + 256 * qh ∧ ql + 256 * qh ≤ 0x007D)
    (hrange : sl + 256 * sh + (ql + 256 * qh) ≤ 0xFFFF)
    (hex : ∀ addr ∈ List.range' (sl + 256 * sh) (ql + 256 * qh), ∃ el,
      map.getModbusElement fc addr = some el ∧ el.DataType ≠ .UnknownDataType) :
    ∃ s' data,
      data = (List.range' (sl + 256 * sh) (ql + 256 * qh)).flatMap
        (fun addr => ((map.GetElementValue fc addr 4).getD []).reverse) ∧
      s.inputPacketParse stale inputBuffer
        = some (s', [[a, fc, data.length % 256] ++ data ++
            [ModbusCRC16 ([a, fc, data.length % 256] ++ data) (3 + data.length) % 256,
              ModbusCRC16 ([a, fc, data.length % 256] ++ data) (3 + data.length) / 256]]) ∧
      s'.modbusRegisterMap = some map ∧
      ∀ w, (∀ addr ∈ List.range' (sl + 256 * sh) (ql + 256 * qh), ∀ el,
          map.getModbusElement fc addr = some el → el.DataType.nativeWidth = w) →
        data.length = w * (ql + 256 * qh) := by
  have hloc := ModbusProtocolSlave.locatePacket_at s map stale inputBuffer g
    [a, fc, sh, sl, qh, ql, cl, ch] hne hfit hmap hcat (Nat.le_refl _) hg (Or.inr hvalid)
  have hsw : ModbusProtocolSlave.swapBytes (ModbusProtocolSlave.swapBytes
      [a, fc, sh, sl, qh, ql, cl, ch] 2 3) 4 5 = [a, fc, sl, sh, ql, qh, cl, ch] := rfl
  rw [hsw] at hloc
  have hall : ∀ addr ∈ List.range' (sl + 256 * sh) (ql + 256 * qh), ∃ bytes,
      map.GetElementValue fc addr 4 = some bytes ∧ bytes ≠ [] := by
    intro addr haddr'
    obtain ⟨el, hel, hty⟩ := hex addr haddr'
    obtain ⟨bytes, hb, hl⟩ := ModbusRegMap.GetElementValue_width map fc addr el hel hty
    refine ⟨bytes, hb, ?_⟩
    intro hnil
    rw [hnil] at hl
    cases hd : el.DataType <;> simp_all [ModbusDataType.nativeWidth, sizeofModElType]
  have hp := ModbusProtocolSlave.processingFunc03_04_returned map
    [a, fc, sl, sh, ql, qh, cl, ch] stale a fc (sl + 256 * sh) (ql + 256 * qh) rfl rfl rfl
    hq hrange hall
  have hd : ModbusProtocolSlave.dispatch map [a] [a, fc, sl, sh, ql, qh, cl, ch] stale
      = (map, .returned ([a, fc, ((List.range' (sl + 256 * sh) (ql + 256 * qh)).flatMap
            (fun addr => ((map.GetElementValue fc addr 4).getD []).reverse)).length % 256] ++
          (List.range' (sl + 256 * sh) (ql + 256 * qh)).flatMap
            (fun addr => ((map.GetElementValue fc addr 4).getD []).reverse),
          inputPackTemplateF01F04_Size)) := by
    have h1 : peek [a, fc, sl, sh, ql, qh, cl, ch] stale 1 = fc := rfl
    unfold ModbusProtocolSlave.dispatch
    simp only [h1]
    rcases hfc with h | h <;> subst h <;> simp [hp]
  obtain ⟨s', hs', hm', _⟩ := ModbusProtocolSlave.respond_of_dispatch_returned_sent s map map
    stale [a, fc, sl, sh, ql, qh, cl, ch] _ _ a rfl haddr ha hsend (by simp) hd
  refine ⟨s', _, rfl, ?_, hm', ?_⟩
  · have hl : ∀ (x : Nat) (d : List Nat), ([a, fc, x] ++ d).length = 3 + d.length := by
      intro x d
      simp only [List.cons_append, List.nil_append, List.length_cons]
      omega
    rw [ModbusProtocolSlave.inputPacketParse_of_locate s map stale inputBuffer _ hloc hmap, hs',
      hl]
  · intro w hw
    have h := flatMap_length_uniform (List.range' (sl + 256 * sh) (ql + 256 * qh))
      (fun addr => ((map.GetElementValue fc addr 4).getD []).reverse) w (by
        intro addr haddr'
        obtain ⟨el, hel, hty⟩ := hex addr haddr'
        obtain ⟨bytes, hb, hl⟩ := ModbusRegMap.GetElementValue_width map fc addr el hel hty
        simp only [hb, Option.getD_some, List.length_reverse, hl]
        exact hw addr haddr' el hel)
    rw [List.length_range'] at h
    exact h

/-- C14 witness: the read request `01 03 00 10 00 01 85 CF` for the `UInt16` register at
`0x0010`. -/
theorem slave_read_registers_layout_witness :
    ModbusProtocolSlave.checkModbusRequestPos
      ([] ++ [0x01, 0x03, 0x00, 0x10, 0x00, 0x01, 0x85, 0xCF]) zeroMemory 0 = true ∧
    ∃ s' data,
      data = (List.range' (0x10 + 256 * 0x00) (0x01 + 256 * 0x00)).flatMap
        (fun addr => (((singletonMap holdingRegister).GetElementValue 0x03 addr 4).getD
          []).reverse) ∧
      (slaveWith (singletonMap holdingRegister)).inputPacketParse zeroMemory
          [0x01, 0x03, 0x00, 0x10, 0x00, 0x01, 0x85, 0xCF]
        = some (s', [[0x01, 0x03, data.length % 256] ++ data ++
            [ModbusCRC16 ([0x01, 0x03, data.length % 256] ++ data) (3 + data.length) % 256,
              ModbusCRC16 ([0x01, 0x03, data.length % 256] ++ data) (3 + data.length)
                / 256]]) ∧
      s'.modbusRegisterMap = some (singletonMap holdingRegister) :=
  ⟨by decide,
    let ⟨s', data, hdata, hrun, hm, _⟩ :=
      slave_read_registers_layout (slaveWith (singletonMap holdingRegister))
        (singletonMap holdingRegister) zeroMemory
        [0x01, 0x03, 0x00, 0x10, 0x00, 0x01, 0x85, 0xCF] [] 0x01 0x03 0x00 0x10 0x00 0x01 0x85
        0xCF (by decide) (Or.inl rfl) rfl rfl rfl (by decide) (by decide) rfl
        (fun i hi => absurd hi (Nat.not_lt_zero i)) (by decide) (by decide) (by decide)
        (fun addr haddr => ⟨holdingRegister, by
          have h : addr = 16 := by simpa using haddr
          subst h
          decide, by decide⟩)
    ⟨s', data, hdata, hrun, hm⟩⟩

/-- C14 (as stated, refuted): the slave whose map holds the `UInt32` register `0x12345678` at
`(fc=3, addr=0x0010)` answers the request `01 03 00 10 00 01 85 CF` for one register with
`01 03 04 12 34 56 78 81 07`: byte count 4 and four data bytes, not 2 and two. -/
theorem slave_read_registers_layout_wide_tag :
    ((slaveWith (singletonMap wideRegister)).inputPacketParse zeroMemory
        [0x01, 0x03, 0x00, 0x10, 0x00, 0x01, 0x85, 0xCF]).map
        (fun r : ModbusProtocolSlave × List (List Nat) => r.2)
      = some [[0x01, 0x03, 0x04, 0x12, 0x34, 0x56, 0x78, 0x81, 0x07]] := by
  decide

/-! ## Read coils: the packing of the bits -/

theorem leValue_append_singleton (d : List Nat) (x : Nat) :
    leValue (d ++ [x]) = leValue d + 256 ^ d.length * x := by
  induction d with
  | nil => simp [leValue]
  | cons b rest ih =>
    show b + 256 * leValue (rest ++ [x])
      = (b + 256 * leValue rest) + 256 ^ (rest.length + 1) * x
    rw [ih, pow_succ]
    ring

/-- Bit `j` of the little-endian value of a byte sequence is bit `j % 8` of its byte
`j / 8`. -/
theorem leValue_testBit (d : List Nat) (hd : ∀ x ∈ d, x < 256) (j : Nat) :
    (leValue d).testBit j = (d.getD (j / 8) 0).testBit (j % 8) := by
  induction d generalizing j with
  | nil => simp [leValue]
  | cons b rest ih =>
    have hb : b < 2 ^ 8 := hd b (List.mem_cons_self _ _)
    have e : leValue (b :: rest) = 2 ^ 8 * leValue rest + b := by
      simp only [leValue]
      ring
    rw [e, Nat.testBit_mul_pow_two_add _ hb]
    by_cases hj : j < 8
    · have h1 : j / 8 = 0 := by omega
      have h2 : j % 8 = j := by omega
      simp [hj, h1, h2]
    · have h1 : j / 8 = (j - 8) / 8 + 1 := by omega
      have h2 : (j - 8) % 8 = j % 8 := by omega
      rw [if_neg hj, ih (fun x hx => hd x (List.mem_cons_of_mem _ hx)), h1, h2]
      simp

/-- Bit `j` of the number whose binary digits, least significant first, are `l`. -/
theorem bits_testBit (l : List Nat) (hl : ∀ b ∈ l, b < 2) (j : Nat) :
    (l.foldr (fun b r => b + 2 * r) 0).testBit j = decide (l.getD j 0 = 1) := by
  induction l generalizing j with
  | nil => simp
  | cons b rest ih =>
    have hb : b < 2 := hl b (List.mem_cons_self _ _)
    cases j with
    | zero =>
      simp only [List.foldr_cons, Nat.testBit_zero, List.getD_cons_zero]
      congr 1
      apply propext
      constructor <;> intro h <;> omega
    | succ j =>
      simp only [List.foldr_cons, Nat.testBit_succ, List.getD_cons_succ]
      have e : (b + 2 * rest.foldr (fun b r => b + 2 * r) 0) / 2
          = rest.foldr (fun b r => b + 2 * r) 0 := by omega
      rw [e, ih (fun x hx => hl x (List.mem_cons_of_mem _ hx))]

theorem or_shiftLeft_of_lt (acc b bn : Nat) (hacc : acc < 2 ^ bn) :
    acc ||| (b <<< bn) = acc + 2 ^ bn * b := by
  rw [Nat.shiftLeft_eq, Nat.mul_comm b, Nat.or_comm, Nat.add_comm]
  exact (Nat.mul_add_lt_is_or hacc b).symm

namespace ModbusProtocolSlave

/-- The loop of `processingFunc01_02` over `n` addresses from `i` that all can be read, bit
`bit addr` being the lowest bit of the byte read at `addr`: with `d` the data bytes appended so
far (after the header `hdr`) and `acc` holding the `bn` bits of the byte in progress, the loop
returns, and the data bytes together with the byte in progress then spell, as one
little-endian number, the old ones followed by the `n` bits. -/
theorem processingFunc01_02_loop_returned (map : ModbusRegMap) (funcCode : Nat)
    (bit : Nat → Nat) (hdr : List Nat) :
    ∀ (n i : Nat) (d : List Nat) (acc bn : Nat), i + n ≤ 65536 → bn < 8 → acc < 2 ^ bn →
      (∀ x ∈ d, x < 256) →
      (∀ addr ∈ List.range' i n, ∃ bytes, map.GetElementValue funcCode addr 1 = some bytes ∧
        bytes ≠ [] ∧ bytes.getD 0 0 &&& 0x01 = bit addr) →
      ∃ d' acc' bn',
        processingFunc01_02.loop map funcCode n i (hdr ++ d) acc bn
          = .returned (hdr ++ d', acc', bn') ∧
        bn' < 8 ∧ acc' < 2 ^ bn' ∧ (∀ x ∈ d', x < 256) ∧
        d'.length * 8 + bn' = d.length * 8 + bn + n ∧
        leValue d' + 256 ^ d'.length * acc'
          = leValue d + 256 ^ d.length *
            (acc + 2 ^ bn * ((List.range' i n).map bit).foldr (fun b r => b + 2 * r) 0) := by
  intro n
  induction n with
  | zero =>
    intro i d acc bn _ hbn hacc hd _
    exact ⟨d, acc, bn, rfl, hbn, hacc, hd, by omega, by simp⟩
  | succ n ih =>
    intro i d acc bn hi hbn hacc hd hall
    obtain ⟨bytes, hb, hne, hbit⟩ := hall i (by simp [List.range'_succ])
    have hlen : bytes.length ≠ 0 := fun h => hne (List.length_eq_zero.mp h)
    have hmod : i % 65536 = i := by omega
    have hb2 : bit i < 2 := by
      rw [← hbit, Nat.and_one_is_mod]
      omega
    have hrest : ∀ addr ∈ List.range' (i + 1) n, ∃ bytes,
        map.GetElementValue funcCode addr 1 = some bytes ∧ bytes ≠ [] ∧
        bytes.getD 0 0 &&& 0x01 = bit addr := fun addr haddr => hall addr (by
      rw [List.range'_succ]
      exact List.mem_cons_of_mem _ haddr)
    have hpow : 2 ^ (bn + 1) = 2 ^ bn * 2 := pow_succ 2 bn
    have hpow8 : 2 ^ bn * 2 ≤ 256 := by
      have h : 2 ^ (bn + 1) ≤ 2 ^ 8 := Nat.pow_le_pow_right (by norm_num) (by omega)
      omega
    have hacc1 : acc + 2 ^ bn * bit i < 2 ^ bn * 2 := by
      have h : 2 ^ bn * bit i ≤ 2 ^ bn * 1 := Nat.mul_le_mul_left _ (by omega)
      omega
    have hbyte : (acc ||| ((bytes.getD 0 0 &&& 0x01) <<< bn)) % 256 = acc + 2 ^ bn * bit i := by
      rw [hbit, or_shiftLeft_of_lt acc (bit i) bn hacc]
      exact Nat.mod_eq_of_lt (by omega)
    have hbn1 : (bn + 1) % 256 = bn + 1 := by omega
    simp only [processingFunc01_02.loop, hmod, hb, if_pos hlen, hbyte, hbn1]
    by_cases h7 : bn + 1 > 7
    · have hbn7 : bn = 7 := by omega
      subst hbn7
      obtain ⟨d', acc', bn', hrun, h1, h2, h3, h4, h5⟩ :=
        ih (i + 1) (d ++ [acc + 2 ^ 7 * bit i]) 0 0 (by omega) (by omega) (by norm_num)
          (by
            intro x hx
            rcases List.mem_append.mp hx with h | h
            · exact hd x h
            · have hx' : x = acc + 2 ^ 7 * bit i := by simpa using h
              omega)
          hrest
      refine ⟨d', acc', bn', ?_, h1, h2, h3, ?_, ?_⟩
      · rw [if_pos h7, ← List.append_assoc] at *
        exact hrun
      · rw [h4, List.length_append, List.length_singleton]
        omega
      · rw [h5, leValue_append_singleton, List.length_append, List.length_singleton,
          List.range'_succ, List.map_cons, List.foldr_cons, pow_succ]
        ring
    · obtain ⟨d', acc', bn', hrun, h1, h2, h3, h4, h5⟩ :=
        ih (i + 1) d (acc + 2 ^ bn * bit i) (bn + 1) (by omega) (by omega)
          (by rw [hpow]; exact hacc1) hd hrest
      refine ⟨d', acc', bn', ?_, h1, h2, h3, by omega, ?_⟩
      · rw [if_neg h7]
        exact hrun
      · rw [h5, List.range'_succ, List.map_cons, List.foldr_cons, hpow]
        ring

end ModbusProtocolSlave

namespace ModbusRegMap

/-- A raw read of one byte from a `OneBit` element returns its value as a byte, whose lowest
bit is the lowest bit of the value. -/
theorem GetElementValue_OneBit (m : ModbusRegMap) (functionCode registerAddress : Nat)
    (el : ModbusElement) (hel : m.getModbusElement functionCode registerAddress = some el)
    (hty : el.DataType = .OneBit) :
    ∃ bytes, m.GetElementValue functionCode registerAddress 1 = some bytes ∧ bytes ≠ [] ∧
      bytes.getD 0 0 &&& 0x01 = (if el.DataValue % 2 = 1 then 1 else 0) := by
  refine ⟨[(el.DataValue % 256).toNat % 256], ?_, by simp, ?_⟩
  · simp [GetElementValue, hel, hty, copyElementToRAWData, sizeofModElType, valueToRaw,
      leBytes]
  · simp only [List.getD_cons_zero, Nat.and_one_is_mod]
    split <;> omega

end ModbusRegMap

namespace ModbusProtocolSlave

/-- The handler of a read-coils request for `q` coils from `start` that all can be read: the
output is the function code, the byte count `(q + 7) / 8` and as many data bytes, which spell,
as one little-endian number, the bits read, the first coil lowest. -/
theorem processingFunc01_02_returned (map : ModbusRegMap) (buf : List Nat) (stale : Nat → Nat)
    (bit : Nat → Nat) (a fc start q : Nat) (h1 : peek buf stale 1 = fc)
    (h2 : peek16 buf stale 2 = start) (h4 : peek16 buf stale 4 = q)
    (hq : 1 ≤ q ∧ q ≤ 0x07D0) (hrange : start + q - 1 ≤ 0xFFFF)
    (hall : ∀ addr ∈ List.range' start q, ∃ bytes,
      map.GetElementValue fc addr 1 = some bytes ∧ bytes ≠ [] ∧
      bytes.getD 0 0 &&& 0x01 = bit addr) :
    ∃ d, processingFunc01_02 map [a] buf stale
        = .returned ([a, fc, (q + 7) / 8] ++ d, inputPackTemplateF01F04_Size) ∧
      d.length = (q + 7) / 8 ∧ (∀ x ∈ d, x < 256) ∧
      leValue d = ((List.range' start q).map bit).foldr (fun b r => b + 2 * r) 0 := by
  have hq' : ¬ (q = 0 ∨ q > 0x07D0) := by omega
  have hr' : ¬ (start + q - 1 > 0x0000FFFF) := by omega
  have hn8 : (q / 8 + (if q % 8 > 0 then 1 else 0)) % 256 = (q + 7) / 8 := by
    split <;> omega
  obtain ⟨d', acc', bn', hrun, hb1, hb2, hb3, hb4, hb5⟩ :=
    processingFunc01_02_loop_returned map fc bit [a, fc, (q + 7) / 8] q start [] 0 0
      (by omega) (by omega) (by norm_num) (by simp) hall
  simp only [List.length_nil, leValue, pow_zero, Nat.zero_mul, Nat.zero_add, Nat.one_mul,
    Nat.add_zero, List.append_nil] at hb4 hb5 hrun
  unfold processingFunc01_02
  simp only [h1, h2, h4, if_neg hq', if_neg hr', hn8, List.singleton_append, List.cons_append,
    List.nil_append, hrun]
  by_cases hbn : bn' ≠ 0
  · refine ⟨d' ++ [acc'], ?_, ?_, ?_, ?_⟩
    · simp [hbn]
    · rw [List.length_append, List.length_singleton]
      omega
    · intro x hx
      rcases List.mem_append.mp hx with h | h
      · exact hb3 x h
      · have hx' : x = acc' := by simpa using h
        have hp : 2 ^ bn' ≤ 2 ^ 8 := Nat.pow_le_pow_right (by norm_num) (by omega)
        omega
    · rw [leValue_append_singleton, hb5]
  · have h0 : bn' = 0 := by omega
    subst h0
    have hacc : acc' = 0 := by
      rw [pow_zero] at hb2
      omega
    subst hacc
    refine ⟨d', ?_, by omega, hb3, ?_⟩
    · simp
    · rw [← hb5]
      simp

end ModbusProtocolSlave

/-- C15: a read-coils or read-discrete-inputs request (function code 1 or 2) that passes the
slave's frame test, carries the slave's non-zero address and asks for `q` bits from `start`,
with `1 <= q <= 0x07D0` and `start + q - 1 <= 0xFFFF`, all stored as `OneBit` elements, is
answered with `a, fc, n, d[0..n-1], crc_lo, crc_hi` where `n = (q + 7) / 8`, the number of
bytes that hold `q` bits; for every `i < q`, bit `i % 8` of `d[i / 8]` is the lowest bit of the
current value of the element at `start + i`, and every bit at a position from `q` on is 0. The
register map is unchanged. The request ends what the input buffer holds once the chunk is
appended (within the capacity); no offset of the bytes `g` before it passes the frame test. -/
theorem slave_read_coils_packing (s : ModbusProtocolSlave) (map : ModbusRegMap)
    (stale : Nat → Nat) (inputBuffer g : List Nat) (a fc sh sl qh ql cl ch : Nat)
    (ha : a ≠ 0) (hfc : fc = 0x01 ∨ fc = 0x02)
    (haddr : s.deviceAddress = a) (hmap : s.modbusRegisterMap = some map)
    (hsend : s.sendDataFunc = true) (hne : inputBuffer ≠ [])
    (hfit : s.inputDataBuffer.length + inputBuffer.length ≤ s.inputBufferMaxSize)
    (hcat : s.inputDataBuffer ++ inputBuffer = g ++ [a, fc, sh, sl, qh, ql, cl, ch])
    (hg : ∀ i < g.length, ModbusProtocolSlave.checkModbusRequestPos
      (g ++ [a, fc, sh, sl, qh, ql, cl, ch]) stale i = false)
    (hvalid : ModbusProtocolSlave.checkModbusRequestPos
      (g ++ [a, fc, sh, sl, qh, ql, cl, ch]) stale g.length = true)
    (hq : 1 ≤ ql + 256 * qh ∧ ql + 256 * qh ≤ 0x07D0)
    (hrange : sl + 256 * sh + (ql + 256 * qh) - 1 ≤ 0xFFFF)
    (hex : ∀ i < ql + 256 * qh, ∃ el,
      map.getModbusElement fc (sl + 256 * sh + i) = some el ∧ el.DataType = .OneBit) :
    ∃ s' d,
      s.inputPacketParse stale inputBuffer
        = some (s', [[a, fc, (ql + 256 * qh + 7) / 8] ++ d ++
            [ModbusCRC16 ([a, fc, (ql + 256 * qh + 7) / 8] ++ d) (3 + d.length) % 256,
              ModbusCRC16 ([a, fc, (ql + 256 * qh + 7) / 8] ++ d) (3 + d.length) / 256]]) ∧
      s'.modbusRegisterMap = some map ∧
      d.length = (ql + 256 * qh + 7) / 8 ∧
      (∀ i < ql + 256 * qh, ∀ el, map.getModbusElement fc (sl + 256 * sh + i) = some el →
        (d.getD (i / 8) 0).testBit (i % 8) = decide (el.DataValue % 2 = 1)) ∧
      (∀ j, ql + 256 * qh ≤ j → (d.getD (j / 8) 0).testBit (j % 8) = false) := by
  have hloc := ModbusProtocolSlave.locatePacket_at s map stale inputBuffer g
    [a, fc, sh, sl, qh, ql, cl, ch] hne hfit hmap hcat (Nat.le_refl _) hg (Or.inr hvalid)
  have hsw : ModbusProtocolSlave.swapBytes (ModbusProtocolSlave.swapBytes
      [a, fc, sh, sl, qh, ql, cl, ch] 2 3) 4 5 = [a, fc, sl, sh, ql, qh, cl, ch] := rfl
  rw [hsw] at hloc
  have hbitdef : ∀ addr el, map.getModbusElement fc addr = some el →
      (match map.getModbusElement fc addr with
        | some el => if el.DataValue % 2 = 1 then 1 else 0
        | none => 0) = (if el.DataValue % 2 = 1 then 1 else 0) := by
    intro addr el h
    rw [h]
  have hall : ∀ addr ∈ List.range' (sl + 256 * sh) (ql + 256 * qh), ∃ bytes,
      map.GetElementValue fc addr 1 = some bytes ∧ bytes ≠ [] ∧
      bytes.getD 0 0 &&& 0x01 = (match map.getModbusElement fc addr with
        | some el => if el.DataValue % 2 = 1 then 1 else 0
        | none => 0) := by
    intro addr haddr'
    have hm := List.mem_range'_1.mp haddr'
    obtain ⟨el, hel, hty⟩ := hex (addr - (sl + 256 * sh)) (by omega)
    have e : sl + 256 * sh + (addr - (sl + 256 * sh)) = addr := by omega
    rw [e] at hel
    obtain ⟨bytes, hb, hne', hbit⟩ := ModbusRegMap.GetElementValue_OneBit map fc addr el hel hty
    exact ⟨bytes, hb, hne', by rw [hbit, hbitdef addr el hel]⟩
  obtain ⟨d, hp, hlen, hbytes, hval⟩ := ModbusProtocolSlave.processingFunc01_02_returned map
    [a, fc, sl, sh, ql, qh, cl, ch] stale _ a fc (sl + 256 * sh) (ql + 256 * qh) rfl rfl rfl
    hq hrange hall
  have hd : ModbusProtocolSlave.dispatch map [a] [a, fc, sl, sh, ql, qh, cl, ch] stale
      = (map, .returned ([a, fc, (ql + 256 * qh + 7) / 8] ++ d,
          inputPackTemplateF01F04_Size)) := by
    have h1 : peek [a, fc, sl, sh, ql, qh, cl, ch] stale 1 = fc := rfl
    unfold ModbusProtocolSlave.dispatch
    simp only [h1]
    rcases hfc with h | h <;> subst h <;> simp [hp]
  obtain ⟨s', hs', hm', _⟩ := ModbusProtocolSlave.respond_of_dispatch_returned_sent s map map
    stale [a, fc, sl, sh, ql, qh, cl, ch] _ _ a rfl haddr ha hsend (by simp) hd
  have hbits : ∀ b ∈ (List.range' (sl + 256 * sh) (ql + 256 * qh)).map (fun addr =>
      match map.getModbusElement fc addr with
      | some el => if el.DataValue % 2 = 1 then 1 else 0
      | none => 0), b < 2 := by
    intro b hb
    obtain ⟨addr, _, rfl⟩ := List.mem_map.mp hb
    split
    · split <;> omega
    · omega
  have htest : ∀ j, (d.getD (j / 8) 0).testBit (j % 8)
      = decide (((List.range' (sl + 256 * sh) (ql + 256 * qh)).map (fun addr =>
          match map.getModbusElement fc addr with
          | some el => if el.DataValue % 2 = 1 then 1 else 0
          | none => 0)).getD j 0 = 1) := by
    intro j
    rw [← leValue_testBit d hbytes j, hval, bits_testBit _ hbits j]
  refine ⟨s', d, ?_, hm', hlen, ?_, ?_⟩
  · have hl : ∀ (x : Nat) (d : List Nat), ([a, fc, x] ++ d).length = 3 + d.length := by
      intro x d
      simp only [List.cons_append, List.nil_append, List.length_cons]
      omega
    rw [ModbusProtocolSlave.inputPacketParse_of_locate s map stale inputBuffer _ hloc hmap, hs',
      hl]
  · intro i hi el hel
    rw [htest i, List.getD_eq_getElem _ _ (by simpa using hi), List.getElem_map,
      List.getElem_range', Nat.one_mul, hbitdef _ el hel]
    split <;> simp_all
  · intro j hj
    rw [htest j, List.getD_eq_default _ _ (by simpa using hj)]
    rfl

/-- C15 witness: the request `01 01 00 00 00 0A BC 0D` for ten coils from address 0, to a
slave whose map holds ten coils under function code 1, set at the even addresses; the answer of
the code is `01 01 02 55 01 47 6C`. -/
theorem slave_read_coils_packing_witness :
    ModbusProtocolSlave.checkModbusRequestPos
      ([] ++ [0x01, 0x01, 0x00, 0x00, 0x00, 0x0A, 0xBC, 0x0D]) zeroMemory 0 = true ∧
    ((slaveWith (coilsMap 1 10 (fun k => if k % 2 = 0 then 1 else 0))).inputPacketParse
        zeroMemory [0x01, 0x01, 0x00, 0x00, 0x00, 0x0A, 0xBC, 0x0D]).map
        (fun r : ModbusProtocolSlave × List (List Nat) => r.2)
      = some [[0x01, 0x01, 0x02, 0x55, 0x01, 0x47, 0x6C]] ∧
    ∃ s' d,
      (slaveWith (coilsMap 1 10 (fun k => if k % 2 = 0 then 1 else 0))).inputPacketParse
          zeroMemory [0x01, 0x01, 0x00, 0x00, 0x00, 0x0A, 0xBC, 0x0D]
        = some (s', [[0x01, 0x01, (0x0A + 256 * 0x00 + 7) / 8] ++ d ++
            [ModbusCRC16 ([0x01, 0x01, (0x0A + 256 * 0x00 + 7) / 8] ++ d) (3 + d.length) % 256,
              ModbusCRC16 ([0x01, 0x01, (0x0A + 256 * 0x00 + 7) / 8] ++ d) (3 + d.length)
                / 256]]) ∧
      s'.modbusRegisterMap = some (coilsMap 1 10 (fun k => if k % 2 = 0 then 1 else 0)) ∧
      d.length = (0x0A + 256 * 0x00 + 7) / 8 :=
  ⟨by decide, by decide,
    let ⟨s', d, hrun, hm, hlen, _⟩ :=
      slave_read_coils_packing (slaveWith (coilsMap 1 10 (fun k => if k % 2 = 0 then 1 else 0)))
        (coilsMap 1 10 (fun k => if k % 2 = 0 then 1 else 0)) zeroMemory
        [0x01, 0x01, 0x00, 0x00, 0x00, 0x0A, 0xBC, 0x0D] [] 0x01 0x01 0x00 0x00 0x00 0x0A 0xBC
        0x0D (by decide) (Or.inl rfl) rfl rfl rfl (by decide) (by decide) rfl
        (fun i hi => absurd hi (Nat.not_lt_zero i)) (by decide) (by decide) (by decide)
        (fun i hi => by
          have h : i < 10 := hi
          interval_cases i <;> exact ⟨_, rfl, rfl⟩)
    ⟨s', d, hrun, hm, hlen⟩⟩

/-! ## The input buffer stays within its capacity -/

namespace ModbusProtocolSlave

theorem swapBytes_length (buf : List Nat) (a b : Nat) :
    (swapBytes buf a b).length = buf.length := by
  simp [swapBytes]

/-- The buffer that the packet search leaves is within the capacity when the buffer before the
call is. -/
theorem locatePacket_length (s : ModbusProtocolSlave) (stale : Nat → Nat)
    (inputBuffer : List Nat) (hb : s.inputDataBuffer.length ≤ s.inputBufferMaxSize) :
    (s.locatePacket stale inputBuffer).1.length ≤ s.inputBufferMaxSize := by
  cases happ : s.bufferAfterAppend inputBuffer with
  | none =>
    rw [locatePacket_of_bufferAfterAppend_none s stale inputBuffer happ]
    exact hb
  | some buf =>
    have hbuf : buf.length ≤ s.inputBufferMaxSize := by
      unfold bufferAfterAppend at happ
      by_cases h1 : inputBuffer.length = 0 ∨ inputBuffer.length > s.inputBufferMaxSize
      · simp only [if_pos h1] at happ
        cases happ
      · by_cases h2 : s.modbusRegisterMap.isNone = true
        · simp only [if_neg h1, if_pos h2] at happ
          cases happ
        · simp only [if_neg h1, if_neg h2, Option.some.injEq] at happ
          rw [← happ]
          exact appendInput_length _ _ _ (by omega)
    rw [locatePacket_of_bufferAfterAppend s stale inputBuffer buf happ]
    split
    · exact hbuf
    · split
      · exact hbuf
      · simp only [swapBytes_length]
        split
        · rw [List.length_drop]
          omega
        · exact hbuf

/-- The answering part of the call only erases bytes from the input buffer. -/
theorem respond_length (s : ModbusProtocolSlave) (map : ModbusRegMap) (stale : Nat → Nat)
    (buf : List Nat) (r : ModbusProtocolSlave × List (List Nat))
    (hrun : respond s map stale buf = some r) :
    r.1.inputDataBuffer.length ≤ buf.length ∧ r.1.inputBufferMaxSize = s.inputBufferMaxSize := by
  have hsend : ∀ (m : ModbusRegMap) (out : List Nat) (address n : Nat),
      (sendAnswer s m buf out address n).1.inputDataBuffer.length ≤ buf.length ∧
      (sendAnswer s m buf out address n).1.inputBufferMaxSize = s.inputBufferMaxSize := by
    intro m out address n
    refine ⟨?_, rfl⟩
    show (if n ≠ 0 then buf.drop n else buf).length ≤ buf.length
    split
    · rw [List.length_drop]
      omega
    · exact Nat.le_refl _
  unfold respond at hrun
  simp only at hrun
  split at hrun
  · split at hrun
    · simp only [Option.some.injEq] at hrun
      rw [← hrun]
      exact hsend _ _ _ _
    · simp only [Option.some.injEq] at hrun
      rw [← hrun]
      exact hsend _ _ _ _
    · simp at hrun
  · simp only [Option.some.injEq] at hrun
    rw [← hrun]
    exact hsend _ _ _ _

theorem inputPacketParse_length (s : ModbusProtocolSlave) (stale : Nat → Nat)
    (inputBuffer : List Nat) (r : ModbusProtocolSlave × List (List Nat))
    (hb : s.inputDataBuffer.length ≤ s.inputBufferMaxSize)
    (hrun : s.inputPacketParse stale inputBuffer = some r) :
    r.1.inputDataBuffer.length ≤ r.1.inputBufferMaxSize ∧
      r.1.inputBufferMaxSize = s.inputBufferMaxSize := by
  have hloc := locatePacket_length s stale inputBuffer hb
  unfold inputPacketParse at hrun
  split at hrun
  next buf m hl hm =>
    rw [hl] at hloc
    obtain ⟨h1, h2⟩ := respond_length s m stale buf r hrun
    exact ⟨by rw [h2]; exact Nat.le_trans h1 hloc, h2⟩
  next buf flag m hl =>
    simp only [Option.some.injEq] at hrun
    rw [← hrun]
    have e : (s.locatePacket stale inputBuffer).1 = buf := by
      rw [‹s.locatePacket stale inputBuffer = (buf, flag)›]
    rw [e] at hloc
    exact ⟨hloc, rfl⟩

theorem inputPacketParseAll_length :
    ∀ (calls : List ((ModbusProtocolSlave → ModbusProtocolSlave) × (Nat → Nat) × List Nat))
      (s s' : ModbusProtocolSlave),
      s.inputDataBuffer.length ≤ s.inputBufferMaxSize →
      (∀ c ∈ calls, ∀ x : ModbusProtocolSlave,
        (c.1 x).inputDataBuffer.length = x.inputDataBuffer.length ∧
        (c.1 x).inputBufferMaxSize = x.inputBufferMaxSize) →
      s.inputPacketParseAll calls = some s' →
      s'.inputDataBuffer.length ≤ s'.inputBufferMaxSize ∧
        s'.inputBufferMaxSize = s.inputBufferMaxSize := by
  intro calls
  induction calls with
  | nil =>
    intro s s' hb _ hrun
    simp only [inputPacketParseAll, Option.some.injEq] at hrun
    rw [← hrun]
    exact ⟨hb, rfl⟩
  | cons c rest ih =>
    intro s s' hb hother hrun
    obtain ⟨other, stale, inputBuffer⟩ := c
    have ho := hother (other, stale, inputBuffer) (List.mem_cons_self _ _) s
    simp only [inputPacketParseAll] at hrun
    cases hcall : (other s).inputPacketParse stale inputBuffer with
    | none =>
      rw [hcall] at hrun
      cases hrun
    | some r =>
      rw [hcall] at hrun
      obtain ⟨h1, h2⟩ := inputPacketParse_length (other s) stale inputBuffer r
        (by rw [ho.1, ho.2]; exact hb) hcall
      obtain ⟨h3, h4⟩ := ih r.1 s' h1 (fun c hc => hother c (List.mem_cons_of_mem _ hc)) hrun
      exact ⟨h3, by rw [h4, h2, ho.2]⟩

end ModbusProtocolSlave

namespace ModbusProtocolMaster

theorem eraseFront_length (buf buf' : List Nat) (n : Nat) (h : eraseFront buf n = some buf') :
    buf'.length ≤ buf.length := by
  unfold eraseFront at h
  split at h
  · simp only [Option.some.injEq] at h
    rw [← h, List.length_drop]
    omega
  · cases h

/-- The part of the master's call after the insertion only erases bytes from the input
buffer. -/
theorem parseBuffer_length (m : ModbusProtocolMaster) (map : ModbusRegMap) (stale : Nat → Nat)
    (readable : Nat) (stopTimeoutTimer : Bool) (buf : List Nat)
    (r : ModbusProtocolMaster × List String)
    (hrun : parseBuffer m map stale readable stopTimeoutTimer buf = some r) :
    r.1.inputDataBuffer.length ≤ buf.length ∧ r.1.inputBufferMaxSize = m.inputBufferMaxSize := by
  unfold parseBuffer at hrun
  split at hrun
  · simp only [Option.some.injEq] at hrun
    rw [← hrun]
    exact ⟨Nat.le_refl _, rfl⟩
  · simp only at hrun
    split at hrun
    · cases hrun
    · split at hrun
      · simp only [Option.some.injEq] at hrun
        rw [← hrun]
        exact ⟨Nat.le_refl _, rfl⟩
      · split at hrun
        · cases hrun
        · next packetPos _ _ buf₁ hb₁ =>
          have h₁ : buf₁.length ≤ buf.length := by
            split at hb₁
            · exact eraseFront_length _ _ _ hb₁
            · simp only [Option.some.injEq] at hb₁
              rw [← hb₁]
          split at hrun
          · split at hrun
            · simp only [Option.some.injEq] at hrun
              rw [← hrun]
              exact ⟨h₁, rfl⟩
            · split at hrun
              · cases hrun
              · next buf₂ hb₂ =>
                have h₂ : buf₂.length ≤ buf₁.length := by
                  split at hb₂
                  · exact eraseFront_length _ _ _ hb₂
                  · simp only [Option.some.injEq] at hb₂
                    rw [← hb₂]
                simp only [Option.some.injEq] at hrun
                rw [← hrun]
                exact ⟨Nat.le_trans h₂ h₁, rfl⟩
          · simp only [Option.some.injEq] at hrun
            rw [← hrun]
            exact ⟨h₁, rfl⟩

theorem inputPacketParse_length_master (m : ModbusProtocolMaster) (stale : Nat → Nat) (readable : Nat)
    (stopTimeoutTimer : Bool) (inputBuffer : List Nat) (r : ModbusProtocolMaster × List String)
    (hb : m.inputDataBuffer.length ≤ m.inputBufferMaxSize)
    (hrun : m.inputPacketParse stale readable stopTimeoutTimer inputBuffer = some r) :
    r.1.inputDataBuffer.length ≤ r.1.inputBufferMaxSize ∧
      r.1.inputBufferMaxSize = m.inputBufferMaxSize := by
  unfold inputPacketParse at hrun
  split at hrun
  · simp only [Option.some.injEq] at hrun
    rw [← hrun]
    exact ⟨hb, rfl⟩
  · simp only at hrun
    split at hrun
    · simp only [Option.some.injEq] at hrun
      rw [← hrun]
      exact ⟨hb, rfl⟩
    · next hlen =>
      split at hrun
      · simp only [Option.some.injEq] at hrun
        rw [← hrun]
        exact ⟨hb, rfl⟩
      · obtain ⟨h1, h2⟩ := parseBuffer_length m _ stale readable stopTimeoutTimer _ r hrun
        have h3 := appendInput_length m.inputBufferMaxSize m.inputDataBuffer inputBuffer
          (by omega)
        exact ⟨by rw [h2]; exact Nat.le_trans h1 h3, h2⟩

theorem inputPacketParseAll_length_master :
    ∀ (calls : List ((ModbusProtocolMaster → ModbusProtocolMaster) × (Nat → Nat) × Nat × Bool ×
        List Nat)) (m m' : ModbusProtocolMaster),
      m.inputDataBuffer.length ≤ m.inputBufferMaxSize →
      (∀ c ∈ calls, ∀ x : ModbusProtocolMaster,
        (c.1 x).inputDataBuffer.length = x.inputDataBuffer.length ∧
        (c.1 x).inputBufferMaxSize = x.inputBufferMaxSize) →
      m.inputPacketParseAll calls = some m' →
      m'.inputDataBuffer.length ≤ m'.inputBufferMaxSize ∧
        m'.inputBufferMaxSize = m.inputBufferMaxSize := by
  intro calls
  induction calls with
  | nil =>
    intro m m' hb _ hrun
    simp only [inputPacketParseAll, Option.some.injEq] at hrun
    rw [← hrun]
    exact ⟨hb, rfl⟩
  | cons c rest ih =>
    intro m m' hb hother hrun
    obtain ⟨other, stale, readable, stop, inputBuffer⟩ := c
    have ho := hother (other, stale, readable, stop, inputBuffer) (List.mem_cons_self _ _) m
    simp only [inputPacketParseAll] at hrun
    cases hcall : (other m).inputPacketParse stale readable stop inputBuffer with
    | none =>
      rw [hcall] at hrun
      cases hrun
    | some r =>
      rw [hcall] at hrun
      obtain ⟨h1, h2⟩ := inputPacketParse_length_master (other m) stale readable stop inputBuffer r
        (by rw [ho.1, ho.2]; exact hb) hcall
      obtain ⟨h3, h4⟩ := ih r.1 m' h1 (fun c hc => hother c (List.mem_cons_of_mem _ hc)) hrun
      exact ⟨h3, by rw [h4, h2, ho.2]⟩

end ModbusProtocolMaster

/-- C19: the insertion of a chunk that is not longer than the capacity leaves at most
`inputBufferMaxSize` bytes in the input buffer, whatever it held. A call of
`inputPacketParse`, of the slave and of the master, with any chunk, on a buffer that holds at
most `inputBufferMaxSize` bytes leaves a buffer that holds at most `inputBufferMaxSize` bytes,
and the capacity as it was. Hence after any sequence of calls that starts with an empty buffer
the bound holds, as long as what happens between the calls changes neither the length of the
buffer nor the capacity. -/
theorem inputPacketParse_keeps_buffer_bound :
    (∀ (n : Nat) (b c : List Nat), c.length ≤ n → (appendInput n b c).length ≤ n) ∧
    (∀ (s : ModbusProtocolSlave) (stale : Nat → Nat) (inputBuffer : List Nat)
        (r : ModbusProtocolSlave × List (List Nat)),
      s.inputDataBuffer.length ≤ s.inputBufferMaxSize →
      s.inputPacketParse stale inputBuffer = some r →
      r.1.inputDataBuffer.length ≤ r.1.inputBufferMaxSize ∧
        r.1.inputBufferMaxSize = s.inputBufferMaxSize) ∧
    (∀ (m : ModbusProtocolMaster) (stale : Nat → Nat) (readable : Nat)
        (stopTimeoutTimer : Bool) (inputBuffer : List Nat)
        (r : ModbusProtocolMaster × List String),
      m.inputDataBuffer.length ≤ m.inputBufferMaxSize →
      m.inputPacketParse stale readable stopTimeoutTimer inputBuffer = some r →
      r.1.inputDataBuffer.length ≤ r.1.inputBufferMaxSize ∧
        r.1.inputBufferMaxSize = m.inputBufferMaxSize) ∧
    (∀ (s s' : ModbusProtocolSlave)
        (calls : List ((ModbusProtocolSlave → ModbusProtocolSlave) × (Nat → Nat) × List Nat)),
      s.inputDataBuffer = [] →
      (∀ c ∈ calls, ∀ x : ModbusProtocolSlave,
        (c.1 x).inputDataBuffer.length = x.inputDataBuffer.length ∧
        (c.1 x).inputBufferMaxSize = x.inputBufferMaxSize) →
      s.inputPacketParseAll calls = some s' →
      s'.inputDataBuffer.length ≤ s.inputBufferMaxSize) ∧
    (∀ (m m' : ModbusProtocolMaster)
        (calls : List ((ModbusProtocolMaster → ModbusProtocolMaster) × (Nat → Nat) × Nat ×
          Bool × List Nat)),
      m.inputDataBuffer = [] →
      (∀ c ∈ calls, ∀ x : ModbusProtocolMaster,
        (c.1 x).inputDataBuffer.length = x.inputDataBuffer.length ∧
        (c.1 x).inputBufferMaxSize = x.inputBufferMaxSize) →
      m.inputPacketParseAll calls = some m' →
      m'.inputDataBuffer.length ≤ m.inputBufferMaxSize) := by
  refine ⟨appendInput_length, ModbusProtocolSlave.inputPacketParse_length,
    ModbusProtocolMaster.inputPacketParse_length_master, ?_, ?_⟩
  · intro s s' calls hempty hother hrun
    obtain ⟨h1, h2⟩ := ModbusProtocolSlave.inputPacketParseAll_length calls s s'
      (by rw [hempty]; exact Nat.zero_le _) hother hrun
    rw [← h2]
    exact h1
  · intro m m' calls hempty hother hrun
    obtain ⟨h1, h2⟩ := ModbusProtocolMaster.inputPacketParseAll_length_master calls m m'
      (by rw [hempty]; exact Nat.zero_le _) hother hrun
    rw [← h2]
    exact h1

/-- C19 witness: a slave and a master with capacity 10 whose buffers hold `01 .. 09` receive
`0A 0B 0C`; the master waits for a response. Both calls return and leave eight bytes. -/
theorem inputPacketParse_keeps_buffer_bound_witness :
    smallSlave.inputDataBuffer.length ≤ smallSlave.inputBufferMaxSize ∧
    (smallSlave.inputPacketParse zeroMemory [0x0A, 0x0B, 0x0C]
        = some ({ smallSlave with
            inputDataBuffer := [0x05, 0x06, 0x08, 0x07, 0x0A, 0x09, 0x0B, 0x0C] }, []) ∧
      [0x05, 0x06, 0x08, 0x07, 0x0A, 0x09, 0x0B, 0x0C].length ≤ 10) ∧
    smallMaster.inputDataBuffer.length ≤ smallMaster.inputBufferMaxSize ∧
    smallMaster.inputPacketParse zeroMemory 0 true [0x0A, 0x0B, 0x0C]
        = some ({ smallMaster with
            inputDataBuffer := [0x05, 0x06, 0x07, 0x08, 0x09, 0x0A, 0x0B, 0x0C] }, []) ∧
      [0x05, 0x06, 0x07, 0x08, 0x09, 0x0A, 0x0B, 0x0C].length ≤ 10 :=
  ⟨by decide,
    ⟨rfl, (inputPacketParse_keeps_buffer_bound.2.1 smallSlave zeroMemory [0x0A, 0x0B, 0x0C]
      ({ smallSlave with
          inputDataBuffer := [0x05, 0x06, 0x08, 0x07, 0x0A, 0x09, 0x0B, 0x0C] }, [])
      (by decide) rfl).1⟩,
    by decide, rfl,
    (inputPacketParse_keeps_buffer_bound.2.2.1 smallMaster zeroMemory 0 true
      [0x0A, 0x0B, 0x0C]
      ({ smallMaster with
          inputDataBuffer := [0x05, 0x06, 0x07, 0x08, 0x09, 0x0A, 0x0B, 0x0C] }, [])
      (by decide) rfl).1⟩

/-! ## Typed access to the register map -/

namespace ModbusRegMap

theorem find_replace_ne (k k0 : Nat) (el' : ModbusElement) (l : List (Nat × ModbusElement))
    (h : k ≠ k0) : find k (replace k0 el' l) = find k l := by
  induction l with
  | nil => rfl
  | cons p rest ih =>
    obtain ⟨k', e⟩ := p
    by_cases hk : k' = k0
    · have hk' : ¬ k0 = k := fun h' => h h'.symm
      simp [find, replace, hk, hk']
    · by_cases hk2 : k' = k
      · subst hk2
        simp [find, replace, h]
      · simp [find, replace, hk, hk2, ih]

/-- The raw write to an element with an integer tag: it is refused unless `bytesCount` is the
native width and the value read from the buffer lies in the element's range, and stores that
value otherwise. -/
theorem SetElementValue_integer (m : ModbusRegMap) (functionCode registerAddress : Nat)
    (buffer : List Nat) (bytesCount w : Nat) (el : ModbusElement)
    (hel : m.getModbusElement functionCode registerAddress = some el)
    (htag : el.DataType.integerWidth = some w) :
    m.SetElementValue functionCode registerAddress buffer bytesCount
      = if bytesCount = w ∧
          el.MinDataValue ≤ littleEndianValue el.DataType.signedTag w buffer ∧
          littleEndianValue el.DataType.signedTag w buffer ≤ el.MaxDataValue then
        let el' : ModbusElement :=
          { el with DataValue := littleEndianValue el.DataType.signedTag w buffer }
        ({ m with MainRegMap := replace (key functionCode registerAddress) el' m.MainRegMap },
          true)
      else (m, false) := by
  have hw : 0 < w := by
    cases hty : el.DataType <;> simp_all [ModbusDataType.integerWidth] <;> omega
  by_cases hb : bytesCount = w
  · subst hb
    have h0 : bytesCount ≠ 0 := by omega
    cases hty : el.DataType <;> simp [hty, ModbusDataType.integerWidth] at htag <;>
      subst htag <;>
      simp [SetElementValue, hel, hty, copyRAWDataToElement, sizeofModElType, rawToValue,
        checkMinDefMax, littleEndianValue, ModbusDataType.signedTag]
    all_goals
      generalize leValue (List.take _ buffer) = v
      split_ifs <;> first | rfl | (exfalso; omega)
  · have h1 : ¬ (bytesCount = w ∧
        el.MinDataValue ≤ littleEndianValue el.DataType.signedTag w buffer ∧
        littleEndianValue el.DataType.signedTag w buffer ≤ el.MaxDataValue) := fun h => hb h.1
    rw [if_neg h1]
    unfold SetElementValue
    by_cases h0 : bytesCount = 0
    · simp [h0]
    · cases hty : el.DataType <;> simp [hty, ModbusDataType.integerWidth] at htag <;>
        subst htag <;>
        simp [hel, hty, copyRAWDataToElement, sizeofModElType, h0, hb]

theorem leValue_leBytes (n v : Nat) : leValue (leBytes n v) = v % 256 ^ n := by
  induction n generalizing v with
  | zero => simp [leBytes, leValue, Nat.mod_one]
  | succ n ih =>
    simp only [leBytes, leValue, ih]
    rw [pow_succ, Nat.mul_comm (256 ^ n) 256, Nat.mod_mul]

theorem leBytes_lt (n v b : Nat) (h : b ∈ leBytes n v) : b < 256 := by
  induction n generalizing v with
  | zero => simp [leBytes] at h
  | succ n ih =>
    simp only [leBytes, List.mem_cons] at h
    rcases h with h | h
    · omega
    · exact ih _ h

/-- The raw read of an element with an integer tag: it is refused when the buffer is shorter
than the native width, and returns the little-endian bytes of the value otherwise. -/
theorem GetElementValue_integer (m : ModbusRegMap) (functionCode registerAddress : Nat)
    (bufferLength w : Nat) (el : ModbusElement)
    (hel : m.getModbusElement functionCode registerAddress = some el)
    (htag : el.DataType.integerWidth = some w) :
    m.GetElementValue functionCode registerAddress bufferLength
      = if bufferLength < w then none
        else some (leBytes w (el.DataValue % ((256 ^ w : Nat) : Int)).toNat) := by
  unfold GetElementValue
  by_cases h0 : bufferLength = 0
  · have hw : 0 < w := by
      cases hty : el.DataType <;> simp_all [ModbusDataType.integerWidth] <;> omega
    simp [h0, hw]
  · cases hty : el.DataType <;> simp [hty, ModbusDataType.integerWidth] at htag <;>
      subst htag <;>
      simp [hel, hty, copyElementToRAWData, sizeofModElType, valueToRaw, h0]

end ModbusRegMap

/-- C27 (range invariant of typed writes): when the raw `SetElementValue` returns `true` for an
element with an integer tag (`OneBit`, the 16-bit and 32-bit tags, the `*ToFloat` tags; also
`FileRecord`), `bytesCount` is the native width `w` of the tag, the element afterwards is the
element before with its current value replaced by the little-endian value of the first `w`
bytes of the buffer (two's complement for the signed tags), that value lies between the
element's minimum and maximum, which are unchanged, and the element found under any other key
is the same as before. -/
theorem SetElementValue_keeps_range (m m' : ModbusRegMap) (functionCode registerAddress : Nat)
    (buffer : List Nat) (bytesCount w : Nat) (el : ModbusElement)
    (hel : m.getModbusElement functionCode registerAddress = some el)
    (htag : el.DataType.integerWidth = some w)
    (hset : m.SetElementValue functionCode registerAddress buffer bytesCount = (m', true)) :
    bytesCount = w ∧
    m'.getModbusElement functionCode registerAddress
      = some { el with DataValue := littleEndianValue el.DataType.signedTag w buffer } ∧
    el.MinDataValue ≤ littleEndianValue el.DataType.signedTag w buffer ∧
    littleEndianValue el.DataType.signedTag w buffer ≤ el.MaxDataValue ∧
    ∀ k, k ≠ ModbusRegMap.key functionCode registerAddress →
      ModbusRegMap.find k m'.MainRegMap = ModbusRegMap.find k m.MainRegMap := by
  rw [ModbusRegMap.SetElementValue_integer m functionCode registerAddress buffer bytesCount w el
    hel htag] at hset
  split at hset
  · rename_i h
    obtain ⟨h1, h2, h3⟩ := h
    simp only [Prod.mk.injEq, and_true] at hset
    subst hset
    refine ⟨h1, ?_, h2, h3, ?_⟩
    · exact ModbusRegMap.find_replace _ el _ _ hel
    · intro k hk
      exact ModbusRegMap.find_replace_ne k _ _ _ hk
  · simp at hset

/-- C27 witness: the bytes `CD AB` written to the holding register `(fc=3, addr=0x0010)`, a
`UInt16` with the range `[0, 0xFFFF]`; the register then holds `0xABCD`. -/
theorem SetElementValue_keeps_range_witness :
    (singletonMap holdingRegister).getModbusElement 3 0x0010 = some holdingRegister ∧
    holdingRegister.DataType.integerWidth = some 2 ∧
    ((singletonMap holdingRegister).SetElementValue 3 0x0010 [0xCD, 0xAB] 2).2 = true ∧
    (((singletonMap holdingRegister).SetElementValue 3 0x0010 [0xCD, 0xAB] 2).1.getModbusElement
        3 0x0010
      = some { holdingRegister with DataValue := 0xABCD } ∧
    holdingRegister.MinDataValue ≤ 0xABCD ∧ (0xABCD : Int) ≤ holdingRegister.MaxDataValue) :=
  ⟨rfl, rfl, rfl,
    (SetElementValue_keeps_range (singletonMap holdingRegister)
      ((singletonMap holdingRegister).SetElementValue 3 0x0010 [0xCD, 0xAB] 2).1 3 0x0010
      [0xCD, 0xAB] 2 2 holdingRegister rfl rfl rfl).2.1,
    by decide, by decide⟩

/-- C28 (rejected typed writes are atomic): the raw `SetElementValue` returns `false` and
leaves the register map as it was when no element is stored under `(functionCode,
registerAddress)`, when `bytesCount` is 0, and, for an element with an integer tag or
`FileRecord`, when `bytesCount` is not the native width of the tag (1 for `OneBit`, 2 for the
16-bit tags and `FileRecord`, 4 for the 32-bit tags) or the little-endian value of the buffer
(two's complement for the signed tags) is below the minimum or above the maximum. -/
theorem SetElementValue_rejected_unchanged (m : ModbusRegMap)
    (functionCode registerAddress : Nat) (buffer : List Nat) (bytesCount : Nat)
    (h : m.getModbusElement functionCode registerAddress = none ∨ bytesCount = 0 ∨
      ∃ el w, m.getModbusElement functionCode registerAddress = some el ∧
        el.DataType.integerWidth = some w ∧
        (bytesCount ≠ w ∨ littleEndianValue el.DataType.signedTag w buffer < el.MinDataValue ∨
          el.MaxDataValue < littleEndianValue el.DataType.signedTag w buffer)) :
    m.SetElementValue functionCode registerAddress buffer bytesCount = (m, false) := by
  rcases h with h | h | ⟨el, w, hel, htag, h⟩
  · unfold ModbusRegMap.SetElementValue
    simp [h]
  · unfold ModbusRegMap.SetElementValue
    simp [h]
  · rw [ModbusRegMap.SetElementValue_integer m functionCode registerAddress buffer bytesCount w
      el hel htag]
    rw [if_neg]
    rintro ⟨h1, h2, h3⟩
    rcases h with h | h | h
    · exact h h1
    · omega
    · omega

/-- C28 witness: the byte `02` written to a coil `(fc=1, addr=0x0005)` with the range `[0, 1]`
is refused and the map is the same afterwards. -/
theorem SetElementValue_rejected_unchanged_witness :
    ((singletonMap (coil 1)).getModbusElement 1 0x0005 = some (coil 1) ∧
      (coil 1).DataType.integerWidth = some 1 ∧
      (coil 1).MaxDataValue < littleEndianValue (coil 1).DataType.signedTag 1 [0x02]) ∧
    (singletonMap (coil 1)).SetElementValue 1 0x0005 [0x02] 1 = (singletonMap (coil 1), false) :=
  ⟨⟨rfl, rfl, by decide⟩,
    SetElementValue_rejected_unchanged (singletonMap (coil 1)) 1 0x0005 [0x02] 1
      (Or.inr (Or.inr ⟨coil 1, 1, rfl, rfl, Or.inr (Or.inr (by decide))⟩))⟩

/-- C29 (typed read): for an element with an integer tag or `FileRecord`, of native width `w`
(1 for `OneBit`, 2 for the 16-bit tags and `FileRecord`, 4 for the 32-bit tags), the raw
`GetElementValue` with a buffer of `bufferLength` bytes returns `true` exactly when
`w ≤ bufferLength`, and then it has written `w` bytes that are the little-endian encoding of
the current value (modulo `256 ^ w`, which is two's complement for a negative value). When no
element is stored under the key it returns `false`. The method computes no new map. -/
theorem GetElementValue_typed_read (m : ModbusRegMap) (functionCode registerAddress : Nat)
    (bufferLength w : Nat) (el : ModbusElement)
    (hel : m.getModbusElement functionCode registerAddress = some el)
    (htag : el.DataType.integerWidth = some w) :
    ((m.GetElementValue functionCode registerAddress bufferLength).isSome = true
      ↔ w ≤ bufferLength) ∧
    (∀ bytes, m.GetElementValue functionCode registerAddress bufferLength = some bytes →
      bytes.length = w ∧ (∀ b ∈ bytes, b < 256) ∧
      (leValue bytes : Int) = el.DataValue % ((256 ^ w : Nat) : Int)) ∧
    (∀ (m0 : ModbusRegMap) (fc addr cap : Nat), m0.getModbusElement fc addr = none →
      m0.GetElementValue fc addr cap = none) := by
  rw [ModbusRegMap.GetElementValue_integer m functionCode registerAddress bufferLength w el hel
    htag]
  refine ⟨?_, ?_, ?_⟩
  · split
    · simp
      omega
    · simp
      omega
  · intro bytes hb
    split at hb
    · simp at hb
    · simp only [Option.some.injEq] at hb
      subst hb
      refine ⟨leBytes_length _ _, fun b hb => ModbusRegMap.leBytes_lt _ _ b hb, ?_⟩
      rw [ModbusRegMap.leValue_leBytes]
      have hpos : (0 : Int) < ((256 ^ w : Nat) : Int) := by positivity
      have hnn : 0 ≤ el.DataValue % ((256 ^ w : Nat) : Int) := Int.emod_nonneg _ (by omega)
      have hlt : el.DataValue % ((256 ^ w : Nat) : Int) < ((256 ^ w : Nat) : Int) :=
        Int.emod_lt_of_pos _ hpos
      have hx : ((el.DataValue % ((256 ^ w : Nat) : Int)).toNat : Int)
          = el.DataValue % ((256 ^ w : Nat) : Int) := Int.toNat_of_nonneg hnn
      have hlt' : (el.DataValue % ((256 ^ w : Nat) : Int)).toNat < 256 ^ w := by
        have : ((el.DataValue % ((256 ^ w : Nat) : Int)).toNat : Int) < ((256 ^ w : Nat) : Int) := by
          rw [hx]
          exact hlt
        exact_mod_cast this
      rw [Nat.mod_eq_of_lt hlt', hx]
  · intro m0 fc addr cap h0
    unfold ModbusRegMap.GetElementValue
    simp [h0]

/-- C29 witness: the holding register `(fc=3, addr=0x0010)`, a `UInt16` holding `0x1234`, read
into a buffer of four bytes gives the two bytes `34 12`. -/
theorem GetElementValue_typed_read_witness :
    (singletonMap holdingRegister).getModbusElement 3 0x0010 = some holdingRegister ∧
    holdingRegister.DataType.integerWidth = some 2 ∧
    (singletonMap holdingRegister).GetElementValue 3 0x0010 4 = some [0x34, 0x12] ∧
    (((singletonMap holdingRegister).GetElementValue 3 0x0010 4).isSome = true ↔ 2 ≤ 4) :=
  ⟨rfl, rfl, rfl,
    (GetElementValue_typed_read (singletonMap holdingRegister) 3 0x0010 4 2 holdingRegister rfl
      rfl).1⟩

/-- C30 (duplicate keys are rejected): when an element is stored under `(functionCode,
registerAddress)`, `AddNewElement` for that key returns `false` whatever its other arguments,
and the map afterwards is the map before: `ElementsCount` is the same and the element stored
under the key is the one that was there, with its tag, width, current value, minimum and
maximum. -/
theorem AddNewElement_duplicate_rejected (m : ModbusRegMap) (functionCode registerAddress : Nat)
    (dataType : ModbusDataType) (bytesCount : Nat) (registerName : Option String)
    (decimalPoints : Nat) (value minDataValue maxDataValue : Int) (stringValue : List Nat)
    (registerUnit : Option String) (el : ModbusElement)
    (hel : m.getModbusElement functionCode registerAddress = some el) :
    m.AddNewElement functionCode registerAddress dataType bytesCount registerName decimalPoints
        value minDataValue maxDataValue stringValue registerUnit = (m, false) ∧
    (m.AddNewElement functionCode registerAddress dataType bytesCount registerName decimalPoints
        value minDataValue maxDataValue stringValue registerUnit).1.ElementsCount
      = m.ElementsCount ∧
    (m.AddNewElement functionCode registerAddress dataType bytesCount registerName decimalPoints
        value minDataValue maxDataValue stringValue registerUnit).1.getModbusElement functionCode
        registerAddress = some el := by
  have h : m.AddNewElement functionCode registerAddress dataType bytesCount registerName
      decimalPoints value minDataValue maxDataValue stringValue registerUnit = (m, false) := by
    unfold ModbusRegMap.AddNewElement
    simp [hel]
  rw [h]
  exact ⟨rfl, rfl, hel⟩

/-- C30 witness: a second element for `(fc=3, addr=0x0010)`, a `UInt32` named "again" with the
value 7, is not added to the map that holds the holding register; an element for the free
address `0x0011` is. -/
theorem AddNewElement_duplicate_rejected_witness :
    (singletonMap holdingRegister).getModbusElement 3 0x0010 = some holdingRegister ∧
    (singletonMap holdingRegister).AddNewElement 3 0x0010 .UInt32 4 (some "again") 0 7 0 100 []
        none = (singletonMap holdingRegister, false) ∧
    ((singletonMap holdingRegister).AddNewElement 3 0x0011 .UInt32 4 (some "again") 0 7 0 100 []
        none).2 = true ∧
    ((singletonMap holdingRegister).AddNewElement 3 0x0011 .UInt32 4 (some "again") 0 7 0 100 []
        none).1.ElementsCount = 2 :=
  ⟨rfl,
    (AddNewElement_duplicate_rejected (singletonMap holdingRegister) 3 0x0010 .UInt32 4
      (some "again") 0 7 0 100 [] none holdingRegister rfl).1,
    rfl, rfl⟩

/-! ## Master: timeout and retry -/

namespace ModbusProtocolMaster

theorem assign_length (buf : List Nat) (stale : Nat → Nat) (k v : Nat) :
    (assign buf stale k v).1.length = buf.length := by
  unfold assign
  split <;> simp

theorem peek_assign (buf : List Nat) (stale : Nat → Nat) (k v j : Nat) :
    peek (assign buf stale k v).1 (assign buf stale k v).2 j
      = if j = k then v else peek buf stale j := by
  unfold assign peek
  by_cases hk : k < buf.length
  · simp only [hk, if_true]
    by_cases hj : j = k
    · subst hj
      simp [List.getD_eq_getElem?_getD, hk]
    · simp only [hj, if_false]
      simp [List.getD_eq_getElem?_getD, List.getElem?_set, Ne.symm hj]
  · simp only [hk, if_false]
    by_cases hj : j = k
    · subst hj
      simp [List.getD_eq_getElem?_getD, store, List.getElem?_eq_none (Nat.le_of_not_lt hk)]
    · simp [hj, store]

theorem peek_assignAll (vs : List Nat) (buf : List Nat) (stale : Nat → Nat) (k j : Nat) :
    peek (assignAll buf stale k vs).1 (assignAll buf stale k vs).2 j
      = if k ≤ j ∧ j < k + vs.length then vs.getD (j - k) 0 else peek buf stale j := by
  induction vs generalizing buf stale k with
  | nil =>
    have h : ¬ (k ≤ j ∧ j < k) := by omega
    simp [assignAll, h]
  | cons v rest ih =>
    simp only [assignAll, ih, peek_assign, List.length_cons]
    by_cases h1 : j = k
    · subst h1
      simp
    · by_cases h2 : k + 1 ≤ j ∧ j < k + 1 + rest.length
      · have h3 : k ≤ j ∧ j < k + (rest.length + 1) := by omega
        have h4 : j - k = (j - (k + 1)) + 1 := by omega
        simp only [h2, h3, and_self, if_true, h4, List.getD_cons_succ]
      · have h3 : ¬ (k ≤ j ∧ j < k + (rest.length + 1)) := by omega
        simp only [h2, h3, if_false, h1]

/-- The bytes that a request method hands to `sendDataFunc` after it has filled the start of
the buffer's storage with `vs` are `vs`, whatever the size of the vector. -/
theorem memRead_assignAll (vs : List Nat) (buf : List Nat) (stale : Nat → Nat) :
    memRead (assignAll buf stale 0 vs).1 (assignAll buf stale 0 vs).2 0 vs.length = vs := by
  unfold memRead
  apply List.ext_getElem
  · simp
  · intro i h1 h2
    simp only [List.getElem_map, List.getElem_range, Nat.zero_add, peek_assignAll]
    have hi : i < vs.length := by simpa using h1
    simp [hi, List.getD_eq_getElem?_getD]

theorem request_length (deviceAddress functionCode startingAddress quantityOfData : Nat) :
    (requestFunc_01_02_03_04.request deviceAddress functionCode startingAddress
      quantityOfData).length = 8 := by
  simp [requestFunc_01_02_03_04.request]

theorem sendRequest_sent (m : ModbusProtocolMaster) (stale : Nat → Nat)
    (functionCode packetBytesCount timerIdentifier : Nat)
    (hsend : m.sendDataFunc = true) (htimer : timerIdentifier ≠ 0) :
    m.sendRequest stale true timerIdentifier functionCode packetBytesCount
      = some ({ m with
                lastRequestInfo :=
                  ⟨functionCode, packetBytesCount, m.numberOfAttempts, timerIdentifier⟩ },
          [memRead m.inputDataBuffer stale 0 packetBytesCount], true) := by
  simp [sendRequest, hsend, htimer]

/-- A read request that is sent and whose timer is started: what `requestFunc_01_02_03_04`
returns and leaves behind. -/
theorem requestFunc_01_02_03_04_sent (m : ModbusProtocolMaster) (stale : Nat → Nat)
    (functionCode startingAddress quantityOfData timerIdentifier : Nat)
    (hsend : m.sendDataFunc = true) (htimer : timerIdentifier ≠ 0) :
    m.requestFunc_01_02_03_04 stale true timerIdentifier functionCode startingAddress
        quantityOfData
      = some ({ m with
                lastRequestInfo := ⟨functionCode, 8, m.numberOfAttempts, timerIdentifier⟩
                inputDataBuffer := (assignAll m.inputDataBuffer stale 0
                  (requestFunc_01_02_03_04.request m.deviceAddress functionCode startingAddress
                    quantityOfData)).1 },
          (assignAll m.inputDataBuffer stale 0
            (requestFunc_01_02_03_04.request m.deviceAddress functionCode startingAddress
              quantityOfData)).2,
          [requestFunc_01_02_03_04.request m.deviceAddress functionCode startingAddress
            quantityOfData], true) := by
  have hm := memRead_assignAll
    (requestFunc_01_02_03_04.request m.deviceAddress functionCode startingAddress quantityOfData)
    m.inputDataBuffer stale
  rw [request_length] at hm
  unfold requestFunc_01_02_03_04
  generalize requestFunc_01_02_03_04.request m.deviceAddress functionCode startingAddress
    quantityOfData = vs at hm ⊢
  simp only []
  rw [sendRequest_sent _ _ _ _ _ (by exact hsend) htimer]
  simp only [Option.map_some', hm]

theorem timeoutExpired_resend (m : ModbusProtocolMaster) (stale : Nat → Nat) (t : Nat)
    (hfc : m.lastRequestInfo.functionCode ≠ 0) (hatt : m.lastRequestInfo.attemptsCount ≠ 0)
    (hsend : m.sendDataFunc = true) (ht : t ≠ 0) :
    m.timeoutExpired stale true t
      = some ({ m with
                lastRequestInfo :=
                  { m.lastRequestInfo with
                    attemptsCount := m.lastRequestInfo.attemptsCount - 1 } },
          [memRead m.inputDataBuffer stale 0 m.lastRequestInfo.bytesCount],
          ["Last request timeout expired.", "Repeated request sent."]) := by
  simp [timeoutExpired, hfc, hatt, hsend, ht]

theorem timeoutExpired_final (m : ModbusProtocolMaster) (stale : Nat → Nat) (sendData : Bool)
    (t : Nat) (hfc : m.lastRequestInfo.functionCode ≠ 0)
    (hatt : m.lastRequestInfo.attemptsCount = 0) :
    m.timeoutExpired stale sendData t
      = some (resetAndExit m, [], ["Last request timeout expired."]) := by
  simp [timeoutExpired, hfc, hatt]

/-- With `k` attempts or more left, `k` expiries in a row send the recorded request `k` times
and take `k` from the number of attempts. -/
theorem timeoutExpiredAll_resends (stale : Nat → Nat) (k : Nat) :
    ∀ (m : ModbusProtocolMaster) (env : List (Bool × Nat)) (a : Nat),
      m.lastRequestInfo.functionCode ≠ 0 → m.lastRequestInfo.attemptsCount = (a : Int) →
      k ≤ a → m.sendDataFunc = true → (∀ e ∈ env, e.1 = true ∧ e.2 ≠ 0) → env.length = k →
      timeoutExpiredAll stale m env
        = some ({ m with
                  lastRequestInfo :=
                    { m.lastRequestInfo with attemptsCount := ((a - k : Nat) : Int) } },
            List.replicate k (memRead m.inputDataBuffer stale 0 m.lastRequestInfo.bytesCount)) := by
  induction k with
  | zero =>
    intro m env a _ hatt _ _ _ hlen
    have he : env = [] := List.length_eq_zero.mp hlen
    subst he
    simp only [timeoutExpiredAll, Nat.sub_zero, ← hatt, List.replicate_zero]
  | succ k ih =>
    intro m env a hfc hatt hk hsend henv hlen
    match env, hlen with
    | (sendData, t) :: rest, hlen =>
      have h1 := henv (sendData, t) (List.mem_cons_self _ _)
      simp only at h1
      obtain ⟨hs, ht⟩ := h1
      subst hs
      have hatt0 : m.lastRequestInfo.attemptsCount ≠ 0 := by omega
      have hrest : rest.length = k := by simpa using hlen
      have hstep := ih
        { m with
          lastRequestInfo :=
            { m.lastRequestInfo with attemptsCount := m.lastRequestInfo.attemptsCount - 1 } }
        rest (a - 1) hfc
        (by show m.lastRequestInfo.attemptsCount - 1 = ((a - 1 : Nat) : Int); omega)
        (by omega) hsend (fun e he => henv e (List.mem_cons_of_mem _ he)) hrest
      simp only [] at hstep
      simp only [timeoutExpiredAll, timeoutExpired_resend m stale t hfc hatt0 hsend ht]
      rw [hstep]
      have e : a - 1 - k = a - (k + 1) := by omega
      simp only [e, List.replicate_succ, List.singleton_append]

/-- With `a` attempts left, `a + 1` expiries in a row send the recorded request `a` times and
end with the master reset. -/
theorem timeoutExpiredAll_retries (stale : Nat → Nat) (m : ModbusProtocolMaster)
    (env : List (Bool × Nat)) (a : Nat)
    (hfc : m.lastRequestInfo.functionCode ≠ 0) (hatt : m.lastRequestInfo.attemptsCount = (a : Int))
    (hsend : m.sendDataFunc = true) (henv : ∀ e ∈ env, e.1 = true ∧ e.2 ≠ 0)
    (hlen : env.length = a + 1) :
    timeoutExpiredAll stale m env
      = some (resetAndExit m,
          List.replicate a (memRead m.inputDataBuffer stale 0 m.lastRequestInfo.bytesCount)) := by
  induction a generalizing m env with
  | zero =>
    match env, hlen with
    | [(sendData, t)], _ =>
      simp only [timeoutExpiredAll,
        timeoutExpired_final m stale sendData t hfc (by simpa using hatt)]
      rfl
  | succ a ih =>
    match env, hlen with
    | (sendData, t) :: rest, hlen =>
      have h1 := henv (sendData, t) (List.mem_cons_self _ _)
      simp only at h1
      obtain ⟨hs, ht⟩ := h1
      subst hs
      have hatt0 : m.lastRequestInfo.attemptsCount ≠ 0 := by omega
      have hrest : rest.length = a + 1 := by simpa using hlen
      have hstep := ih
        { m with
          lastRequestInfo :=
            { m.lastRequestInfo with attemptsCount := m.lastRequestInfo.attemptsCount - 1 } }
        rest hfc
        (by show m.lastRequestInfo.attemptsCount - 1 = ((a : Nat) : Int); omega)
        hsend (fun e he => henv e (List.mem_cons_of_mem _ he)) hrest
      simp only [] at hstep
      simp only [timeoutExpiredAll, timeoutExpired_resend m stale t hfc hatt0 hsend ht]
      rw [hstep]
      simp only [List.replicate_succ, List.singleton_append]
      rfl

end ModbusProtocolMaster

/-- C21 (timeout and retry): a master with a send callback and `numberOfAttempts = n ≥ 0` sends
a read request (function code 1 to 4) and its timer is started; then the timer expires `n + 1`
times with nothing received, every send and every start of the timer succeeding. Each of the
first `n` expiries hands the bytes of the request to the send callback again and leaves the
request recorded, with one attempt fewer and the state untouched; expiry `n + 1` sends nothing,
resets `lastRequestInfo` to zero and sets the state to `MM_STATE_FREE`. The send callback has
been called `n + 1` times in all. -/
theorem master_timeout_retransmits (m : ModbusProtocolMaster) (stale : Nat → Nat)
    (functionCode startingAddress quantityOfData timerIdentifier n : Nat)
    (env : List (Bool × Nat))
    (hfc : functionCode = 1 ∨ functionCode = 2 ∨ functionCode = 3 ∨ functionCode = 4)
    (hsend : m.sendDataFunc = true) (hn : m.numberOfAttempts = (n : Int))
    (htimer : timerIdentifier ≠ 0) (henv : ∀ e ∈ env, e.1 = true ∧ e.2 ≠ 0)
    (hlen : env.length = n + 1) :
    ∃ m1 stale1,
      m.requestFunc_01_02_03_04 stale true timerIdentifier functionCode startingAddress
          quantityOfData
        = some (m1, stale1,
            [ModbusProtocolMaster.requestFunc_01_02_03_04.request m.deviceAddress functionCode
              startingAddress quantityOfData], true) ∧
      (∀ k, k ≤ n → ∃ mk,
        ModbusProtocolMaster.timeoutExpiredAll stale1 m1 (env.take k)
          = some (mk, List.replicate k
              (ModbusProtocolMaster.requestFunc_01_02_03_04.request m.deviceAddress functionCode
                startingAddress quantityOfData)) ∧
        mk.lastRequestInfo = ⟨functionCode, 8, ((n - k : Nat) : Int), timerIdentifier⟩ ∧
        mk.masterCurrentState = m.masterCurrentState) ∧
      (∃ m2,
        ModbusProtocolMaster.timeoutExpiredAll stale1 m1 env
          = some (m2, List.replicate n
              (ModbusProtocolMaster.requestFunc_01_02_03_04.request m.deviceAddress functionCode
                startingAddress quantityOfData)) ∧
        m2.lastRequestInfo = LastRequestInfo.Reset ∧
        m2.masterCurrentState = .MM_STATE_FREE) ∧
      ([ModbusProtocolMaster.requestFunc_01_02_03_04.request m.deviceAddress functionCode
          startingAddress quantityOfData] ++
        List.replicate n (ModbusProtocolMaster.requestFunc_01_02_03_04.request m.deviceAddress
          functionCode startingAddress quantityOfData)).length = n + 1 := by
  have hreq := ModbusProtocolMaster.requestFunc_01_02_03_04_sent m stale functionCode
    startingAddress quantityOfData timerIdentifier hsend htimer
  have hm := ModbusProtocolMaster.memRead_assignAll
    (ModbusProtocolMaster.requestFunc_01_02_03_04.request m.deviceAddress functionCode
      startingAddress quantityOfData) m.inputDataBuffer stale
  rw [ModbusProtocolMaster.request_length] at hm
  have hfc0 : functionCode ≠ 0 := by omega
  generalize ModbusProtocolMaster.requestFunc_01_02_03_04.request m.deviceAddress functionCode
    startingAddress quantityOfData = req at hreq hm ⊢
  generalize hm1 : ({ m with
      lastRequestInfo := ⟨functionCode, 8, m.numberOfAttempts, timerIdentifier⟩
      inputDataBuffer := (ModbusProtocolMaster.assignAll m.inputDataBuffer stale 0 req).1 } :
        ModbusProtocolMaster) = m1 at hreq
  generalize (ModbusProtocolMaster.assignAll m.inputDataBuffer stale 0 req).2 = stale1
    at hreq hm
  have hinfo : m1.lastRequestInfo = ⟨functionCode, 8, m.numberOfAttempts, timerIdentifier⟩ := by
    rw [← hm1]
  have hstate : m1.masterCurrentState = m.masterCurrentState := by rw [← hm1]
  have hsend1 : m1.sendDataFunc = true := by rw [← hm1]; exact hsend
  have hread : memRead m1.inputDataBuffer stale1 0 m1.lastRequestInfo.bytesCount = req := by
    rw [hinfo, ← hm1]
    exact hm
  have hfc1 : m1.lastRequestInfo.functionCode ≠ 0 := by rw [hinfo]; exact hfc0
  have hatt1 : m1.lastRequestInfo.attemptsCount = (n : Int) := by rw [hinfo]; exact hn
  refine ⟨m1, stale1, hreq, ?_, ?_, by simp⟩
  · intro k hk
    have hlen' : (env.take k).length = k := by
      rw [List.length_take]
      omega
    have h := ModbusProtocolMaster.timeoutExpiredAll_resends stale1 k m1 (env.take k) n hfc1
      hatt1 hk hsend1 (fun e he => henv e (List.mem_of_mem_take he)) hlen'
    rw [hread] at h
    refine ⟨_, h, ?_, hstate⟩
    simp only [hinfo]
  · have h := ModbusProtocolMaster.timeoutExpiredAll_retries stale1 m1 env n hfc1 hatt1 hsend1
      henv hlen
    rw [hread] at h
    exact ⟨_, h, rfl, rfl⟩

/-- C21 witness: two attempts. The master sends the request `01 03 00 10 00 01 CF 85` for
the holding register; three expiries later the request has been sent three times in all and
the master is free. -/
theorem master_timeout_retransmits_witness :
    ((masterBusy (singletonMap holdingRegister) 2).sendDataFunc = true ∧
      (masterBusy (singletonMap holdingRegister) 2).numberOfAttempts = ((2 : Nat) : Int) ∧
      (∀ e ∈ [(true, 1), (true, 1), (true, 1)], e.1 = true ∧ e.2 ≠ 0)) ∧
    ModbusProtocolMaster.requestFunc_01_02_03_04.request 1 3 0x0010 1
      = [0x01, 0x03, 0x00, 0x10, 0x00, 0x01, 0xCF, 0x85] ∧
    ∃ m1 stale1,
      (masterBusy (singletonMap holdingRegister) 2).requestFunc_01_02_03_04 zeroMemory true 1 3
          0x0010 1
        = some (m1, stale1,
            [ModbusProtocolMaster.requestFunc_01_02_03_04.request
              (masterBusy (singletonMap holdingRegister) 2).deviceAddress 3 0x0010 1], true) ∧
      (∀ k, k ≤ 2 → ∃ mk,
        ModbusProtocolMaster.timeoutExpiredAll stale1 m1
            ([(true, 1), (true, 1), (true, 1)].take k)
          = some (mk, List.replicate k
              (ModbusProtocolMaster.requestFunc_01_02_03_04.request
                (masterBusy (singletonMap holdingRegister) 2).deviceAddress 3 0x0010 1)) ∧
        mk.lastRequestInfo = ⟨3, 8, ((2 - k : Nat) : Int), 1⟩ ∧
        mk.masterCurrentState = (masterBusy (singletonMap holdingRegister) 2).masterCurrentState) ∧
      (∃ m2,
        ModbusProtocolMaster.timeoutExpiredAll stale1 m1 [(true, 1), (true, 1), (true, 1)]
          = some (m2, List.replicate 2
              (ModbusProtocolMaster.requestFunc_01_02_03_04.request
                (masterBusy (singletonMap holdingRegister) 2).deviceAddress 3 0x0010 1)) ∧
        m2.lastRequestInfo = LastRequestInfo.Reset ∧
        m2.masterCurrentState = .MM_STATE_FREE) ∧
      ([ModbusProtocolMaster.requestFunc_01_02_03_04.request
          (masterBusy (singletonMap holdingRegister) 2).deviceAddress 3 0x0010 1] ++
        List.replicate 2 (ModbusProtocolMaster.requestFunc_01_02_03_04.request
          (masterBusy (singletonMap holdingRegister) 2).deviceAddress 3 0x0010 1)).length
        = 2 + 1 :=
  ⟨⟨rfl, rfl, by decide⟩, by decide,
    master_timeout_retransmits (masterBusy (singletonMap holdingRegister) 2) zeroMemory 3 0x0010
      1 1 2 [(true, 1), (true, 1), (true, 1)] (by decide) rfl rfl (by decide) (by decide) rfl⟩

/-! ## Master: the state machine -/

namespace ModbusProtocolMaster

theorem allowedChange_refl (a : modbusMasterCurrentStates) : allowedChange a a :=
  Or.inl rfl

theorem allowedChange_free (a : modbusMasterCurrentStates) : allowedChange a .MM_STATE_FREE := by
  cases a
  · exact Or.inl rfl
  · exact Or.inr (Or.inr (Or.inl ⟨rfl, rfl⟩))
  · exact Or.inr (Or.inr (Or.inr (Or.inr ⟨rfl, rfl⟩)))

theorem allowedChange_ready (a : modbusMasterCurrentStates) (h : a ≠ .MM_STATE_FREE) :
    allowedChange a .MM_STATE_RESPONSE_READY := by
  cases a
  · exact absurd rfl h
  · exact Or.inr (Or.inr (Or.inr (Or.inl ⟨rfl, rfl⟩)))
  · exact Or.inl rfl

/-- The changes that are not allowed: `FREE` to `RESPONSE_READY`, `RESPONSE_READY` to `BUSY`. -/
theorem allowedChange_iff (a b : modbusMasterCurrentStates) :
    allowedChange a b ↔
      ¬ (a = .MM_STATE_FREE ∧ b = .MM_STATE_RESPONSE_READY) ∧
      ¬ (a = .MM_STATE_RESPONSE_READY ∧ b = .MM_STATE_BUSY) := by
  cases a <;> cases b <;> simp [allowedChange]

/-- The part of `inputPacketParse` after the insertion leaves the state as it is, or sets it to
`MM_STATE_FREE` or to `MM_STATE_RESPONSE_READY`. -/
theorem parseBuffer_state (m : ModbusProtocolMaster) (map : ModbusRegMap) (stale : Nat → Nat)
    (readable : Nat) (stopTimeoutTimer : Bool) (buf : List Nat)
    (r : ModbusProtocolMaster × List String)
    (hrun : parseBuffer m map stale readable stopTimeoutTimer buf = some r) :
    r.1.masterCurrentState = m.masterCurrentState ∨
      r.1.masterCurrentState = .MM_STATE_FREE ∨
      r.1.masterCurrentState = .MM_STATE_RESPONSE_READY := by
  unfold parseBuffer at hrun
  split at hrun
  · simp only [Option.some.injEq] at hrun
    rw [← hrun]
    exact Or.inl rfl
  · simp only at hrun
    split at hrun
    · cases hrun
    · split at hrun
      · simp only [Option.some.injEq] at hrun
        rw [← hrun]
        exact Or.inl rfl
      · split at hrun
        · cases hrun
        · split at hrun
          · split at hrun
            · simp only [Option.some.injEq] at hrun
              rw [← hrun]
              exact Or.inr (Or.inl rfl)
            · split at hrun
              · cases hrun
              · simp only [Option.some.injEq] at hrun
                rw [← hrun]
                exact Or.inr (Or.inr rfl)
          · simp only [Option.some.injEq] at hrun
            rw [← hrun]
            exact Or.inl rfl

/-- A call of `inputPacketParse` changes the state only in an allowed way. -/
theorem inputPacketParse_state (m : ModbusProtocolMaster) (stale : Nat → Nat) (readable : Nat)
    (stopTimeoutTimer : Bool) (inputBuffer : List Nat) (r : ModbusProtocolMaster × List String)
    (hrun : m.inputPacketParse stale readable stopTimeoutTimer inputBuffer = some r) :
    allowedChange m.masterCurrentState r.1.masterCurrentState := by
  unfold inputPacketParse at hrun
  split at hrun
  · simp only [Option.some.injEq] at hrun
    rw [← hrun]
    exact allowedChange_free _
  · rename_i hbusy
    have hne : m.masterCurrentState ≠ .MM_STATE_FREE := fun h => hbusy (Or.inr h)
    simp only at hrun
    split at hrun
    · simp only [Option.some.injEq] at hrun
      rw [← hrun]
      exact allowedChange_refl _
    · split at hrun
      · simp only [Option.some.injEq] at hrun
        rw [← hrun]
        exact allowedChange_free _
      · rcases parseBuffer_state _ _ _ _ _ _ _ hrun with h | h | h
        · rw [h]
          exact allowedChange_refl _
        · rw [h]
          exact allowedChange_free _
        · rw [h]
          exact allowedChange_ready _ hne

/-- A call of `timeoutExpired` leaves the state as it is or sets it to `MM_STATE_FREE`. -/
theorem timeoutExpired_state (m : ModbusProtocolMaster) (stale : Nat → Nat) (sendData : Bool)
    (startTimeoutTimer : Nat) (r : ModbusProtocolMaster × List (List Nat) × List String)
    (hrun : m.timeoutExpired stale sendData startTimeoutTimer = some r) :
    allowedChange m.masterCurrentState r.1.masterCurrentState := by
  unfold timeoutExpired at hrun
  split at hrun
  · simp only [Option.some.injEq] at hrun
    rw [← hrun]
    exact allowedChange_free _
  · split at hrun
    · split at hrun
      · cases hrun
      · simp only at hrun
        split at hrun
        · simp only [Option.some.injEq] at hrun
          rw [← hrun]
          exact allowedChange_free _
        · split at hrun
          · simp only [Option.some.injEq] at hrun
            rw [← hrun]
            exact allowedChange_free _
          · simp only [Option.some.injEq] at hrun
            rw [← hrun]
            exact allowedChange_refl _
    · simp only [Option.some.injEq] at hrun
      rw [← hrun]
      exact allowedChange_free _

/-- The request methods do not touch the state. -/
theorem sendRequest_state (m : ModbusProtocolMaster) (stale : Nat → Nat) (sendData : Bool)
    (startTimeoutTimer functionCode packetBytesCount : Nat)
    (r : ModbusProtocolMaster × List (List Nat) × Bool)
    (hrun : m.sendRequest stale sendData startTimeoutTimer functionCode packetBytesCount = some r) :
    r.1.masterCurrentState = m.masterCurrentState := by
  unfold sendRequest at hrun
  split at hrun
  · cases hrun
  · simp only at hrun
    split at hrun
    · simp only [Option.some.injEq] at hrun
      rw [← hrun]
    · split at hrun
      · simp only [Option.some.injEq] at hrun
        rw [← hrun]
      · simp only [Option.some.injEq] at hrun
        rw [← hrun]

theorem requestFunc_01_02_03_04_state (m : ModbusProtocolMaster) (stale : Nat → Nat)
    (sendData : Bool) (startTimeoutTimer functionCode startingAddress quantityOfData : Nat)
    (r : ModbusProtocolMaster × (Nat → Nat) × List (List Nat) × Bool)
    (hrun : m.requestFunc_01_02_03_04 stale sendData startTimeoutTimer functionCode
      startingAddress quantityOfData = some r) :
    r.1.masterCurrentState = m.masterCurrentState := by
  unfold requestFunc_01_02_03_04 at hrun
  generalize assignAll m.inputDataBuffer stale 0 _ = filled at hrun
  simp only [Option.map_eq_some'] at hrun
  obtain ⟨r', h1, h2⟩ := hrun
  have h3 := sendRequest_state _ _ _ _ _ _ _ h1
  rw [← h2]
  exact h3

/-- The start of `readAllRegisters` leaves the state as it is or changes it from
`MM_STATE_FREE` to `MM_STATE_BUSY`. -/
theorem readAllRegisters_enter_state (m : ModbusProtocolMaster) :
    allowedChange m.masterCurrentState (readAllRegisters.enter m).1.masterCurrentState := by
  unfold readAllRegisters.enter
  split
  · exact allowedChange_refl _
  · rename_i hfree
    have hfree' : m.masterCurrentState = .MM_STATE_FREE := by
      by_contra h
      exact hfree h
    split
    · exact allowedChange_free _
    · rw [hfree']
      exact Or.inr (Or.inl ⟨rfl, rfl⟩)

/-- A step of `readAllRegisters` changes the state only in an allowed way. -/
theorem readAllRegisters_step_state (m : ModbusProtocolMaster) (stale : Nat → Nat)
    (sendData : Bool) (startTimeoutTimer : Nat) (control : readAllRegisters.Control)
    (r : ModbusProtocolMaster × readAllRegisters.Control × List (List Nat) × List String)
    (hrun : readAllRegisters.step m stale sendData startTimeoutTimer control = some r) :
    allowedChange m.masterCurrentState r.1.masterCurrentState := by
  cases control with
  | notCalled =>
    simp only [readAllRegisters.step, Option.some.injEq] at hrun
    rw [← hrun]
    exact readAllRegisters_enter_state m
  | atElement cursor =>
    simp only [readAllRegisters.step] at hrun
    split at hrun
    · cases hrun
    · split at hrun
      · simp only [Option.some.injEq] at hrun
        rw [← hrun]
        exact allowedChange_free _
      · split at hrun
        · split at hrun
          · cases hrun
          · rename_i hreq
            simp only [Option.some.injEq] at hrun
            rw [← hrun]
            have := requestFunc_01_02_03_04_state _ _ _ _ _ _ _ _ hreq
            simp only at this
            rw [this]
            exact allowedChange_refl _
          · simp only [Option.some.injEq] at hrun
            rw [← hrun]
            exact allowedChange_free _
        · simp only [Option.some.injEq] at hrun
          rw [← hrun]
          exact allowedChange_refl _
  | waiting cursor =>
    simp only [readAllRegisters.step] at hrun
    split at hrun
    · simp only [Option.some.injEq] at hrun
      rw [← hrun]
      exact allowedChange_refl _
    · split at hrun
      · simp only [Option.some.injEq] at hrun
        rw [← hrun]
        exact allowedChange_refl _
      · simp only [Option.some.injEq] at hrun
        rw [← hrun]
        exact allowedChange_refl _
  | returned result =>
    simp only [readAllRegisters.step, Option.some.injEq] at hrun
    rw [← hrun]
    exact readAllRegisters_enter_state m

/-- Every activity changes the state only in an allowed way. -/
theorem act_state (m : ModbusProtocolMaster) (control : readAllRegisters.Control) (a : Activity)
    (r : ModbusProtocolMaster × readAllRegisters.Control × List (List Nat))
    (hrun : act m control a = some r) :
    allowedChange m.masterCurrentState r.1.masterCurrentState := by
  cases a with
  | main stale sendData startTimeoutTimer =>
    simp only [act, Option.map_eq_some'] at hrun
    obtain ⟨r', h1, h2⟩ := hrun
    rw [← h2]
    exact readAllRegisters_step_state _ _ _ _ _ _ h1
  | received stale readable stopTimeoutTimer inputBuffer =>
    simp only [act, Option.map_eq_some'] at hrun
    obtain ⟨r', h1, h2⟩ := hrun
    rw [← h2]
    exact inputPacketParse_state _ _ _ _ _ _ h1
  | timer stale sendData startTimeoutTimer =>
    simp only [act, Option.map_eq_some'] at hrun
    obtain ⟨r', h1, h2⟩ := hrun
    rw [← h2]
    exact timeoutExpired_state _ _ _ _ _ h1

end ModbusProtocolMaster

/-- C22 (master state machine): in every sequential interleaving of steps of
`readAllRegisters`, calls of `inputPacketParse` and calls of `timeoutExpired`, from any master
and any point of `readAllRegisters`, each activity leaves `masterCurrentState` as it is or
changes it from `FREE` to `BUSY`, from `BUSY` to `FREE`, from `BUSY` to `RESPONSE_READY` or from
`RESPONSE_READY` to `FREE`; it never changes it from `FREE` to `RESPONSE_READY` nor from
`RESPONSE_READY` to `BUSY`. -/
theorem master_state_changes_allowed (m : ModbusProtocolMaster)
    (control : ModbusProtocolMaster.readAllRegisters.Control)
    (activities : List ModbusProtocolMaster.Activity)
    (trace : List (ModbusProtocolMaster × ModbusProtocolMaster.readAllRegisters.Control ×
      List (List Nat)))
    (hrun : ModbusProtocolMaster.interleaving m control activities = some trace) :
    List.Chain
      (fun a b => ModbusProtocolMaster.allowedChange a b ∧
        ¬ (a = .MM_STATE_FREE ∧ b = .MM_STATE_RESPONSE_READY) ∧
        ¬ (a = .MM_STATE_RESPONSE_READY ∧ b = .MM_STATE_BUSY))
      m.masterCurrentState (trace.map (fun r => r.1.masterCurrentState)) := by
  induction activities generalizing m control trace with
  | nil =>
    simp only [ModbusProtocolMaster.interleaving, Option.some.injEq] at hrun
    rw [← hrun]
    exact List.Chain.nil
  | cons a rest ih =>
    simp only [ModbusProtocolMaster.interleaving] at hrun
    split at hrun
    · cases hrun
    · rename_i r hact
      split at hrun
      · cases hrun
      · rename_i trace' hrest
        simp only [Option.some.injEq] at hrun
        rw [← hrun]
        have hstep := ModbusProtocolMaster.act_state m control a r hact
        exact List.Chain.cons ⟨hstep, (ModbusProtocolMaster.allowedChange_iff _ _).mp hstep⟩
          (ih r.1 r.2.1 trace' hrest)

/-- C22 witness: `readAllRegisters` on a free master whose map holds one holding register. It
sets the state to `BUSY` and sends the request, the response is received (`RESPONSE_READY`),
the method goes on to the end of the map and sets the state to `FREE`. -/
theorem master_state_changes_allowed_witness :
    (ModbusProtocolMaster.interleaving (masterFree (singletonMap holdingRegister)) .notCalled
        [mainStep, mainStep, responseReceived, mainStep, mainStep]).map
      (fun trace => trace.map (fun r => r.1.masterCurrentState))
      = some [.MM_STATE_BUSY, .MM_STATE_BUSY, .MM_STATE_RESPONSE_READY,
          .MM_STATE_RESPONSE_READY, .MM_STATE_FREE] ∧
    List.Chain
      (fun a b => ModbusProtocolMaster.allowedChange a b ∧
        ¬ (a = .MM_STATE_FREE ∧ b = .MM_STATE_RESPONSE_READY) ∧
        ¬ (a = .MM_STATE_RESPONSE_READY ∧ b = .MM_STATE_BUSY))
      modbusMasterCurrentStates.MM_STATE_FREE
      [.MM_STATE_BUSY, .MM_STATE_BUSY, .MM_STATE_RESPONSE_READY, .MM_STATE_RESPONSE_READY,
        .MM_STATE_FREE] :=
  ⟨rfl,
    master_state_changes_allowed (masterFree (singletonMap holdingRegister)) .notCalled
      [mainStep, mainStep, responseReceived, mainStep, mainStep]
      ((ModbusProtocolMaster.interleaving (masterFree (singletonMap holdingRegister)) .notCalled
        [mainStep, mainStep, responseReceived, mainStep, mainStep]).getD [])
      rfl⟩

/-! ## Master: responses -/

/-- C23 (master applies an FC03/04 response): a busy master (address 1) whose map holds the
holding registers `0x0010` and `0x0011`, both `UInt16` with the value `0x1234` and the range
`[0, 0xFFFF]`, sends the read request for two registers from `0x0010` and then receives the
valid response `01 03 04 00 0A 00 0B 9B F6`. `parsingAnswerFunc_03_04` takes the "request
info" from bytes 2 to 5 of the buffer, which holds the response: the quantity it reads is
`0x0A00`, not 2, and the method returns -1. The message of a parsing error is put out, the nine
bytes are erased, the state is `RESPONSE_READY`, and both registers hold `0x1234` as before, not
`0x000A` and `0x000B`. -/
theorem master_read_response_not_applied :
    ModbusProtocolMaster.checkModbusResponsePos_F01ToF04
      [0x01, 0x03, 0x04, 0x00, 0x0A, 0x00, 0x0B, 0x9B, 0xF6] zeroMemory 0 = true ∧
    ∃ m1 stale1 m2,
      (masterBusy threeRegisters 3).requestFunc_01_02_03_04 zeroMemory true 1 3 0x0010 2
        = some (m1, stale1, [[0x01, 0x03, 0x00, 0x10, 0x00, 0x02, 0xCE, 0xC5]], true) ∧
      m1.masterCurrentState = .MM_STATE_BUSY ∧
      m1.lastRequestInfo = ⟨3, 8, 3, 1⟩ ∧
      m1.inputPacketParse stale1 0 true [0x01, 0x03, 0x04, 0x00, 0x0A, 0x00, 0x0B, 0x9B, 0xF6]
        = some (m2, ["Error: modbus function 0x03 (0x04) response parsing error."]) ∧
      m2.masterCurrentState = .MM_STATE_RESPONSE_READY ∧
      m2.inputDataBuffer = [] ∧
      (m2.modbusRegisterMap.bind (fun map => map.getModbusElement 3 0x0010)).map
          (fun el => el.DataValue) = some 0x1234 ∧
      (m2.modbusRegisterMap.bind (fun map => map.getModbusElement 3 0x0011)).map
          (fun el => el.DataValue) = some 0x1234 :=
  ⟨by decide,
    { masterBusy threeRegisters 3 with lastRequestInfo := ⟨3, 8, 3, 1⟩ },
    (ModbusProtocolMaster.assignAll [] zeroMemory 0
      (ModbusProtocolMaster.requestFunc_01_02_03_04.request 1 3 0x0010 2)).2,
    { masterBusy threeRegisters 3 with masterCurrentState := .MM_STATE_RESPONSE_READY },
    rfl, rfl, rfl, rfl, rfl, rfl, rfl, rfl⟩

/-- C24 (master verifies the FC05/06 echo): `parsingAnswerFunc_05_06` is called with
`inputDataBuffer` itself and compares each of its first eight bytes with itself, so it returns 8
for every buffer and never a negative result. A busy master (address 1) whose map holds the
register `(fc=6, addr=0x0010)` with the value `0x1234` sends the write request
`01 06 00 10 12 34` (and CRC) and then receives the CRC-valid frame `01 06 00 11 FF FF D8 7F`,
whose register address and value both differ from the request: no message is put out, the
frame is erased and the state is `RESPONSE_READY`, as for a matching echo. -/
theorem master_echo_mismatch_not_reported :
    (∀ (buf : List Nat) (stale : Nat → Nat),
      ModbusProtocolMaster.parsingAnswerFunc_05_06 buf stale = 8) ∧
    ModbusProtocolMaster.checkModbusResponsePos_F05ToF06
      [0x01, 0x06, 0x00, 0x11, 0xFF, 0xFF, 0xD8, 0x7F] zeroMemory 0 = true ∧
    ∃ m1 stale1 m2,
      (masterBusy (singletonMap writeRegister) 3).requestFunc_05_06 zeroMemory true 1 6 0x0010
        = some (m1, stale1, [[0x01, 0x06, 0x00, 0x10, 0x12, 0x34, 0x78, 0x85]], true) ∧
      m1.masterCurrentState = .MM_STATE_BUSY ∧
      m1.lastRequestInfo = ⟨6, 8, 3, 1⟩ ∧
      m1.inputPacketParse stale1 0 true [0x01, 0x06, 0x00, 0x11, 0xFF, 0xFF, 0xD8, 0x7F]
        = some (m2, []) ∧
      m2.masterCurrentState = .MM_STATE_RESPONSE_READY ∧
      m2.lastRequestInfo = LastRequestInfo.Reset ∧
      m2.inputDataBuffer = [] := by
  refine ⟨?_, by decide,
    { masterBusy (singletonMap writeRegister) 3 with lastRequestInfo := ⟨6, 8, 3, 1⟩ },
    (ModbusProtocolMaster.assignAll [] zeroMemory 0
      [0x01, 0x06, 0x00, 0x10, 0x12, 0x34, 0x78, 0x85]).2,
    { masterBusy (singletonMap writeRegister) 3 with
      masterCurrentState := .MM_STATE_RESPONSE_READY },
    rfl, rfl, rfl, rfl, rfl, rfl, rfl⟩
  intro buf stale
  simp [ModbusProtocolMaster.parsingAnswerFunc_05_06, outputPackTemplateF05F06_Size]

/-- C26 (at most one request in flight): `readAllRegisters` on a free master whose map holds
three holding registers. The request for the first register is sent and the response to it is
received, which sets the state to `RESPONSE_READY`. `readAllRegisters` never sets the state to
`BUSY` again: for the second and the third register the loop that waits for the response ends
at its first test, so the third request is sent right after the second, with no call of
`inputPacketParse` or `timeoutExpired` in between and the second request still recorded in
`lastRequestInfo`; then the method returns `true`. The list gives, after each activity, the
state, the function code recorded in `lastRequestInfo`, the point `readAllRegisters` has
reached and the bytes sent. -/
theorem readAllRegisters_sends_without_waiting :
    (ModbusProtocolMaster.interleaving (masterFree threeRegisters) .notCalled
        [mainStep, mainStep, responseReceived, mainStep, mainStep, mainStep, mainStep, mainStep,
          mainStep]).map
      (fun trace => trace.map
        (fun r => (r.1.masterCurrentState, r.1.lastRequestInfo.functionCode, r.2.1, r.2.2)))
      = some
        [(.MM_STATE_BUSY, 0, .atElement 0, []),
          (.MM_STATE_BUSY, 3, .waiting 0, [[0x01, 0x03, 0x00, 0x10, 0x00, 0x01, 0xCF, 0x85]]),
          (.MM_STATE_RESPONSE_READY, 0, .waiting 0, []),
          (.MM_STATE_RESPONSE_READY, 0, .atElement 1, []),
          (.MM_STATE_RESPONSE_READY, 3, .waiting 1,
            [[0x01, 0x03, 0x00, 0x11, 0x00, 0x01, 0x0F, 0xD4]]),
          (.MM_STATE_RESPONSE_READY, 3, .atElement 2, []),
          (.MM_STATE_RESPONSE_READY, 3, .waiting 2,
            [[0x01, 0x03, 0x00, 0x12, 0x00, 0x01, 0x0F, 0x24]]),
          (.MM_STATE_RESPONSE_READY, 3, .atElement 3, []),
          (.MM_STATE_FREE, 3, .returned true, [])] := by
  rfl

namespace ModbusProtocolMaster

theorem peek_zeroMemory_past (buf : List Nat) (i : Nat) (h : buf.length ≤ i) :
    peek buf zeroMemory i = 0 := by
  unfold peek
  rw [List.getD_eq_default _ _ h]
  rfl

theorem find_if_unbounded_none (pred : Nat → Bool) (hpred : ∀ i, pred i = false)
    (readable first : Nat) : find_if_unbounded pred first readable = none := by
  induction readable generalizing first with
  | zero => rfl
  | succ n ih => simp only [find_if_unbounded, hpred first, ih (first + 1)]; rfl

/-- No position of zero memory behind a buffer passes the master's frame test. -/
theorem checkModbusRequestPos_zeroMemory_past (buf : List Nat) (i : Nat) (h : buf.length ≤ i) :
    checkModbusRequestPos buf zeroMemory i = false := by
  have h0 : peek buf zeroMemory (i + 0) = 0 := peek_zeroMemory_past buf _ (by omega)
  have h1 : peek buf zeroMemory (i + 1) = 0 := peek_zeroMemory_past buf _ (by omega)
  have h2 : peek buf zeroMemory (i + 2) = 0 := peek_zeroMemory_past buf _ (by omega)
  have h3 : peek16 buf zeroMemory (i + 3) = 0 := by
    unfold peek16
    rw [peek_zeroMemory_past buf _ (by omega), peek_zeroMemory_past buf _ (by omega)]
  have hm : memRead buf zeroMemory i 3 = [0, 0, 0] := by
    show [peek buf zeroMemory (i + 0), peek buf zeroMemory (i + 1), peek buf zeroMemory (i + 2)]
      = [0, 0, 0]
    rw [h0, h1, h2]
  have e1 : checkModbusResponsePos_F01ToF04 buf zeroMemory i = false := by
    unfold checkModbusResponsePos_F01ToF04
    simp only [h1]
    rfl
  have e2 : checkModbusResponsePos_F05ToF06 buf zeroMemory i = false := by
    unfold checkModbusResponsePos_F05ToF06
    simp only [h1]
    rfl
  have e3 : checkModbusResponsePos_F15ToF16 buf zeroMemory i = false := by
    unfold checkModbusResponsePos_F15ToF16
    simp only [h1]
    rfl
  have e4 : checkModbusResponsePos_Error buf zeroMemory i = false := by
    unfold checkModbusResponsePos_Error
    show (ModbusCRC16 (memRead buf zeroMemory i 3) 3 == peek16 buf zeroMemory (i + 3)) = false
    rw [hm, h3]
    decide
  unfold checkModbusRequestPos
  rw [e1, e2, e3, e4]
  rfl

end ModbusProtocolMaster

/-- C25 (master accepts an exception frame; scan bounds): the master searches a buffer of
5, 6 or 7 bytes with `find_if(begin, end - 8, ...)`, a range whose end lies before its start, so
the search is not confined to the buffer. A master that awaits the response to a request with
function code 3 and receives the exception frame `01 83 02 C0 F1` finds it at the first
position tested (provided that one position can be tested) and accepts it: the timer is
stopped, the five bytes are erased, the map is unchanged, `lastRequestInfo` is reset and the
state is `RESPONSE_READY`. The same master receiving the five bytes `01 83 02 00 00`, which are
not a frame, goes on testing the positions behind the buffer: with zero bytes there no position
passes the test, and the call has no result however much memory can be read. -/
theorem master_exception_scan_leaves_buffer :
    (masterAwaiting threeRegisters 3).inputPacketParse zeroMemory 1 true
        [0x01, 0x83, 0x02, 0xC0, 0xF1]
      = some ({ masterAwaiting threeRegisters 3 with
                lastRequestInfo := LastRequestInfo.Reset
                masterCurrentState := .MM_STATE_RESPONSE_READY },
          ["Error: modbus exception, illegal data address."]) ∧
    ∀ readable, (masterAwaiting threeRegisters 3).inputPacketParse zeroMemory readable true
        [0x01, 0x83, 0x02, 0x00, 0x00] = none := by
  refine ⟨rfl, ?_⟩
  intro readable
  have hpred : ∀ i, ModbusProtocolMaster.checkModbusRequestPos [0x01, 0x83, 0x02, 0x00, 0x00]
      zeroMemory i = false := by
    intro i
    by_cases hi : 5 ≤ i
    · exact ModbusProtocolMaster.checkModbusRequestPos_zeroMemory_past _ i hi
    · have : i = 0 ∨ i = 1 ∨ i = 2 ∨ i = 3 ∨ i = 4 := by omega
      rcases this with h | h | h | h | h <;> subst h <;> decide
  have hfind := ModbusProtocolMaster.find_if_unbounded_none _ hpred readable 0
  show ModbusProtocolMaster.parseBuffer (masterAwaiting threeRegisters 3) threeRegisters
    zeroMemory readable true [0x01, 0x83, 0x02, 0x00, 0x00] = none
  unfold ModbusProtocolMaster.parseBuffer
  rw [if_neg (by decide)]
  simp only []
  rw [if_neg (by decide), hfind]

/-! ## CRC-16: the residue of a frame with its trailer -/

theorem ModbusCRC16_loop_append (d t : List Nat) (k w : Nat) :
    ModbusCRC16.loop (d ++ t) (d.length + k) w
      = ModbusCRC16.loop t k (ModbusCRC16.loop d d.length w) := by
  induction d generalizing w with
  | nil => simp [ModbusCRC16.loop]
  | cons b rest ih =>
    have e : (b :: rest).length + k = (rest.length + k) + 1 := by
      simp only [List.length_cons]
      omega
    rw [List.cons_append, e]
    simp only [List.length_cons, ModbusCRC16.loop]
    exact ih _

/-- A round of the loop with the low byte of the register as the data byte shifts the register
right by eight bits. -/
theorem ModbusCRC16_step_low_byte (w : Nat) : ModbusCRC16.step w (w % 256) = w >>> 8 := by
  unfold ModbusCRC16.step
  have h : (w % 256 ^^^ w) % 256 = 0 := by
    have e : (256 : Nat) = 2 ^ 8 := by norm_num
    rw [e]
    apply Nat.eq_of_testBit_eq
    intro i
    simp only [Nat.testBit_mod_two_pow, Nat.testBit_xor, Nat.zero_testBit]
    by_cases hi : i < 8 <;> simp [hi]
  rw [h]
  have h0 : wCRCTable.getD 0 0 = 0 := by decide
  rw [h0, Nat.xor_zero]

/-- C38 (CRC residue): for every byte sequence `d` of at most 65533 bytes, `ModbusCRC16` over
`d` followed by the low byte and then the high byte of `ModbusCRC16(d, |d|)` is 0. -/
theorem ModbusCRC16_residue (d : List Nat) (hlen : d.length ≤ 65533) :
    ModbusCRC16 (d ++ [ModbusCRC16 d d.length % 256, ModbusCRC16 d d.length / 256])
      (d.length + 2) = 0 := by
  have hc : ModbusCRC16 d d.length < 65536 := ModbusCRC16_lt d d.length
  have hd : ModbusCRC16 d d.length = ModbusCRC16.loop d d.length 0xFFFF := by
    unfold ModbusCRC16
    rw [Nat.mod_eq_of_lt (show d.length < 65536 by omega)]
  generalize ModbusCRC16 d d.length = c at hc hd
  unfold ModbusCRC16
  rw [Nat.mod_eq_of_lt (show d.length + 2 < 65536 by omega), ModbusCRC16_loop_append, ← hd]
  simp only [ModbusCRC16.loop]
  rw [ModbusCRC16_step_low_byte c]
  have h2 : c / 256 = (c >>> 8) % 256 := by
    rw [Nat.shiftRight_eq_div_pow]
    omega
  rw [h2, ModbusCRC16_step_low_byte (c >>> 8)]
  rw [Nat.shiftRight_eq_div_pow, Nat.shiftRight_eq_div_pow]
  omega

/-- C38 witness: the frame `01 03 00 10 00 01` with its trailer `85 CF`. -/
theorem ModbusCRC16_residue_witness :
    [0x01, 0x03, 0x00, 0x10, 0x00, 0x01].length ≤ 65533 ∧
    ModbusCRC16 [0x01, 0x03, 0x00, 0x10, 0x00, 0x01] 6 = 0x85 + 256 * 0xCF ∧
    ModbusCRC16
      ([0x01, 0x03, 0x00, 0x10, 0x00, 0x01] ++
        [ModbusCRC16 [0x01, 0x03, 0x00, 0x10, 0x00, 0x01]
            [0x01, 0x03, 0x00, 0x10, 0x00, 0x01].length % 256,
          ModbusCRC16 [0x01, 0x03, 0x00, 0x10, 0x00, 0x01]
            [0x01, 0x03, 0x00, 0x10, 0x00, 0x01].length / 256])
      ([0x01, 0x03, 0x00, 0x10, 0x00, 0x01].length + 2) = 0 :=
  ⟨by decide, by decide, ModbusCRC16_residue [0x01, 0x03, 0x00, 0x10, 0x00, 0x01] (by decide)⟩

/-! ## Register map: keys, adding and iteration -/

namespace ModbusRegMap

theorem key_eq (functionCode registerAddress : Nat) (h : registerAddress < 65536) :
    key functionCode registerAddress = functionCode * 65536 + registerAddress := by
  unfold key
  rw [Nat.shiftLeft_eq]
  have e : (65536 : Nat) = 2 ^ 16 := by norm_num
  rw [e] at h ⊢
  rw [Nat.mul_comm]
  exact (Nat.mul_add_lt_is_or h functionCode).symm

theorem key_injective (fc addr fc' addr' : Nat) (h : addr < 65536) (h' : addr' < 65536)
    (hk : key fc addr = key fc' addr') : fc = fc' ∧ addr = addr' := by
  rw [key_eq fc addr h, key_eq fc' addr' h'] at hk
  omega

theorem key_lt_iff (fc addr fc' addr' : Nat) (h : addr < 65536) (h' : addr' < 65536) :
    key fc addr < key fc' addr' ↔ fc < fc' ∨ (fc = fc' ∧ addr < addr') := by
  rw [key_eq fc addr h, key_eq fc' addr' h']
  omega

theorem find_insert_isSome (k k0 : Nat) (el : ModbusElement) (l : List (Nat × ModbusElement)) :
    (find k (insert k0 el l)).isSome = ((find k l).isSome || decide (k0 = k)) := by
  induction l with
  | nil =>
    by_cases h : k0 = k <;> simp [insert, find, h]
  | cons p rest ih =>
    obtain ⟨k', el'⟩ := p
    simp only [insert]
    by_cases h1 : k0 < k'
    · simp only [h1, if_true]
      by_cases h : k0 = k
      · simp [find, h]
      · simp only [find, h, if_false]
        simp
    · simp only [h1, if_false]
      by_cases h2 : k0 = k'
      · simp only [h2, if_true]
        by_cases h : k' = k
        · simp [find, h]
        · simp [find, h]
      · simp only [h2, if_false]
        by_cases h : k' = k
        · simp [find, h]
        · simp only [find, h, if_false]
          exact ih

theorem insert_length (k0 : Nat) (el : ModbusElement) (l : List (Nat × ModbusElement))
    (h : find k0 l = none) : (insert k0 el l).length = l.length + 1 := by
  induction l with
  | nil => rfl
  | cons p rest ih =>
    obtain ⟨k', el'⟩ := p
    simp only [insert]
    by_cases hk : k' = k0
    · simp [find, hk] at h
    · simp only [find, hk, if_false] at h
      by_cases h1 : k0 < k'
      · simp [h1]
      · have h2 : ¬ k0 = k' := fun e => hk e.symm
        simp [h1, h2, ih h]

/-- What `AddNewElement` returns and does: it succeeds exactly when the key is free, the byte
count is not zero and the name is not null, and then the new element has been inserted. -/
theorem AddNewElement_eq (m : ModbusRegMap) (functionCode registerAddress : Nat)
    (dataType : ModbusDataType) (bytesCount : Nat) (registerName : Option String)
    (decimalPoints : Nat) (value minDataValue maxDataValue : Int) (stringValue : List Nat)
    (registerUnit : Option String) :
    m.AddNewElement functionCode registerAddress dataType bytesCount registerName decimalPoints
        value minDataValue maxDataValue stringValue registerUnit
      = if m.getModbusElement functionCode registerAddress = none ∧ bytesCount ≠ 0 ∧
          registerName.isSome = true then
        ({ m with
            MainRegMap := insert (key functionCode registerAddress)
              { RegisterName := registerName.getD ""
                FunctionCode := functionCode
                RegisterAddress := registerAddress
                BytesCount := bytesCount
                DataType := dataType
                DecimalPoints := decimalPoints
                DataValue := value
                MinDataValue := minDataValue
                MaxDataValue := maxDataValue
                StringValue := stringValue
                RegisterUnit := registerUnit.getD "" } m.MainRegMap }, true)
      else (m, false) := by
  unfold AddNewElement
  have htag : ¬ (dataType.toNat < ModbusDataType.FirstDataType.toNat ∨
      dataType.toNat > ModbusDataType.LastDataType.toNat) := by
    cases dataType <;> decide
  cases hfind : m.getModbusElement functionCode registerAddress with
  | some el => simp
  | none =>
    by_cases hb : bytesCount = 0
    · simp [hb]
    · cases registerName with
      | none => simp [hb, htag]
      | some name => simp [hb, htag]

end ModbusRegMap

namespace ModbusRegMap

theorem addCall_exists (m : ModbusRegMap) (c : AddNewElementCall) (fc addr : Nat) :
    (m.addCall c).1.ModbusElementExist fc addr
      = (m.ModbusElementExist fc addr ||
          ((m.addCall c).2 && decide (key c.functionCode c.registerAddress = key fc addr))) := by
  unfold addCall
  rw [AddNewElement_eq]
  split
  · simp only [ModbusElementExist, getModbusElement, find_insert_isSome, Bool.true_and]
  · simp [ModbusElementExist]

theorem AddNewElementAll_exists (calls : List AddNewElementCall) :
    ∀ (m : ModbusRegMap) (fc addr : Nat),
      (m.AddNewElementAll calls).1.ModbusElementExist fc addr = true ↔
        (m.ModbusElementExist fc addr = true ∨
          ∃ p ∈ calls.zip (m.AddNewElementAll calls).2,
            p.2 = true ∧ key p.1.functionCode p.1.registerAddress = key fc addr) := by
  induction calls with
  | nil =>
    intro m fc addr
    simp [AddNewElementAll]
  | cons c rest ih =>
    intro m fc addr
    simp only [AddNewElementAll, List.zip_cons_cons, List.mem_cons]
    rw [ih (m.addCall c).1 fc addr, addCall_exists]
    constructor
    · rintro (h | ⟨p, hp, h⟩)
      · simp only [Bool.or_eq_true, Bool.and_eq_true, decide_eq_true_eq] at h
        rcases h with h | ⟨h1, h2⟩
        · exact Or.inl h
        · exact Or.inr ⟨(c, (m.addCall c).2), Or.inl rfl, h1, h2⟩
      · exact Or.inr ⟨p, Or.inr hp, h⟩
    · rintro (h | ⟨p, hp | hp, h⟩)
      · exact Or.inl (by simp [h])
      · subst hp
        have h1 : (m.addCall c).2 = true := h.1
        have h2 : key c.functionCode c.registerAddress = key fc addr := h.2
        exact Or.inl (by simp [h1, h2])
      · exact Or.inr ⟨p, hp, h⟩

theorem Clear_exists (m : ModbusRegMap) (fc addr : Nat) :
    m.Clear.ModbusElementExist fc addr = false := rfl

/-- C33 (exact composite key): the key is injective on function codes below 256 and register
addresses below 65536, and after any sequence of calls of `AddNewElement` on a cleared map
`ModbusElementExist (fc, addr)` holds exactly when a call that returned `true` had that function
code and that register address. -/
theorem ModbusElementExist_exact_key (m : ModbusRegMap) (calls : List AddNewElementCall)
    (fc addr : Nat)
    (hcalls : ∀ c ∈ calls, c.functionCode < 256 ∧ c.registerAddress < 65536)
    (hfc : fc < 256) (haddr : addr < 65536) :
    (∀ fc' addr', fc' < 256 → addr' < 65536 →
        (key fc' addr' = key fc addr ↔ fc' = fc ∧ addr' = addr)) ∧
      ((m.Clear.AddNewElementAll calls).1.ModbusElementExist fc addr = true ↔
        ∃ p ∈ calls.zip (m.Clear.AddNewElementAll calls).2,
          p.2 = true ∧ p.1.functionCode = fc ∧ p.1.registerAddress = addr) := by
  refine ⟨fun fc' addr' _ h' => ⟨fun hk => key_injective fc' addr' fc addr h' haddr hk, ?_⟩, ?_⟩
  · rintro ⟨rfl, rfl⟩
    rfl
  · rw [AddNewElementAll_exists, Clear_exists]
    constructor
    · rintro (h | ⟨p, hp, h1, h2⟩)
      · cases h
      · have hc := hcalls p.1 (List.of_mem_zip hp).1
        exact ⟨p, hp, h1, key_injective _ _ _ _ hc.2 haddr h2⟩
    · rintro ⟨p, hp, h1, h2, h3⟩
      exact Or.inr ⟨p, hp, h1, by rw [h2, h3]⟩

end ModbusRegMap

namespace ModbusRegMap

theorem mem_insert (k : Nat) (el : ModbusElement) (l : List (Nat × ModbusElement))
    (p : Nat × ModbusElement) (h : p ∈ insert k el l) : p = (k, el) ∨ p ∈ l := by
  induction l with
  | nil =>
    simp only [insert, List.mem_singleton] at h
    exact Or.inl h
  | cons q rest ih =>
    obtain ⟨k', el'⟩ := q
    simp only [insert] at h
    by_cases h1 : k < k'
    · simp only [h1, if_true, List.mem_cons] at h
      rcases h with h | h | h
      · exact Or.inl h
      · exact Or.inr (List.mem_cons.mpr (Or.inl h))
      · exact Or.inr (List.mem_cons.mpr (Or.inr h))
    · simp only [h1, if_false] at h
      by_cases h2 : k = k'
      · simp only [h2, if_true] at h
        exact Or.inr h
      · simp only [h2, if_false, List.mem_cons] at h
        rcases h with h | h
        · exact Or.inr (List.mem_cons.mpr (Or.inl h))
        · rcases ih h with h | h
          · exact Or.inl h
          · exact Or.inr (List.mem_cons.mpr (Or.inr h))

theorem insert_ascending (k : Nat) (el : ModbusElement) (l : List (Nat × ModbusElement))
    (h : l.Pairwise (fun a b => a.1 < b.1)) :
    (insert k el l).Pairwise (fun a b => a.1 < b.1) := by
  induction l with
  | nil => simp [insert]
  | cons q rest ih =>
    obtain ⟨k', el'⟩ := q
    rw [List.pairwise_cons] at h
    simp only [insert]
    by_cases h1 : k < k'
    · simp only [h1, if_true]
      refine List.pairwise_cons.mpr ⟨?_, List.pairwise_cons.mpr h⟩
      intro p hp
      rcases List.mem_cons.mp hp with hp | hp
      · subst hp
        exact h1
      · exact Nat.lt_trans h1 (h.1 p hp)
    · simp only [h1, if_false]
      by_cases h2 : k = k'
      · simp only [h2, if_true]
        exact List.pairwise_cons.mpr h
      · simp only [h2, if_false]
        refine List.pairwise_cons.mpr ⟨?_, ih h.2⟩
        intro p hp
        rcases mem_insert k el rest p hp with hp | hp
        · subst hp
          show k' < k
          omega
        · exact h.1 p hp

theorem Keyed_nil : Keyed [] :=
  ⟨List.Pairwise.nil, fun _ h => absurd h (List.not_mem_nil _)⟩

theorem addCall_Keyed (m : ModbusRegMap) (c : AddNewElementCall)
    (hc : c.functionCode < 256 ∧ c.registerAddress < 65536) (h : Keyed m.MainRegMap) :
    Keyed (m.addCall c).1.MainRegMap := by
  unfold addCall
  rw [AddNewElement_eq]
  split
  · refine ⟨insert_ascending _ _ _ h.1, ?_⟩
    intro p hp
    rcases mem_insert _ _ _ p hp with hp | hp
    · subst hp
      exact ⟨rfl, hc.1, hc.2⟩
    · exact h.2 p hp
  · exact h

theorem AddNewElementAll_Keyed (calls : List AddNewElementCall) :
    ∀ (m : ModbusRegMap),
      (∀ c ∈ calls, c.functionCode < 256 ∧ c.registerAddress < 65536) →
      Keyed m.MainRegMap → Keyed (m.AddNewElementAll calls).1.MainRegMap := by
  induction calls with
  | nil =>
    intro m _ h
    exact h
  | cons c rest ih =>
    intro m hcalls h
    simp only [AddNewElementAll]
    exact ih _ (fun c' hc' => hcalls c' (List.mem_cons_of_mem _ hc'))
      (addCall_Keyed m c (hcalls c (List.mem_cons_self _ _)) h)

theorem find_mem (k : Nat) (el : ModbusElement) (l : List (Nat × ModbusElement))
    (h : find k l = some el) : (k, el) ∈ l := by
  induction l with
  | nil => simp [find] at h
  | cons q rest ih =>
    obtain ⟨k', el'⟩ := q
    by_cases hk : k' = k
    · simp only [find, hk, if_true, Option.some.injEq] at h
      subst h
      subst hk
      exact List.mem_cons_self _ _
    · simp only [find, hk, if_false] at h
      exact List.mem_cons_of_mem _ (ih h)

theorem mem_find (k : Nat) (el : ModbusElement) (l : List (Nat × ModbusElement))
    (hl : l.Pairwise (fun a b => a.1 < b.1)) (h : (k, el) ∈ l) : find k l = some el := by
  induction l with
  | nil => exact absurd h (List.not_mem_nil _)
  | cons q rest ih =>
    obtain ⟨k', el'⟩ := q
    rw [List.pairwise_cons] at hl
    rcases List.mem_cons.mp h with h | h
    · cases h
      simp [find]
    · have hlt : k' < k := hl.1 (k, el) h
      have hk : ¬ k' = k := by omega
      simp only [find, hk, if_false]
      exact ih hl.2 h

theorem nextElements_eq (m : ModbusRegMap) :
    ∀ (calls cursor : Nat), cursor < m.MainRegMap.length →
      m.MainRegMap.length ≤ cursor + calls →
      m.nextElements calls cursor
        = some ((m.MainRegMap.drop (cursor + 1)).map (fun p => p.2)) := by
  intro calls
  induction calls with
  | zero =>
    intro cursor h1 h2
    omega
  | succ n ih =>
    intro cursor h1 h2
    have hne : ¬ cursor = m.MainRegMap.length := by omega
    simp only [nextElements, GetNextElement, hne, if_false]
    by_cases hlast : cursor + 1 < m.MainRegMap.length
    · have hget : m.MainRegMap.get? (cursor + 1)
          = some (m.MainRegMap.get ⟨cursor + 1, hlast⟩) := List.get?_eq_get hlast
      rw [hget]
      simp only []
      rw [ih (cursor + 1) hlast (by omega)]
      have hdrop := List.drop_eq_getElem_cons hlast
      rw [hdrop]
      rfl
    · have hget : m.MainRegMap.get? (cursor + 1) = none :=
        List.get?_eq_none.mpr (by omega)
      rw [hget]
      simp only []
      rw [List.drop_of_length_le (by omega)]
      rfl

theorem allElements_eq (m : ModbusRegMap) (calls : Nat) (h : m.ElementsCount ≤ calls) :
    m.allElements calls = some (m.MainRegMap.map (fun p => p.2)) := by
  unfold ElementsCount at h
  unfold allElements GetFirstElement
  cases hl : m.MainRegMap with
  | nil => rfl
  | cons q rest =>
    have hpos : 0 < m.MainRegMap.length := by rw [hl]; simp
    have hnext := nextElements_eq m calls 0 hpos (by omega)
    simp only [List.get?_cons_zero]
    rw [hnext, hl]
    rfl

/-- C34 (iteration order): on a map built by calls of `AddNewElement` from a cleared map, the
loop of `GetFirstElement` and `GetNextElement` ends within `ElementsCount` calls of
`GetNextElement`; it goes through `ElementsCount` elements, through every element that a lookup
finds and through no other, and in strictly ascending lexicographic order of the function code
and the register address, so through each element once. -/
theorem allElements_ascending (m : ModbusRegMap) (calls : List AddNewElementCall) (n : Nat)
    (hcalls : ∀ c ∈ calls, c.functionCode < 256 ∧ c.registerAddress < 65536)
    (hn : (m.Clear.AddNewElementAll calls).1.ElementsCount ≤ n) :
    ∃ els : List ModbusElement,
      (m.Clear.AddNewElementAll calls).1.allElements n = some els ∧
      els.length = (m.Clear.AddNewElementAll calls).1.ElementsCount ∧
      (∀ fc addr el, (m.Clear.AddNewElementAll calls).1.getModbusElement fc addr = some el →
        el ∈ els) ∧
      (∀ el ∈ els, (m.Clear.AddNewElementAll calls).1.getModbusElement
        el.FunctionCode el.RegisterAddress = some el) ∧
      els.Pairwise (fun a b => a.FunctionCode < b.FunctionCode ∨
        (a.FunctionCode = b.FunctionCode ∧ a.RegisterAddress < b.RegisterAddress)) := by
  have hk : Keyed (m.Clear.AddNewElementAll calls).1.MainRegMap :=
    AddNewElementAll_Keyed calls m.Clear hcalls Keyed_nil
  generalize (m.Clear.AddNewElementAll calls).1 = built at hn hk ⊢
  refine ⟨built.MainRegMap.map (fun p => p.2), allElements_eq built n hn, ?_, ?_, ?_, ?_⟩
  · simp [ElementsCount]
  · intro fc addr el hfind
    exact List.mem_map.mpr ⟨(key fc addr, el), find_mem _ _ _ hfind, rfl⟩
  · intro el hel
    obtain ⟨p, hp, rfl⟩ := List.mem_map.mp hel
    have hkey := (hk.2 p hp).1
    unfold getModbusElement
    rw [← hkey]
    exact mem_find p.1 p.2 _ hk.1 hp
  · rw [List.pairwise_map]
    refine List.Pairwise.imp_of_mem ?_ hk.1
    intro a b ha hb hab
    have ka := hk.2 a ha
    have kb := hk.2 b hb
    rw [ka.1, kb.1] at hab
    exact (key_lt_iff _ _ _ _ ka.2.2 kb.2.2).mp hab

end ModbusRegMap

namespace ModbusRegMap

/-- C33 witness: address 5 is added under the function codes 3 and 1 and a second time under 3,
which fails; both elements exist, and a lookup of address 5 under function code 5, of the
family of function code 1, finds nothing. -/
theorem ModbusElementExist_exact_key_witness :
    (∀ c ∈ sameAddressCalls, c.functionCode < 256 ∧ c.registerAddress < 65536) ∧
      (newMap.Clear.AddNewElementAll sameAddressCalls).2 = [true, true, false, true] ∧
      (newMap.Clear.AddNewElementAll sameAddressCalls).1.ModbusElementExist 3 5 = true ∧
      (newMap.Clear.AddNewElementAll sameAddressCalls).1.ModbusElementExist 1 5 = true ∧
      (newMap.Clear.AddNewElementAll sameAddressCalls).1.ModbusElementExist 5 5 = false ∧
      ((newMap.Clear.AddNewElementAll sameAddressCalls).1.ModbusElementExist 5 5 = true ↔
        ∃ p ∈ sameAddressCalls.zip (newMap.Clear.AddNewElementAll sameAddressCalls).2,
          p.2 = true ∧ p.1.functionCode = 5 ∧ p.1.registerAddress = 5) :=
  ⟨by decide, by decide, by decide, by decide, by decide,
    (ModbusElementExist_exact_key newMap sameAddressCalls 5 5 (by decide) (by decide)
      (by decide)).2⟩

/-- C34 witness: the three elements that the four calls leave are gone through in the order
`(1, 5)`, `(3, 4)`, `(3, 5)`, whatever the order of the calls was. -/
theorem allElements_ascending_witness :
    (∀ c ∈ sameAddressCalls, c.functionCode < 256 ∧ c.registerAddress < 65536) ∧
      (newMap.Clear.AddNewElementAll sameAddressCalls).1.ElementsCount ≤ 3 ∧
      ((newMap.Clear.AddNewElementAll sameAddressCalls).1.allElements 3).map
          (fun els => els.map (fun el => (el.FunctionCode, el.RegisterAddress, el.DataValue)))
        = some [(1, 5, 8), (3, 4, 10), (3, 5, 7)] ∧
      ∃ els : List ModbusElement,
        (newMap.Clear.AddNewElementAll sameAddressCalls).1.allElements 3 = some els ∧
        els.length = (newMap.Clear.AddNewElementAll sameAddressCalls).1.ElementsCount ∧
        (∀ fc addr el,
          (newMap.Clear.AddNewElementAll sameAddressCalls).1.getModbusElement fc addr = some el →
            el ∈ els) ∧
        (∀ el ∈ els, (newMap.Clear.AddNewElementAll sameAddressCalls).1.getModbusElement
          el.FunctionCode el.RegisterAddress = some el) ∧
        els.Pairwise (fun a b => a.FunctionCode < b.FunctionCode ∨
          (a.FunctionCode = b.FunctionCode ∧ a.RegisterAddress < b.RegisterAddress)) :=
  ⟨by decide, by decide, by decide,
    allElements_ascending newMap sameAddressCalls 3 (by decide) (by decide)⟩

/-- C31 (unknown tag): `AddNewElement` with the tag `UnknownDataType`, a free key, two bytes and
a name returns `true` and the map holds one element more, which `ModbusElementExist` finds and
whose value the raw `GetElementValue` refuses to read; the range test of the tag starts at
`FirstDataType`, which is `UnknownDataType`. A call with the byte count zero fails, whatever
its other arguments, and leaves the map as it was. -/
theorem AddNewElement_accepts_UnknownDataType :
    (newMap.AddNewElement 3 0x0010 .UnknownDataType 2 (some "register") 0 0 0 0xFFFF []
        (some "")).2 = true ∧
      newMap.ElementsCount = 0 ∧
      (newMap.AddNewElement 3 0x0010 .UnknownDataType 2 (some "register") 0 0 0 0xFFFF []
        (some "")).1.ElementsCount = 1 ∧
      (newMap.AddNewElement 3 0x0010 .UnknownDataType 2 (some "register") 0 0 0 0xFFFF []
        (some "")).1.ModbusElementExist 3 0x0010 = true ∧
      (newMap.AddNewElement 3 0x0010 .UnknownDataType 2 (some "register") 0 0 0 0xFFFF []
        (some "")).1.GetElementValue 3 0x0010 2 = none ∧
      (∀ (m : ModbusRegMap) (functionCode registerAddress bytesCount : Nat)
        (registerName : Option String) (decimalPoints : Nat)
        (value minDataValue maxDataValue : Int) (stringValue : List Nat)
        (registerUnit : Option String),
        (m.AddNewElement functionCode registerAddress .UnknownDataType bytesCount registerName
            decimalPoints value minDataValue maxDataValue stringValue registerUnit).2
          = (m.AddNewElement functionCode registerAddress .UInt16 bytesCount registerName
            decimalPoints value minDataValue maxDataValue stringValue registerUnit).2) ∧
      ∀ (m : ModbusRegMap) (functionCode registerAddress : Nat) (dataType : ModbusDataType)
        (registerName : Option String) (decimalPoints : Nat)
        (value minDataValue maxDataValue : Int) (stringValue : List Nat)
        (registerUnit : Option String),
        m.AddNewElement functionCode registerAddress dataType 0 registerName decimalPoints
          value minDataValue maxDataValue stringValue registerUnit = (m, false) := by
  refine ⟨by decide, by decide, by decide, by decide, by decide, ?_, ?_⟩
  · intro m functionCode registerAddress bytesCount registerName decimalPoints value
      minDataValue maxDataValue stringValue registerUnit
    rw [AddNewElement_eq, AddNewElement_eq]
    split <;> rfl
  · intro m functionCode registerAddress dataType registerName decimalPoints value
      minDataValue maxDataValue stringValue registerUnit
    rw [AddNewElement_eq]
    simp

/-- C32 (default outside the range): `AddNewElement` does not compare the value with the range.
The call for a `UInt16` register with the value 500 and the range `[0, 100]` returns `true`, and
the map then holds an element whose current value 500 is above its maximum 100; the raw
`SetElementValue` refuses to store that same value 500 in it. What `AddNewElement` returns does
not depend on the three values at all. -/
theorem AddNewElement_accepts_default_outside_range :
    (newMap.addCall (registerCall 3 0x0010 500 0 100)).2 = true ∧
      ((newMap.addCall (registerCall 3 0x0010 500 0 100)).1.getModbusElement 3 0x0010).map
          (fun el => (el.DataType, el.MinDataValue, el.DataValue, el.MaxDataValue))
        = some (.UInt16, 0, 500, 100) ∧
      ((newMap.addCall (registerCall 3 0x0010 500 0 100)).1.SetElementValue 3 0x0010
        [0xF4, 0x01] 2).2 = false ∧
      ∀ (m : ModbusRegMap) (functionCode registerAddress : Nat) (dataType : ModbusDataType)
        (bytesCount : Nat) (registerName : Option String) (decimalPoints : Nat)
        (value minDataValue maxDataValue value' minDataValue' maxDataValue' : Int)
        (stringValue : List Nat) (registerUnit : Option String),
        (m.AddNewElement functionCode registerAddress dataType bytesCount registerName
            decimalPoints value minDataValue maxDataValue stringValue registerUnit).2
          = (m.AddNewElement functionCode registerAddress dataType bytesCount registerName
            decimalPoints value' minDataValue' maxDataValue' stringValue registerUnit).2 := by
  refine ⟨by decide, by decide, by decide, ?_⟩
  intro m functionCode registerAddress dataType bytesCount registerName decimalPoints value
    minDataValue maxDataValue value' minDataValue' maxDataValue' stringValue registerUnit
  rw [AddNewElement_eq, AddNewElement_eq]
  split <;> rfl

end ModbusRegMap

/-! ## Master: write-multiple requests over a range with a missing element -/

/-- C39 (the code at a failing input): `requestFunc_15_16` tests a failed read of the register
map together with `valBytesCount`, which a successful read of a register leaves at 2 and which
the coil loop sets to `i % 8`. With only `(0x10, 0x0010)` stored (value `0x1234`), the request
for the two registers from `0x0010` is handed to the send callback as
`01 10 00 10 00 02 04 12 34 12 34 62 BB`: the second register, for which the map holds no
element, carries the value of the first. With coils at the addresses 0 and 1 only, the request
for three coils from 0 is sent as well. A missing first element is noticed in both loops. -/
theorem master_write_multiple_sends_incomplete_range :
    (singletonMap storedRegister).ModbusElementExist 0x10 0x0010 = true ∧
    (singletonMap storedRegister).ModbusElementExist 0x10 0x0011 = false ∧
    ModbusProtocolMaster.requestFunc_15_16.request (singletonMap storedRegister) zeroMemory
        1 0x10 0x0010 2
      = some [0x01, 0x10, 0x00, 0x10, 0x00, 0x02, 0x04, 0x12, 0x34, 0x12, 0x34, 0x62, 0xBB] ∧
    ModbusProtocolMaster.requestFunc_15_16.request (singletonMap storedRegister) zeroMemory
        1 0x10 0x000F 2 = none ∧
    (coilsMap 0x0F 2 (fun _ => 1)).ModbusElementExist 0x0F 2 = false ∧
    ModbusProtocolMaster.requestFunc_15_16.request (coilsMap 0x0F 2 (fun _ => 1)) zeroMemory
        1 0x0F 0 3
      = some [0x01, 0x0F, 0x00, 0x00, 0x00, 0x03, 0x01, 0x00, 0x57, 0x8F] ∧
    ModbusProtocolMaster.requestFunc_15_16.request (coilsMap 0x0F 1 (fun _ => 1)) zeroMemory
        1 0x0F 0 3 = none := by
  refine ⟨by decide, by decide, by decide, by decide, by decide, by decide, by decide⟩

/-! ## Slave: reading registers up to the last address -/

theorem ModbusRegMap.find_map_key (fc : Nat) (g : Nat → ModbusElement) (j : Nat) :
    ∀ l : List Nat, (∀ k ∈ l, k < 65536) → j ∈ l →
      ModbusRegMap.find (ModbusRegMap.key fc j)
        (l.map (fun k => (ModbusRegMap.key fc k, g k))) = some (g j) := by
  intro l
  induction l with
  | nil =>
    intro _ hj
    exact absurd hj (List.not_mem_nil _)
  | cons k rest ih =>
    intro hl hj
    simp only [List.map_cons, ModbusRegMap.find]
    by_cases hk : ModbusRegMap.key fc k = ModbusRegMap.key fc j
    · have hkj : k = j :=
        (ModbusRegMap.key_injective fc k fc j (hl k (List.mem_cons_self _ _)) (hl j hj) hk).2
      simp [hkj]
    · simp only [hk, if_false]
      have hne : j ≠ k := fun e => hk (by rw [e])
      rcases List.mem_cons.mp hj with h | h
      · exact absurd h hne
      · exact ih (fun k' hk' => hl k' (List.mem_cons_of_mem _ hk')) h

/-- Every register of `registersMap fc n` is read as the two bytes `34 12`. -/
theorem registersMap_GetElementValue (fc n j : Nat) (hn : n ≤ 65536) (hj : j < n) :
    (registersMap fc n).GetElementValue fc j 4 = some [0x34, 0x12] := by
  have hfind := ModbusRegMap.find_map_key fc
    (fun k => { holdingRegister with FunctionCode := fc, RegisterAddress := k }) j
    (List.range n) (fun k hk => by have := List.mem_range.mp hk; omega)
    (List.mem_range.mpr hj)
  unfold ModbusRegMap.GetElementValue ModbusRegMap.getModbusElement registersMap
  simp only [hfind]
  simp only [holdingRegister, ModbusRegMap.copyElementToRAWData]
  decide

namespace ModbusProtocolSlave

/-- With the bound `0x10000` the loop of `processingFunc03_04` does not end when every address
can be read: its 16-bit counter stays below the bound for ever. -/
theorem processingFunc03_04_loop_hangs (map : ModbusRegMap) (funcCode : Nat)
    (hall : ∀ j < 65536, ∃ bytes,
      map.GetElementValue funcCode j 4 = some bytes ∧ bytes.length ≠ 0) :
    ∀ (fuel i : Nat) (out : List Nat), i < 65536 →
      processingFunc03_04.loop map funcCode 65536 fuel i out = .hangs := by
  intro fuel
  induction fuel with
  | zero =>
    intro i out _
    rfl
  | succ f ih =>
    intro i out hi
    obtain ⟨bytes, hb, hlen⟩ := hall i hi
    simp only [processingFunc03_04.loop, hi, if_true, hb, hlen, ne_eq, not_false_eq_true]
    exact ih _ _ (Nat.mod_lt _ (by decide))

/-- A read request that ends at the last address, on a map where every address under the
function code can be read, is never answered. -/
theorem processingFunc03_04_hangs (map : ModbusRegMap) (out buf : List Nat) (stale : Nat → Nat)
    (funcCode start q : Nat) (h1 : peek buf stale 1 = funcCode)
    (h2 : peek16 buf stale 2 = start) (h4 : peek16 buf stale 4 = q)
    (hq : 1 ≤ q ∧ q ≤ 0x007D) (hend : start + q = 65536)
    (hall : ∀ j < 65536, ∃ bytes,
      map.GetElementValue funcCode j 4 = some bytes ∧ bytes.length ≠ 0) :
    processingFunc03_04 map out buf stale = .hangs := by
  unfold processingFunc03_04
  have hq' : ¬ (q = 0 ∨ q > 0x007D) := by omega
  have hr : ¬ (start + q - 1 > 0x0000FFFF) := by omega
  simp only [h1, h2, h4, hq', hr, if_false]
  rw [hend, processingFunc03_04_loop_hangs map _ hall 65537 start _ (by omega)]

/-- The slave never returns from the read request `01 03 FF FF 00 01 84 2E` when its map holds
a readable register under function code 3 at every address. -/
theorem inputPacketParse_read_last_address_hangs (s : ModbusProtocolSlave) (map : ModbusRegMap)
    (stale : Nat → Nat) (hbuf : s.inputDataBuffer = []) (hmax : 8 ≤ s.inputBufferMaxSize)
    (hmap : s.modbusRegisterMap = some map) (hdev : s.deviceAddress = 1)
    (hall : ∀ j < 65536, ∃ bytes,
      map.GetElementValue 3 j 4 = some bytes ∧ bytes.length ≠ 0) :
    s.inputPacketParse stale [0x01, 0x03, 0xFF, 0xFF, 0x00, 0x01, 0x84, 0x2E] = none := by
  rw [inputPacketParse_eight s map stale _ _ _ _ _ _ _ _ hbuf hmax hmap]
  have hhang : processingFunc03_04 map
      [peek [0x01, 0x03, 0xFF, 0xFF, 0x01, 0x00, 0x84, 0x2E] stale 0]
      [0x01, 0x03, 0xFF, 0xFF, 0x01, 0x00, 0x84, 0x2E] stale = .hangs :=
    processingFunc03_04_hangs map _ _ stale 3 0xFFFF 1 rfl
      ((peek16_of_lt _ stale zeroMemory 2 (by decide)).trans (by decide))
      ((peek16_of_lt _ stale zeroMemory 4 (by decide)).trans (by decide))
      (by decide) (by decide) hall
  have h0 : peek [0x01, 0x03, 0xFF, 0xFF, 0x01, 0x00, 0x84, 0x2E] stale 0 = 1 := rfl
  have h1 : peek [0x01, 0x03, 0xFF, 0xFF, 0x01, 0x00, 0x84, 0x2E] stale 1 = 3 := rfl
  unfold respond
  rw [if_pos (Or.inl (h0.trans hdev.symm))]
  unfold dispatch
  simp only [h1]
  rw [if_pos (Or.inl trivial), hhang, if_neg (by decide)]

end ModbusProtocolSlave

/-- C40 (the code at a failing input): the counter of the loop of `processingFunc03_04` is a
`uint16_t` and its bound `regAddress + regsCount` an `int`; when the range ends at `0xFFFF` the
bound is `0x10000`, the counter wraps to 0 and the loop reads on from address 0. The slave
(address 1) whose map holds the one register `(3, 0xFFFF)` with the value `0x1234` answers the
request `01 03 FF FF 00 01 84 2E` for that register with the exception `01 83 02 C0 F1`, where
the same register at `0xFFFE` is read with `01 03 02 12 34 B5 33`; and on a map that holds a
register at every address the method never returns. -/
theorem slave_read_up_to_last_address_wraps (stale : Nat → Nat) :
    ModbusCRC16 [0x01, 0x03, 0xFF, 0xFF, 0x00, 0x01] 6 = 0x84 + 256 * 0x2E ∧
    (singletonMap topRegister).GetElementValue 3 0xFFFF 4 = some [0x34, 0x12] ∧
    (∃ s', (slaveWith (singletonMap topRegister)).inputPacketParse stale
          [0x01, 0x03, 0xFF, 0xFF, 0x00, 0x01, 0x84, 0x2E]
        = some (s', [[0x01, 0x83, 0x02, 0xC0, 0xF1]])) ∧
    ModbusCRC16 [0x01, 0x03, 0xFF, 0xFE, 0x00, 0x01] 6 = 0xD5 + 256 * 0xEE ∧
    (∃ s', (slaveWith (singletonMap { holdingRegister with RegisterAddress := 0xFFFE })).inputPacketParse
          stale [0x01, 0x03, 0xFF, 0xFE, 0x00, 0x01, 0xD5, 0xEE]
        = some (s', [[0x01, 0x03, 0x02, 0x12, 0x34, 0xB5, 0x33]])) ∧
    (slaveWith (registersMap 3 65536)).inputPacketParse stale
        [0x01, 0x03, 0xFF, 0xFF, 0x00, 0x01, 0x84, 0x2E] = none := by
  refine ⟨by decide, by decide, ?_, by decide, ?_, ?_⟩
  · rw [ModbusProtocolSlave.inputPacketParse_eight _ (singletonMap topRegister) stale _ _ _ _
      _ _ _ _ rfl (by decide) rfl,
      ModbusProtocolSlave.respond_stale_irrelevant _ _ stale zeroMemory _ (by decide) (by decide)]
    exact ⟨_, rfl⟩
  · rw [ModbusProtocolSlave.inputPacketParse_eight _
      (singletonMap { holdingRegister with RegisterAddress := 0xFFFE }) stale _ _ _ _
      _ _ _ _ rfl (by decide) rfl,
      ModbusProtocolSlave.respond_stale_irrelevant _ _ stale zeroMemory _ (by decide) (by decide)]
    exact ⟨_, rfl⟩
  · exact ModbusProtocolSlave.inputPacketParse_read_last_address_hangs
      (slaveWith (registersMap 3 65536)) (registersMap 3 65536) stale rfl
      (Nat.le_of_ble_eq_true rfl) rfl rfl
      (fun j hj => ⟨[0x34, 0x12],
        registersMap_GetElementValue 3 65536 j (Nat.le_refl _) hj, by decide⟩)

/-! ## Slave: a buffer in which no frame is found -/

/-- C37 (the code at a failing input): when no position of `[begin, end - 8)` passes the frame
test, `find_if` returns `end - 8`, which the code compares with `end`: the last eight bytes of
the buffer are taken as the packet. The slave (address 1, the coil `(5, 0x0005)` in its map)
receives `DE AD 01 05 00 05 FF 00 00 00`, where the CRC of `01 05 00 05 FF 00` would be
`9C 3B` and no offset passes the frame test: it sets the coil, sends
`01 05 00 05 FF 00 9C 3B` and empties the buffer. The slave with the register `(3, 0x0010)`
receives `DE AD BE EF 01 03 00 10`, the start of a valid frame behind garbage: nothing is sent,
but the bytes at 2, 3 and at 4, 5 of the buffer are exchanged, and when the rest
`00 01 85 CF` arrives the frame is not found; received in one piece the same twelve bytes are
answered with `01 03 02 12 34 B5 33`. -/
theorem slave_no_match_buffer_not_kept (stale₁ stale₂ : Nat → Nat) :
    ModbusCRC16 [0x01, 0x05, 0x00, 0x05, 0xFF, 0x00] 6 = 0x9C + 256 * 0x3B ∧
    (∀ i < 3, ModbusProtocolSlave.checkModbusRequestPos
      [0xDE, 0xAD, 0x01, 0x05, 0x00, 0x05, 0xFF, 0x00, 0x00, 0x00] stale₁ i = false) ∧
    (∀ i < 10, ModbusProtocolSlave.checkModbusRequestPos
      [0xDE, 0xAD, 0x01, 0x05, 0x00, 0x05, 0xFF, 0x00, 0x00, 0x00] zeroMemory i = false) ∧
    (∃ s', (slaveWith (singletonMap (coil 5))).inputPacketParse stale₁
          [0xDE, 0xAD, 0x01, 0x05, 0x00, 0x05, 0xFF, 0x00, 0x00, 0x00]
        = some (s', [[0x01, 0x05, 0x00, 0x05, 0xFF, 0x00, 0x9C, 0x3B]]) ∧
      s'.inputDataBuffer = [] ∧
      (slaveWith (singletonMap (coil 5))).currentValue 5 0x0005 = some 0 ∧
      s'.currentValue 5 0x0005 = some 1) ∧
    (∀ i < 8, ModbusProtocolSlave.checkModbusRequestPos
      [0xDE, 0xAD, 0xBE, 0xEF, 0x01, 0x03, 0x00, 0x10] zeroMemory i = false) ∧
    (∃ s₁ s₂, (slaveWith (singletonMap holdingRegister)).inputPacketParse stale₁
          [0xDE, 0xAD, 0xBE, 0xEF, 0x01, 0x03, 0x00, 0x10] = some (s₁, []) ∧
      s₁.inputDataBuffer = [0xDE, 0xAD, 0xEF, 0xBE, 0x03, 0x01, 0x00, 0x10] ∧
      s₁.inputPacketParse stale₂ [0x00, 0x01, 0x85, 0xCF] = some (s₂, []) ∧
      s₂.inputDataBuffer = [0x03, 0x01, 0x10, 0x00, 0x01, 0x00, 0x85, 0xCF]) ∧
    ∃ s', (slaveWith (singletonMap holdingRegister)).inputPacketParse stale₁
          [0xDE, 0xAD, 0xBE, 0xEF, 0x01, 0x03, 0x00, 0x10, 0x00, 0x01, 0x85, 0xCF]
        = some (s', [[0x01, 0x03, 0x02, 0x12, 0x34, 0xB5, 0x33]]) := by
  have hB1 : ∀ i < 3, ModbusProtocolSlave.checkModbusRequestPos
      [0xDE, 0xAD, 0x01, 0x05, 0x00, 0x05, 0xFF, 0x00, 0x00, 0x00] stale₁ i = false := by
    intro i hi
    have h8 : i + 8 ≤ [0xDE, 0xAD, 0x01, 0x05, 0x00, 0x05, 0xFF, 0x00, 0x00, 0x00].length := by
      simp only [List.length_cons, List.length_nil]
      omega
    interval_cases i
    · rw [ModbusProtocolSlave.checkModbusRequestPos_of_inside _ stale₁ zeroMemory 0 h8
        (Or.inl (by decide))]
      decide
    · rw [ModbusProtocolSlave.checkModbusRequestPos_of_inside _ stale₁ zeroMemory 1 h8
        (Or.inl (by decide))]
      decide
    · rw [ModbusProtocolSlave.checkModbusRequestPos_of_inside _ stale₁ zeroMemory 2 h8
        (Or.inl (by decide))]
      decide
  refine ⟨by decide, hB1, by decide, ?_, by decide, ?_, ?_⟩
  · have hloc : (slaveWith (singletonMap (coil 5))).locatePacket stale₁
        [0xDE, 0xAD, 0x01, 0x05, 0x00, 0x05, 0xFF, 0x00, 0x00, 0x00]
        = ([0x01, 0x05, 0x05, 0x00, 0x00, 0xFF, 0x00, 0x00], true) := by
      rw [ModbusProtocolSlave.locatePacket_stale_irrelevant _ stale₁ zeroMemory _ rfl
        (by decide)]
      rfl
    rw [ModbusProtocolSlave.inputPacketParse_of_locate _ (singletonMap (coil 5)) stale₁ _ _ hloc
      rfl, ModbusProtocolSlave.respond_stale_irrelevant _ _ stale₁ zeroMemory _ (by decide)
      (by decide)]
    exact ⟨_, rfl, rfl, rfl, rfl⟩
  · have hg : ∀ i < [0xDE, 0xAD, 0xEF, 0xBE].length,
        ModbusProtocolSlave.checkModbusRequestPos
          ([0xDE, 0xAD, 0xEF, 0xBE] ++ [0x03, 0x01, 0x00, 0x10, 0x00, 0x01, 0x85, 0xCF]) stale₂ i
          = false := by
      intro i hi
      simp only [List.length_cons, List.length_nil] at hi
      have h8 : i + 8 ≤ ([0xDE, 0xAD, 0xEF, 0xBE]
          ++ [0x03, 0x01, 0x00, 0x10, 0x00, 0x01, 0x85, 0xCF]).length := by
        simp only [List.length_append, List.length_cons, List.length_nil]
        omega
      interval_cases i
      · rw [ModbusProtocolSlave.checkModbusRequestPos_of_inside _ stale₂ zeroMemory 0 h8
          (Or.inl (by decide))]
        decide
      · rw [ModbusProtocolSlave.checkModbusRequestPos_of_inside _ stale₂ zeroMemory 1 h8
          (Or.inl (by decide))]
        decide
      · rw [ModbusProtocolSlave.checkModbusRequestPos_of_inside _ stale₂ zeroMemory 2 h8
          (Or.inl (by decide))]
        decide
      · rw [ModbusProtocolSlave.checkModbusRequestPos_of_inside _ stale₂ zeroMemory 3 h8
          (Or.inl (by decide))]
        decide
    refine ⟨{ slaveWith (singletonMap holdingRegister) with
        inputDataBuffer := [0xDE, 0xAD, 0xEF, 0xBE, 0x03, 0x01, 0x00, 0x10] }, ?_⟩
    have hloc := ModbusProtocolSlave.locatePacket_after_garbage
      { slaveWith (singletonMap holdingRegister) with
        inputDataBuffer := [0xDE, 0xAD, 0xEF, 0xBE, 0x03, 0x01, 0x00, 0x10] }
      (singletonMap holdingRegister) stale₂ [0x00, 0x01, 0x85, 0xCF] [0xDE, 0xAD, 0xEF, 0xBE]
      0x03 0x01 0x00 0x10 0x00 0x01 0x85 0xCF (by decide) (by decide) rfl rfl hg
    rw [ModbusProtocolSlave.inputPacketParse_eight _ (singletonMap holdingRegister) stale₁ _ _ _
        _ _ _ _ _ rfl (by decide) rfl,
      ModbusProtocolSlave.respond_stale_irrelevant _ _ stale₁ zeroMemory _ (by decide)
        (by decide),
      ModbusProtocolSlave.inputPacketParse_of_locate _ (singletonMap holdingRegister) stale₂ _ _
        hloc rfl,
      ModbusProtocolSlave.respond_stale_irrelevant _ _ stale₂ zeroMemory _ (by decide)
        (by decide)]
    exact ⟨_, rfl, rfl, rfl, rfl⟩
  · have hloc : (slaveWith (singletonMap holdingRegister)).locatePacket stale₁
        [0xDE, 0xAD, 0xBE, 0xEF, 0x01, 0x03, 0x00, 0x10, 0x00, 0x01, 0x85, 0xCF]
        = ([0x01, 0x03, 0x10, 0x00, 0x01, 0x00, 0x85, 0xCF], true) := by
      rw [ModbusProtocolSlave.locatePacket_stale_irrelevant _ stale₁ zeroMemory _ rfl
        (by decide)]
      rfl
    rw [ModbusProtocolSlave.inputPacketParse_of_locate _ (singletonMap holdingRegister) stale₁ _
      _ hloc rfl, ModbusProtocolSlave.respond_stale_irrelevant _ _ stale₁ zeroMemory _
      (by decide) (by decide)]
    exact ⟨_, rfl⟩

/-! ## Register map: loading a JSON file -/

namespace ModbusRegMap

theorem LoadFromFile_loop_false (unassigned : Nat → Unassigned) (els : List JsonValue) :
    ∀ (m : ModbusRegMap) (k : Nat) (m' : ModbusRegMap),
      LoadFromFile.loop unassigned m k els = some (m', false) →
      m'.MainRegMap = [] ∧ m'.ProtocolName = "" ∧ m'.ProtocolVersion = "" := by
  induction els with
  | nil =>
    intro m k m' h
    simp [LoadFromFile.loop] at h
  | cons el rest ih =>
    intro m k m' h
    unfold LoadFromFile.loop at h
    split at h
    · cases h
    · cases h
      exact ⟨rfl, rfl, rfl⟩
    · split at h
      · cases h
        exact ⟨rfl, rfl, rfl⟩
      · split at h
        · cases h
          exact ⟨rfl, rfl, rfl⟩
        · split at h
          · cases h
          · cases h
            exact ⟨rfl, rfl, rfl⟩
          · exact ih _ _ _ h

/-- C35 (amended): when `LoadFromFile` returns `false`, either it has left at
one of its three early exits, for a path shorter than seven characters or a file that cannot be
opened or parsed, and the map is what it was before the call; or the file has been parsed, and
the map is empty with both names reset. A map that holds a part of the file is not seen. -/
theorem LoadFromFile_false_unchanged_or_empty (m m' : ModbusRegMap) (sourceFilePath : String)
    (file : FileContent) (unassigned : Nat → Unassigned)
    (h : m.LoadFromFile sourceFilePath file unassigned = some (m', false)) :
    (m' = m ∧ (sourceFilePath.length < 7 ∨ file = .unavailable ∨ file = .unparsable)) ∨
      ((∃ inputDoc, file = .document inputDoc) ∧ 7 ≤ sourceFilePath.length ∧
        m'.ElementsCount = 0 ∧ m'.MainRegMap = [] ∧ m'.ProtocolName = "" ∧
        m'.ProtocolVersion = "") := by
  unfold LoadFromFile at h
  by_cases hp : sourceFilePath.length < 7
  · rw [if_pos hp] at h
    cases h
    exact Or.inl ⟨rfl, Or.inl hp⟩
  · rw [if_neg hp] at h
    cases file with
    | unavailable =>
      cases h
      exact Or.inl ⟨rfl, Or.inr (Or.inl rfl)⟩
    | unparsable =>
      cases h
      exact Or.inl ⟨rfl, Or.inr (Or.inr rfl)⟩
    | document inputDoc =>
      refine Or.inr ⟨⟨inputDoc, rfl⟩, by omega, ?_⟩
      have key : m'.MainRegMap = [] ∧ m'.ProtocolName = "" ∧ m'.ProtocolVersion = "" := by
        simp only [] at h
        split at h
        · cases h
        · cases h
          exact ⟨rfl, rfl, rfl⟩
        · split at h
          · cases h
          · cases h
            exact ⟨rfl, rfl, rfl⟩
          · split at h
            · cases h
            · cases h
              exact ⟨rfl, rfl, rfl⟩
            · split at h
              · cases h
                exact ⟨rfl, rfl, rfl⟩
              · exact LoadFromFile_loop_false _ _ _ _ _ h
      exact ⟨by rw [ElementsCount, key.1]; rfl, key.1, key.2.1, key.2.2⟩

/-- C35 witness: a file whose second register has its value above the range; the first register
has been added when the second is refused, and the map is empty afterwards. -/
theorem LoadFromFile_false_unchanged_or_empty_witness :
    (singletonMap holdingRegister).LoadFromFile "map.json" secondOutOfRange zeroUnassigned
        = some ((singletonMap holdingRegister).Clear, false) ∧
      (((singletonMap holdingRegister).Clear = singletonMap holdingRegister ∧
          ("map.json".length < 7 ∨ secondOutOfRange = .unavailable ∨
            secondOutOfRange = .unparsable)) ∨
        ((∃ inputDoc, secondOutOfRange = .document inputDoc) ∧ 7 ≤ "map.json".length ∧
          (singletonMap holdingRegister).Clear.ElementsCount = 0 ∧
          (singletonMap holdingRegister).Clear.MainRegMap = [] ∧
          (singletonMap holdingRegister).Clear.ProtocolName = "" ∧
          (singletonMap holdingRegister).Clear.ProtocolVersion = "")) :=
  ⟨rfl, LoadFromFile_false_unchanged_or_empty (singletonMap holdingRegister)
    (singletonMap holdingRegister).Clear "map.json" secondOutOfRange zeroUnassigned rfl⟩

/-- C35 (as stated, refuted): the three early exits of `LoadFromFile` come before
`this->Clear()`. With a path of fewer than seven characters, a file that cannot be opened or a
file that the parser rejects, the method returns `false` and the map is what it was: a map with
one element still holds one element. -/
theorem LoadFromFile_early_exit_keeps_map :
    (∀ (m : ModbusRegMap) (file : FileContent) (unassigned : Nat → Unassigned),
      m.LoadFromFile "a.json" file unassigned = some (m, false)) ∧
    (∀ (m : ModbusRegMap) (sourceFilePath : String) (unassigned : Nat → Unassigned),
      m.LoadFromFile sourceFilePath .unavailable unassigned = some (m, false)) ∧
    (∀ (m : ModbusRegMap) (sourceFilePath : String) (unassigned : Nat → Unassigned),
      m.LoadFromFile sourceFilePath .unparsable unassigned = some (m, false)) ∧
    (singletonMap holdingRegister).ElementsCount = 1 ∧
    ((singletonMap holdingRegister).LoadFromFile "map.json" .unparsable zeroUnassigned).map
        (fun r => (r.1.ElementsCount, r.2)) = some (1, false) := by
  refine ⟨fun m file unassigned => rfl, ?_, ?_, rfl, rfl⟩
  · intro m sourceFilePath unassigned
    unfold LoadFromFile
    split <;> rfl
  · intro m sourceFilePath unassigned
    unfold LoadFromFile
    split <;> rfl

end ModbusRegMap

/-! ## Register map: writing a JSON file and reading it back -/

namespace ModbusRegMap

theorem checked_found (members : List (String × JsonValue)) (name : String)
    (test : JsonValue → Bool) (v : JsonValue)
    (h : JsonValue.FindMember members name = some v) (ht : test v = true) :
    (JsonValue.object members).checked name test = .found v := by
  simp [JsonValue.checked, JsonValue.HasMember, JsonValue.get, h, ht]

/-- The call of `addNewRegMapElement` on an object whose members pass every test that the
method makes for the tag. -/
theorem addNewRegMapElement_found (m : ModbusRegMap) (T : ModElType) (el : JsonValue)
    (tag : ModbusDataType) (u : Unassigned)
    (funcCode address bytes regName unit defaultValue minValue maxValue decimals : JsonValue)
    (h1 : el.checked "FuncCode" JsonValue.IsUint = .found funcCode)
    (h2 : el.checked "Address" JsonValue.IsUint = .found address)
    (h3 : el.checked "Bytes" JsonValue.IsUint = .found bytes)
    (h4 : el.checked "RegName" JsonValue.IsString = .found regName)
    (h5 : tag ≠ .FileRecord → el.checked "Unit" JsonValue.IsString = .found unit)
    (h6 : tag ≠ .FileRecord →
      el.checked "Default" (checkJsonElValueType T) = .found defaultValue)
    (h7 : (tag ≠ .Char2Byte ∧ tag ≠ .Char4Byte ∧ tag ≠ .FileRecord) →
      el.checked "Min" (checkJsonElValueType T) = .found minValue ∧
      el.checked "Max" (checkJsonElValueType T) = .found maxValue ∧
      m.checkMinDefMax T (getJsonTypeValue T defaultValue) (getJsonTypeValue T minValue)
        (getJsonTypeValue T maxValue) = true)
    (h8 : tag.isToFloat = true → el.get "DecimalPoints" = some decimals ∧
      decimals.IsUint = true) :
    m.addNewRegMapElement T el tag u
      = some (m.AddNewElement (funcCode.GetInt % 256).toNat (address.GetInt % 65536).toNat tag
          (bytes.GetInt % 65536).toNat (some regName.GetString)
          (if tag.isToFloat then (decimals.GetInt % 256).toNat else 0)
          (if tag ≠ .FileRecord then getJsonTypeValue T defaultValue
            else unassignedValue T u.defVal)
          (if tag ≠ .Char2Byte ∧ tag ≠ .Char4Byte ∧ tag ≠ .FileRecord then
            getJsonTypeValue T minValue else unassignedValue T u.minVal)
          (if tag ≠ .Char2Byte ∧ tag ≠ .Char4Byte ∧ tag ≠ .FileRecord then
            getJsonTypeValue T maxValue else unassignedValue T u.maxVal)
          (if tag ≠ .FileRecord then getJsonStringValue T defaultValue else [])
          (if tag ≠ .FileRecord then some unit.GetString else none)) := by
  unfold addNewRegMapElement
  simp only [h1, h2, h3, h4]
  by_cases hf : tag ≠ .FileRecord
  · simp only [hf, not_false_eq_true, if_true, h5 hf, h6 hf, ne_eq, and_true]
    by_cases hr : tag ≠ .Char2Byte ∧ tag ≠ .Char4Byte
    · have hr' : tag ≠ .Char2Byte ∧ tag ≠ .Char4Byte ∧ tag ≠ .FileRecord := ⟨hr.1, hr.2, hf⟩
      obtain ⟨h7a, h7b, h7c⟩ := h7 hr'
      simp only [ne_eq] at hr
      simp only [hr, not_false_eq_true, and_self, if_true, h7a, h7b, h7c]
      by_cases hd : tag.isToFloat = true
      · obtain ⟨h8a, h8b⟩ := h8 hd
        simp [hd, h8a, h8b]
      · simp [hd]
    · have hnf : tag.isToFloat = false := by
        cases tag <;> simp_all [ModbusDataType.isToFloat]
      have hr2 : ¬ (¬ tag = .Char2Byte ∧ ¬ tag = .Char4Byte) := hr
      simp [hr2, hnf]
  · have hf' : tag = .FileRecord := by
      by_contra h
      exact hf h
    subst hf'
    simp [ModbusDataType.isToFloat]

theorem toNat_ofNat_byte (b : Nat) (h : b < 256) : (Char.ofNat b).toNat = b := by
  have hv : b.isValidChar := Or.inl (by omega)
  simp only [Char.ofNat, hv, dite_true, Char.ofNatAux]
  rfl

theorem jsonNumber_read (T : ModElType) (v : Int) (hT : T ≠ .string) (hv : T.fits v = true) :
    checkJsonElValueType T (jsonNumber T v) = true ∧ getJsonTypeValue T (jsonNumber T v) = v := by
  cases T <;>
    simp only [ModElType.fits, Bool.and_eq_true, decide_eq_true_eq] at hv <;>
    simp only [checkJsonElValueType, jsonNumber, JsonValue.IsUint, JsonValue.IsInt,
      JsonValue.IsFloat, getJsonTypeValue, JsonValue.GetInt, JsonValue.GetFloat, convertTo,
      Bool.and_eq_true, decide_eq_true_eq] <;>
    first
    | exact absurd rfl hT
    | omega
    | (refine ⟨trivial, ?_⟩; omega)

theorem SaveToFile_element_some (el : ModbusElement) (T : ModElType)
    (hT : el.DataType.elementType = some T) :
    SaveToFile.element el = some (.object (SaveToFile.members el)) := by
  cases hdt : el.DataType <;> rw [hdt] at hT <;>
    simp only [ModbusDataType.elementType, reduceCtorEq] at hT <;>
    simp only [SaveToFile.element, hdt]

theorem SaveToFile_members_find (el : ModbusElement) (T : ModElType)
    (hT : el.DataType.elementType = some T) :
    JsonValue.FindMember (SaveToFile.members el) "FuncCode"
        = some (.integer el.FunctionCode) ∧
      JsonValue.FindMember (SaveToFile.members el) "Address"
        = some (.integer el.RegisterAddress) ∧
      JsonValue.FindMember (SaveToFile.members el) "DataType"
        = some (.string (ModbusDataTypeStrings el.DataType)) ∧
      JsonValue.FindMember (SaveToFile.members el) "Bytes" = some (.integer el.BytesCount) ∧
      JsonValue.FindMember (SaveToFile.members el) "RegName"
        = some (.string (cString el.RegisterName)) ∧
      JsonValue.FindMember (SaveToFile.members el) "Unit"
        = some (.string (cString el.RegisterUnit)) ∧
      ((el.DataType = .Char2Byte ∨ el.DataType = .Char4Byte) →
        JsonValue.FindMember (SaveToFile.members el) "Default"
          = some (jsonString el.StringValue)) ∧
      ((el.DataType ≠ .Char2Byte ∧ el.DataType ≠ .Char4Byte ∧ el.DataType ≠ .FileRecord) →
        JsonValue.FindMember (SaveToFile.members el) "Default"
          = some (jsonNumber T el.DataValue) ∧
        JsonValue.FindMember (SaveToFile.members el) "Min"
          = some (jsonNumber T el.MinDataValue) ∧
        JsonValue.FindMember (SaveToFile.members el) "Max"
          = some (jsonNumber T el.MaxDataValue)) ∧
      (el.DataType.isToFloat = true →
        JsonValue.FindMember (SaveToFile.members el) "DecimalPoints"
          = some (.integer el.DecimalPoints)) := by
  refine ⟨rfl, rfl, rfl, rfl, rfl, ?_⟩
  cases hdt : el.DataType <;> rw [hdt] at hT <;>
    simp only [ModbusDataType.elementType, Option.some.injEq, reduceCtorEq] at hT <;>
    subst hT <;>
    simp only [SaveToFile.members, hdt] <;>
    refine ⟨rfl, ?_, ?_, ?_⟩ <;>
    first
    | (intro _; exact ⟨rfl, rfl, rfl⟩)
    | (intro _; rfl)
    | (intro h; simp at h)
    | (intro h; simp [ModbusDataType.isToFloat] at h)

theorem cString_tag (t : ModbusDataType) :
    cString (ModbusDataTypeStrings t) = ModbusDataTypeStrings t := by
  cases t <;> decide

theorem findDataType_tag (t : ModbusDataType) :
    findDataType (ModbusDataTypeStrings t) = some t := by
  cases t <;> decide

theorem takeWhile_all {α : Type} (p : α → Bool) (l : List α) (h : ∀ x ∈ l, p x = true) :
    l.takeWhile p = l := by
  induction l with
  | nil => rfl
  | cons x rest ih =>
    simp only [List.takeWhile_cons, h x (List.mem_cons_self _ _), if_true]
    rw [ih (fun y hy => h y (List.mem_cons_of_mem _ hy))]

theorem jsonString_read (bytes : List Nat) (h : ∀ b ∈ bytes, 0 < b ∧ b < 256) :
    checkJsonElValueType .string (jsonString bytes) = true ∧
      getJsonStringValue .string (jsonString bytes) = bytes := by
  refine ⟨rfl, ?_⟩
  have hne : ∀ c ∈ bytes.map Char.ofNat, (c != Char.ofNat 0) = true := by
    intro c hc
    obtain ⟨b, hb, rfl⟩ := List.mem_map.mp hc
    have hb' := h b hb
    have e : (Char.ofNat b).toNat = b := toNat_ofNat_byte b hb'.2
    have e0 : (Char.ofNat 0).toNat = 0 := rfl
    simp only [bne_iff_ne, ne_eq]
    intro heq
    rw [heq, e0] at e
    omega
  have h1 : cString (String.mk (bytes.map Char.ofNat)) = String.mk (bytes.map Char.ofNat) := by
    simp only [cString]
    rw [takeWhile_all _ _ hne]
  simp only [getJsonStringValue, jsonString, JsonValue.GetString, h1, List.map_map]
  calc bytes.map (Char.toNat ∘ Char.ofNat) = bytes.map id := by
        apply List.map_congr_left
        intro b hb
        exact toNat_ofNat_byte b (h b hb).2
    _ = bytes := List.map_id _

theorem storable_base (m : ModbusRegMap) (el : ModbusElement) (h : m.storable el = true) :
    el.BytesCount ≠ 0 ∧ el.BytesCount < 65536 ∧ el.DecimalPoints < 256 ∧
      cString el.RegisterName = el.RegisterName ∧ cString el.RegisterUnit = el.RegisterUnit ∧
      ∃ T, el.DataType.elementType = some T := by
  simp only [storable, Bool.and_eq_true, decide_eq_true_eq] at h
  obtain ⟨⟨⟨⟨⟨h1, h2⟩, h3⟩, h4⟩, h5⟩, h6⟩ := h
  refine ⟨h1, h2, h3, h4, h5, ?_⟩
  cases hT : el.DataType.elementType with
  | none =>
    rw [hT] at h6
    cases h6
  | some T => exact ⟨T, rfl⟩

theorem storable_string (m : ModbusRegMap) (el : ModbusElement) (h : m.storable el = true)
    (hT : el.DataType.elementType = some .string) :
    ∀ b ∈ el.StringValue, 0 < b ∧ b < 256 := by
  simp only [storable, Bool.and_eq_true, decide_eq_true_eq, hT, List.all_eq_true] at h
  exact h.2

theorem storable_number (m : ModbusRegMap) (el : ModbusElement) (T : ModElType)
    (h : m.storable el = true) (hT : el.DataType.elementType = some T) (hs : T ≠ .string) :
    T.fits el.DataValue = true ∧ T.fits el.MinDataValue = true ∧
      T.fits el.MaxDataValue = true ∧
      (el.DataType ≠ .FileRecord →
        m.checkMinDefMax T el.DataValue el.MinDataValue el.MaxDataValue = true) := by
  simp only [storable, Bool.and_eq_true, decide_eq_true_eq, hT] at h
  have h6 := h.2
  cases T <;> first
    | exact absurd rfl hs
    | (simp only [Bool.and_eq_true, Bool.or_eq_true, decide_eq_true_eq] at h6
       exact ⟨h6.1.1.1, h6.1.1.2, h6.1.2, fun hne => h6.2.resolve_left hne⟩)

theorem elementType_string (tag : ModbusDataType) (T : ModElType)
    (hT : tag.elementType = some T) :
    (T = .string ↔ (tag = .Char2Byte ∨ tag = .Char4Byte)) ∧ (tag = .FileRecord → T = .uint16_t) ∧
      (tag.isToFloat = true → tag ≠ .Char2Byte ∧ tag ≠ .Char4Byte ∧ tag ≠ .FileRecord) := by
  cases tag <;> simp only [ModbusDataType.elementType, Option.some.injEq, reduceCtorEq] at hT <;>
    subst hT <;> simp [ModbusDataType.isToFloat]

/-- What `addNewRegMapElement` makes of the object that `SaveToFile` has built for a storable
element: a call of `AddNewElement` with the function code, address, tag, byte count and name of
the element, and with the values that `readBack` describes. -/
theorem addNewRegMapElement_saved (mp : ModbusRegMap) (el : ModbusElement) (u : Unassigned)
    (T : ModElType) (hT : el.DataType.elementType = some T) (hst : mp.storable el = true)
    (hfc : el.FunctionCode < 256) (haddr : el.RegisterAddress < 65536) :
    ∃ (dec : Nat) (val mn mx : Int) (str : List Nat) (unit : Option String),
      mp.addNewRegMapElement T (.object (SaveToFile.members el)) el.DataType u
        = some (mp.AddNewElement el.FunctionCode el.RegisterAddress el.DataType el.BytesCount
            (some el.RegisterName) dec val mn mx str unit) ∧
      dec = (if el.DataType.isToFloat then el.DecimalPoints else 0) ∧
      unit.getD "" = (if el.DataType = .FileRecord then "" else el.RegisterUnit) ∧
      ((el.DataType = .Char2Byte ∨ el.DataType = .Char4Byte) → str = el.StringValue) ∧
      ((el.DataType ≠ .Char2Byte ∧ el.DataType ≠ .Char4Byte ∧ el.DataType ≠ .FileRecord) →
        val = el.DataValue ∧ mn = el.MinDataValue ∧ mx = el.MaxDataValue) := by
  obtain ⟨hb0, hb, hdec, hname, hunit, _⟩ := storable_base mp el hst
  obtain ⟨f1, f2, _, f4, f5, f6, f7, f8, f9⟩ := SaveToFile_members_find el T hT
  obtain ⟨hstr, _, hflt⟩ := elementType_string el.DataType T hT
  have hu : ∀ n : Nat, n < 4294967296 → (JsonValue.integer (n : Int)).IsUint = true := by
    intro n hn
    simp only [JsonValue.IsUint, Bool.and_eq_true, decide_eq_true_eq]
    omega
  have e1 : (((JsonValue.integer (el.FunctionCode : Int)).GetInt) % 256).toNat
      = el.FunctionCode := by
    simp only [JsonValue.GetInt]
    omega
  have e2 : (((JsonValue.integer (el.RegisterAddress : Int)).GetInt) % 65536).toNat
      = el.RegisterAddress := by
    simp only [JsonValue.GetInt]
    omega
  have e3 : (((JsonValue.integer (el.BytesCount : Int)).GetInt) % 65536).toNat
      = el.BytesCount := by
    simp only [JsonValue.GetInt]
    omega
  have e4 : (((JsonValue.integer (el.DecimalPoints : Int)).GetInt) % 256).toNat
      = el.DecimalPoints := by
    simp only [JsonValue.GetInt]
    omega
  have e5 : (JsonValue.string (cString el.RegisterName)).GetString = el.RegisterName := by
    simp only [JsonValue.GetString, hname]
  have e6 : (JsonValue.string (cString el.RegisterUnit)).GetString = el.RegisterUnit := by
    simp only [JsonValue.GetString, hunit]
  by_cases hs : T = .string
  · have hchar := hstr.mp hs
    have hnf : el.DataType ≠ .FileRecord := by
      rcases hchar with h | h <;> rw [h] <;> decide
    have hnr : ¬ (el.DataType ≠ .Char2Byte ∧ el.DataType ≠ .Char4Byte ∧
        el.DataType ≠ .FileRecord) := by
      rcases hchar with h | h <;> rw [h] <;> decide
    have hnd : ¬ (el.DataType.isToFloat = true) := fun h => hnr (hflt h)
    have hbytes := storable_string mp el hst (hs ▸ hT)
    have hjs := jsonString_read el.StringValue hbytes
    have hfound := addNewRegMapElement_found mp T (.object (SaveToFile.members el)) el.DataType u
      (.integer el.FunctionCode) (.integer el.RegisterAddress) (.integer el.BytesCount)
      (.string (cString el.RegisterName)) (.string (cString el.RegisterUnit))
      (jsonString el.StringValue) .null .null .null
      (checked_found _ _ _ _ f1 (hu _ (by omega))) (checked_found _ _ _ _ f2 (hu _ (by omega)))
      (checked_found _ _ _ _ f4 (hu _ (by omega))) (checked_found _ _ _ _ f5 rfl)
      (fun _ => checked_found _ _ _ _ f6 rfl)
      (fun _ => checked_found _ _ _ _ (f7 hchar) (hs ▸ hjs.1))
      (fun h => absurd h hnr) (fun h => absurd h hnd)
    rw [e1, e2, e3, e5] at hfound
    refine ⟨_, _, _, _, _, _, hfound, ?_, ?_, ?_, ?_⟩
    · simp [hnd]
    · simp only [hnf, ne_eq, not_false_eq_true, if_true, if_false, e6, Option.getD_some]
    · intro _
      simp only [hnf, ne_eq, not_false_eq_true, if_true]
      rw [hs]
      exact hjs.2
    · intro h
      exact absurd h hnr
  · have hnchar : ¬ (el.DataType = .Char2Byte ∨ el.DataType = .Char4Byte) :=
      fun h => hs (hstr.mpr h)
    have hn2 : el.DataType ≠ .Char2Byte := fun h => hnchar (Or.inl h)
    have hn4 : el.DataType ≠ .Char4Byte := fun h => hnchar (Or.inr h)
    obtain ⟨hv, hmn, hmx, hchk⟩ := storable_number mp el T hst hT hs
    have rv := jsonNumber_read T _ hs hv
    have rmn := jsonNumber_read T _ hs hmn
    have rmx := jsonNumber_read T _ hs hmx
    by_cases hfr : el.DataType = .FileRecord
    · have hnr : ¬ (el.DataType ≠ .Char2Byte ∧ el.DataType ≠ .Char4Byte ∧
          el.DataType ≠ .FileRecord) := fun h => h.2.2 hfr
      have hnd : ¬ (el.DataType.isToFloat = true) := fun h => hnr (hflt h)
      have hfound := addNewRegMapElement_found mp T (.object (SaveToFile.members el))
        el.DataType u
        (.integer el.FunctionCode) (.integer el.RegisterAddress) (.integer el.BytesCount)
        (.string (cString el.RegisterName)) .null .null .null .null .null
        (checked_found _ _ _ _ f1 (hu _ (by omega)))
        (checked_found _ _ _ _ f2 (hu _ (by omega)))
        (checked_found _ _ _ _ f4 (hu _ (by omega))) (checked_found _ _ _ _ f5 rfl)
        (fun h => absurd hfr h) (fun h => absurd hfr h)
        (fun h => absurd h hnr) (fun h => absurd h hnd)
      rw [e1, e2, e3, e5] at hfound
      refine ⟨_, _, _, _, _, _, hfound, ?_, ?_, ?_, ?_⟩
      · simp [hnd]
      · simp [hfr]
      · intro h
        exact absurd h hnchar
      · intro h
        exact absurd h hnr
    · have hr : el.DataType ≠ .Char2Byte ∧ el.DataType ≠ .Char4Byte ∧
          el.DataType ≠ .FileRecord := ⟨hn2, hn4, hfr⟩
      obtain ⟨g1, g2, g3⟩ := f8 hr
      have hcheck : mp.checkMinDefMax T (getJsonTypeValue T (jsonNumber T el.DataValue))
          (getJsonTypeValue T (jsonNumber T el.MinDataValue))
          (getJsonTypeValue T (jsonNumber T el.MaxDataValue)) = true := by
        rw [rv.2, rmn.2, rmx.2]
        exact hchk hfr
      have hfound := addNewRegMapElement_found mp T (.object (SaveToFile.members el))
        el.DataType u
        (.integer el.FunctionCode) (.integer el.RegisterAddress) (.integer el.BytesCount)
        (.string (cString el.RegisterName)) (.string (cString el.RegisterUnit))
        (jsonNumber T el.DataValue) (jsonNumber T el.MinDataValue)
        (jsonNumber T el.MaxDataValue) (.integer el.DecimalPoints)
        (checked_found _ _ _ _ f1 (hu _ (by omega)))
        (checked_found _ _ _ _ f2 (hu _ (by omega)))
        (checked_found _ _ _ _ f4 (hu _ (by omega))) (checked_found _ _ _ _ f5 rfl)
        (fun _ => checked_found _ _ _ _ f6 rfl)
        (fun _ => checked_found _ _ _ _ g1 rv.1)
        (fun _ => ⟨checked_found _ _ _ _ g2 rmn.1, checked_found _ _ _ _ g3 rmx.1, hcheck⟩)
        (fun h => ⟨f9 h, hu _ (by omega)⟩)
      rw [e1, e2, e3, e4, e5] at hfound
      refine ⟨_, _, _, _, _, _, hfound, rfl, ?_, ?_, ?_⟩
      · simp only [hfr, ne_eq, not_false_eq_true, if_true, if_false, e6, Option.getD_some]
      · intro h
        exact absurd h hnchar
      · intro _
        simp only [hr, ne_eq, hfr, not_false_eq_true, and_self, if_true, hn2, hn4]
        exact ⟨rv.2, rmn.2, rmx.2⟩

end ModbusRegMap

namespace ModbusRegMap

theorem insert_last (k : Nat) (el : ModbusElement) (l : List (Nat × ModbusElement))
    (h : ∀ p ∈ l, p.1 < k) : insert k el l = l ++ [(k, el)] := by
  induction l with
  | nil => rfl
  | cons q rest ih =>
    obtain ⟨k', el'⟩ := q
    have hlt : k' < k := h (k', el') (List.mem_cons_self _ _)
    have h1 : ¬ k < k' := by omega
    have h2 : ¬ k = k' := by omega
    simp only [insert, h1, h2, if_false, List.cons_append]
    rw [ih (fun p hp => h p (List.mem_cons_of_mem _ hp))]

theorem find_none_of_lt (k : Nat) (l : List (Nat × ModbusElement)) (h : ∀ p ∈ l, p.1 < k) :
    find k l = none := by
  induction l with
  | nil => rfl
  | cons q rest ih =>
    obtain ⟨k', el'⟩ := q
    have hlt : k' < k := h (k', el') (List.mem_cons_self _ _)
    have h1 : ¬ k' = k := by omega
    simp only [find, h1, if_false]
    exact ih (fun p hp => h p (List.mem_cons_of_mem _ hp))

theorem storable_congr (m m' : ModbusRegMap) (el : ModbusElement)
    (h : m'.checkMinDefMaxFloat = m.checkMinDefMaxFloat) : m'.storable el = m.storable el := by
  simp only [storable, checkMinDefMax, h]

theorem mem_takeWhile_holds {α : Type} (p : α → Bool) (l : List α) :
    ∀ x ∈ l.takeWhile p, p x = true := by
  induction l with
  | nil =>
    intro x hx
    exact absurd hx (List.not_mem_nil _)
  | cons y rest ih =>
    intro x hx
    by_cases hy : p y = true
    · simp only [List.takeWhile_cons, hy, if_true, List.mem_cons] at hx
      rcases hx with hx | hx
      · rw [hx]
        exact hy
      · exact ih x hx
    · simp only [List.takeWhile_cons, hy, if_false] at hx
      exact absurd hx (List.not_mem_nil _)

theorem cString_idem (s : String) : cString (cString s) = cString s := by
  simp only [cString]
  congr 1
  exact takeWhile_all _ _ (mem_takeWhile_holds _ _)

theorem LoadFromFile_loop_cons (unassigned : Nat → Unassigned) (m m' : ModbusRegMap) (k : Nat)
    (el : JsonValue) (rest : List JsonValue) (s : String) (tag : ModbusDataType) (T : ModElType)
    (hc : el.checked "DataType" JsonValue.IsString = .found (.string s))
    (hf : findDataType (cString s) = some tag) (hT : tag.elementType = some T)
    (hadd : m.addNewRegMapElement T el tag (unassigned k) = some (m', true)) :
    LoadFromFile.loop unassigned m k (el :: rest)
      = LoadFromFile.loop unassigned m' (k + 1) rest := by
  rw [LoadFromFile.loop]
  simp only [hc, JsonValue.GetString, hf, hT, hadd]

/-- The loop of `LoadFromFile` over the array that `SaveToFile` has built from storable
elements with ascending keys, all above the keys of the map so far: every element is added
behind the elements of the map, as `readBack` describes. -/
theorem LoadFromFile_loop_saved (unassigned : Nat → Unassigned) (m : ModbusRegMap) :
    ∀ (rest : List (Nat × ModbusElement)) (mp : ModbusRegMap) (k : Nat),
      mp.checkMinDefMaxFloat = m.checkMinDefMaxFloat →
      Keyed rest → (∀ p ∈ rest, m.storable p.2 = true) →
      (∀ q ∈ mp.MainRegMap, ∀ p ∈ rest, q.1 < p.1) →
      ∃ (values : List JsonValue) (rest' : List (Nat × ModbusElement)),
        SaveToFile.elements rest = some values ∧ values.length = rest.length ∧
        LoadFromFile.loop unassigned mp k values
          = some ({ mp with MainRegMap := mp.MainRegMap ++ rest' }, true) ∧
        List.Forall₂ (fun p p' => p'.1 = p.1 ∧ readBack p.2 p'.2) rest rest' := by
  intro rest
  induction rest with
  | nil =>
    intro mp k _ _ _ _
    refine ⟨[], [], rfl, rfl, ?_, List.Forall₂.nil⟩
    simp [LoadFromFile.loop]
  | cons p rest ih =>
    intro mp k hchk hkeyed hst hlt
    obtain ⟨key0, el⟩ := p
    have hpair := List.pairwise_cons.mp hkeyed.1
    obtain ⟨hkey, hfc, haddr⟩ := hkeyed.2 (key0, el) (List.mem_cons_self _ _)
    simp only [] at hkey hfc haddr
    have hstel : mp.storable el = true := by
      rw [storable_congr m mp el hchk]
      exact hst (key0, el) (List.mem_cons_self _ _)
    obtain ⟨_, _, _, _, _, T, hT⟩ := storable_base mp el hstel
    obtain ⟨dec, val, mn, mx, str, unit, hadd, hdec, hunit, hstr, hval⟩ :=
      addNewRegMapElement_saved mp el (unassigned k) T hT hstel hfc haddr
    obtain ⟨hb0, _, _, _, _, _⟩ := storable_base mp el hstel
    have hfree : mp.getModbusElement el.FunctionCode el.RegisterAddress = none := by
      unfold getModbusElement
      rw [← hkey]
      exact find_none_of_lt key0 _ (fun q hq => hlt q hq (key0, el) (List.mem_cons_self _ _))
    rw [AddNewElement_eq, if_pos ⟨hfree, hb0, rfl⟩, ← hkey,
      insert_last key0 _ _ (fun q hq => hlt q hq (key0, el) (List.mem_cons_self _ _))] at hadd
    obtain ⟨values, rest', hsave, hlen, hloop, hall⟩ := ih
      { mp with MainRegMap := mp.MainRegMap ++ [(key0,
          { RegisterName := (some el.RegisterName).getD ""
            FunctionCode := el.FunctionCode
            RegisterAddress := el.RegisterAddress
            BytesCount := el.BytesCount
            DataType := el.DataType
            DecimalPoints := dec
            DataValue := val
            MinDataValue := mn
            MaxDataValue := mx
            StringValue := str
            RegisterUnit := unit.getD "" })] }
      (k + 1) hchk ⟨hpair.2, fun q hq => hkeyed.2 q (List.mem_cons_of_mem _ hq)⟩
      (fun q hq => hst q (List.mem_cons_of_mem _ hq))
      (by
        intro q hq r hr
        rcases List.mem_append.mp hq with hq | hq
        · exact hlt q hq r (List.mem_cons_of_mem _ hr)
        · rw [List.mem_singleton.mp hq]
          exact hpair.1 r hr)
    obtain ⟨f1, f2, f3, _⟩ := SaveToFile_members_find el T hT
    refine ⟨.object (SaveToFile.members el) :: values,
      (key0,
        { RegisterName := (some el.RegisterName).getD ""
          FunctionCode := el.FunctionCode
          RegisterAddress := el.RegisterAddress
          BytesCount := el.BytesCount
          DataType := el.DataType
          DecimalPoints := dec
          DataValue := val
          MinDataValue := mn
          MaxDataValue := mx
          StringValue := str
          RegisterUnit := unit.getD "" }) :: rest', ?_, ?_, ?_,
      List.Forall₂.cons ⟨rfl, ?_⟩ hall⟩
    · simp only [SaveToFile.elements, SaveToFile_element_some el T hT, hsave]
    · simp only [List.length_cons, hlen]
    · rw [LoadFromFile_loop_cons unassigned mp _ k _ values (ModbusDataTypeStrings el.DataType)
        el.DataType T (checked_found _ _ _ _ f3 rfl)
        (by rw [cString_tag, findDataType_tag]) hT hadd, hloop]
      simp only [List.append_assoc, List.singleton_append]
    · exact ⟨rfl, rfl, rfl, rfl, rfl, hdec, hunit, hstr, hval⟩

theorem saved_document_checked (a b : String) (values : List JsonValue) :
    (JsonValue.object [("Protocol Name", .string a), ("Protocol Version", .string b),
        ("Registers Map", .array values)]).checked "Protocol Name" JsonValue.IsString
      = .found (.string a) ∧
    (JsonValue.object [("Protocol Name", .string a), ("Protocol Version", .string b),
        ("Registers Map", .array values)]).checked "Protocol Version" JsonValue.IsString
      = .found (.string b) ∧
    (JsonValue.object [("Protocol Name", .string a), ("Protocol Version", .string b),
        ("Registers Map", .array values)]).checked "Registers Map" JsonValue.IsArray
      = .found (.array values) :=
  ⟨checked_found _ _ _ _ rfl rfl, checked_found _ _ _ _ rfl rfl, checked_found _ _ _ _ rfl rfl⟩

/-- What `LoadFromFile` reads from the file that `SaveToFile` has written for a map with
ascending keys, at least one element and storable elements only. -/
theorem LoadFromFile_saved (m : ModbusRegMap) (sourceFilePath : String)
    (unassigned : Nat → Unassigned) (hk : Keyed m.MainRegMap) (hne : m.MainRegMap ≠ [])
    (hst : ∀ p ∈ m.MainRegMap, m.storable p.2 = true) (hp : 7 ≤ sourceFilePath.length) :
    ∃ (file : FileContent) (loaded : List (Nat × ModbusElement)),
      m.SaveToFile sourceFilePath true = (some file, true) ∧
      m.Clear.LoadFromFile sourceFilePath file unassigned
        = some ({ MainRegMap := loaded
                  ProtocolName := cString m.ProtocolName
                  ProtocolVersion := cString m.ProtocolVersion
                  checkMinDefMaxFloat := m.checkMinDefMaxFloat }, true) ∧
      List.Forall₂ (fun p p' => p'.1 = p.1 ∧ readBack p.2 p'.2) m.MainRegMap loaded := by
  obtain ⟨values, loaded, hsave, hlen, hloop, hall⟩ := LoadFromFile_loop_saved unassigned m
    m.MainRegMap
    { MainRegMap := []
      ProtocolName := cString m.ProtocolName
      ProtocolVersion := cString m.ProtocolVersion
      checkMinDefMaxFloat := m.checkMinDefMaxFloat }
    0 rfl hk hst (fun q hq => absurd hq (List.not_mem_nil _))
  have hp' : ¬ sourceFilePath.length < 7 := by omega
  have hvals : ¬ values.length = 0 := by
    rw [hlen]
    exact fun h => hne (List.length_eq_zero.mp h)
  refine ⟨.document (.object
      [("Protocol Name", .string (cString m.ProtocolName)),
        ("Protocol Version", .string (cString m.ProtocolVersion)),
        ("Registers Map", .array values)]), loaded, ?_, ?_, hall⟩
  · simp only [SaveToFile, hp', if_false, hsave, Bool.not_true, Bool.false_eq_true]
  · obtain ⟨c1, c2, c3⟩ := saved_document_checked (cString m.ProtocolName)
      (cString m.ProtocolVersion) values
    simp only [LoadFromFile, hp', if_false, c1, c2, c3, JsonValue.GetArray, hvals,
      JsonValue.GetString, cString_idem, Clear]
    simp only [List.nil_append] at hloop
    exact hloop

end ModbusRegMap

namespace ModbusRegMap

/-- C36 (amended): a map built by calls of `AddNewElement` from a cleared
map that holds at least one element and storable elements only is written by `SaveToFile` and
read back by `LoadFromFile` into the cleared map, both returning `true`; the map read holds as
many elements, and its iteration sequence is that of the map written as `readBack` relates
them: function code, address, tag, byte count and name are equal for every element; the unit
for every tag but `FileRecord`, where it is empty; the current value, the minimum and the
maximum for the tags other than the string tags and `FileRecord`; the string value for the
string tags; the number of decimal places for the `*ToFloat` tags, and it is 0 for the others. -/
theorem SaveToFile_LoadFromFile_round_trip (m : ModbusRegMap) (calls : List AddNewElementCall)
    (sourceFilePath : String) (unassigned : Nat → Unassigned) (n : Nat)
    (hcalls : ∀ c ∈ calls, c.functionCode < 256 ∧ c.registerAddress < 65536)
    (hne : (m.Clear.AddNewElementAll calls).1.ElementsCount ≠ 0)
    (hst : ∀ p ∈ (m.Clear.AddNewElementAll calls).1.MainRegMap,
      (m.Clear.AddNewElementAll calls).1.storable p.2 = true)
    (hp : 7 ≤ sourceFilePath.length)
    (hn : (m.Clear.AddNewElementAll calls).1.ElementsCount ≤ n) :
    ∃ (file : FileContent) (loaded : ModbusRegMap) (els els' : List ModbusElement),
      (m.Clear.AddNewElementAll calls).1.SaveToFile sourceFilePath true = (some file, true) ∧
      (m.Clear.AddNewElementAll calls).1.Clear.LoadFromFile sourceFilePath file unassigned
        = some (loaded, true) ∧
      loaded.ElementsCount = (m.Clear.AddNewElementAll calls).1.ElementsCount ∧
      (m.Clear.AddNewElementAll calls).1.allElements n = some els ∧
      loaded.allElements n = some els' ∧
      List.Forall₂ readBack els els' := by
  have hk : Keyed (m.Clear.AddNewElementAll calls).1.MainRegMap :=
    AddNewElementAll_Keyed calls m.Clear hcalls Keyed_nil
  generalize (m.Clear.AddNewElementAll calls).1 = built at hne hst hn hk ⊢
  have hnil : built.MainRegMap ≠ [] := by
    intro h
    exact hne (by rw [ElementsCount, h]; rfl)
  obtain ⟨file, loaded, hsave, hload, hall⟩ :=
    LoadFromFile_saved built sourceFilePath unassigned hk hnil hst hp
  have hlen : loaded.length = built.MainRegMap.length := (List.Forall₂.length_eq hall).symm
  refine ⟨file, _, _, _, hsave, hload, hlen, allElements_eq built n hn,
    allElements_eq _ n (by simp only [ElementsCount, hlen]; exact hn), ?_⟩
  simp only []
  rw [List.forall₂_map_left_iff, List.forall₂_map_right_iff]
  exact List.Forall₂.imp (fun p p' h => h.2) hall

/-- C36 witness: the map of the four calls `mixedCalls`, written to `map.json` and read back. -/
theorem SaveToFile_LoadFromFile_round_trip_witness :
    (∀ c ∈ mixedCalls, c.functionCode < 256 ∧ c.registerAddress < 65536) ∧
      (newMap.Clear.AddNewElementAll mixedCalls).1.ElementsCount = 4 ∧
      (∀ p ∈ (newMap.Clear.AddNewElementAll mixedCalls).1.MainRegMap,
        (newMap.Clear.AddNewElementAll mixedCalls).1.storable p.2 = true) ∧
      ∃ (file : FileContent) (loaded : ModbusRegMap) (els els' : List ModbusElement),
        (newMap.Clear.AddNewElementAll mixedCalls).1.SaveToFile "map.json" true
          = (some file, true) ∧
        (newMap.Clear.AddNewElementAll mixedCalls).1.Clear.LoadFromFile "map.json" file
          zeroUnassigned = some (loaded, true) ∧
        loaded.ElementsCount = (newMap.Clear.AddNewElementAll mixedCalls).1.ElementsCount ∧
        (newMap.Clear.AddNewElementAll mixedCalls).1.allElements 4 = some els ∧
        loaded.allElements 4 = some els' ∧
        List.Forall₂ readBack els els' :=
  ⟨by decide, by decide, by decide,
    SaveToFile_LoadFromFile_round_trip newMap mixedCalls "map.json" zeroUnassigned 4
      (by decide) (by decide) (by decide) (by decide) (by decide)⟩

/-- C36 (as stated, refuted): the four calls of `mixedCalls` return `true` and
`SaveToFile` writes the map. `LoadFromFile` reads it back with `true`, and the same four keys;
but the `UInt16` register at `(3, 0x0010)`, added with two decimal places, has none, since
`DecimalPoints` is written and read for the `*ToFloat` tags only; and the `FileRecord` element,
added with the value 7 and the unit `rec`, has an empty unit and the value that the unassigned
variable `defVal` happens to hold, since `SaveToFile` writes no value for the tag and
`addNewRegMapElement` reads neither value nor unit for it. -/
theorem SaveToFile_LoadFromFile_loses_fields :
    (newMap.Clear.AddNewElementAll mixedCalls).2 = [true, true, true, true] ∧
    (mixedMap.getModbusElement 3 0x0010).map (fun el => (el.DataType, el.DecimalPoints))
      = some (.UInt16, 2) ∧
    (mixedMap.getModbusElement 20 0x0001).map
        (fun el => (el.DataType, el.DataValue, el.RegisterUnit))
      = some (.FileRecord, 7, "rec") ∧
    ∃ file : FileContent,
      mixedMap.SaveToFile "map.json" true = (some file, true) ∧
      ∀ unassigned : Nat → Unassigned, ∃ loaded : ModbusRegMap,
        mixedMap.Clear.LoadFromFile "map.json" file unassigned = some (loaded, true) ∧
        loaded.MainRegMap.map (fun p => p.1) = mixedMap.MainRegMap.map (fun p => p.1) ∧
        (loaded.getModbusElement 3 0x0010).map (fun el => (el.DataType, el.DecimalPoints))
          = some (.UInt16, 0) ∧
        (loaded.getModbusElement 20 0x0001).map
            (fun el => (el.DataType, el.DataValue, el.RegisterUnit))
          = some (.FileRecord, (unassigned 3).defVal % 65536, "") :=
  ⟨by decide, by decide, by decide, _, rfl, fun _ => ⟨_, rfl, rfl, rfl, rfl⟩⟩

end ModbusRegMap
